import Mathlib

/-!
# dgmlrt: the dialog runtime of `dgmlrt-c/dgmlrt.cpp`

A shallow embedding of the bundle loader, the environment store, the bytecode
evaluator, text interpolation and the graph stepper, followed by theorems about
them.

Conventions of the embedding.

* A `dgmlrt_string` (pointer and length) is modelled by the `len` bytes it views,
  a `List Nat`.  Where the source tests a pointer for null (`!frags`,
  `!frags[f].text.data`, `if (node_id)`), the model carries an `Option`.
* Arrays are lists; a buffer whose contents are only reachable through a result
  is modelled by its capacity.
* `size_t` is 64 bits wide, so the sums of 32-bit quantities formed by the
  loader do not wrap; an `int64_t` is an `Int`, and an arithmetic result outside
  the range of `int64_t` is the fault `int_overflow`.
* A `float` is its 32-bit pattern; IEEE arithmetic is a parameter (`FloatOps`).
* Behaviour the C++ program leaves undefined, a failed `assert`, and `abort()`
  are the outcomes `Except.error f` with `f : Fault`.
-/

namespace Dgml

/-! ## Strings -/

/-- The bytes viewed by a `dgmlrt_string`. -/
abbrev dgmlrt_string := List Nat

/-- The outcome `strncmp(a, b, n) == 0` for two views that both hold `n` bytes:
bytes are compared in order and the comparison stops after a NUL byte. -/
def strncmp_eq : List Nat → List Nat → Bool
  | [], _ => true
  | _ :: _, [] => true
  | x :: xs, y :: ys => if x ≠ y then false else if x = 0 then true else strncmp_eq xs ys

/-- The `operator==` on `dgmlrt_string` (dgmlrt.cpp:563):
`a.len == b.len && strncmp(a.data, b.data, a.len) == 0`. -/
def str_eq (a b : dgmlrt_string) : Bool :=
  a.length == b.length && strncmp_eq a b

/-- The `operator!=` on `dgmlrt_string` (dgmlrt.cpp:568). -/
def str_ne (a b : dgmlrt_string) : Bool := !(str_eq a b)

/-- The function `dgmlrt_zstr`: a null C string gives the empty view. -/
def dgmlrt_zstr (str : Option (List Nat)) : dgmlrt_string :=
  match str with
  | none => []
  | some s => s

/-! ## Faults -/

/-- Ways in which the C++ program leaves defined behaviour or stops the process. -/
inductive Fault where
  /-- The assertion of `File::ptr` or `File::end` (dgmlrt.cpp:72, 85). -/
  | file_assert
  /-- A read of the bundle bytes past `size` that no assertion guards. -/
  | file_oob
  /-- A string handle that points outside the owned string blob. -/
  | string_oob
  /-- The assertion `vm->current_section` (dgmlrt.cpp:979). -/
  | no_section
  /-- A read of `nodes[vm->current_node]` past the node array (dgmlrt.cpp:982). -/
  | node_oob
  /-- A write past `trace_buf` (dgmlrt.cpp:1010). -/
  | trace_oob
  /-- A write past `changed_vars_buf` (dgmlrt.cpp:835). -/
  | changed_vars_oob
  /-- The assertion `text_frags_offset + frags.size <= text_frags_buf.size` (dgmlrt.cpp:940). -/
  | text_frags_assert
  /-- The assertion `options.size <= options_buf.size` (dgmlrt.cpp:1032). -/
  | options_assert
  /-- The assertion `node.rand.nodes.size > 0` (dgmlrt.cpp:1079). -/
  | rand_assert
  /-- The assertion `res.ptr > begin && res.ptr < end` (dgmlrt.cpp:919). -/
  | interp_assert
  /-- Pointer arithmetic below the start of an empty interpolation buffer. -/
  | interp_oob
  /-- The call of `abort()` on a node of unknown type (dgmlrt.cpp:1092). -/
  | abort
  /-- A read of `frag_is_var` past its end (dgmlrt.cpp:943). -/
  | frag_is_var_oob
  /-- Integer division by zero (the `bool / bool` instance of DIV). -/
  | div_by_zero
  /-- An `int64_t` sum, difference, product or quotient that is not representable:
  signed overflow, undefined in C++ (the division `INT64_MIN / -1` traps). -/
  | int_overflow
  /-- The step budget of the model ran out (never happens, see `advance_loop`). -/
  | fuel
  deriving DecidableEq

/-! ## Values -/

/-- A `dgmlrt_env_value`: the type tag together with the active union member.
`other t` is a value whose tag is the out-of-range number `t + 5`. -/
inductive dgmlrt_env_value where
  | unset
  | bool (b : Bool)
  | int (i : Int)
  | float (f : Nat)
  | string (s : dgmlrt_string)
  | other (t : Nat)
  deriving DecidableEq

/-- The `type` field of a value (`dgmlrt_env_value_type`). -/
def dgmlrt_env_value.type : dgmlrt_env_value → Nat
  | .unset => 0
  | .bool _ => 1
  | .int _ => 2
  | .float _ => 3
  | .string _ => 4
  | .other t => t + 5

def DGMLRT_ENV_VALUE_UNSET : Nat := 0
def DGMLRT_ENV_VALUE_BOOL : Nat := 1
def DGMLRT_ENV_VALUE_INT : Nat := 2
def DGMLRT_ENV_VALUE_FLOAT : Nat := 3
def DGMLRT_ENV_VALUE_STRING : Nat := 4

/-- The struct `EnvVar`; `string_buf` is modelled by its capacity, its contents
being reachable only through `value`. -/
structure EnvVar where
  name : dgmlrt_string
  value : dgmlrt_env_value
  string_buf_size : Nat
  deriving DecidableEq

/-! ## The materialized tree -/

/-- A `dgmlb_byte_code`: an opcode and its 32-bit parameter. -/
structure dgmlb_byte_code where
  op : Nat
  param : Nat
  deriving DecidableEq

/-- A `dgmlrt_markup` pair. -/
structure dgmlrt_markup where
  name : dgmlrt_string
  value : dgmlrt_string
  deriving DecidableEq

/-- A `dgmlrt_text_fragment`; `num_markup` is the length of `markup`. -/
structure dgmlrt_text_fragment where
  markup : List dgmlrt_markup
  text : dgmlrt_string
  deriving DecidableEq

/-- The struct `Text`: the fragments and, in parallel, whether each is a variable. -/
structure Text where
  frags : List dgmlrt_text_fragment
  frag_is_var : List Bool
  deriving DecidableEq

/-- The struct `Option` of the source (an option of a Choice node). -/
structure ChoiceOption where
  text : Text
  cond : List dgmlb_byte_code
  dest : Nat
  deriving DecidableEq

structure Choice where
  options : List ChoiceOption
  deriving DecidableEq

structure Goto where
  next_node : Nat
  deriving DecidableEq

structure If where
  cond : List dgmlb_byte_code
  true_dest : Nat
  false_dest : Nat
  deriving DecidableEq

structure Rand where
  nodes : List Nat
  deriving DecidableEq

structure Run where
  code : List dgmlb_byte_code
  next_node : Nat
  deriving DecidableEq

structure Say where
  speaker_id : dgmlrt_string
  text : Text
  next_node : Nat
  deriving DecidableEq

/-- The `type` tag of a `Node` together with the active member of its union. -/
inductive NodeData where
  | invalid
  | choice (choice : Choice)
  | goto_ (goto_ : Goto)
  | if_ (if_ : If)
  | rand (rand : Rand)
  | run (run : Run)
  | say (say : Say)
  deriving DecidableEq

structure Node where
  id : dgmlrt_string
  tags : List dgmlrt_string
  data : NodeData
  deriving DecidableEq

def UINT32_MAX : Nat := 0xFFFFFFFF

structure Section where
  name : dgmlrt_string
  nodes : List Node
  entry_node : Nat
  deriving DecidableEq

/-- The struct `Tree` (the allocator is not modelled). -/
structure Tree where
  strings : List Nat
  strings_base_offset : Nat
  env_vars : List EnvVar
  sections : List Section
  deriving DecidableEq

/-! ## The virtual machine -/

inductive dgmlrt_advance_error_code where
  | DGMLRT_ERROR_NONE
  | DGMLRT_ERROR_INVALID_OPTION
  | DGMLRT_ERROR_MAX_ITERATIONS
  | DGMLRT_ERROR_INTERP_FAIL
  | DGMLRT_ERROR_EVAL_FAIL
  deriving DecidableEq

open dgmlrt_advance_error_code

structure dgmlrt_advance_error where
  code : dgmlrt_advance_error_code
  message : String
  deriving DecidableEq

/-- The value-initialised `dgmlrt_advance_error` (code `NONE`, null message). -/
def dgmlrt_advance_error.none : dgmlrt_advance_error := ⟨DGMLRT_ERROR_NONE, ""⟩

/-- The struct `Vm`.

* `options_buf`, `text_frags_buf`, `interp_buffer`, `trace_buf` are modelled by
  their capacities;
* `changed_vars_buf` holds the first `changed_vars_offset` entries of the buffer
  and `changed_vars_buf_size` its capacity;
* `stack` holds the `stack_size` live entries, topmost first, and
  `stack_capacity` is `stack.size` of the source;
* `rng_func` maps the state behind `rng_func_ctx` to the number drawn and the
  next state;
* `current_section` is the index in `tree.sections` of the section pointed to. -/
structure Vm where
  tree : Tree
  options_buf_size : Nat
  text_frags_buf_size : Nat
  text_frags_offset : Nat
  changed_vars_buf : List dgmlrt_string
  changed_vars_buf_size : Nat
  env_vars : List EnvVar
  interp_buffer_size : Nat
  interp_buffer_offset : Nat
  stack : List dgmlrt_env_value
  stack_capacity : Nat
  trace_buf_size : Nat
  rng_func_ctx : Nat
  rng_func : Nat → Nat × Nat
  max_steps_per_advance : Nat
  error : dgmlrt_advance_error
  current_section : Option Nat
  current_node : Nat

/-! ## Environment store -/

/-- The loop of `dgmlrt_vm_get_env_value` over `vm->env_vars`. -/
def get_env_value_loop (name : dgmlrt_string) : List EnvVar → dgmlrt_env_value
  | [] => .unset
  | ev :: rest => if str_eq ev.name name then ev.value else get_env_value_loop name rest

/-- The function `dgmlrt_vm_get_env_value` (dgmlrt.cpp:1115). -/
def dgmlrt_vm_get_env_value (vm : Vm) (name : dgmlrt_string) : dgmlrt_env_value :=
  get_env_value_loop name vm.env_vars

/-- The static `set_env_value` (dgmlrt.cpp:1126): `none` is `return false`,
`some dst` is `return true` with the updated variable.  Its assertion
`src.type == dst.value.type` is established by its only caller. -/
def set_env_value (dst : EnvVar) (src : dgmlrt_env_value) : Option EnvVar :=
  match src with
  | .string s =>
    if s.length ≥ dst.string_buf_size then none
    else some { dst with value := .string s }
  | v => some { dst with value := v }

/-- The loop of `dgmlrt_vm_set_env_value` over `vm->env_vars`: the returned flag
and the variables afterwards. -/
def set_env_value_loop (name : dgmlrt_string) (value : dgmlrt_env_value) :
    List EnvVar → Bool × List EnvVar
  | [] => (false, [])
  | ev :: rest =>
    if str_eq ev.name name then
      if ev.value.type = value.type then
        match set_env_value ev value with
        | some ev1 => (true, ev1 :: rest)
        | none => (false, ev :: rest)
      else (false, ev :: rest)
    else ((set_env_value_loop name value rest).1, ev :: (set_env_value_loop name value rest).2)

/-- The function `dgmlrt_vm_set_env_value` (dgmlrt.cpp:1142): the returned flag
and the machine afterwards. -/
def dgmlrt_vm_set_env_value (vm : Vm) (name : dgmlrt_string) (value : dgmlrt_env_value) :
    Bool × Vm :=
  ((set_env_value_loop name value vm.env_vars).1,
   { vm with env_vars := (set_env_value_loop name value vm.env_vars).2 })

/-! ## Bytecode evaluator -/

/-- Little-endian 32-bit read at position `pos` of a byte list. -/
def read_u32 (bytes : List Nat) (pos : Nat) : Nat :=
  bytes.getD pos 0 % 256 + 256 * (bytes.getD (pos + 1) 0 % 256)
    + 65536 * (bytes.getD (pos + 2) 0 % 256) + 16777216 * (bytes.getD (pos + 3) 0 % 256)

/-- The static `string` (dgmlrt.cpp:243): handle 0 is the empty string; another
handle `off` views the `len` bytes that follow the length prefix found at
`off - strings_base_offset` (a 32-bit subtraction) in the blob.  The model
carries the bytes, so a view that is not wholly inside the blob is a fault. -/
def string (tree : Tree) (off : Nat) : Except Fault dgmlrt_string :=
  if off = 0 then .ok []
  else
    let pos := (off + 4294967296 - tree.strings_base_offset % 4294967296) % 4294967296
    if pos + 4 ≤ tree.strings.length then
      let len := read_u32 tree.strings pos
      if pos + 4 + len ≤ tree.strings.length then
        .ok ((tree.strings.drop (pos + 4)).take len)
      else .error .string_oob
    else .error .string_oob

def DGMLB_OP_INVALID : Nat := 0
def DGMLB_OP_PUSH_BOOL : Nat := 1
def DGMLB_OP_PUSH_INT : Nat := 2
def DGMLB_OP_PUSH_FLOAT : Nat := 3
def DGMLB_OP_PUSH_STRING : Nat := 4
def DGMLB_OP_GET_VAR : Nat := 5
def DGMLB_OP_SET_VAR : Nat := 6
def DGMLB_OP_NOT : Nat := 7
def DGMLB_OP_ADD : Nat := 8
def DGMLB_OP_SUB : Nat := 9
def DGMLB_OP_MUL : Nat := 10
def DGMLB_OP_DIV : Nat := 11
def DGMLB_OP_OR : Nat := 12
def DGMLB_OP_AND : Nat := 13
def DGMLB_OP_LT : Nat := 14
def DGMLB_OP_LE : Nat := 15
def DGMLB_OP_GT : Nat := 16
def DGMLB_OP_GE : Nat := 17
def DGMLB_OP_EQ : Nat := 18
def DGMLB_OP_NE : Nat := 19

/-- The IEEE-754 single precision operations the evaluator and the
interpolation use, on 32-bit patterns. -/
structure FloatOps where
  add : Nat → Nat → Nat
  sub : Nat → Nat → Nat
  mul : Nat → Nat → Nat
  div : Nat → Nat → Nat
  lt : Nat → Nat → Bool
  le : Nat → Nat → Bool
  eq : Nat → Nat → Bool
  /-- The conversion `(float)i` of a 64-bit integer. -/
  of_int : Int → Nat
  /-- The characters `std::to_chars` writes for a float. -/
  to_chars : Nat → List Nat

/-- The value of `std::bit_cast<int32_t>(p)` for a 32-bit `p`. -/
def bit_cast_int32 (p : Nat) : Int :=
  if p < 2147483648 then (p : Int) else (p : Int) - 4294967296

/-- The range of `int64_t`. -/
def in_int64 (x : Int) : Bool :=
  decide (-9223372036854775808 ≤ x ∧ x < 9223372036854775808)

/-- The function `push` (dgmlrt.cpp:630). -/
def push (vm : Vm) (v : dgmlrt_env_value) : Vm :=
  if vm.stack.length ≥ vm.stack_capacity then
    { vm with error := ⟨DGMLRT_ERROR_EVAL_FAIL, "Stack overflow"⟩ }
  else { vm with stack := v :: vm.stack }

/-- The function `pop` (dgmlrt.cpp:639): the value returned and the machine afterwards. -/
def pop (vm : Vm) : dgmlrt_env_value × Vm :=
  match vm.stack with
  | [] => (.unset, vm)
  | v :: rest => (v, { vm with stack := rest })

/-- The function `is_num_type` (dgmlrt.cpp:649). -/
def is_num_type (t : Nat) : Bool :=
  t == DGMLRT_ENV_VALUE_INT || t == DGMLRT_ENV_VALUE_FLOAT

/-- The generic lambdas handed to `binop` by `eval`. -/
inductive BinFunc where
  | add | sub | mul | div | or | and | lt | le | gt | ge | eq | ne
  deriving DecidableEq

/-- The value `env_value(func(lhs.i, rhs.i))` for two `int64_t`.  The lambdas of
ADD, SUB, MUL and DIV compute in `int64_t`: a result outside its range is a
signed overflow, which is undefined (for `INT64_MIN / -1` the division traps)
and a fault here. -/
def func_int (f : BinFunc) (a b : Int) : Except Fault dgmlrt_env_value :=
  match f with
  | .add => if in_int64 (a + b) then .ok (.int (a + b)) else .error .int_overflow
  | .sub => if in_int64 (a - b) then .ok (.int (a - b)) else .error .int_overflow
  | .mul => if in_int64 (a * b) then .ok (.int (a * b)) else .error .int_overflow
  | .div =>
    if b = 0 then .error .div_by_zero
    else if in_int64 (Int.tdiv a b) then .ok (.int (Int.tdiv a b))
    else .error .int_overflow
  | .or => .ok (.bool (a != 0 || b != 0))
  | .and => .ok (.bool (a != 0 && b != 0))
  | .lt => .ok (.bool (decide (a < b)))
  | .le => .ok (.bool (decide (a ≤ b)))
  | .gt => .ok (.bool (decide (a > b)))
  | .ge => .ok (.bool (decide (a ≥ b)))
  | .eq => .ok (.bool (a == b))
  | .ne => .ok (.bool (a != b))

/-- The value `env_value(func(a, b))` for two `float`. -/
def func_float (fo : FloatOps) (f : BinFunc) (a b : Nat) : dgmlrt_env_value :=
  match f with
  | .add => .float (fo.add a b)
  | .sub => .float (fo.sub a b)
  | .mul => .float (fo.mul a b)
  | .div => .float (fo.div a b)
  | .or => .bool (!(fo.eq a 0) || !(fo.eq b 0))
  | .and => .bool (!(fo.eq a 0) && !(fo.eq b 0))
  | .lt => .bool (fo.lt a b)
  | .le => .bool (fo.le a b)
  | .gt => .bool (fo.lt b a)
  | .ge => .bool (fo.le b a)
  | .eq => .bool (fo.eq a b)
  | .ne => .bool (!(fo.eq a b))

/-- The value `env_value((bool)func(lhs.b, rhs.b))` for two `bool`, which the
lambda promotes to `int`. -/
def func_bool (f : BinFunc) (a b : Bool) : Except Fault dgmlrt_env_value :=
  match f with
  | .add => .ok (.bool (a || b))
  | .sub => .ok (.bool (a != b))
  | .mul => .ok (.bool (a && b))
  | .div => if b then .ok (.bool a) else .error .div_by_zero
  | .or => .ok (.bool (a || b))
  | .and => .ok (.bool (a && b))
  | .lt => .ok (.bool (!a && b))
  | .le => .ok (.bool (!a || b))
  | .gt => .ok (.bool (a && !b))
  | .ge => .ok (.bool (a || !b))
  | .eq => .ok (.bool (a == b))
  | .ne => .ok (.bool (a != b))

/-- The value `env_value(func(lhs.s, rhs.s))` for two strings (EQ and NE only). -/
def func_string (f : BinFunc) (a b : dgmlrt_string) : dgmlrt_env_value :=
  match f with
  | .ne => .bool (str_ne a b)
  | _ => .bool (str_eq a b)

/-- The chain of `if`/`else if` of `binop` that pushes the result for numeric
and for bool operands (dgmlrt.cpp:672). -/
def binop_push (fo : FloatOps) (f : BinFunc) (vm : Vm) (lhs rhs : dgmlrt_env_value) :
    Except Fault Vm :=
  match lhs, rhs with
  | .int a, .int b =>
    match func_int f a b with
    | .error e => .error e
    | .ok v => .ok (push vm v)
  | .int a, .float b => .ok (push vm (func_float fo f (fo.of_int a) b))
  | .float a, .int b => .ok (push vm (func_float fo f a (fo.of_int b)))
  | .float a, .float b => .ok (push vm (func_float fo f a b))
  | .bool a, .bool b =>
    match func_bool f a b with
    | .error e => .error e
    | .ok v => .ok (push vm v)
  | _, _ => .ok vm

/-- The block `if constexpr (AllowString)` of `binop` (dgmlrt.cpp:684). -/
def binop_push_string (allow_string : Bool) (f : BinFunc) (vm : Vm)
    (lhs rhs : dgmlrt_env_value) : Vm :=
  if allow_string then
    match lhs, rhs with
    | .string a, .string b => push vm (func_string f a b)
    | _, _ => vm
  else vm

/-- The tail of `binop` once both operands are popped and present: the type
check, the pushes and the test that something was pushed. -/
def binop_apply (fo : FloatOps) (allow_string : Bool) (f : BinFunc) (vm : Vm)
    (lhs rhs : dgmlrt_env_value) : Except Fault Vm :=
  if lhs.type ≠ rhs.type ∧ (is_num_type lhs.type && is_num_type rhs.type) = false then
    .ok { vm with error := ⟨DGMLRT_ERROR_EVAL_FAIL, "Invalid binary operand types"⟩ }
  else
    match binop_push fo f vm lhs rhs with
    | .error e => .error e
    | .ok vm1 =>
      if (binop_push_string allow_string f vm1 lhs rhs).stack.length = vm.stack.length then
        .ok { binop_push_string allow_string f vm1 lhs rhs with
              error := ⟨DGMLRT_ERROR_EVAL_FAIL, "Invalid binary operand types"⟩ }
      else .ok (binop_push_string allow_string f vm1 lhs rhs)

/-- The function template `binop<AllowString>` (dgmlrt.cpp:654): `rhs` is
popped first, then `lhs`. -/
def binop (fo : FloatOps) (allow_string : Bool) (f : BinFunc) (vm : Vm) : Except Fault Vm :=
  if (pop (pop vm).2).1.type = DGMLRT_ENV_VALUE_UNSET ∨ (pop vm).1.type = DGMLRT_ENV_VALUE_UNSET then
    .ok { (pop (pop vm).2).2 with
          error := ⟨DGMLRT_ERROR_EVAL_FAIL, "Missing operands for binary operator"⟩ }
  else binop_apply fo allow_string f (pop (pop vm).2).2 (pop (pop vm).2).1 (pop vm).1

/-- The guard of `DGMLB_OP_DIV` (dgmlrt.cpp:861): at least two entries, the two
topmost are `Int` and the topmost is zero. -/
def div_by_zero_guard (stack : List dgmlrt_env_value) : Bool :=
  match stack with
  | .int b :: .int _ :: _ => b == 0
  | _ => false

/-- The bookkeeping of `DGMLB_OP_SET_VAR` (dgmlrt.cpp:827): record `name` in
`changed_vars_buf` unless an equal name is already there. -/
def record_changed_var (vm : Vm) (name : dgmlrt_string) : Except Fault Vm :=
  if vm.changed_vars_buf.any (fun cv => str_eq cv name) then .ok vm
  else if vm.changed_vars_buf.length < vm.changed_vars_buf_size then
    .ok { vm with changed_vars_buf := vm.changed_vars_buf ++ [name] }
  else .error .changed_vars_oob

/-- One iteration of the loop of `eval`: the `switch` on `code[c].op`
(dgmlrt.cpp:806).  The two `return nullptr` inside the switch are taken right
after `vm->error` is set, so they coincide with the test that follows the
switch; both are modelled by that test in `eval_loop`. -/
def eval_op (fo : FloatOps) (vm : Vm) (c : dgmlb_byte_code) : Except Fault Vm :=
  if c.op = DGMLB_OP_PUSH_BOOL then .ok (push vm (.bool (c.param == 1)))
  else if c.op = DGMLB_OP_PUSH_INT then .ok (push vm (.int (bit_cast_int32 c.param)))
  else if c.op = DGMLB_OP_PUSH_FLOAT then .ok (push vm (.float c.param))
  else if c.op = DGMLB_OP_PUSH_STRING then
    match string vm.tree c.param with
    | .error e => .error e
    | .ok s => .ok (push vm (.string s))
  else if c.op = DGMLB_OP_GET_VAR then
    match string vm.tree c.param with
    | .error e => .error e
    | .ok name => .ok (push vm (dgmlrt_vm_get_env_value vm name))
  else if c.op = DGMLB_OP_SET_VAR then
    match string vm.tree c.param with
    | .error e => .error e
    | .ok name =>
      match record_changed_var vm name with
      | .error e => .error e
      | .ok vm1 => .ok (dgmlrt_vm_set_env_value (pop vm1).2 name (pop vm1).1).2
  else if c.op = DGMLB_OP_NOT then
    match (pop vm).1 with
    | .bool b => .ok (push (pop vm).2 (.bool (!b)))
    | _ => .ok { (pop vm).2 with
                 error := ⟨DGMLRT_ERROR_EVAL_FAIL, "operand of NOT must be of type bool"⟩ }
  else if c.op = DGMLB_OP_ADD then binop fo false .add vm
  else if c.op = DGMLB_OP_SUB then binop fo false .sub vm
  else if c.op = DGMLB_OP_MUL then binop fo false .mul vm
  else if c.op = DGMLB_OP_DIV then
    if div_by_zero_guard vm.stack then
      .ok { vm with error := ⟨DGMLRT_ERROR_EVAL_FAIL, "division by zero"⟩ }
    else binop fo false .div vm
  else if c.op = DGMLB_OP_OR then binop fo false .or vm
  else if c.op = DGMLB_OP_AND then binop fo false .and vm
  else if c.op = DGMLB_OP_LT then binop fo false .lt vm
  else if c.op = DGMLB_OP_LE then binop fo false .le vm
  else if c.op = DGMLB_OP_GT then binop fo false .gt vm
  else if c.op = DGMLB_OP_GE then binop fo false .ge vm
  else if c.op = DGMLB_OP_EQ then binop fo true .eq vm
  else if c.op = DGMLB_OP_NE then binop fo true .ne vm
  else .ok { vm with error := ⟨DGMLRT_ERROR_EVAL_FAIL, "Invalid byte code"⟩ }

/-- The loop of `eval` (dgmlrt.cpp:801): after every instruction the sticky
`vm->error.code` is tested.  The flag tells whether the loop ran to the end
(`true`) or left through `return nullptr` (`false`). -/
def eval_loop (fo : FloatOps) : Vm → List dgmlb_byte_code → Except Fault (Vm × Bool)
  | vm, [] => .ok (vm, true)
  | vm, c :: rest =>
    match eval_op fo vm c with
    | .error e => .error e
    | .ok vm1 =>
      if vm1.error.code ≠ DGMLRT_ERROR_NONE then .ok (vm1, false)
      else eval_loop fo vm1 rest

/-- The function `eval` (dgmlrt.cpp:797): the machine afterwards and the value
pointed to by the returned pointer (`none` for `nullptr`). -/
def eval (fo : FloatOps) (vm : Vm) (code : List dgmlb_byte_code) :
    Except Fault (Vm × Option dgmlrt_env_value) :=
  match eval_loop fo { vm with stack := [] } code with
  | .error e => .error e
  | .ok (vm1, completed) => .ok (vm1, if completed then vm1.stack.head? else none)

/-! ## Text interpolation -/

/-- The characters `std::to_chars` writes for an `int64_t`: base 10, with a
leading minus sign for a negative number. -/
def int_to_chars (i : Int) : List Nat :=
  if i < 0 then 45 :: (Nat.toDigits 10 i.natAbs).map Char.toNat
  else (Nat.toDigits 10 i.toNat).map Char.toNat

/-- The function template `interp` (dgmlrt.cpp:909), given the characters
`std::to_chars` would write: `none` is the null string returned when they do
not fit in `[begin, end)`. -/
def interp (vm : Vm) (chars : List Nat) : Except Fault (Vm × Option dgmlrt_string) :=
  if vm.interp_buffer_size = 0 ∨ vm.interp_buffer_offset > vm.interp_buffer_size - 1 then
    .error .interp_oob
  else if chars.length ≤ vm.interp_buffer_size - 1 - vm.interp_buffer_offset then
    if 0 < chars.length ∧ vm.interp_buffer_offset + chars.length < vm.interp_buffer_size - 1 then
      .ok ({ vm with interp_buffer_offset := vm.interp_buffer_offset + (chars.length + 1) },
           some chars)
    else .error .interp_assert
  else .ok (vm, none)

/-- The loop of `interpolate_text` (dgmlrt.cpp:941) over the fragments and
their variable flags: the fragments written, or `none` for `return {}`. -/
def interpolate_loop (fo : FloatOps) :
    Vm → List dgmlrt_text_fragment → List Bool →
      Except Fault (Vm × Option (List dgmlrt_text_fragment))
  | vm, [], _ => .ok (vm, some [])
  | _, _ :: _, [] => .error .frag_is_var_oob
  | vm, frag :: frags, is_var :: is_vars =>
    let written : Except Fault (Vm × Option dgmlrt_string) :=
      if is_var then
        match dgmlrt_vm_get_env_value vm frag.text with
        | .unset => .ok (vm, some [])
        | .bool b => .ok (vm, some (if b then [116, 114, 117, 101] else [102, 97, 108, 115, 101]))
        | .int i => interp vm (int_to_chars i)
        | .float f => interp vm (fo.to_chars f)
        | .string s => .ok (vm, some s)
        | .other _ => .ok (vm, some [])
      else .ok (vm, some frag.text)
    match written with
    | .error e => .error e
    | .ok (vm1, none) => .ok (vm1, none)
    | .ok (vm1, some text) =>
      match interpolate_loop fo vm1 frags is_vars with
      | .error e => .error e
      | .ok (vm2, none) => .ok (vm2, none)
      | .ok (vm2, some out) => .ok (vm2, some ({ markup := frag.markup, text := text } :: out))

/-- The function `interpolate_text` (dgmlrt.cpp:937).  The returned pointer
`frags` is `text_frags_buf.data + text_frags_offset`; it is null after
`return {}` and also when the buffer was allocated with zero entries. -/
def interpolate_text (fo : FloatOps) (vm : Vm) (text : Text) :
    Except Fault (Vm × Option (List dgmlrt_text_fragment)) :=
  if vm.text_frags_offset + text.frags.length ≤ vm.text_frags_buf_size then
    match interpolate_loop fo vm text.frags text.frag_is_var with
    | .error e => .error e
    | .ok (vm1, none) => .ok (vm1, none)
    | .ok (vm1, some out) =>
      .ok ({ vm1 with text_frags_offset := vm1.text_frags_offset + text.frags.length },
           if vm1.text_frags_buf_size = 0 then none else some out)
  else .error .text_frags_assert

/-! ## Results of `advance` -/

structure dgmlrt_result_say where
  speaker_id : dgmlrt_string
  text_fragments : List dgmlrt_text_fragment
  deriving DecidableEq

structure dgmlrt_option where
  text_fragments : List dgmlrt_text_fragment
  enabled : Bool
  deriving DecidableEq

structure dgmlrt_result_choice where
  options : List dgmlrt_option
  deriving DecidableEq

/-- The `type` tag of a `dgmlrt_advance_result` with the active union member. -/
inductive dgmlrt_result where
  | DGMLRT_RESULT_TYPE_END
  | DGMLRT_RESULT_TYPE_SAY (say : dgmlrt_result_say)
  | DGMLRT_RESULT_TYPE_CHOICE (choice : dgmlrt_result_choice)
  | DGMLRT_RESULT_TYPE_ERROR (error : dgmlrt_advance_error)
  deriving DecidableEq

open dgmlrt_result

/-- The struct `dgmlrt_advance_result`.  The counted arrays are lists:
`num_tags`, `num_changed_vars` and `num_visited_node_ids` are their lengths,
and `visited_node_ids` holds the entries of `trace_buf` written so far. -/
structure dgmlrt_advance_result where
  node_id : dgmlrt_string
  tags : List dgmlrt_string
  changed_vars : List dgmlrt_string
  visited_node_ids : List dgmlrt_string
  result : dgmlrt_result
  deriving DecidableEq

def dgmlrt_advance_result.num_visited_node_ids (res : dgmlrt_advance_result) : Nat :=
  res.visited_node_ids.length

def dgmlrt_advance_result.num_changed_vars (res : dgmlrt_advance_result) : Nat :=
  res.changed_vars.length

/-! ## Graph stepper -/

/-- The lambda `error` of `dgmlrt_vm_advance` (dgmlrt.cpp:1001): the error is
stored in the machine and returned in the result built so far. -/
def advance_error (vm : Vm) (res : dgmlrt_advance_result) (err : dgmlrt_advance_error) :
    dgmlrt_advance_result × Vm :=
  ({ res with result := DGMLRT_RESULT_TYPE_ERROR err }, { vm with error := err })

/-- The loop over the options of a Choice node (dgmlrt.cpp:1033): the entries
written to `options_buf`, or the error the loop leaves with. -/
def choice_loop (fo : FloatOps) :
    Vm → List ChoiceOption → Except Fault (Vm × (dgmlrt_advance_error ⊕ List dgmlrt_option))
  | vm, [] => .ok (vm, .inr [])
  | vm, opt :: opts =>
    match eval fo vm opt.cond with
    | .error e => .error e
    | .ok (vm1, cond) =>
      if vm1.error.code ≠ DGMLRT_ERROR_NONE then .ok (vm1, .inl vm1.error)
      else
        let cond_ok : Bool :=
          match cond with
          | some (.bool _) => true
          | _ => false
        if opt.cond.length > 0 ∧ cond_ok = false then
          .ok (vm1, .inl ⟨DGMLRT_ERROR_EVAL_FAIL, "Condition type must be bool"⟩)
        else
          match interpolate_text fo vm1 opt.text with
          | .error e => .error e
          | .ok (vm2, none) => .ok (vm2, .inl ⟨DGMLRT_ERROR_INTERP_FAIL, "Interpolation failed"⟩)
          | .ok (vm2, some frags) =>
            let enabled : Bool :=
              opt.cond.length == 0 ||
                (match cond with
                 | some (.bool b) => b
                 | _ => false)
            match choice_loop fo vm2 opts with
            | .error e => .error e
            | .ok (vm3, .inl err) => .ok (vm3, .inl err)
            | .ok (vm3, .inr out) =>
              .ok (vm3, .inr ({ text_fragments := frags, enabled := enabled } :: out))

/-- What the `switch` on the node type does with the loop of `advance`. -/
inductive Step where
  /-- The statement `return res` or `return error(...)`. -/
  | ret (res : dgmlrt_advance_result) (vm : Vm)
  /-- The statement `break`: an internal node was passed. -/
  | cont (vm : Vm)

/-- The `switch (node.type)` of `dgmlrt_vm_advance` (dgmlrt.cpp:1015); `res`
already lists the node as visited. -/
def visit_node (fo : FloatOps) (vm : Vm) (node : Node) (res : dgmlrt_advance_result) :
    Except Fault Step :=
  match node.data with
  | .say say =>
    match interpolate_text fo { vm with current_node := say.next_node } say.text with
    | .error e => .error e
    | .ok (vm1, none) =>
      .ok (.ret (advance_error vm1 res ⟨DGMLRT_ERROR_INTERP_FAIL, "Interpolation failed"⟩).1
                (advance_error vm1 res ⟨DGMLRT_ERROR_INTERP_FAIL, "Interpolation failed"⟩).2)
    | .ok (vm1, some frags) =>
      .ok (.ret { res with result := DGMLRT_RESULT_TYPE_SAY ⟨say.speaker_id, frags⟩ } vm1)
  | .choice choice =>
    if choice.options.length ≤ vm.options_buf_size then
      match choice_loop fo vm choice.options with
      | .error e => .error e
      | .ok (vm1, .inl err) => .ok (.ret (advance_error vm1 res err).1 (advance_error vm1 res err).2)
      | .ok (vm1, .inr options) =>
        .ok (.ret { res with result := DGMLRT_RESULT_TYPE_CHOICE ⟨options⟩ } vm1)
    else .error .options_assert
  | .goto_ goto_ => .ok (.cont { vm with current_node := goto_.next_node })
  | .if_ if_ =>
    match eval fo vm if_.cond with
    | .error e => .error e
    | .ok (vm1, r) =>
      if vm1.error.code ≠ DGMLRT_ERROR_NONE then
        .ok (.ret (advance_error vm1 res vm1.error).1 (advance_error vm1 res vm1.error).2)
      else
        match r with
        | some (.bool b) =>
          .ok (.cont { vm1 with current_node := if b then if_.true_dest else if_.false_dest })
        | _ =>
          .ok (.ret
            (advance_error vm1 res ⟨DGMLRT_ERROR_EVAL_FAIL, "Condition type must be bool"⟩).1
            (advance_error vm1 res ⟨DGMLRT_ERROR_EVAL_FAIL, "Condition type must be bool"⟩).2)
  | .rand rand =>
    if 0 < rand.nodes.length then
      let drawn := vm.rng_func vm.rng_func_ctx
      let idx := (drawn.1 % 18446744073709551616) % rand.nodes.length
      .ok (.cont { vm with rng_func_ctx := drawn.2, current_node := rand.nodes.getD idx 0 })
    else .error .rand_assert
  | .run run =>
    match eval fo vm run.code with
    | .error e => .error e
    | .ok (vm1, _) =>
      if vm1.error.code ≠ DGMLRT_ERROR_NONE then
        .ok (.ret (advance_error vm1 res vm1.error).1 (advance_error vm1 res vm1.error).2)
      else .ok (.cont { vm1 with current_node := run.next_node })
  | .invalid => .error .abort

/-- The `while` loop of `dgmlrt_vm_advance` (dgmlrt.cpp:1008) in the section
`sec` pointed to by `current_section`.  The first argument bounds the number of
iterations; `dgmlrt_vm_advance` supplies `max_steps_per_advance + 1`, which the
loop never uses up. -/
def advance_loop (fo : FloatOps) (sec : Section) :
    Nat → Vm → dgmlrt_advance_result → Except Fault (dgmlrt_advance_result × Vm)
  | 0, _, _ => .error .fuel
  | fuel + 1, vm, res =>
    match sec.nodes[vm.current_node]? with
    | none => .ok ({ res with result := DGMLRT_RESULT_TYPE_END }, vm)
    | some node =>
      if res.visited_node_ids.length < vm.trace_buf_size then
        let res1 : dgmlrt_advance_result :=
          { res with visited_node_ids := res.visited_node_ids ++ [node.id],
                     node_id := node.id, tags := node.tags }
        match visit_node fo vm node res1 with
        | .error e => .error e
        | .ok (.ret r vm1) => .ok (r, vm1)
        | .ok (.cont vm1) =>
          if res1.visited_node_ids.length ≥ vm1.max_steps_per_advance then
            .ok (advance_error vm1 res1 ⟨DGMLRT_ERROR_MAX_ITERATIONS, "Exceeded max iterations"⟩)
          else advance_loop fo sec fuel vm1 res1
      else .error .trace_oob

/-- The value-initialised result with which `advance` starts and which its
early `InvalidOption` return fills in. -/
def empty_result : dgmlrt_advance_result :=
  { node_id := [], tags := [], changed_vars := [], visited_node_ids := [],
    result := DGMLRT_RESULT_TYPE_END }

/-- The section `vm->current_section` points to. -/
def current_section (vm : Vm) : Option Section :=
  match vm.current_section with
  | none => none
  | some s => vm.tree.sections[s]?

/-- The function `dgmlrt_vm_advance` (dgmlrt.cpp:976): the result and the
machine afterwards. -/
def dgmlrt_vm_advance (fo : FloatOps) (vm : Vm) (option_index : Int) :
    Except Fault (dgmlrt_advance_result × Vm) :=
  match current_section vm with
  | none => .error .no_section
  | some sec =>
    let start (vm1 : Vm) : Except Fault (dgmlrt_advance_result × Vm) :=
      advance_loop fo sec (vm1.max_steps_per_advance + 1)
        { vm1 with interp_buffer_offset := 0, text_frags_offset := 0 } empty_result
    if option_index ≥ 0 then
      match sec.nodes[vm.current_node]? with
      | none => .error .node_oob
      | some node =>
        match node.data with
        | .choice choice =>
          match choice.options[option_index.toNat]? with
          | none =>
            .ok ({ empty_result with
                   result := DGMLRT_RESULT_TYPE_ERROR
                     ⟨DGMLRT_ERROR_INVALID_OPTION, "Invalid option"⟩ }, vm)
          | some opt => start { vm with current_node := opt.dest }
        | _ =>
          .ok ({ empty_result with
                 result := DGMLRT_RESULT_TYPE_ERROR
                   ⟨DGMLRT_ERROR_INVALID_OPTION, "Invalid option"⟩ }, vm)
    else start vm

/-! ## Creating and entering -/

/-- The function `splitmix64` (dgmlrt.cpp:473) on the state behind `ctx`: the
number returned and the state afterwards. -/
def splitmix64 (s : Nat) : Nat × Nat :=
  let s1 := (s + 0x9e3779b97f4a7c15) % 18446744073709551616
  let z1 := ((s1 ^^^ (s1 >>> 30)) * 0xbf58476d1ce4e5b9) % 18446744073709551616
  let z2 := ((z1 ^^^ (z1 >>> 27)) * 0x94d049bb133111eb) % 18446744073709551616
  (z2 ^^^ (z2 >>> 31), s1)

/-- The struct `dgmlrt_vm_create_params`; a null `rng_func` is `none`, and a
host function is given with the initial state behind its `rng_func_ctx`. -/
structure dgmlrt_vm_create_params where
  interp_buf_capacity : Nat
  env_var_string_capacity : Nat
  bytecode_stack_size : Nat
  max_steps_per_advance : Nat
  rng_func : Option (Nat → Nat × Nat)
  rng_func_ctx : Nat
  rng_seed : Nat

/-- The zero-initialised parameters `{}`. -/
def default_params : dgmlrt_vm_create_params :=
  { interp_buf_capacity := 0, env_var_string_capacity := 0, bytecode_stack_size := 0,
    max_steps_per_advance := 0, rng_func := none, rng_func_ctx := 0, rng_seed := 0 }

/-- The number of fragments summed over the options of a Choice node
(dgmlrt.cpp:522). -/
def choice_num_frags (choice : Choice) : Nat :=
  (choice.options.map (fun o => o.text.frags.length)).sum

/-- The running maxima `(max_num_options, max_text_frags)` of `dgmlrt_vm_create`
after the nodes of one section (dgmlrt.cpp:517). -/
def scratch_sizes_nodes : List Node → Nat × Nat → Nat × Nat
  | [], acc => acc
  | node :: rest, acc =>
    match node.data with
    | .say say => scratch_sizes_nodes rest (acc.1, max acc.2 say.text.frags.length)
    | .choice choice =>
      scratch_sizes_nodes rest
        (max acc.1 choice.options.length, max acc.2 (choice_num_frags choice))
    | _ => scratch_sizes_nodes rest acc

/-- The running maxima of `dgmlrt_vm_create` over all sections (dgmlrt.cpp:516). -/
def scratch_sizes : List Section → Nat × Nat → Nat × Nat
  | [], acc => acc
  | sec :: rest, acc => scratch_sizes rest (scratch_sizes_nodes sec.nodes acc)

/-- The function `dgmlrt_vm_create` (dgmlrt.cpp:488); `now` is the value of
`time(nullptr)`, used as seed when neither a generator nor a seed is given. -/
def dgmlrt_vm_create (tree : Tree) (params : dgmlrt_vm_create_params) (now : Nat) : Vm :=
  let string_capacity :=
    if params.env_var_string_capacity ≠ 0 then params.env_var_string_capacity else 128
  let sizes := scratch_sizes tree.sections (0, 0)
  { tree := tree
    options_buf_size := sizes.1
    text_frags_buf_size := sizes.2
    text_frags_offset := 0
    changed_vars_buf := []
    changed_vars_buf_size := tree.env_vars.length
    env_vars := tree.env_vars.map (fun ev => { ev with string_buf_size := string_capacity })
    interp_buffer_size :=
      if params.interp_buf_capacity ≠ 0 then params.interp_buf_capacity else 1024
    interp_buffer_offset := 0
    stack := []
    stack_capacity := if params.bytecode_stack_size ≠ 0 then params.bytecode_stack_size else 64
    trace_buf_size :=
      if params.max_steps_per_advance ≠ 0 then params.max_steps_per_advance else 128
    rng_func_ctx :=
      match params.rng_func with
      | some _ => params.rng_func_ctx
      | none => if params.rng_seed ≠ 0 then params.rng_seed else now
    rng_func :=
      match params.rng_func with
      | some f => f
      | none => splitmix64
    max_steps_per_advance :=
      if params.max_steps_per_advance ≠ 0 then params.max_steps_per_advance else 128
    error := dgmlrt_advance_error.none
    current_section := none
    current_node := UINT32_MAX }

/-- The index of the first section whose name equals `name` (dgmlrt.cpp:578). -/
def find_section (name : dgmlrt_string) : List Section → Nat → Option Nat
  | [], _ => none
  | sec :: rest, s => if str_eq name sec.name then some s else find_section name rest (s + 1)

/-- The index of the first node whose id equals `id` (dgmlrt.cpp:592). -/
def find_node (id : dgmlrt_string) : List Node → Nat → Option Nat
  | [], _ => none
  | node :: rest, n => if str_eq id node.id then some n else find_node id rest (n + 1)

/-- The function `dgmlrt_vm_enter` (dgmlrt.cpp:573): the returned flag and the
machine afterwards.  A null C string is `none`. -/
def dgmlrt_vm_enter (vm : Vm) (sect : Option (List Nat)) (node_id : Option (List Nat)) :
    Bool × Vm :=
  match find_section (dgmlrt_zstr sect) vm.tree.sections 0 with
  | none => (false, vm)
  | some s =>
    match vm.tree.sections[s]? with
    | none => (false, vm)
    | some sec =>
      match node_id with
      | some id =>
        match find_node (dgmlrt_zstr (some id)) sec.nodes 0 with
        | none => (false, vm)
        | some n =>
          if n % 4294967296 = UINT32_MAX then (false, vm)
          else (true, { vm with current_section := some s, current_node := n % 4294967296 })
      | none => (true, { vm with current_section := some s, current_node := sec.entry_node })

/-! ## Bundle loader -/

/-- Why `dgmlrt_load_dgmlb` stops early: a fault, or `return nullptr`. -/
inductive LoadStop where
  | fault (f : Fault)
  | null_tree
  deriving DecidableEq

/-- A `dgmlb_span`. -/
structure dgmlb_span where
  offset : Nat
  count : Nat
  deriving DecidableEq

/-- A read of a 32-bit field that no assertion guards (the header). -/
def raw_u32 (file : List Nat) (off : Nat) : Except LoadStop Nat :=
  if off + 4 ≤ file.length then .ok (read_u32 file off) else .error (.fault .file_oob)

/-- The assertion of `File::ptr<T>` with `sizeof(T) = size_of_T` (dgmlrt.cpp:72). -/
def file_ptr (file : List Nat) (size_of_T : Nat) (off : Nat) : Except LoadStop Unit :=
  if off + size_of_T ≤ file.length then .ok () else .error (.fault .file_assert)

/-- The assertions of `File::span<T>`: those of `begin` and of `end`
(dgmlrt.cpp:79, 85). -/
def file_span (file : List Nat) (size_of_T : Nat) (s : dgmlb_span) : Except LoadStop Unit :=
  if s.offset + size_of_T ≤ file.length ∧ s.offset + size_of_T * s.count ≤ file.length then
    .ok ()
  else .error (.fault .file_assert)

/-- The span stored at `off`. -/
def read_span (file : List Nat) (off : Nat) : dgmlb_span :=
  ⟨read_u32 file off, read_u32 file (off + 4)⟩

/-- The elements `f i, f (i + 1), ..` of an array of `count` elements, loaded
in order; the first one that stops ends the load. -/
def load_array {α : Type} (f : Nat → Except LoadStop α) : Nat → Nat → Except LoadStop (List α)
  | 0, _ => .ok []
  | count + 1, i =>
    match f i with
    | .error e => .error e
    | .ok a =>
      match load_array f count (i + 1) with
      | .error e => .error e
      | .ok rest => .ok (a :: rest)

/-- The static `string` as the loader calls it. -/
def load_string (tree : Tree) (off : Nat) : Except LoadStop dgmlrt_string :=
  match string tree off with
  | .ok s => .ok s
  | .error f => .error (.fault f)

/-- A `memcpy` of `count` elements of `size_of_T` bytes that start at
`file.ptr<T>(off)`: the pointer is asserted, the extent of the copy is not. -/
def file_memcpy (file : List Nat) (size_of_T : Nat) (off count : Nat) : Except LoadStop Unit :=
  match file_ptr file size_of_T off with
  | .error e => .error e
  | .ok _ =>
    if off + size_of_T * count ≤ file.length then .ok () else .error (.fault .file_oob)

/-- The bytecode array copied from `span` (dgmlrt.cpp:404, 416). -/
def load_code (file : List Nat) (span : dgmlb_span) : Except LoadStop (List dgmlb_byte_code) :=
  match file_memcpy file 8 span.offset span.count with
  | .error e => .error e
  | .ok _ =>
    .ok ((List.range span.count).map (fun i =>
      ⟨read_u32 file (span.offset + 8 * i), read_u32 file (span.offset + 8 * i + 4)⟩))

/-- The function `load_text` (dgmlrt.cpp:254). -/
def load_text (file : List Nat) (tree : Tree) (in_text : dgmlb_span) : Except LoadStop Text :=
  match file_span file 16 in_text with
  | .error e => .error e
  | .ok _ =>
    let frag (f : Nat) : Except LoadStop (dgmlrt_text_fragment × Bool) :=
      let off := in_text.offset + 16 * f
      match load_string tree (read_u32 file off) with
      | .error e => .error e
      | .ok text =>
        let markup := read_span file (off + 4)
        let is_var : Bool := read_u32 file (off + 12) != 0
        if markup.count ≠ 0 then
          match file_span file 8 markup with
          | .error e => .error e
          | .ok _ =>
            match load_array (fun m =>
                match load_string tree (read_u32 file (markup.offset + 8 * m)) with
                | .error e => .error e
                | .ok name =>
                  match load_string tree (read_u32 file (markup.offset + 8 * m + 4)) with
                  | .error e => .error e
                  | .ok value => .ok (⟨name, value⟩ : dgmlrt_markup)) markup.count 0 with
            | .error e => .error e
            | .ok ms => .ok (⟨ms, text⟩, is_var)
        else .ok (⟨[], text⟩, is_var)
    match load_array frag in_text.count 0 with
    | .error e => .error e
    | .ok fs => .ok ⟨fs.map (fun p => p.1), fs.map (fun p => p.2)⟩

/-- The function `load` for a Choice node (dgmlrt.cpp:286); `choice_options`
is the span of the node. -/
def load_choice (file : List Nat) (tree : Tree) (choice_options : dgmlb_span) :
    Except LoadStop Choice :=
  if choice_options.count = 0 then .ok ⟨[]⟩
  else
    match file_span file 24 choice_options with
    | .error e => .error e
    | .ok _ =>
      let option (o : Nat) : Except LoadStop ChoiceOption :=
        let off := choice_options.offset + 24 * o
        match load_text file tree (read_span file (off + 12)) with
        | .error e => .error e
        | .ok text =>
          let cond := read_span file off
          if cond.count ≠ 0 then
            match load_code file cond with
            | .error e => .error e
            | .ok code => .ok ⟨text, code, read_u32 file (off + 20)⟩
          else .ok ⟨text, [], read_u32 file (off + 20)⟩
      match load_array option choice_options.count 0 with
      | .error e => .error e
      | .ok options => .ok ⟨options⟩

/-- The `switch (node.type)` of the node loop of `dgmlrt_load_dgmlb`
(dgmlrt.cpp:395) for the `dgmlb_node` record at `off`; an unknown type ends the
load with the null tree. -/
def load_node_data (file : List Nat) (tree : Tree) (off : Nat) : Except LoadStop NodeData :=
  if read_u32 file (off + 64) = 1 then
    match load_choice file tree (read_span file (off + 24)) with
    | .error e => .error e
    | .ok choice => .ok (.choice choice)
  else if read_u32 file (off + 64) = 2 then .ok (.goto_ ⟨read_u32 file (off + 52)⟩)
  else if read_u32 file (off + 64) = 3 then
    match load_code file (read_span file (off + 16)) with
    | .error e => .error e
    | .ok cond => .ok (.if_ ⟨cond, read_u32 file (off + 56), read_u32 file (off + 60)⟩)
  else if read_u32 file (off + 64) = 4 then
    match file_memcpy file 4 (read_u32 file (off + 32)) (read_u32 file (off + 36)) with
    | .error e => .error e
    | .ok _ =>
      .ok (.rand ⟨(List.range (read_u32 file (off + 36))).map
        (fun i => read_u32 file (read_u32 file (off + 32) + 4 * i))⟩)
  else if read_u32 file (off + 64) = 5 then
    match load_code file (read_span file (off + 16)) with
    | .error e => .error e
    | .ok c => .ok (.run ⟨c, read_u32 file (off + 52)⟩)
  else if read_u32 file (off + 64) = 6 then
    match load_string tree (read_u32 file (off + 4)) with
    | .error e => .error e
    | .ok speaker_id =>
      match load_text file tree (read_span file (off + 40)) with
      | .error e => .error e
      | .ok text => .ok (.say ⟨speaker_id, text, read_u32 file (off + 52)⟩)
  else .error .null_tree

/-- The body of the node loop of `dgmlrt_load_dgmlb` (dgmlrt.cpp:387) for the
`dgmlb_node` record at `off`: the id, the tags, then the switch on the type. -/
def load_node (file : List Nat) (tree : Tree) (off : Nat) : Except LoadStop Node :=
  match load_string tree (read_u32 file off) with
  | .error e => .error e
  | .ok id =>
    match file_span file 4 (read_span file (off + 8)) with
    | .error e => .error e
    | .ok _ =>
      match load_array
          (fun t => load_string tree (read_u32 file (read_u32 file (off + 8) + 4 * t)))
          (read_u32 file (off + 12)) 0 with
      | .error e => .error e
      | .ok tags =>
        match load_node_data file tree off with
        | .error e => .error e
        | .ok data => .ok ⟨id, tags, data⟩

/-- The body of the section loop of `dgmlrt_load_dgmlb` (dgmlrt.cpp:381) for
the `dgmlb_section` record at `off`. -/
def load_section (file : List Nat) (tree : Tree) (off : Nat) : Except LoadStop Section :=
  match load_string tree (read_u32 file off) with
  | .error e => .error e
  | .ok name =>
    let nodes := read_span file (off + 4)
    match file_span file 68 nodes with
    | .error e => .error e
    | .ok _ =>
      match load_array (fun n => load_node file tree (nodes.offset + 68 * n)) nodes.count 0 with
      | .error e => .error e
      | .ok ns => .ok ⟨name, ns, read_u32 file (off + 12)⟩

/-- The body of the variable loop of `dgmlrt_load_dgmlb` (dgmlrt.cpp:360) for
the `dgmlb_env_var` record at `off`. -/
def load_env_var (file : List Nat) (tree : Tree) (off : Nat) : Except LoadStop EnvVar :=
  match load_string tree (read_u32 file off) with
  | .error e => .error e
  | .ok name =>
    let type := read_u32 file (off + 4)
    let default_value := read_u32 file (off + 8)
    if type = 1 then .ok ⟨name, .bool (default_value != 0), 0⟩
    else if type = 2 then .ok ⟨name, .int (bit_cast_int32 default_value), 0⟩
    else if type = 3 then .ok ⟨name, .float default_value, 0⟩
    else if type = 4 then
      match load_string tree default_value with
      | .error e => .error e
      | .ok s => .ok ⟨name, .string s, 0⟩
    else if type = 0 then .ok ⟨name, .unset, 0⟩
    else .ok ⟨name, .other (type - 5), 0⟩

/-- The magic `"\0DGMLB01"`. -/
def dgmlb_magic : List Nat := [0, 68, 71, 77, 76, 66, 48, 49]

/-- A span of the header, whose fields are read without an assertion. -/
def raw_span (file : List Nat) (off : Nat) : Except LoadStop dgmlb_span :=
  match raw_u32 file off with
  | .error e => .error e
  | .ok offset =>
    match raw_u32 file (off + 4) with
    | .error e => .error e
    | .ok count => .ok ⟨offset, count⟩

/-- The function `dgmlrt_load_dgmlb` (dgmlrt.cpp:329) on the buffer `file`
(`data` with `size = file.length`), stopping as `LoadStop` says. -/
def load_dgmlb (file : List Nat) : Except LoadStop Tree :=
  match raw_u32 file 8 with
  | .error e => .error e
  | .ok file_size =>
    if file_size > file.length then .error .null_tree
    else if (file.take 8).map (fun b => b % 256) ≠ dgmlb_magic then .error .null_tree
    else
      match raw_span file 12 with
      | .error e => .error e
      | .ok strings =>
        match file_memcpy file 1 strings.offset strings.count with
        | .error e => .error e
        | .ok _ =>
          match raw_span file 36 with
          | .error e => .error e
          | .ok env_variables =>
            match file_span file 12 env_variables with
            | .error e => .error e
            | .ok _ =>
              match load_array
                  (fun i => load_env_var file
                    ⟨((file.drop strings.offset).take strings.count).map (fun b => b % 256),
                      strings.offset, [], []⟩ (env_variables.offset + 12 * i))
                  env_variables.count 0 with
              | .error e => .error e
              | .ok env_vars =>
                match raw_span file 20 with
                | .error e => .error e
                | .ok sections =>
                  match file_span file 16 sections with
                  | .error e => .error e
                  | .ok _ =>
                    match load_array
                        (fun s => load_section file
                          ⟨((file.drop strings.offset).take strings.count).map (fun b => b % 256),
                            strings.offset, [], []⟩ (sections.offset + 16 * s))
                        sections.count 0 with
                    | .error e => .error e
                    | .ok secs =>
                      .ok ⟨((file.drop strings.offset).take strings.count).map (fun b => b % 256),
                            strings.offset, env_vars, secs⟩

/-- The function `dgmlrt_load_dgmlb` (dgmlrt.cpp:329): `some tree` for a tree,
`none` for the null pointer. -/
def dgmlrt_load_dgmlb (file : List Nat) : Except Fault (Option Tree) :=
  match load_dgmlb file with
  | .ok tree => .ok (some tree)
  | .error .null_tree => .ok none
  | .error (.fault f) => .error f

/-! ## A host driving the machine, and sample data -/

deriving instance DecidableEq for Except

/-- A host that calls `dgmlrt_vm_advance` once for each given `option_index`, as
the loop of `example.cpp` does: the results in order and the final machine. -/
def run_advances (fo : FloatOps) :
    Vm → List Int → Except Fault (List dgmlrt_advance_result × Vm)
  | vm, [] => .ok ([], vm)
  | vm, k :: ks =>
    match dgmlrt_vm_advance fo vm k with
    | .error e => .error e
    | .ok (r, vm1) =>
      match run_advances fo vm1 ks with
      | .error e => .error e
      | .ok (rs, vm2) => .ok (r :: rs, vm2)

/-- A float unit for closed examples; none of them computes with floats. -/
def sample_float_ops : FloatOps :=
  { add := fun _ _ => 0, sub := fun _ _ => 0, mul := fun _ _ => 0, div := fun _ _ => 0,
    lt := fun _ _ => false, le := fun _ _ => false, eq := fun a b => a == b,
    of_int := fun _ => 0, to_chars := fun _ => [48] }

/-- A string blob based at offset 52 with the strings "n" (handle 52), "s" (58),
"b" (64), "f" (70), "d" (76), "hi" (82) and "zz" (89). -/
def sample_strings : List Nat :=
  [1, 0, 0, 0, 110, 0, 1, 0, 0, 0, 115, 0, 1, 0, 0, 0, 98, 0, 1, 0, 0, 0, 102, 0,
   1, 0, 0, 0, 100, 0, 2, 0, 0, 0, 104, 105, 0, 2, 0, 0, 0, 122, 122, 0]

/-- The variables `n : int = 0`, `s : string = ""`, `b : bool = false`,
`f : float = 0` and `d : int = 0`. -/
def sample_env_vars : List EnvVar :=
  [⟨[110], .int 0, 0⟩, ⟨[115], .string [], 0⟩, ⟨[98], .bool false, 0⟩, ⟨[102], .float 0, 0⟩,
   ⟨[100], .int 0, 0⟩]

/-- A tree with the sample strings and variables and one section "s" made of
the given nodes, entered at node 0. -/
def sample_tree (nodes : List Node) : Tree :=
  { strings := sample_strings, strings_base_offset := 52, env_vars := sample_env_vars,
    sections := [⟨[115], nodes, 0⟩] }

/-- A machine created with default parameters on `sample_tree nodes`, after
`dgmlrt_vm_enter(vm, "s", NULL)`. -/
def sample_vm (nodes : List Node) : Vm :=
  (dgmlrt_vm_enter (dgmlrt_vm_create (sample_tree nodes) default_params 1) (some [115]) none).2

/-! ## Statements of the specification, for comparison with the code -/

/-- The first variable whose name equals `name`, as both store functions find it. -/
def find_env_var (name : dgmlrt_string) : List EnvVar → Option EnvVar
  | [] => none
  | ev :: rest => if str_eq ev.name name then some ev else find_env_var name rest

/-- The failure condition of `set` in the words of the specification: no
variable of that name, a stored type that differs, or a string whose length
exceeds the capacity. -/
def spec_set_env_value_fails (vm : Vm) (name : dgmlrt_string) (value : dgmlrt_env_value) : Bool :=
  match find_env_var name vm.env_vars with
  | none => true
  | some ev =>
    ev.value.type != value.type ||
      (match value with
       | .string s => decide (s.length > ev.string_buf_size)
       | _ => false)

/-- The failure condition of `set` as the code has it: a string is rejected as
soon as its length reaches the capacity, one byte being kept for the NUL. -/
def code_set_env_value_fails (vm : Vm) (name : dgmlrt_string) (value : dgmlrt_env_value) : Bool :=
  match find_env_var name vm.env_vars with
  | none => true
  | some ev =>
    ev.value.type != value.type ||
      (match value with
       | .string s => decide (s.length ≥ ev.string_buf_size)
       | _ => false)

/-- What an evaluation may change: the stack, the sticky error, the variables
and the changed-vars list; and it never clears a recorded error. -/
def eval_frame (vm vm1 : Vm) : Prop :=
  vm1 = { vm with stack := vm1.stack, error := vm1.error, env_vars := vm1.env_vars,
                  changed_vars_buf := vm1.changed_vars_buf } ∧
  (vm1.error = vm.error ∨ vm1.error.code = DGMLRT_ERROR_EVAL_FAIL)

/-- What a call of `dgmlrt_vm_advance` may change in the machine: the scratch
offsets, the changed-vars list, the variables, the stack, the generator state,
the sticky error and the cursor.  The tree, the capacities, the step budget,
the generator and the current section stay. -/
def step_frame (vm vm1 : Vm) : Prop :=
  vm1 = { vm with text_frags_offset := vm1.text_frags_offset,
                  changed_vars_buf := vm1.changed_vars_buf,
                  env_vars := vm1.env_vars,
                  interp_buffer_offset := vm1.interp_buffer_offset,
                  stack := vm1.stack,
                  rng_func_ctx := vm1.rng_func_ctx,
                  error := vm1.error,
                  current_node := vm1.current_node }

/-- A returned result `r` built from the partial result `res`: only the union
and its tag are filled in, and a returned error is the one now stored in the
machine and is not `NONE`. -/
def returned_from (res r : dgmlrt_advance_result) (vm1 : Vm) : Prop :=
  r = { res with result := r.result } ∧
  ∀ e, r.result = dgmlrt_result.DGMLRT_RESULT_TYPE_ERROR e →
    vm1.error = e ∧ e.code ≠ dgmlrt_advance_error_code.DGMLRT_ERROR_NONE

/-- The faults that visiting one node can raise. -/
def node_fault (e : Fault) : Bool :=
  match e with
  | .string_oob | .changed_vars_oob | .div_by_zero | .int_overflow | .text_frags_assert
  | .frag_is_var_oob | .interp_assert | .interp_oob | .options_assert | .rand_assert
  | .abort => true
  | _ => false

/-- The literal text "yes" / "no" / any bytes, as a one-fragment `Text`. -/
def literal_text (bytes : List Nat) : Text := ⟨[⟨[], bytes⟩], [false]⟩

/-- Scenario 3 of the specification: node 0 is a Choice with option "a"
(condition `PUSH_BOOL 0`, destination 1) and option "b" (no condition,
destination 2); nodes 1 and 2 say "yes" and "no". -/
def choice_nodes : List Node :=
  [⟨[99], [], .choice ⟨[⟨literal_text [97], [⟨DGMLB_OP_PUSH_BOOL, 0⟩], 1⟩,
                        ⟨literal_text [98], [], 2⟩]⟩⟩,
   ⟨[121], [], .say ⟨[65], literal_text [121, 101, 115], UINT32_MAX⟩⟩,
   ⟨[110], [], .say ⟨[65], literal_text [110, 111], UINT32_MAX⟩⟩]

/-- Node 0 says "hi" and continues at node 1, a Choice with the single option
"a" that leads to the terminate sentinel. -/
def say_then_choice_nodes : List Node :=
  [⟨[115], [], .say ⟨[65], literal_text [104, 105], 1⟩⟩,
   ⟨[99], [], .choice ⟨[⟨literal_text [97], [], UINT32_MAX⟩]⟩⟩]

/-- Scenario 1 of the specification: node 0 runs `PUSH_INT 1; SET_VAR "n"`,
node 1 says "n=" followed by the variable `n`. -/
def run_say_nodes : List Node :=
  [⟨[114], [], .run ⟨[⟨DGMLB_OP_PUSH_INT, 1⟩, ⟨DGMLB_OP_SET_VAR, 52⟩], 1⟩⟩,
   ⟨[115], [], .say ⟨[65], ⟨[⟨[], [110, 61]⟩, ⟨[], [110]⟩], [false, true]⟩, UINT32_MAX⟩⟩]

/-- The result of the early return of `dgmlrt_vm_advance` (dgmlrt.cpp:984). -/
def invalid_option_result : dgmlrt_advance_result :=
  { empty_result with
    result := dgmlrt_result.DGMLRT_RESULT_TYPE_ERROR
      ⟨dgmlrt_advance_error_code.DGMLRT_ERROR_INVALID_OPTION, "Invalid option"⟩ }

/-- The sizing `dgmlrt_vm_create` gives the trace buffer: as many entries as
the step budget, which is at least one. -/
def trace_sized (vm : Vm) : Prop :=
  vm.trace_buf_size = vm.max_steps_per_advance ∧ 0 < vm.max_steps_per_advance

/-- Node 0 is `Goto { next: 0 }` (scenario 5 of the specification). -/
def goto_self_nodes : List Node := [⟨[103], [], .goto_ ⟨0⟩⟩]

/-- The Run node `PUSH_INT 1; GET_VAR "d"; DIV; SET_VAR "n"` with next node 1:
the division fails while `d` is 0. -/
def div_run_node : Node :=
  ⟨[114], [], .run ⟨[⟨DGMLB_OP_PUSH_INT, 1⟩, ⟨DGMLB_OP_GET_VAR, 76⟩, ⟨DGMLB_OP_DIV, 0⟩,
                     ⟨DGMLB_OP_SET_VAR, 52⟩], 1⟩⟩

/-- Node 0 is `div_run_node`, node 1 says "hi". -/
def div_nodes : List Node :=
  [div_run_node, ⟨[115], [], .say ⟨[65], literal_text [104, 105], UINT32_MAX⟩⟩]

/-- The machine after `dgmlrt_vm_advance(vm, option_index)`. -/
def advance_vm (fo : FloatOps) (vm : Vm) (option_index : Int) : Vm :=
  match dgmlrt_vm_advance fo vm option_index with
  | .ok p => p.2
  | .error _ => vm

/-- The result of `dgmlrt_vm_advance(vm, option_index)`. -/
def advance_res (fo : FloatOps) (vm : Vm) (option_index : Int) : dgmlrt_advance_result :=
  match dgmlrt_vm_advance fo vm option_index with
  | .ok p => p.1
  | .error _ => empty_result

/-- The value that `PUSH_BOOL`, `PUSH_INT`, `PUSH_FLOAT` or `PUSH_STRING` with
parameter `x` hands to `push` (dgmlrt.cpp:807-818); `none` for another opcode
or a string handle outside the blob. -/
def pushed_value (tree : Tree) (op x : Nat) : Option dgmlrt_env_value :=
  if op = DGMLB_OP_PUSH_BOOL then some (.bool (x == 1))
  else if op = DGMLB_OP_PUSH_INT then some (.int (bit_cast_int32 x))
  else if op = DGMLB_OP_PUSH_FLOAT then some (.float x)
  else if op = DGMLB_OP_PUSH_STRING then
    match string tree x with
    | .ok s => some (.string s)
    | .error _ => none
  else none

/-- A bundle of 148 bytes: the header, the strings "s" and "a", one section
"s" with entry node 0 and one node "a" of type Goto whose `next_node` is 5. -/
def goto_bundle : List Nat :=
  [0, 68, 71, 77, 76, 66, 48, 49, 148, 0, 0, 0, 52, 0, 0, 0, 12, 0, 0, 0, 64, 0, 0, 0,
   1, 0, 0, 0, 0, 0, 0, 0, 0, 0, 0, 0, 0, 0, 0, 0, 0, 0, 0, 0, 0, 0, 0, 0, 0, 0, 0, 0,
   1, 0, 0, 0, 115, 0, 1, 0, 0, 0, 97, 0,
   52, 0, 0, 0, 80, 0, 0, 0, 1, 0, 0, 0, 0, 0, 0, 0,
   58, 0, 0, 0, 0, 0, 0, 0, 0, 0, 0, 0, 0, 0, 0, 0, 0, 0, 0, 0, 0, 0, 0, 0,
   0, 0, 0, 0, 0, 0, 0, 0, 0, 0, 0, 0, 0, 0, 0, 0, 0, 0, 0, 0, 0, 0, 0, 0,
   0, 0, 0, 0, 5, 0, 0, 0, 255, 255, 255, 255, 255, 255, 255, 255, 2, 0, 0, 0]

/-- The tree `dgmlrt_load_dgmlb` builds from `goto_bundle`. -/
def goto_bundle_tree : Tree :=
  { strings := [1, 0, 0, 0, 115, 0, 1, 0, 0, 0, 97, 0], strings_base_offset := 52,
    env_vars := [], sections := [⟨[115], [⟨[97], [], .goto_ ⟨5⟩⟩], 0⟩] }

/-- The invariant of the specification for one index of a section with `n`
nodes: the terminate sentinel or an index into the node array. -/
def spec_index_ok (n : Nat) (i : Nat) : Bool :=
  i == UINT32_MAX || decide (i < n)

/-- The invariant of the specification for the indices a node refers to. -/
def spec_node_indices_ok (n : Nat) (node : Node) : Bool :=
  match node.data with
  | .invalid => true
  | .choice choice => choice.options.all (fun o => spec_index_ok n o.dest)
  | .goto_ goto_ => spec_index_ok n goto_.next_node
  | .if_ if_ => spec_index_ok n if_.true_dest && spec_index_ok n if_.false_dest
  | .rand rand => rand.nodes.all (spec_index_ok n)
  | .run run => spec_index_ok n run.next_node
  | .say say => spec_index_ok n say.next_node

/-- The invariant of the specification for a tree: in every section the entry
node and every index referred to by a node is the sentinel or in range. -/
def spec_tree_indices_ok (tree : Tree) : Bool :=
  tree.sections.all (fun sec =>
    spec_index_ok sec.nodes.length sec.entry_node &&
      sec.nodes.all (spec_node_indices_ok sec.nodes.length))

/-- What the loader does with the indices of the `dgmlb_node` record at `off`:
each index of the node is the 32-bit field of the record, or of the option or
target array the record points to, as it stands in the bundle. -/
def node_indices_verbatim (file : List Nat) (off : Nat) (node : Node) : Prop :=
  match node.data with
  | .invalid => False
  | .choice choice =>
    ∀ o opt, choice.options[o]? = some opt →
      opt.dest = read_u32 file (read_u32 file (off + 24) + 24 * o + 20)
  | .goto_ goto_ => goto_.next_node = read_u32 file (off + 52)
  | .if_ if_ =>
    if_.true_dest = read_u32 file (off + 56) ∧ if_.false_dest = read_u32 file (off + 60)
  | .rand rand =>
    rand.nodes = (List.range (read_u32 file (off + 36))).map
      (fun i => read_u32 file (read_u32 file (off + 32) + 4 * i))
  | .run run => run.next_node = read_u32 file (off + 52)
  | .say say => say.next_node = read_u32 file (off + 52)

/-- Node 0 is a Rand node with the targets 1 and 2; nodes 1 and 2 say "yes"
and "no". -/
def rand_nodes : List Node :=
  [⟨[114], [], .rand ⟨[1, 2]⟩⟩,
   ⟨[121], [], .say ⟨[65], literal_text [121, 101, 115], UINT32_MAX⟩⟩,
   ⟨[110], [], .say ⟨[65], literal_text [110, 111], UINT32_MAX⟩⟩]

/-- Scenario 2 of the specification: node 0 is `If { cond: PUSH_BOOL 1, true: 1,
false: 2 }`; nodes 1 and 2 say "yes" and "no". -/
def if_nodes : List Node :=
  [⟨[105], [], .if_ ⟨[⟨DGMLB_OP_PUSH_BOOL, 1⟩], 1, 2⟩⟩,
   ⟨[121], [], .say ⟨[65], literal_text [121, 101, 115], UINT32_MAX⟩⟩,
   ⟨[110], [], .say ⟨[65], literal_text [110, 111], UINT32_MAX⟩⟩]

/-- The partial result after `node` is appended to the trace (dgmlrt.cpp:1010). -/
def visited (res : dgmlrt_advance_result) (node : Node) : dgmlrt_advance_result :=
  { res with visited_node_ids := res.visited_node_ids ++ [node.id],
             node_id := node.id, tags := node.tags }

/-- The error returned when the step budget is used up (dgmlrt.cpp:1096). -/
def max_iterations_error : dgmlrt_advance_error :=
  ⟨dgmlrt_advance_error_code.DGMLRT_ERROR_MAX_ITERATIONS, "Exceeded max iterations"⟩

/-- A single Say node of speaker "A" whose text has no fragment at all. -/
def empty_say_nodes : List Node :=
  [⟨[115], [], .say ⟨[65], ⟨[], []⟩, UINT32_MAX⟩⟩]

/-- A text without variable fragments: every flag of `frag_is_var` is false. -/
def literal_only (text : Text) : Prop :=
  text.frag_is_var = List.replicate text.frags.length false

/-- The section `sec` at index `s` is the first section named `name`. -/
def first_section_named (name : dgmlrt_string) (sections : List Section) (s : Nat)
    (sec : Section) : Prop :=
  sections[s]? = some sec ∧ str_eq name sec.name = true ∧
    ∀ j other, j < s → sections[j]? = some other → str_eq name other.name = false

/-- The node at index `n` is the first node whose id is `id`. -/
def first_node_with_id (id : dgmlrt_string) (nodes : List Node) (n : Nat) : Prop :=
  (∃ node, nodes[n]? = some node ∧ str_eq id node.id = true) ∧
    ∀ j other, j < n → nodes[j]? = some other → str_eq id other.id = false

/-- The cursor reached from `cursor` after `n` nodes that all are Goto nodes of
the section; `none` when one of the `n` nodes is missing or of another type. -/
def goto_walk (sec : Section) : Nat → Nat → Option Nat
  | 0, cursor => some cursor
  | n + 1, cursor =>
    match sec.nodes[cursor]? with
    | none => none
    | some node =>
      match node.data with
      | .goto_ goto_ => goto_walk sec n goto_.next_node
      | _ => none

/-- A machine created on `sample_tree nodes` with the given step budget and
otherwise default parameters, after `dgmlrt_vm_enter(vm, "s", NULL)`. -/
def sample_vm_steps (nodes : List Node) (max_steps : Nat) : Vm :=
  (dgmlrt_vm_enter
    (dgmlrt_vm_create (sample_tree nodes)
      { default_params with max_steps_per_advance := max_steps } 1) (some [115]) none).2

/-- What an interpolation may change in the machine: the two scratch offsets. -/
def interp_frame (vm vm1 : Vm) : Prop :=
  vm1 = { vm with interp_buffer_offset := vm1.interp_buffer_offset,
                  text_frags_offset := vm1.text_frags_offset }

/-- The error `e1` found after part of an advance that started with `e0`
recorded: still `e0`, or one stored by a failed evaluation or interpolation. -/
def kept_or_failed (e0 e1 : dgmlrt_advance_error) : Prop :=
  e1 = e0 ∨ e1.code = dgmlrt_advance_error_code.DGMLRT_ERROR_EVAL_FAIL ∨
    e1.code = dgmlrt_advance_error_code.DGMLRT_ERROR_INTERP_FAIL

/-- The destinations an internal node can select. -/
def node_dests (node : Node) : List Nat :=
  match node.data with
  | .goto_ goto_ => [goto_.next_node]
  | .if_ if_ => [if_.true_dest, if_.false_dest]
  | .rand rand => rand.nodes
  | .run run => [run.next_node]
  | _ => []

/-- Node 0 is `Goto { next: 1 }`, node 1 is a Run node without code whose next
node is 2, node 2 says "hi". -/
def resume_nodes : List Node :=
  [⟨[103], [], .goto_ ⟨1⟩⟩,
   ⟨[114], [], .run ⟨[], 2⟩⟩,
   ⟨[115], [], .say ⟨[65], literal_text [104, 105], UINT32_MAX⟩⟩]

/-- The options `opts` pass one after the other, starting in machine `vm` and
ending in `vm1`, with the entries `out`: the condition of each option is empty
(then `enabled = true`) or evaluates to some `Bool(b)` (then `enabled = b`),
and its text interpolates to the fragments of the entry. -/
def options_pass (fo : FloatOps) :
    Vm → List ChoiceOption → List dgmlrt_option → Vm → Prop
  | vm, [], out, vm1 => out = [] ∧ vm1 = vm
  | vm, opt :: opts, out, vm1 =>
    ∃ (vm_e : Vm) (cond : Option dgmlrt_env_value) (vm_i : Vm)
      (frags : List dgmlrt_text_fragment) (rest : List dgmlrt_option),
      eval fo vm opt.cond = .ok (vm_e, cond) ∧
      interpolate_text fo vm_e opt.text = .ok (vm_i, some frags) ∧
      ((opt.cond = [] ∧ out = ⟨frags, true⟩ :: rest) ∨
        (∃ b, cond = some (.bool b) ∧ out = ⟨frags, b⟩ :: rest)) ∧
      options_pass fo vm_i opts rest vm1

/-- A machine created on `sample_tree nodes` with the given capacity of the
interpolation buffer and otherwise default parameters, after
`dgmlrt_vm_enter(vm, "s", NULL)`. -/
def sample_vm_interp (nodes : List Node) (capacity : Nat) : Vm :=
  (dgmlrt_vm_enter
    (dgmlrt_vm_create (sample_tree nodes)
      { default_params with interp_buf_capacity := capacity } 1) (some [115]) none).2

/-- A single Choice node: its first option has no condition and the text `$n`
(the Int variable `n`), then come the options `extra`. -/
def var_choice_nodes (extra : List ChoiceOption) : List Node :=
  [⟨[99], [], .choice ⟨⟨⟨[⟨[], [110]⟩], [true]⟩, [], 1⟩ :: extra⟩⟩]

/-- Scenario 1 of the specification with the pushed parameter `k`: node 0 runs
`PUSH_INT k; SET_VAR "n"` and goes on at node 1, which says "n=" followed by
the variable `n` and leads to the terminate sentinel. -/
def scenario1_nodes (k : Nat) : List Node :=
  [⟨[114], [], .run ⟨[⟨DGMLB_OP_PUSH_INT, k⟩, ⟨DGMLB_OP_SET_VAR, 52⟩], 1⟩⟩,
   ⟨[115], [], .say ⟨[65], ⟨[⟨[], [110, 61]⟩, ⟨[], [110]⟩], [false, true]⟩, UINT32_MAX⟩⟩]

/-- The tree of scenario 1: the string "n" (handle 52), the single variable
`n : int = 0` and the single section "s". -/
def scenario1_tree (k : Nat) : Tree :=
  { strings := [1, 0, 0, 0, 110, 0], strings_base_offset := 52,
    env_vars := [⟨[110], .int 0, 0⟩],
    sections := [⟨[115], scenario1_nodes k, 0⟩] }

/-- A fresh machine on `scenario1_tree k` (default parameters, created at time
`now`) after `dgmlrt_vm_enter(vm, "s", NULL)`. -/
def scenario1_vm (k now : Nat) : Vm :=
  (dgmlrt_vm_enter (dgmlrt_vm_create (scenario1_tree k) default_params now) (some [115]) none).2

/-- The number written by a string of decimal digit characters. -/
def digits_value (chars : List Nat) : Nat :=
  chars.foldl (fun acc c => acc * 10 + (c - 48)) 0

/-- A property of machines that the primitive steps of `eval` keep: a push, a
pop, recording an error, storing variables and recording a changed name. -/
def eval_closed (P : Vm → Prop) : Prop :=
  (∀ vm v, P vm → P (push vm v)) ∧
  (∀ vm, P vm → P (pop vm).2) ∧
  (∀ vm e, P vm → P { vm with error := e }) ∧
  (∀ vm envs, P vm → P { vm with env_vars := envs }) ∧
  (∀ vm cv, P vm → P { vm with changed_vars_buf := cv })

/-- The stack holds no more entries than `stack.size`. -/
def stack_bounded (vm : Vm) : Prop := vm.stack.length ≤ vm.stack_capacity


/-- The code `PUSH_INT k1; PUSH_INT k2; ..` for the parameters `ks`. -/
def push_int_code (ks : List Nat) : List dgmlb_byte_code :=
  ks.map (fun k => ⟨DGMLB_OP_PUSH_INT, k⟩)

/-- The error `push` records on a full stack (dgmlrt.cpp:633). -/
def stack_overflow_error : dgmlrt_advance_error :=
  ⟨dgmlrt_advance_error_code.DGMLRT_ERROR_EVAL_FAIL, "Stack overflow"⟩

/-- The instance `binop<AllowString>(vm, func)` that the `switch` of `eval`
calls for an opcode (dgmlrt.cpp:851-892): whether strings are allowed, and the
lambda. -/
def binop_of_op (op : Nat) : Option (Bool × BinFunc) :=
  if op = DGMLB_OP_ADD then some (false, .add)
  else if op = DGMLB_OP_SUB then some (false, .sub)
  else if op = DGMLB_OP_MUL then some (false, .mul)
  else if op = DGMLB_OP_DIV then some (false, .div)
  else if op = DGMLB_OP_OR then some (false, .or)
  else if op = DGMLB_OP_AND then some (false, .and)
  else if op = DGMLB_OP_LT then some (false, .lt)
  else if op = DGMLB_OP_LE then some (false, .le)
  else if op = DGMLB_OP_GT then some (false, .gt)
  else if op = DGMLB_OP_GE then some (false, .ge)
  else if op = DGMLB_OP_EQ then some (true, .eq)
  else if op = DGMLB_OP_NE then some (true, .ne)
  else none

/-- The error `binop` records when an operand is missing (dgmlrt.cpp:660). -/
def missing_operands_error : dgmlrt_advance_error :=
  ⟨dgmlrt_advance_error_code.DGMLRT_ERROR_EVAL_FAIL, "Missing operands for binary operator"⟩

/-- The error `binop` records for operands it has no instance for
(dgmlrt.cpp:668, 692). -/
def operand_types_error : dgmlrt_advance_error :=
  ⟨dgmlrt_advance_error_code.DGMLRT_ERROR_EVAL_FAIL, "Invalid binary operand types"⟩

/-- Node 0 runs the single instruction `SET_VAR "n"` (on an empty stack) and
goes on at node 1, which says "n=" followed by the variable `n`. -/
def set_empty_nodes : List Node :=
  [⟨[114], [], .run ⟨[⟨DGMLB_OP_SET_VAR, 52⟩], 1⟩⟩,
   ⟨[115], [], .say ⟨[65], ⟨[⟨[], [110, 61]⟩, ⟨[], [110]⟩], [false, true]⟩, UINT32_MAX⟩⟩]

/-- Node 0 runs `PUSH_BOOL 1; SET_VAR "n"`, where `n` is an Int variable, and
goes on at node 1, which says "n=" followed by the variable `n`. -/
def set_mismatch_nodes : List Node :=
  [⟨[114], [], .run ⟨[⟨DGMLB_OP_PUSH_BOOL, 1⟩, ⟨DGMLB_OP_SET_VAR, 52⟩], 1⟩⟩,
   ⟨[115], [], .say ⟨[65], ⟨[⟨[], [110, 61]⟩, ⟨[], [110]⟩], [false, true]⟩, UINT32_MAX⟩⟩]

/-- The error the NOT case records (dgmlrt.cpp:844). -/
def not_operand_error : dgmlrt_advance_error :=
  ⟨dgmlrt_advance_error_code.DGMLRT_ERROR_EVAL_FAIL, "operand of NOT must be of type bool"⟩

/-- A single Say node by speaker "A" whose text is the one variable fragment
`$v`, leading to the terminate sentinel. -/
def say_var_nodes (v : dgmlrt_string) : List Node :=
  [⟨[115], [], .say ⟨[65], ⟨[⟨[], v⟩], [true]⟩, UINT32_MAX⟩⟩]

/-- A tree whose string blob, based at offset 52, holds the three-byte strings
"a\0b" (handle 52) and "a\0c" (handle 60), with the Int variable named
"a\0b" and no section. -/
def nul_strings_tree : Tree :=
  { strings := [3, 0, 0, 0, 97, 0, 98, 0, 3, 0, 0, 0, 97, 0, 99, 0], strings_base_offset := 52,
    env_vars := [⟨[97, 0, 98], .int 7, 0⟩], sections := [] }

/-- The field `header.sections.count` of a bundle. -/
def bundle_num_sections (file : List Nat) : Nat := read_u32 file 24

/-- The field `nodes.count` of the `dgmlb_section` record of section `s`, as
the section loop of `dgmlrt_load_dgmlb` reads it. -/
def bundle_num_nodes (file : List Nat) (s : Nat) : Nat :=
  read_u32 file (read_u32 file 20 + 16 * s + 8)

/-- The field `type` of the `dgmlb_node` record of node `n` of section `s`, as
the node loop of `dgmlrt_load_dgmlb` reads it. -/
def bundle_node_type (file : List Nat) (s n : Nat) : Nat :=
  read_u32 file (read_u32 file (read_u32 file 20 + 16 * s + 4) + 68 * n + 64)

/-- The bundle `goto_bundle` with the type of its only node set to 9. -/
def unknown_type_bundle : List Nat := goto_bundle.set 144 9

/-- The bundle `unknown_type_bundle` in which the tags of the node are the
span of one element at offset 4000, outside the 148 bytes. -/
def unknown_type_tags_bundle : List Nat :=
  ((unknown_type_bundle.set 88 160).set 89 15).set 92 1

/-- A buffer of 52 bytes that is only a header: the magic, `file_size` 52, the
strings span of 8 bytes at offset 48 and no sections and variables. -/
def long_strings_bundle : List Nat :=
  [0, 68, 71, 77, 76, 66, 48, 49, 52, 0, 0, 0, 48, 0, 0, 0, 8, 0, 0, 0, 0, 0, 0, 0,
   0, 0, 0, 0, 0, 0, 0, 0, 0, 0, 0, 0, 0, 0, 0, 0, 0, 0, 0, 0, 0, 0, 0, 0, 0, 0, 0, 0]

/-- The bundle `goto_bundle` with its node turned into a Run node whose code
is the span of 2 instructions at offset 140 of the 148 bytes. -/
def long_code_bundle : List Nat :=
  ((goto_bundle.set 144 5).set 96 140).set 100 2

/-- The bundle `goto_bundle` with its node turned into a Rand node whose
targets are the span of 2 indices at offset 144 of the 148 bytes. -/
def long_rand_bundle : List Nat :=
  ((goto_bundle.set 144 4).set 112 144).set 116 2

/-- A tree with the string "n" (handle 52), no variable, and the section "s"
whose node 0 runs `SET_VAR "n"` and leads to the terminate sentinel. -/
def no_vars_tree : Tree :=
  { strings := [1, 0, 0, 0, 110, 0, 1, 0, 0, 0, 115, 0], strings_base_offset := 52,
    env_vars := [],
    sections := [⟨[115], [⟨[114], [], .run ⟨[⟨DGMLB_OP_SET_VAR, 52⟩], UINT32_MAX⟩⟩], 0⟩] }

/-- Node 0 runs `SET_VAR` on the undeclared names "hi" (handle 82) and "zz"
(handle 89) and on four declared names, and leads to the terminate
sentinel. -/
def set_undeclared_nodes : List Node :=
  [⟨[114], [], .run ⟨[⟨DGMLB_OP_SET_VAR, 82⟩, ⟨DGMLB_OP_SET_VAR, 89⟩, ⟨DGMLB_OP_SET_VAR, 52⟩,
      ⟨DGMLB_OP_SET_VAR, 58⟩, ⟨DGMLB_OP_SET_VAR, 64⟩, ⟨DGMLB_OP_SET_VAR, 70⟩], UINT32_MAX⟩⟩]

/-- A bundle of 104 bytes without sections: the header, the strings "n"
(handle 52) and "hi" (handle 58), and three variable records: `n : int` with
default `0xFFFFFFFE`, `hi : string` with default handle 58, and a second
record named `n`, of type bool with default 1. -/
def vars_bundle : List Nat :=
  [0, 68, 71, 77, 76, 66, 48, 49, 104, 0, 0, 0, 52, 0, 0, 0, 16, 0, 0, 0, 0, 0, 0, 0,
   0, 0, 0, 0, 0, 0, 0, 0, 0, 0, 0, 0, 68, 0, 0, 0, 3, 0, 0, 0, 0, 0, 0, 0, 0, 0, 0, 0,
   1, 0, 0, 0, 110, 0, 2, 0, 0, 0, 104, 105, 0, 0, 0, 0,
   52, 0, 0, 0, 2, 0, 0, 0, 254, 255, 255, 255,
   58, 0, 0, 0, 4, 0, 0, 0, 58, 0, 0, 0,
   52, 0, 0, 0, 1, 0, 0, 0, 1, 0, 0, 0]

/-- The tree `dgmlrt_load_dgmlb` builds from `vars_bundle`. -/
def vars_bundle_tree : Tree :=
  { strings := [1, 0, 0, 0, 110, 0, 2, 0, 0, 0, 104, 105, 0, 0, 0, 0], strings_base_offset := 52,
    env_vars := [⟨[110], .int (-2), 0⟩, ⟨[104, 105], .string [104, 105], 0⟩,
      ⟨[110], .bool true, 0⟩],
    sections := [] }

/-- The struct `dgmlrt_env_var`. -/
structure dgmlrt_env_var where
  name : dgmlrt_string
  value : dgmlrt_env_value
  deriving DecidableEq

/-- The function `dgmlrt_get_env_vars` (dgmlrt.cpp:1104): the count returned
and the entries written to `vars`. -/
def dgmlrt_get_env_vars (vm : Vm) (max_num_vars : Nat) : Nat × List dgmlrt_env_var :=
  let n := if max_num_vars < vm.env_vars.length then max_num_vars else vm.env_vars.length
  (n, (vm.env_vars.take n).map (fun ev => ⟨ev.name, ev.value⟩))

/-- A host that feeds saved variables back, one call of
`dgmlrt_vm_set_env_value` per entry in order: the flags returned and the
machine afterwards. -/
def restore_env_vars : Vm → List dgmlrt_env_var → List Bool × Vm
  | vm, [] => ([], vm)
  | vm, var :: rest =>
    ((dgmlrt_vm_set_env_value vm var.name var.value).1 ::
        (restore_env_vars (dgmlrt_vm_set_env_value vm var.name var.value).2 rest).1,
      (restore_env_vars (dgmlrt_vm_set_env_value vm var.name var.value).2 rest).2)

/-- The name and the type of a variable, which no store changes. -/
def env_var_decl (ev : EnvVar) : dgmlrt_string × Nat := (ev.name, ev.value.type)

/-- A tree with two Int variables that are both named "n", with the defaults
0 and 1, and no section. -/
def dup_vars_tree : Tree :=
  { strings := [1, 0, 0, 0, 110, 0], strings_base_offset := 52,
    env_vars := [⟨[110], .int 0, 0⟩, ⟨[110], .int 1, 0⟩], sections := [] }

/-- The two assertions on the scratch buffers: that of `interpolate_text`
(dgmlrt.cpp:940) and that of the Choice case (dgmlrt.cpp:1032). -/
def scratch_fault (e : Fault) : Bool :=
  match e with
  | .text_frags_assert | .options_assert => true
  | _ => false

/-- The node fits scratch buffers of `options_size` options and `frags_size`
text fragments: a Say node has at most `frags_size` fragments, a Choice node
at most `options_size` options with at most `frags_size` fragments in all. -/
def node_fits (options_size frags_size : Nat) (node : Node) : Prop :=
  match node.data with
  | .say say => say.text.frags.length ≤ frags_size
  | .choice choice =>
    choice.options.length ≤ options_size ∧ choice_num_frags choice ≤ frags_size
  | _ => True

/-- Every node of the tree of the machine fits its scratch buffers. -/
def scratch_sized (vm : Vm) : Prop :=
  ∀ sec ∈ vm.tree.sections, ∀ node ∈ sec.nodes,
    node_fits vm.options_buf_size vm.text_frags_buf_size node

/-- Node 0 is a Choice with the options "yes" and "no" of one fragment each,
node 1 says a text of three fragments. -/
def scratch_nodes : List Node :=
  [⟨[99], [], .choice ⟨[⟨literal_text [121, 101, 115], [], 1⟩,
      ⟨literal_text [110, 111], [], 1⟩]⟩⟩,
   ⟨[115], [], .say ⟨[65], ⟨[⟨[], [97]⟩, ⟨[], [98]⟩, ⟨[], [99]⟩], [false, false, false]⟩,
      UINT32_MAX⟩⟩]

/-- The cursor at which the loop of `dgmlrt_vm_advance` starts (dgmlrt.cpp:980):
the destination of the chosen option of the Choice node at the cursor, the
cursor itself for a negative `option_index`, and `none` when the call is
rejected with InvalidOption (or has no node at the cursor to look at). -/
def start_cursor (vm : Vm) (sec : Section) (option_index : Int) : Option Nat :=
  if option_index ≥ 0 then
    match sec.nodes[vm.current_node]? with
    | none => none
    | some node =>
      match node.data with
      | .choice choice => (choice.options[option_index.toNat]?).map (fun opt => opt.dest)
      | _ => none
  else some vm.current_node

/-- The internal nodes: Goto, If, Rand and Run. -/
def is_internal (node : Node) : Bool :=
  match node.data with
  | .goto_ _ | .if_ _ | .rand _ | .run _ => true
  | _ => false

/-- The node indices form a walk in the section: each is the index of a node,
and each index after the first is a destination of the node before it. -/
def is_walk (sec : Section) : List Nat → Bool
  | [] => true
  | [i] => (sec.nodes[i]?).isSome
  | i :: j :: rest =>
    (match sec.nodes[i]? with
     | some node => decide (j ∈ node_dests node)
     | none => false) && is_walk sec (j :: rest)

/-- The ids of the nodes at the given indices of the section. -/
def walk_ids (sec : Section) : List Nat → List dgmlrt_string
  | [] => []
  | i :: rest =>
    (match sec.nodes[i]? with
     | some node => [node.id]
     | none => []) ++ walk_ids sec rest

/-- A machine created on `sample_tree nodes` with the given size of the bytecode
stack and otherwise default parameters, after `dgmlrt_vm_enter(vm, "s", NULL)`. -/
def sample_vm_stack (nodes : List Node) (stack_size : Nat) : Vm :=
  (dgmlrt_vm_enter
    (dgmlrt_vm_create (sample_tree nodes)
      { default_params with bytecode_stack_size := stack_size } 1) (some [115]) none).2

/-- Node 0 runs `SET_VAR` on the undeclared names "hi" (handle 82) and "zz"
(handle 89) and on the declared names "n", "s" and "b", and leads to node 1,
which says "hi"; node 2 runs `PUSH_INT 1; SET_VAR d; GET_VAR d` for the
declared Int variable "d" (handle 76). -/
def fill_changed_nodes : List Node :=
  [⟨[114], [], .run ⟨[⟨DGMLB_OP_SET_VAR, 82⟩, ⟨DGMLB_OP_SET_VAR, 89⟩, ⟨DGMLB_OP_SET_VAR, 52⟩,
      ⟨DGMLB_OP_SET_VAR, 58⟩, ⟨DGMLB_OP_SET_VAR, 64⟩], 1⟩⟩,
   ⟨[115], [], .say ⟨[65], literal_text [104, 105], 2⟩⟩,
   ⟨[116], [], .run ⟨[⟨DGMLB_OP_PUSH_INT, 1⟩, ⟨DGMLB_OP_SET_VAR, 76⟩, ⟨DGMLB_OP_GET_VAR, 76⟩],
      UINT32_MAX⟩⟩]

/-! # Theorems -/

/-! ## Environment store -/

theorem set_env_value_some {dst ev1 : EnvVar} {src : dgmlrt_env_value}
    (h : set_env_value dst src = some ev1) :
    ev1.name = dst.name ∧ ev1.value = src ∧ ev1.string_buf_size = dst.string_buf_size := by
  unfold set_env_value at h
  split at h
  · split at h
    · exact absurd h (by simp)
    · cases h; exact ⟨rfl, rfl, rfl⟩
  · cases h; exact ⟨rfl, rfl, rfl⟩

theorem get_after_set_loop (name : dgmlrt_string) (v : dgmlrt_env_value) :
    ∀ l : List EnvVar, (set_env_value_loop name v l).1 = true →
      get_env_value_loop name (set_env_value_loop name v l).2 = v := by
  intro l
  induction l with
  | nil => intro h; simp [set_env_value_loop] at h
  | cons ev rest ih =>
    intro h
    unfold set_env_value_loop at h ⊢
    by_cases hn : str_eq ev.name name = true
    · simp only [hn, if_true] at h ⊢
      by_cases ht : ev.value.type = v.type
      · simp only [ht, if_true] at h ⊢
        cases hs : set_env_value ev v with
        | none => simp [hs] at h
        | some ev1 =>
          obtain ⟨h1, h2, _⟩ := set_env_value_some hs
          simp [get_env_value_loop, h1, hn, h2]
      · simp [ht] at h
    · simp only [hn] at h ⊢
      simp only [get_env_value_loop, hn]
      exact ih h

/-- Claim C1: when `dgmlrt_vm_set_env_value(vm, name, v)` returns true, the
`dgmlrt_vm_get_env_value(vm, name)` that follows returns `v` itself: the same
type and the same bool, integer or float bits, and for a string the same bytes
(hence the same length). -/
theorem get_env_value_after_set (vm : Vm) (name : dgmlrt_string) (v : dgmlrt_env_value)
    (h : (dgmlrt_vm_set_env_value vm name v).1 = true) :
    dgmlrt_vm_get_env_value (dgmlrt_vm_set_env_value vm name v).2 name = v := by
  unfold dgmlrt_vm_set_env_value at h ⊢
  exact get_after_set_loop name v vm.env_vars h

/-- Witness of C1 on the sample machine: setting the string variable "s" to
"hi" succeeds and the value read back is "hi". -/
theorem get_env_value_after_set_witness :
    (dgmlrt_vm_set_env_value (sample_vm []) [115] (.string [104, 105])).1 = true ∧
      dgmlrt_vm_get_env_value (dgmlrt_vm_set_env_value (sample_vm []) [115]
        (.string [104, 105])).2 [115] = .string [104, 105] :=
  ⟨by decide, get_env_value_after_set (sample_vm []) [115] (.string [104, 105]) (by decide)⟩

theorem set_loop_fails_iff (name : dgmlrt_string) (v : dgmlrt_env_value) :
    ∀ l : List EnvVar, (set_env_value_loop name v l).1 = false ↔
      (match find_env_var name l with
       | none => true
       | some ev =>
         ev.value.type != v.type ||
           (match v with
            | .string s => decide (s.length ≥ ev.string_buf_size)
            | _ => false)) = true := by
  intro l
  induction l with
  | nil => simp [set_env_value_loop, find_env_var]
  | cons ev rest ih =>
    unfold set_env_value_loop find_env_var
    by_cases hn : str_eq ev.name name = true
    · simp only [hn, if_true]
      by_cases ht : ev.value.type = v.type
      · simp only [ht, if_true]
        cases v with
        | string s =>
          by_cases hc : s.length ≥ ev.string_buf_size
          · simp [set_env_value, hc]
          · simp [set_env_value, hc]
        | unset => simp [set_env_value]
        | bool b => simp [set_env_value]
        | int i => simp [set_env_value]
        | float f => simp [set_env_value]
        | other t => simp [set_env_value]
      · simp [ht]
    · simp only [hn]
      exact ih

/-- Claim C2, as the code has it: `dgmlrt_vm_set_env_value(vm, name, value)`
returns false exactly when no variable is named `name`, or the stored type of
the first such variable differs from the type of `value`, or `value` is a
string whose length is greater than or equal to the capacity of the variable's
buffer; in every other case it returns true. -/
theorem set_env_value_false_iff (vm : Vm) (name : dgmlrt_string) (value : dgmlrt_env_value) :
    (dgmlrt_vm_set_env_value vm name value).1 = false ↔
      code_set_env_value_fails vm name value = true := by
  unfold dgmlrt_vm_set_env_value code_set_env_value_fails
  exact set_loop_fails_iff name value vm.env_vars

set_option maxRecDepth 100000 in
/-- Claim C2 fails as stated: on a machine created with the default capacity
128, a string of exactly 128 bytes for the string variable "s" is rejected,
although the variable exists, has the same type, and the length does not exceed
the capacity. -/
theorem set_env_value_full_capacity_rejected :
    (dgmlrt_vm_set_env_value (sample_vm []) [115] (.string (List.replicate 128 97))).1 = false ∧
      find_env_var [115] (sample_vm []).env_vars = some ⟨[115], .string [], 128⟩ ∧
      (List.replicate 128 97).length = 128 ∧
      spec_set_env_value_fails (sample_vm []) [115] (.string (List.replicate 128 97)) = false := by
  decide

/-! ## What an evaluation leaves unchanged -/

theorem eval_frame_refl (vm : Vm) : eval_frame vm vm := ⟨rfl, Or.inl rfl⟩

theorem eval_frame_trans {a b c : Vm} (h1 : eval_frame a b) (h2 : eval_frame b c) :
    eval_frame a c := by
  obtain ⟨e1, k1⟩ := h1
  obtain ⟨e2, k2⟩ := h2
  refine ⟨?_, ?_⟩
  · rw [e2, e1]
  · rcases k2 with k2 | k2
    · rcases k1 with k1 | k1
      · exact Or.inl (k2.trans k1)
      · exact Or.inr (by rw [k2]; exact k1)
    · exact Or.inr k2

theorem eval_frame_error (vm : Vm) (msg : String) :
    eval_frame vm { vm with error := ⟨DGMLRT_ERROR_EVAL_FAIL, msg⟩ } := ⟨rfl, Or.inr rfl⟩

theorem eval_frame_stack (vm : Vm) (st : List dgmlrt_env_value) :
    eval_frame vm { vm with stack := st } := ⟨rfl, Or.inl rfl⟩

theorem eval_frame_push (vm : Vm) (v : dgmlrt_env_value) : eval_frame vm (push vm v) := by
  unfold push
  split
  · exact eval_frame_error vm _
  · exact eval_frame_stack vm _

theorem eval_frame_pop (vm : Vm) : eval_frame vm (pop vm).2 := by
  unfold pop
  split
  · exact eval_frame_refl vm
  · exact eval_frame_stack vm _

theorem eval_frame_set (vm : Vm) (name : dgmlrt_string) (v : dgmlrt_env_value) :
    eval_frame vm (dgmlrt_vm_set_env_value vm name v).2 := ⟨rfl, Or.inl rfl⟩

theorem eval_frame_record {vm vm1 : Vm} {name : dgmlrt_string}
    (h : record_changed_var vm name = .ok vm1) : eval_frame vm vm1 := by
  unfold record_changed_var at h
  split at h
  · cases h; exact eval_frame_refl vm
  · split at h
    · cases h; exact ⟨rfl, Or.inl rfl⟩
    · cases h

theorem eval_frame_binop_push {fo : FloatOps} {f : BinFunc} {vm vm1 : Vm}
    {lhs rhs : dgmlrt_env_value} (h : binop_push fo f vm lhs rhs = .ok vm1) :
    eval_frame vm vm1 := by
  unfold binop_push at h
  split at h
  · split at h
    · cases h
    · cases h; exact eval_frame_push _ _
  · cases h; exact eval_frame_push _ _
  · cases h; exact eval_frame_push _ _
  · cases h; exact eval_frame_push _ _
  · split at h
    · cases h
    · cases h; exact eval_frame_push _ _
  · cases h; exact eval_frame_refl _

theorem eval_frame_binop_push_string (allow_string : Bool) (f : BinFunc) (vm : Vm)
    (lhs rhs : dgmlrt_env_value) : eval_frame vm (binop_push_string allow_string f vm lhs rhs) := by
  unfold binop_push_string
  split
  · split
    · exact eval_frame_push _ _
    · exact eval_frame_refl _
  · exact eval_frame_refl _

theorem eval_frame_binop_apply {fo : FloatOps} {allow_string : Bool} {f : BinFunc} {vm vm1 : Vm}
    {lhs rhs : dgmlrt_env_value} (h : binop_apply fo allow_string f vm lhs rhs = .ok vm1) :
    eval_frame vm vm1 := by
  unfold binop_apply at h
  split at h
  · cases h; exact eval_frame_error _ _
  · split at h
    · cases h
    · rename_i vm3 hp
      have p3 := eval_frame_trans (eval_frame_binop_push hp)
        (eval_frame_binop_push_string allow_string f vm3 lhs rhs)
      split at h
      · cases h; exact eval_frame_trans p3 (eval_frame_error _ _)
      · cases h; exact p3

theorem eval_frame_binop {fo : FloatOps} {allow_string : Bool} {f : BinFunc} {vm vm1 : Vm}
    (h : binop fo allow_string f vm = .ok vm1) : eval_frame vm vm1 := by
  have p2 : eval_frame vm (pop (pop vm).2).2 :=
    eval_frame_trans (eval_frame_pop vm) (eval_frame_pop _)
  unfold binop at h
  split at h
  · cases h; exact eval_frame_trans p2 (eval_frame_error _ _)
  · exact eval_frame_trans p2 (eval_frame_binop_apply h)

theorem eval_frame_eval_op {fo : FloatOps} {vm vm1 : Vm} {c : dgmlb_byte_code}
    (h : eval_op fo vm c = .ok vm1) : eval_frame vm vm1 := by
  unfold eval_op at h
  by_cases h0 : c.op = DGMLB_OP_PUSH_BOOL
  · rw [if_pos h0] at h
    cases h; exact eval_frame_push _ _
  rw [if_neg h0] at h
  by_cases h1 : c.op = DGMLB_OP_PUSH_INT
  · rw [if_pos h1] at h
    cases h; exact eval_frame_push _ _
  rw [if_neg h1] at h
  by_cases h2 : c.op = DGMLB_OP_PUSH_FLOAT
  · rw [if_pos h2] at h
    cases h; exact eval_frame_push _ _
  rw [if_neg h2] at h
  by_cases h3 : c.op = DGMLB_OP_PUSH_STRING
  · rw [if_pos h3] at h
    split at h
    · cases h
    · cases h; exact eval_frame_push _ _
  rw [if_neg h3] at h
  by_cases h4 : c.op = DGMLB_OP_GET_VAR
  · rw [if_pos h4] at h
    split at h
    · cases h
    · cases h; exact eval_frame_push _ _
  rw [if_neg h4] at h
  by_cases h5 : c.op = DGMLB_OP_SET_VAR
  · rw [if_pos h5] at h
    split at h
    · cases h
    · split at h
      · cases h
      · rename_i hr
        cases h
        exact eval_frame_trans (eval_frame_record hr)
          (eval_frame_trans (eval_frame_pop _) (eval_frame_set _ _ _))
  rw [if_neg h5] at h
  by_cases h6 : c.op = DGMLB_OP_NOT
  · rw [if_pos h6] at h
    split at h
    · cases h; exact eval_frame_trans (eval_frame_pop _) (eval_frame_push _ _)
    · cases h; exact eval_frame_trans (eval_frame_pop _) (eval_frame_error _ _)
  rw [if_neg h6] at h
  by_cases h7 : c.op = DGMLB_OP_ADD
  · rw [if_pos h7] at h
    exact eval_frame_binop h
  rw [if_neg h7] at h
  by_cases h8 : c.op = DGMLB_OP_SUB
  · rw [if_pos h8] at h
    exact eval_frame_binop h
  rw [if_neg h8] at h
  by_cases h9 : c.op = DGMLB_OP_MUL
  · rw [if_pos h9] at h
    exact eval_frame_binop h
  rw [if_neg h9] at h
  by_cases h10 : c.op = DGMLB_OP_DIV
  · rw [if_pos h10] at h
    split at h
    · cases h; exact eval_frame_error _ _
    · exact eval_frame_binop h
  rw [if_neg h10] at h
  by_cases h11 : c.op = DGMLB_OP_OR
  · rw [if_pos h11] at h
    exact eval_frame_binop h
  rw [if_neg h11] at h
  by_cases h12 : c.op = DGMLB_OP_AND
  · rw [if_pos h12] at h
    exact eval_frame_binop h
  rw [if_neg h12] at h
  by_cases h13 : c.op = DGMLB_OP_LT
  · rw [if_pos h13] at h
    exact eval_frame_binop h
  rw [if_neg h13] at h
  by_cases h14 : c.op = DGMLB_OP_LE
  · rw [if_pos h14] at h
    exact eval_frame_binop h
  rw [if_neg h14] at h
  by_cases h15 : c.op = DGMLB_OP_GT
  · rw [if_pos h15] at h
    exact eval_frame_binop h
  rw [if_neg h15] at h
  by_cases h16 : c.op = DGMLB_OP_GE
  · rw [if_pos h16] at h
    exact eval_frame_binop h
  rw [if_neg h16] at h
  by_cases h17 : c.op = DGMLB_OP_EQ
  · rw [if_pos h17] at h
    exact eval_frame_binop h
  rw [if_neg h17] at h
  by_cases h18 : c.op = DGMLB_OP_NE
  · rw [if_pos h18] at h
    exact eval_frame_binop h
  rw [if_neg h18] at h
  cases h; exact eval_frame_error _ _

theorem eval_frame_eval_loop {fo : FloatOps} :
    ∀ (code : List dgmlb_byte_code) {vm vm1 : Vm} {completed : Bool},
      eval_loop fo vm code = .ok (vm1, completed) → eval_frame vm vm1 := by
  intro code
  induction code with
  | nil => intro vm vm1 completed h; simp [eval_loop] at h; rw [← h.1]; exact eval_frame_refl _
  | cons c rest ih =>
    intro vm vm1 completed h
    unfold eval_loop at h
    split at h
    · cases h
    · rename_i vm2 hop
      split at h
      · cases h; exact eval_frame_eval_op hop
      · exact eval_frame_trans (eval_frame_eval_op hop) (ih h)

theorem eval_frame_eval {fo : FloatOps} {vm vm1 : Vm} {code : List dgmlb_byte_code}
    {r : Option dgmlrt_env_value} (h : eval fo vm code = .ok (vm1, r)) : eval_frame vm vm1 := by
  unfold eval at h
  split at h
  · cases h
  · rename_i vm2 completed hl
    cases h
    exact eval_frame_trans (eval_frame_stack vm []) (eval_frame_eval_loop code hl)

/-! ## What a step leaves unchanged -/

theorem step_frame_refl (vm : Vm) : step_frame vm vm := rfl

theorem step_frame_trans {a b c : Vm} (h1 : step_frame a b) (h2 : step_frame b c) :
    step_frame a c := by
  unfold step_frame at *
  rw [h2, h1]

theorem step_frame_of_eval {vm vm1 : Vm} (h : eval_frame vm vm1) : step_frame vm vm1 := by
  unfold step_frame
  rw [h.1]

theorem step_frame_interp {vm vm1 : Vm} {chars : List Nat} {r : Option dgmlrt_string}
    (h : interp vm chars = .ok (vm1, r)) : step_frame vm vm1 := by
  unfold interp at h
  split at h
  · cases h
  · split at h
    · split at h
      · cases h; rfl
      · cases h
    · cases h; rfl

theorem step_frame_interpolate_loop {fo : FloatOps} :
    ∀ (frags : List dgmlrt_text_fragment) (is_vars : List Bool) {vm vm1 : Vm}
      {r : Option (List dgmlrt_text_fragment)},
      interpolate_loop fo vm frags is_vars = .ok (vm1, r) → step_frame vm vm1 := by
  intro frags
  induction frags with
  | nil => intro is_vars vm vm1 r h; simp [interpolate_loop] at h; rw [← h.1]; rfl
  | cons frag frags ih =>
    intro is_vars vm vm1 r h
    cases is_vars with
    | nil => simp [interpolate_loop] at h
    | cons is_var is_vars =>
      unfold interpolate_loop at h
      simp only at h
      split at h
      · cases h
      · rename_i vm2 hw
        have hw2 : step_frame vm vm2 := by
          split at hw
          · split at hw
            · cases hw
            · cases hw
            · exact step_frame_interp hw
            · exact step_frame_interp hw
            · cases hw
            · cases hw
          · cases hw
        cases h; exact hw2
      · rename_i vm2 text hw
        have hw2 : step_frame vm vm2 := by
          split at hw
          · split at hw
            · cases hw; rfl
            · cases hw; rfl
            · exact step_frame_interp hw
            · exact step_frame_interp hw
            · cases hw; rfl
            · cases hw; rfl
          · cases hw; rfl
        split at h
        · cases h
        · rename_i hl
          cases h; exact step_frame_trans hw2 (ih is_vars hl)
        · rename_i hl
          cases h; exact step_frame_trans hw2 (ih is_vars hl)

theorem step_frame_interpolate_text {fo : FloatOps} {vm vm1 : Vm} {text : Text}
    {r : Option (List dgmlrt_text_fragment)}
    (h : interpolate_text fo vm text = .ok (vm1, r)) : step_frame vm vm1 := by
  unfold interpolate_text at h
  split at h
  · split at h
    · cases h
    · rename_i hl
      cases h; exact step_frame_interpolate_loop _ _ hl
    · rename_i hl
      cases h
      exact step_frame_trans (step_frame_interpolate_loop _ _ hl) rfl
  · cases h

theorem step_frame_advance_error (vm : Vm) (res : dgmlrt_advance_result)
    (err : dgmlrt_advance_error) : step_frame vm (advance_error vm res err).2 := rfl

theorem returned_from_advance_error (vm : Vm) (res : dgmlrt_advance_result)
    (err : dgmlrt_advance_error) (h : err.code ≠ DGMLRT_ERROR_NONE) :
    returned_from res (advance_error vm res err).1 (advance_error vm res err).2 := by
  refine ⟨rfl, ?_⟩
  intro e he
  simp only [advance_error] at he
  cases he
  exact ⟨rfl, h⟩

theorem ret_advance_error {vm vm2 : Vm} (res : dgmlrt_advance_result)
    {err : dgmlrt_advance_error} (f : step_frame vm vm2) (h : err.code ≠ DGMLRT_ERROR_NONE) :
    step_frame vm (advance_error vm2 res err).2 ∧
      returned_from res (advance_error vm2 res err).1 (advance_error vm2 res err).2 :=
  ⟨step_frame_trans f (step_frame_advance_error vm2 res err),
    returned_from_advance_error vm2 res err h⟩

theorem choice_loop_ok {fo : FloatOps} :
    ∀ (opts : List ChoiceOption) {vm vm1 : Vm}
      {x : dgmlrt_advance_error ⊕ List dgmlrt_option},
      choice_loop fo vm opts = .ok (vm1, x) →
        step_frame vm vm1 ∧ ∀ err, x = .inl err → err.code ≠ DGMLRT_ERROR_NONE := by
  intro opts
  induction opts with
  | nil =>
    intro vm vm1 x h
    simp [choice_loop] at h
    rw [← h.1, ← h.2]
    exact ⟨rfl, by intro err he; cases he⟩
  | cons opt opts ih =>
    intro vm vm1 x h
    unfold choice_loop at h
    split at h
    · cases h
    · rename_i vm2 cond he
      have f2 := step_frame_of_eval (eval_frame_eval he)
      split at h
      · rename_i hc
        cases h
        exact ⟨f2, by intro err h2; cases h2; exact hc⟩
      · simp only at h
        split at h
        · cases h
          exact ⟨f2, by intro err h2; cases h2; simp⟩
        · split at h
          · cases h
          · rename_i hi
            cases h
            exact ⟨step_frame_trans f2 (step_frame_interpolate_text hi),
              by intro err h2; cases h2; simp⟩
          · rename_i vm3 frags hi
            have f3 := step_frame_trans f2 (step_frame_interpolate_text hi)
            split at h
            · cases h
            · rename_i hl
              cases h
              exact ⟨step_frame_trans f3 (ih hl).1, (ih hl).2⟩
            · rename_i hl
              cases h
              exact ⟨step_frame_trans f3 (ih hl).1, by intro err h2; cases h2⟩

theorem visit_node_ret {fo : FloatOps} {vm vm1 : Vm} {node : Node}
    {res r : dgmlrt_advance_result} (h : visit_node fo vm node res = .ok (.ret r vm1)) :
    step_frame vm vm1 ∧ returned_from res r vm1 := by
  unfold visit_node at h
  split at h
  · -- Say
    split at h
    · cases h
    · rename_i vm2 hi
      have f1 : step_frame vm vm2 := by
        refine step_frame_trans ?_ (step_frame_interpolate_text hi)
        rfl
      cases h
      exact ret_advance_error res f1 (by simp)
    · rename_i vm2 frags hi
      have f1 : step_frame vm vm2 := by
        refine step_frame_trans ?_ (step_frame_interpolate_text hi)
        rfl
      cases h
      exact ⟨f1, rfl, by intro e he; cases he⟩
  · -- Choice
    split at h
    · split at h
      · cases h
      · rename_i hl
        cases h
        exact ret_advance_error res (choice_loop_ok _ hl).1 ((choice_loop_ok _ hl).2 _ rfl)
      · rename_i hl
        cases h
        exact ⟨(choice_loop_ok _ hl).1, rfl, by intro e he; cases he⟩
    · cases h
  · -- Goto
    cases h
  · -- If
    split at h
    · cases h
    · rename_i vm2 r2 he
      have f2 := step_frame_of_eval (eval_frame_eval he)
      split at h
      · rename_i hc
        cases h
        exact ret_advance_error res f2 hc
      · split at h
        · cases h
        · cases h
          exact ret_advance_error res f2 (by simp)
  · -- Rand
    split at h
    · cases h
    · cases h
  · -- Run
    split at h
    · cases h
    · rename_i vm2 r2 he
      have f2 := step_frame_of_eval (eval_frame_eval he)
      split at h
      · rename_i hc
        cases h
        exact ret_advance_error res f2 hc
      · cases h
  · cases h

theorem visit_node_cont {fo : FloatOps} {vm vm1 : Vm} {node : Node}
    {res : dgmlrt_advance_result} (h : visit_node fo vm node res = .ok (.cont vm1)) :
    step_frame vm vm1 := by
  unfold visit_node at h
  split at h
  · split at h <;> cases h
  · split at h
    · split at h <;> cases h
    · cases h
  · cases h; rfl
  · split at h
    · cases h
    · rename_i vm2 r2 he
      have f2 := step_frame_of_eval (eval_frame_eval he)
      split at h
      · cases h
      · split at h
        · cases h
          exact step_frame_trans f2 rfl
        · cases h
  · split at h
    · cases h; rfl
    · cases h
  · split at h
    · cases h
    · rename_i vm2 r2 he
      have f2 := step_frame_of_eval (eval_frame_eval he)
      split at h
      · cases h
      · cases h
        exact step_frame_trans f2 rfl
  · cases h

/-! ## The loop of `advance` -/

theorem step_frame_max_steps {vm vm1 : Vm} (h : step_frame vm vm1) :
    vm1.max_steps_per_advance = vm.max_steps_per_advance := by
  unfold step_frame at h; rw [h]

theorem step_frame_trace_buf_size {vm vm1 : Vm} (h : step_frame vm vm1) :
    vm1.trace_buf_size = vm.trace_buf_size := by
  unfold step_frame at h; rw [h]

theorem advance_loop_ok {fo : FloatOps} {sec : Section} :
    ∀ (fuel : Nat) {vm vm1 : Vm} {res r : dgmlrt_advance_result},
      advance_loop fo sec fuel vm res = .ok (r, vm1) →
        step_frame vm vm1 ∧ r.changed_vars = res.changed_vars ∧
        (∀ e, r.result = DGMLRT_RESULT_TYPE_ERROR e → vm1.error = e ∧ e.code ≠ DGMLRT_ERROR_NONE) ∧
        (res.visited_node_ids.length ≤ vm.trace_buf_size →
          r.visited_node_ids.length ≤ vm.trace_buf_size) := by
  intro fuel
  induction fuel with
  | zero => intro vm vm1 res r h; simp [advance_loop] at h
  | succ fuel ih =>
    intro vm vm1 res r h
    unfold advance_loop at h
    split at h
    · cases h
      exact ⟨rfl, rfl, (by intro e he; cases he), fun hv => hv⟩
    · rename_i node hn
      split at h
      · rename_i hlt
        simp only at h
        split at h
        · cases h
        · rename_i r2 vm2 hv
          cases h
          obtain ⟨f, hr, herr⟩ := visit_node_ret hv
          refine ⟨f, by rw [hr], herr, ?_⟩
          intro _
          rw [hr]
          simp only [List.length_append, List.length_singleton]
          omega
        · rename_i vm2 hv
          have f := visit_node_cont hv
          split at h
          · cases h
            refine ⟨step_frame_trans f rfl, rfl, ?_, ?_⟩
            · intro e he
              simp only [advance_error] at he
              cases he
              exact ⟨rfl, by simp⟩
            · intro _
              simp only [advance_error, List.length_append, List.length_singleton]
              omega
          · obtain ⟨f2, hc, herr, hb⟩ := ih h
            refine ⟨step_frame_trans f f2, hc, herr, ?_⟩
            intro _
            rw [← step_frame_trace_buf_size f]
            apply hb
            rw [step_frame_trace_buf_size f]
            simp only [List.length_append, List.length_singleton]
            omega
      · cases h

/-! ## The faults a node visit can raise -/

theorem string_fault {tree : Tree} {off : Nat} {e : Fault}
    (h : string tree off = .error e) : node_fault e = true := by
  unfold string at h
  split at h
  · cases h
  · simp only at h
    split at h
    · split at h
      · cases h
      · cases h; rfl
    · cases h; rfl

theorem record_changed_var_fault {vm : Vm} {name : dgmlrt_string} {e : Fault}
    (h : record_changed_var vm name = .error e) : node_fault e = true := by
  unfold record_changed_var at h
  split at h
  · cases h
  · split at h
    · cases h
    · cases h; rfl

theorem func_int_fault {f : BinFunc} {a b : Int} {e : Fault}
    (h : func_int f a b = .error e) : node_fault e = true := by
  unfold func_int at h
  cases f <;> simp only at h
  · split at h
    · cases h
    · cases h; rfl
  · split at h
    · cases h
    · cases h; rfl
  · split at h
    · cases h
    · cases h; rfl
  · split at h
    · cases h; rfl
    · split at h
      · cases h
      · cases h; rfl
  all_goals cases h

theorem func_bool_fault {f : BinFunc} {a b : Bool} {e : Fault}
    (h : func_bool f a b = .error e) : node_fault e = true := by
  unfold func_bool at h
  split at h <;> try cases h
  split at h
  · cases h
  · cases h; rfl

theorem binop_push_fault {fo : FloatOps} {f : BinFunc} {vm : Vm}
    {lhs rhs : dgmlrt_env_value} {e : Fault}
    (h : binop_push fo f vm lhs rhs = .error e) : node_fault e = true := by
  unfold binop_push at h
  split at h
  · split at h
    · rename_i hf; cases h; exact func_int_fault hf
    · cases h
  · cases h
  · cases h
  · cases h
  · split at h
    · rename_i hf; cases h; exact func_bool_fault hf
    · cases h
  · cases h

theorem binop_fault {fo : FloatOps} {allow_string : Bool} {f : BinFunc} {vm : Vm} {e : Fault}
    (h : binop fo allow_string f vm = .error e) : node_fault e = true := by
  unfold binop at h
  split at h
  · cases h
  · unfold binop_apply at h
    split at h
    · cases h
    · split at h
      · rename_i hp; cases h; exact binop_push_fault hp
      · split at h <;> cases h

theorem eval_op_fault {fo : FloatOps} {vm : Vm} {c : dgmlb_byte_code} {e : Fault}
    (h : eval_op fo vm c = .error e) : node_fault e = true := by
  unfold eval_op at h
  by_cases h0 : c.op = DGMLB_OP_PUSH_BOOL
  · rw [if_pos h0] at h
    cases h
  rw [if_neg h0] at h
  by_cases h1 : c.op = DGMLB_OP_PUSH_INT
  · rw [if_pos h1] at h
    cases h
  rw [if_neg h1] at h
  by_cases h2 : c.op = DGMLB_OP_PUSH_FLOAT
  · rw [if_pos h2] at h
    cases h
  rw [if_neg h2] at h
  by_cases h3 : c.op = DGMLB_OP_PUSH_STRING
  · rw [if_pos h3] at h
    split at h
    · rename_i hs; cases h; exact string_fault hs
    · cases h
  rw [if_neg h3] at h
  by_cases h4 : c.op = DGMLB_OP_GET_VAR
  · rw [if_pos h4] at h
    split at h
    · rename_i hs; cases h; exact string_fault hs
    · cases h
  rw [if_neg h4] at h
  by_cases h5 : c.op = DGMLB_OP_SET_VAR
  · rw [if_pos h5] at h
    split at h
    · rename_i hs; cases h; exact string_fault hs
    · split at h
      · rename_i hr; cases h; exact record_changed_var_fault hr
      · cases h
  rw [if_neg h5] at h
  by_cases h6 : c.op = DGMLB_OP_NOT
  · rw [if_pos h6] at h
    split at h <;> cases h
  rw [if_neg h6] at h
  by_cases h7 : c.op = DGMLB_OP_ADD
  · rw [if_pos h7] at h
    exact binop_fault h
  rw [if_neg h7] at h
  by_cases h8 : c.op = DGMLB_OP_SUB
  · rw [if_pos h8] at h
    exact binop_fault h
  rw [if_neg h8] at h
  by_cases h9 : c.op = DGMLB_OP_MUL
  · rw [if_pos h9] at h
    exact binop_fault h
  rw [if_neg h9] at h
  by_cases h10 : c.op = DGMLB_OP_DIV
  · rw [if_pos h10] at h
    split at h
    · cases h
    · exact binop_fault h
  rw [if_neg h10] at h
  by_cases h11 : c.op = DGMLB_OP_OR
  · rw [if_pos h11] at h
    exact binop_fault h
  rw [if_neg h11] at h
  by_cases h12 : c.op = DGMLB_OP_AND
  · rw [if_pos h12] at h
    exact binop_fault h
  rw [if_neg h12] at h
  by_cases h13 : c.op = DGMLB_OP_LT
  · rw [if_pos h13] at h
    exact binop_fault h
  rw [if_neg h13] at h
  by_cases h14 : c.op = DGMLB_OP_LE
  · rw [if_pos h14] at h
    exact binop_fault h
  rw [if_neg h14] at h
  by_cases h15 : c.op = DGMLB_OP_GT
  · rw [if_pos h15] at h
    exact binop_fault h
  rw [if_neg h15] at h
  by_cases h16 : c.op = DGMLB_OP_GE
  · rw [if_pos h16] at h
    exact binop_fault h
  rw [if_neg h16] at h
  by_cases h17 : c.op = DGMLB_OP_EQ
  · rw [if_pos h17] at h
    exact binop_fault h
  rw [if_neg h17] at h
  by_cases h18 : c.op = DGMLB_OP_NE
  · rw [if_pos h18] at h
    exact binop_fault h
  rw [if_neg h18] at h
  cases h

theorem eval_loop_fault {fo : FloatOps} :
    ∀ (code : List dgmlb_byte_code) {vm : Vm} {e : Fault},
      eval_loop fo vm code = .error e → node_fault e = true := by
  intro code
  induction code with
  | nil => intro vm e h; simp [eval_loop] at h
  | cons c rest ih =>
    intro vm e h
    unfold eval_loop at h
    split at h
    · rename_i ho; cases h; exact eval_op_fault ho
    · split at h
      · cases h
      · exact ih h

theorem eval_fault {fo : FloatOps} {vm : Vm} {code : List dgmlb_byte_code} {e : Fault}
    (h : eval fo vm code = .error e) : node_fault e = true := by
  unfold eval at h
  split at h
  · rename_i hl; cases h; exact eval_loop_fault _ hl
  · cases h

theorem interp_fault {vm : Vm} {chars : List Nat} {e : Fault}
    (h : interp vm chars = .error e) : node_fault e = true := by
  unfold interp at h
  split at h
  · cases h; rfl
  · split at h
    · split at h
      · cases h
      · cases h; rfl
    · cases h

theorem interpolate_loop_fault {fo : FloatOps} :
    ∀ (frags : List dgmlrt_text_fragment) (is_vars : List Bool) {vm : Vm} {e : Fault},
      interpolate_loop fo vm frags is_vars = .error e → node_fault e = true := by
  intro frags
  induction frags with
  | nil => intro is_vars vm e h; simp [interpolate_loop] at h
  | cons frag frags ih =>
    intro is_vars vm e h
    cases is_vars with
    | nil => simp [interpolate_loop] at h; rw [← h]; rfl
    | cons is_var is_vars =>
      unfold interpolate_loop at h
      simp only at h
      split at h
      · rename_i hw
        cases h
        split at hw
        · split at hw
          · cases hw
          · cases hw
          · exact interp_fault hw
          · exact interp_fault hw
          · cases hw
          · cases hw
        · cases hw
      · cases h
      · split at h
        · rename_i hl; cases h; exact ih _ hl
        · cases h
        · cases h

theorem interpolate_text_fault {fo : FloatOps} {vm : Vm} {text : Text} {e : Fault}
    (h : interpolate_text fo vm text = .error e) : node_fault e = true := by
  unfold interpolate_text at h
  split at h
  · split at h
    · rename_i hl; cases h; exact interpolate_loop_fault _ _ hl
    · cases h
    · cases h
  · cases h; rfl

theorem choice_loop_fault {fo : FloatOps} :
    ∀ (opts : List ChoiceOption) {vm : Vm} {e : Fault},
      choice_loop fo vm opts = .error e → node_fault e = true := by
  intro opts
  induction opts with
  | nil => intro vm e h; simp [choice_loop] at h
  | cons opt opts ih =>
    intro vm e h
    unfold choice_loop at h
    split at h
    · rename_i he; cases h; exact eval_fault he
    · split at h
      · cases h
      · simp only at h
        split at h
        · cases h
        · split at h
          · rename_i hi; cases h; exact interpolate_text_fault hi
          · cases h
          · split at h
            · rename_i hl; cases h; exact ih hl
            · cases h
            · cases h

theorem visit_node_fault {fo : FloatOps} {vm : Vm} {node : Node}
    {res : dgmlrt_advance_result} {e : Fault}
    (h : visit_node fo vm node res = .error e) : node_fault e = true := by
  unfold visit_node at h
  split at h
  · split at h
    · rename_i hi; cases h; exact interpolate_text_fault hi
    · cases h
    · cases h
  · split at h
    · split at h
      · rename_i hl; cases h; exact choice_loop_fault _ hl
      · cases h
      · cases h
    · cases h; rfl
  · cases h
  · split at h
    · rename_i he; cases h; exact eval_fault he
    · split at h
      · cases h
      · split at h <;> cases h
  · split at h
    · cases h
    · cases h; rfl
  · split at h
    · rename_i he; cases h; exact eval_fault he
    · split at h <;> cases h
  · cases h; rfl

theorem advance_loop_no_fuel {fo : FloatOps} {sec : Section} :
    ∀ (fuel : Nat) (vm : Vm) (res : dgmlrt_advance_result),
      vm.max_steps_per_advance + 1 ≤ res.visited_node_ids.length + fuel →
      (fuel = 0 → False) →
      advance_loop fo sec fuel vm res ≠ .error .fuel := by
  intro fuel
  induction fuel with
  | zero => intro vm res _ h0; exact absurd rfl h0
  | succ fuel ih =>
    intro vm res hf _ h
    unfold advance_loop at h
    split at h
    · cases h
    · split at h
      · simp only at h
        split at h
        · rename_i e hv
          cases h
          exact absurd (visit_node_fault hv) (by decide)
        · cases h
        · rename_i vm2 hv
          have f := visit_node_cont hv
          split at h
          · cases h
          · rename_i hlt
            rw [step_frame_max_steps f] at hlt
            simp only [List.length_append, List.length_singleton] at hlt
            refine ih vm2 _ ?_ ?_ h
            · rw [step_frame_max_steps f]
              simp only [List.length_append, List.length_singleton]
              omega
            · intro h0
              subst h0
              omega
      · cases h

theorem advance_loop_no_trace_oob {fo : FloatOps} {sec : Section} :
    ∀ (fuel : Nat) (vm : Vm) (res : dgmlrt_advance_result),
      vm.trace_buf_size = vm.max_steps_per_advance →
      res.visited_node_ids.length < vm.trace_buf_size →
      advance_loop fo sec fuel vm res ≠ .error .trace_oob := by
  intro fuel
  induction fuel with
  | zero => intro vm res _ _ h; simp [advance_loop] at h
  | succ fuel ih =>
    intro vm res ht hlen h
    unfold advance_loop at h
    split at h
    · cases h
    · split at h
      · simp only at h
        split at h
        · rename_i e hv
          cases h
          exact absurd (visit_node_fault hv) (by decide)
        · cases h
        · rename_i vm2 hv
          have f := visit_node_cont hv
          split at h
          · cases h
          · rename_i hlt
            rw [step_frame_max_steps f] at hlt
            simp only [List.length_append, List.length_singleton] at hlt
            refine ih vm2 _ ?_ ?_ h
            · rw [step_frame_max_steps f, step_frame_trace_buf_size f]; exact ht
            · rw [step_frame_trace_buf_size f]
              simp only [List.length_append, List.length_singleton]
              omega
      · rename_i hn
        exact hn hlen

/-! ## Option selection -/

theorem advance_option_eq (fo : FloatOps) (vm : Vm) (sec : Section) (node : Node)
    (choice : Choice) (k : Nat) (opt : ChoiceOption)
    (hsec : current_section vm = some sec)
    (hnode : sec.nodes[vm.current_node]? = some node)
    (hchoice : node.data = .choice choice)
    (hopt : choice.options[k]? = some opt) :
    dgmlrt_vm_advance fo vm (k : Int) =
      dgmlrt_vm_advance fo { vm with current_node := opt.dest } (-1) := by
  have hsec2 : current_section { vm with current_node := opt.dest } = some sec := hsec
  unfold dgmlrt_vm_advance
  rw [hsec, hsec2]
  simp only [Int.natCast_nonneg, ge_iff_le, if_true, hnode, hchoice, Int.toNat_ofNat, hopt]
  simp

/-- Claim C3: at a Choice node with an option `k`, `dgmlrt_vm_advance(vm, k)`
moves the cursor to `options[k].dest` and then does exactly what
`dgmlrt_vm_advance(vm, -1)` does from that cursor: same result, same final
machine.  The condition of the option plays no part. -/
theorem advance_option_selects_dest (fo : FloatOps) (vm : Vm) (sec : Section) (node : Node)
    (choice : Choice) (k : Nat) (opt : ChoiceOption)
    (hsec : current_section vm = some sec)
    (hnode : sec.nodes[vm.current_node]? = some node)
    (hchoice : node.data = .choice choice)
    (hopt : choice.options[k]? = some opt) :
    dgmlrt_vm_advance fo vm (k : Int) =
      dgmlrt_vm_advance fo { vm with current_node := opt.dest } (-1) :=
  advance_option_eq fo vm sec node choice k opt hsec hnode hchoice hopt

/-- Witness of C3 on scenario 3: option 0 is disabled (its condition is
`PUSH_BOOL 0`), and `advance(0)` still equals `advance(-1)` from node 1, which
says "yes". -/
theorem advance_option_selects_dest_witness :
    (dgmlrt_vm_advance sample_float_ops (sample_vm choice_nodes) (-1)).map (fun p => p.1.result) =
        .ok (DGMLRT_RESULT_TYPE_CHOICE
          ⟨[⟨[⟨[], [97]⟩], false⟩, ⟨[⟨[], [98]⟩], true⟩]⟩) ∧
      dgmlrt_vm_advance sample_float_ops (sample_vm choice_nodes) ((0 : Nat) : Int) =
        dgmlrt_vm_advance sample_float_ops
          { sample_vm choice_nodes with current_node := 1 } (-1) ∧
      (dgmlrt_vm_advance sample_float_ops (sample_vm choice_nodes) 0).map (fun p => p.1.result) =
        .ok (DGMLRT_RESULT_TYPE_SAY ⟨[65], [⟨[], [121, 101, 115]⟩]⟩) :=
  ⟨by decide,
   advance_option_selects_dest sample_float_ops (sample_vm choice_nodes)
     ⟨[115], choice_nodes, 0⟩ _ _ 0 ⟨literal_text [97], [⟨DGMLB_OP_PUSH_BOOL, 0⟩], 1⟩
     rfl rfl rfl rfl,
   by decide⟩

/-- Claim C4, as the code has it: with `k >= 0` and the cursor on a node of the
section, `dgmlrt_vm_advance(vm, k)` returns the `InvalidOption` error, and
leaves the machine as it was, unless the node at the cursor is a Choice node
with more than `k` options; and when it is such a node the call is accepted and
continues from `options[k].dest`.  What the preceding advance returned is not
recorded and plays no part. -/
theorem advance_invalid_option (fo : FloatOps) (vm : Vm) (sec : Section) (node : Node) (k : Int)
    (hsec : current_section vm = some sec)
    (hnode : sec.nodes[vm.current_node]? = some node)
    (hk : 0 ≤ k) :
    ((∀ choice, node.data = .choice choice → choice.options.length ≤ k.toNat) →
      dgmlrt_vm_advance fo vm k = .ok (invalid_option_result, vm)) ∧
    (∀ choice opt, node.data = .choice choice → choice.options[k.toNat]? = some opt →
      dgmlrt_vm_advance fo vm k =
        dgmlrt_vm_advance fo { vm with current_node := opt.dest } (-1)) := by
  constructor
  · intro hbad
    unfold dgmlrt_vm_advance
    rw [hsec]
    simp only [ge_iff_le, hk, if_true, hnode]
    cases hd : node.data with
    | choice choice =>
      have hlen := hbad choice hd
      have hnone : choice.options[k.toNat]? = none := by
        rw [List.getElem?_eq_none_iff]; exact hlen
      simp only [hnone]
      rfl
    | invalid => rfl
    | goto_ g => rfl
    | if_ i => rfl
    | rand r => rfl
    | run r => rfl
    | say s => rfl
  · intro choice opt hchoice hopt
    have h := advance_option_eq fo vm sec node choice k.toNat opt hsec hnode hchoice hopt
    rw [Int.toNat_of_nonneg hk] at h
    exact h

/-- Witness of the amended C4: on a Say node, `advance(0)` is rejected and the
machine is unchanged. -/
theorem advance_invalid_option_witness :
    dgmlrt_vm_advance sample_float_ops (sample_vm say_then_choice_nodes) 0 =
      .ok (invalid_option_result, sample_vm say_then_choice_nodes) :=
  (advance_invalid_option sample_float_ops (sample_vm say_then_choice_nodes)
    ⟨[115], say_then_choice_nodes, 0⟩ _ 0 rfl rfl (by decide)).1
    (by intro choice h; cases h)

/-- Claim C4 fails as stated: the first advance returns Say (not Choice), its
next node is a Choice node, and the following `advance(0)` is not rejected
with `InvalidOption`: it selects option 0 and returns End. -/
theorem advance_option_after_say_accepted :
    (run_advances sample_float_ops (sample_vm say_then_choice_nodes) [-1, 0]).map
        (fun p => p.1.map (fun r => r.result)) =
      .ok [DGMLRT_RESULT_TYPE_SAY ⟨[65], [⟨[], [104, 105]⟩]⟩, DGMLRT_RESULT_TYPE_END] := by
  decide

/-! ## The trace buffer -/

theorem trace_sized_create (tree : Tree) (params : dgmlrt_vm_create_params) (now : Nat) :
    trace_sized (dgmlrt_vm_create tree params now) := by
  unfold trace_sized dgmlrt_vm_create
  refine ⟨rfl, ?_⟩
  simp only
  split <;> omega

theorem trace_sized_enter (vm : Vm) (sect node_id : Option (List Nat)) (h : trace_sized vm) :
    trace_sized (dgmlrt_vm_enter vm sect node_id).2 := by
  unfold dgmlrt_vm_enter
  split
  · exact h
  · split
    · exact h
    · split
      · split
        · exact h
        · split
          · exact h
          · exact h
      · exact h

theorem trace_sized_set (vm : Vm) (name : dgmlrt_string) (v : dgmlrt_env_value)
    (h : trace_sized vm) : trace_sized (dgmlrt_vm_set_env_value vm name v).2 := h

theorem trace_sized_step {vm vm1 : Vm} (f : step_frame vm vm1) (h : trace_sized vm) :
    trace_sized vm1 := by
  unfold trace_sized at *
  rw [step_frame_max_steps f, step_frame_trace_buf_size f]
  exact h

theorem advance_ok {fo : FloatOps} {vm vm1 : Vm} {k : Int} {r : dgmlrt_advance_result}
    (h : dgmlrt_vm_advance fo vm k = .ok (r, vm1)) :
    step_frame vm vm1 ∧ r.changed_vars = [] ∧
      (r.visited_node_ids.length ≤ vm.trace_buf_size) := by
  unfold dgmlrt_vm_advance at h
  split at h
  · cases h
  · simp only at h
    split at h
    · split at h
      · cases h
      · split at h
        · split at h
          · cases h
            exact ⟨rfl, rfl, Nat.zero_le _⟩
          · obtain ⟨f, hc, _, hb⟩ := advance_loop_ok _ h
            exact ⟨step_frame_trans (by exact rfl) f, hc, hb (Nat.zero_le _)⟩
        · cases h
          exact ⟨rfl, rfl, Nat.zero_le _⟩
    · obtain ⟨f, hc, _, hb⟩ := advance_loop_ok _ h
      exact ⟨step_frame_trans (by exact rfl) f, hc, hb (Nat.zero_le _)⟩

/-- Claim C5: on a machine whose trace buffer has `max_steps_per_advance`
entries (at least one, as `dgmlrt_vm_create` sizes it), for every
`option_index`, a call of `dgmlrt_vm_advance` never writes past the trace
buffer, the loop ends within the step budget, and every result it returns has
`num_visited_node_ids <= max_steps_per_advance`. -/
theorem advance_visited_within_budget (fo : FloatOps) (vm : Vm) (option_index : Int)
    (h : trace_sized vm) :
    dgmlrt_vm_advance fo vm option_index ≠ .error .trace_oob ∧
      dgmlrt_vm_advance fo vm option_index ≠ .error .fuel ∧
      ∀ r vm1, dgmlrt_vm_advance fo vm option_index = .ok (r, vm1) →
        r.num_visited_node_ids ≤ vm.max_steps_per_advance ∧ trace_sized vm1 := by
  refine ⟨?_, ?_, ?_⟩
  · intro he
    unfold dgmlrt_vm_advance at he
    split at he
    · cases he
    · simp only at he
      split at he
      · split at he
        · cases he
        · split at he
          · split at he
            · cases he
            · refine advance_loop_no_trace_oob _ _ empty_result ?_ ?_ he
              · exact h.1
              · show 0 < vm.trace_buf_size
                rw [h.1]; exact h.2
          · cases he
      · refine advance_loop_no_trace_oob _ _ empty_result ?_ ?_ he
        · exact h.1
        · show 0 < vm.trace_buf_size
          rw [h.1]; exact h.2
  · intro he
    unfold dgmlrt_vm_advance at he
    split at he
    · cases he
    · simp only at he
      split at he
      · split at he
        · cases he
        · split at he
          · split at he
            · cases he
            · exact advance_loop_no_fuel _ _ empty_result (Nat.le_add_left _ _) (by omega) he
          · cases he
      · exact advance_loop_no_fuel _ _ empty_result (Nat.le_add_left _ _) (by omega) he
  · intro r vm1 hr
    obtain ⟨f, _, hb⟩ := advance_ok hr
    refine ⟨?_, trace_sized_step f h⟩
    rw [← h.1]
    exact hb

set_option maxRecDepth 100000 in
/-- Witness of C5 on scenario 5 (`Goto { next: 0 }`, default budget 128): the
advance stops with `MaxIterations` after exactly 128 visits. -/
theorem advance_visited_within_budget_witness :
    trace_sized (sample_vm goto_self_nodes) ∧
      (dgmlrt_vm_advance sample_float_ops (sample_vm goto_self_nodes) (-1)).map
          (fun p => (p.1.result, p.1.num_visited_node_ids)) =
        .ok (DGMLRT_RESULT_TYPE_ERROR ⟨DGMLRT_ERROR_MAX_ITERATIONS, "Exceeded max iterations"⟩,
             128) ∧
      (dgmlrt_vm_advance sample_float_ops (sample_vm goto_self_nodes) (-1) ≠ .error .trace_oob ∧
        dgmlrt_vm_advance sample_float_ops (sample_vm goto_self_nodes) (-1) ≠ .error .fuel ∧
        ∀ r vm1, dgmlrt_vm_advance sample_float_ops (sample_vm goto_self_nodes) (-1) =
            .ok (r, vm1) →
          r.num_visited_node_ids ≤ (sample_vm goto_self_nodes).max_steps_per_advance ∧
            trace_sized vm1) :=
  ⟨⟨rfl, by decide⟩, by decide,
   advance_visited_within_budget sample_float_ops (sample_vm goto_self_nodes) (-1)
     ⟨rfl, by decide⟩⟩

/-! ## Changed variables -/

/-- Claim C6, what the code does instead: scenario 1 executes `SET_VAR "n"`
during the first advance (afterwards `n` is 1 and the machine has recorded the
name in its own list), and yet the returned Say result lists no changed
variable and has `num_changed_vars = 0`. -/
theorem advance_reports_no_changed_vars :
    (dgmlrt_vm_advance sample_float_ops (sample_vm run_say_nodes) (-1)).map
        (fun p => (p.1.result, p.1.changed_vars, p.1.num_changed_vars)) =
      .ok (DGMLRT_RESULT_TYPE_SAY ⟨[65], [⟨[], [110, 61]⟩, ⟨[], [49]⟩]⟩, [], 0) ∧
    (dgmlrt_vm_advance sample_float_ops (sample_vm run_say_nodes) (-1)).map
        (fun p => (p.2.changed_vars_buf, dgmlrt_vm_get_env_value p.2 [110])) =
      .ok ([[110]], .int 1) := by
  decide

/-! ## The sticky error -/

theorem eval_keeps_error {fo : FloatOps} {vm vm1 : Vm} {code : List dgmlb_byte_code}
    {r : Option dgmlrt_env_value} (h : eval fo vm code = .ok (vm1, r))
    (he : vm.error.code ≠ DGMLRT_ERROR_NONE) : vm1.error.code ≠ DGMLRT_ERROR_NONE := by
  rcases (eval_frame_eval h).2 with h2 | h2
  · rw [h2]; exact he
  · rw [h2]; decide

theorem eval_frame_current_node {vm vm1 : Vm} (h : eval_frame vm vm1) :
    vm1.current_node = vm.current_node := by
  have h1 := h.1
  rw [h1]

theorem advance_neg_ok {fo : FloatOps} {vm vm1 : Vm} {r : dgmlrt_advance_result}
    (h : dgmlrt_vm_advance fo vm (-1) = .ok (r, vm1)) :
    ∀ e, r.result = DGMLRT_RESULT_TYPE_ERROR e → vm1.error = e ∧ e.code ≠ DGMLRT_ERROR_NONE := by
  unfold dgmlrt_vm_advance at h
  split at h
  · cases h
  · simp only at h
    rw [if_neg (by decide)] at h
    exact (advance_loop_ok _ h).2.2.1

/-- The first iteration of the loop of `advance` on a Run or If node when an
error is already recorded: a fault of the evaluation, or the error again with
the cursor where it was. -/
theorem advance_loop_sticky {fo : FloatOps} {sec : Section} (fuel : Nat) (vm : Vm) (node : Node)
    (res : dgmlrt_advance_result)
    (hnode : sec.nodes[vm.current_node]? = some node)
    (hkind : (∃ run, node.data = .run run) ∨ (∃ i, node.data = .if_ i))
    (hroom : res.visited_node_ids.length < vm.trace_buf_size)
    (he : vm.error.code ≠ DGMLRT_ERROR_NONE) :
    (∃ f, advance_loop fo sec (fuel + 1) vm res = .error f ∧ node_fault f = true) ∨
    (∃ r vm1 e, advance_loop fo sec (fuel + 1) vm res = .ok (r, vm1) ∧
      r.result = DGMLRT_RESULT_TYPE_ERROR e ∧ e.code ≠ DGMLRT_ERROR_NONE ∧ vm1.error = e ∧
      vm1.current_node = vm.current_node) := by
  unfold advance_loop
  simp only [hnode, hroom, if_true]
  rcases hkind with ⟨run, hd⟩ | ⟨i, hd⟩
  · unfold visit_node
    simp only [hd]
    cases hev : eval fo vm run.code with
    | error f => exact Or.inl ⟨f, rfl, eval_fault hev⟩
    | ok p =>
      obtain ⟨vm1, v⟩ := p
      have hk := eval_keeps_error hev he
      simp only [hk, ne_eq, not_false_eq_true, if_true]
      exact Or.inr ⟨_, _, vm1.error, rfl, rfl, hk, rfl,
        eval_frame_current_node (eval_frame_eval hev)⟩
  · unfold visit_node
    simp only [hd]
    cases hev : eval fo vm i.cond with
    | error f => exact Or.inl ⟨f, rfl, eval_fault hev⟩
    | ok p =>
      obtain ⟨vm1, v⟩ := p
      have hk := eval_keeps_error hev he
      simp only [hk, ne_eq, not_false_eq_true, if_true]
      exact Or.inr ⟨_, _, vm1.error, rfl, rfl, hk, rfl,
        eval_frame_current_node (eval_frame_eval hev)⟩

theorem step_frame_current_section {vm vm1 : Vm} (h : step_frame vm vm1) :
    current_section vm1 = current_section vm := by
  unfold step_frame at h
  unfold current_section
  rw [h]

/-- Claim C7, as the code has it: an error returned by `advance(vm, -1)` stays
recorded in the machine and nothing clears it.  Whatever the host then stores
with `dgmlrt_vm_set_env_value`, if the cursor is on a Run or If node the next
`advance(vm, -1)` makes no progress: it ends in a fault of the evaluation or
returns an Error result again, with the cursor still on that node. -/
theorem advance_after_error_repeats (fo : FloatOps) (vm vm1 : Vm) (r1 : dgmlrt_advance_result)
    (e : dgmlrt_advance_error) (name : dgmlrt_string) (value : dgmlrt_env_value)
    (sec : Section) (node : Node)
    (hsized : trace_sized vm)
    (h1 : dgmlrt_vm_advance fo vm (-1) = .ok (r1, vm1))
    (he : r1.result = DGMLRT_RESULT_TYPE_ERROR e)
    (hsec : current_section vm = some sec)
    (hnode : sec.nodes[vm1.current_node]? = some node)
    (hkind : (∃ run, node.data = .run run) ∨ (∃ i, node.data = .if_ i)) :
    (∃ f, dgmlrt_vm_advance fo (dgmlrt_vm_set_env_value vm1 name value).2 (-1) = .error f ∧
      node_fault f = true) ∨
    (∃ r2 vm3 e2, dgmlrt_vm_advance fo (dgmlrt_vm_set_env_value vm1 name value).2 (-1) =
        .ok (r2, vm3) ∧
      r2.result = DGMLRT_RESULT_TYPE_ERROR e2 ∧ e2.code ≠ DGMLRT_ERROR_NONE ∧ vm3.error = e2 ∧
      vm3.current_node = vm1.current_node) := by
  obtain ⟨f, _, _⟩ := advance_ok h1
  obtain ⟨herr, hcode⟩ := advance_neg_ok h1 e he
  have hs1 := trace_sized_step f hsized
  have hsec2 : current_section (dgmlrt_vm_set_env_value vm1 name value).2 = some sec := by
    rw [← hsec, ← step_frame_current_section f]
    rfl
  unfold dgmlrt_vm_advance
  rw [hsec2]
  simp only
  rw [if_neg (by decide)]
  refine advance_loop_sticky _ _ node empty_result hnode hkind ?_ ?_
  · show 0 < vm1.trace_buf_size
    rw [hs1.1]; exact hs1.2
  · show vm1.error.code ≠ DGMLRT_ERROR_NONE
    rw [herr]; exact hcode

theorem advance_eq_res_vm {fo : FloatOps} {vm : Vm} {k : Int}
    (h : (dgmlrt_vm_advance fo vm k).toBool = true) :
    dgmlrt_vm_advance fo vm k = .ok (advance_res fo vm k, advance_vm fo vm k) := by
  unfold advance_res advance_vm
  cases hd : dgmlrt_vm_advance fo vm k with
  | ok p => rfl
  | error f => rw [hd] at h; cases h

/-- Witness of the amended C7 on `div_nodes`: the first advance fails on the
division by `d = 0`; after the host sets `d` to 1 the next advance is an Error
again. -/
theorem advance_after_error_repeats_witness :
    (∃ f, dgmlrt_vm_advance sample_float_ops
        (dgmlrt_vm_set_env_value (advance_vm sample_float_ops (sample_vm div_nodes) (-1))
          [100] (.int 1)).2 (-1) = .error f ∧ node_fault f = true) ∨
    (∃ r2 vm3 e2, dgmlrt_vm_advance sample_float_ops
        (dgmlrt_vm_set_env_value (advance_vm sample_float_ops (sample_vm div_nodes) (-1))
          [100] (.int 1)).2 (-1) = .ok (r2, vm3) ∧
      r2.result = DGMLRT_RESULT_TYPE_ERROR e2 ∧ e2.code ≠ DGMLRT_ERROR_NONE ∧ vm3.error = e2 ∧
      vm3.current_node = (advance_vm sample_float_ops (sample_vm div_nodes) (-1)).current_node) :=
  advance_after_error_repeats sample_float_ops (sample_vm div_nodes)
    (advance_vm sample_float_ops (sample_vm div_nodes) (-1))
    (advance_res sample_float_ops (sample_vm div_nodes) (-1))
    ⟨DGMLRT_ERROR_EVAL_FAIL, "division by zero"⟩ [100] (.int 1)
    ⟨[115], div_nodes, 0⟩ div_run_node
    ⟨rfl, by decide⟩ (advance_eq_res_vm (by decide)) (by decide) rfl (by decide)
    (Or.inl ⟨_, rfl⟩)

/-- Claim C7 fails as stated.  On `div_nodes` the first advance returns
`EvalFail` ("division by zero") at the Run node because `d` is 0.  The host
sets `d` to 1, which succeeds, yet the next advance returns the same error.  A
machine on which `d` was set to 1 before any advance has the same variables,
cursor, section and generator state, and its advance returns Say: the result
does depend on the error an earlier advance recorded. -/
theorem advance_after_fix_still_fails :
    (dgmlrt_vm_advance sample_float_ops (sample_vm div_nodes) (-1)).map
        (fun p => (p.1.result, (dgmlrt_vm_set_env_value p.2 [100] (.int 1)).1)) =
      .ok (DGMLRT_RESULT_TYPE_ERROR ⟨DGMLRT_ERROR_EVAL_FAIL, "division by zero"⟩, true) ∧
    (dgmlrt_vm_advance sample_float_ops
        (dgmlrt_vm_set_env_value (advance_vm sample_float_ops (sample_vm div_nodes) (-1))
          [100] (.int 1)).2 (-1)).map (fun p => (p.1.result, p.2.current_node)) =
      .ok (DGMLRT_RESULT_TYPE_ERROR ⟨DGMLRT_ERROR_EVAL_FAIL, "division by zero"⟩, 0) ∧
    (dgmlrt_vm_advance sample_float_ops
        (dgmlrt_vm_set_env_value (sample_vm div_nodes) [100] (.int 1)).2 (-1)).map
        (fun p => p.1.result) =
      .ok (DGMLRT_RESULT_TYPE_SAY ⟨[65], [⟨[], [104, 105]⟩]⟩) ∧
    (dgmlrt_vm_set_env_value (advance_vm sample_float_ops (sample_vm div_nodes) (-1))
        [100] (.int 1)).2.env_vars =
      (dgmlrt_vm_set_env_value (sample_vm div_nodes) [100] (.int 1)).2.env_vars ∧
    (advance_vm sample_float_ops (sample_vm div_nodes) (-1)).current_node =
      (sample_vm div_nodes).current_node ∧
    (advance_vm sample_float_ops (sample_vm div_nodes) (-1)).current_section =
      (sample_vm div_nodes).current_section ∧
    (advance_vm sample_float_ops (sample_vm div_nodes) (-1)).rng_func_ctx =
      (sample_vm div_nodes).rng_func_ctx := by
  decide

/-! ## Round trip through a variable -/

theorem eval_op_push (fo : FloatOps) (vm : Vm) {op x : Nat} {v : dgmlrt_env_value}
    (h : pushed_value vm.tree op x = some v) : eval_op fo vm ⟨op, x⟩ = .ok (push vm v) := by
  unfold pushed_value at h
  unfold eval_op
  simp only
  by_cases h1 : op = DGMLB_OP_PUSH_BOOL
  · rw [if_pos h1] at h ⊢; cases h; rfl
  rw [if_neg h1] at h ⊢
  by_cases h2 : op = DGMLB_OP_PUSH_INT
  · rw [if_pos h2] at h ⊢; cases h; rfl
  rw [if_neg h2] at h ⊢
  by_cases h3 : op = DGMLB_OP_PUSH_FLOAT
  · rw [if_pos h3] at h ⊢; cases h; rfl
  rw [if_neg h3] at h ⊢
  by_cases h4 : op = DGMLB_OP_PUSH_STRING
  · rw [if_pos h4] at h ⊢
    cases hs : string vm.tree x with
    | error e => rw [hs] at h; cases h
    | ok s => rw [hs] at h; cases h; rfl
  rw [if_neg h4] at h
  cases h

theorem set_loop_true {name : dgmlrt_string} {v : dgmlrt_env_value} {l : List EnvVar}
    {ev : EnvVar} (hvar : find_env_var name l = some ev) (htype : ev.value.type = v.type)
    (hlen : ∀ s, v = .string s → s.length < ev.string_buf_size) :
    (set_env_value_loop name v l).1 = true := by
  cases hb : (set_env_value_loop name v l).1 with
  | true => rfl
  | false =>
    have h := (set_loop_fails_iff name v l).mp hb
    rw [hvar] at h
    simp only [htype, bne_self_eq_false, Bool.false_or] at h
    cases v with
    | string s =>
      have := hlen s rfl
      simp only [decide_eq_true_eq] at h
      omega
    | unset => cases h
    | bool b => cases h
    | int i => cases h
    | float f => cases h
    | other t => cases h

theorem eval_op_set_var (fo : FloatOps) (vm : Vm) (p : Nat) {name : dgmlrt_string}
    (v : dgmlrt_env_value) (rest : List dgmlrt_env_value)
    (hname : string vm.tree p = .ok name) (hstack : vm.stack = v :: rest)
    (hroom : vm.changed_vars_buf.any (fun cv => str_eq cv name) = true ∨
      vm.changed_vars_buf.length < vm.changed_vars_buf_size) :
    ∃ cv, eval_op fo vm ⟨DGMLB_OP_SET_VAR, p⟩ =
      .ok { vm with changed_vars_buf := cv, stack := rest,
                    env_vars := (set_env_value_loop name v vm.env_vars).2 } := by
  unfold eval_op
  simp only [DGMLB_OP_SET_VAR, DGMLB_OP_PUSH_BOOL, DGMLB_OP_PUSH_INT, DGMLB_OP_PUSH_FLOAT,
    DGMLB_OP_PUSH_STRING, DGMLB_OP_GET_VAR, hname]
  simp only [Nat.reduceEqDiff, if_false, if_true]
  unfold record_changed_var
  by_cases hany : vm.changed_vars_buf.any (fun cv => str_eq cv name) = true
  · rw [if_pos hany]
    refine ⟨vm.changed_vars_buf, ?_⟩
    simp only [pop, hstack, dgmlrt_vm_set_env_value]
  · rw [if_neg hany]
    have hlt : vm.changed_vars_buf.length < vm.changed_vars_buf_size := by
      rcases hroom with h | h
      · exact absurd h hany
      · exact h
    rw [if_pos hlt]
    refine ⟨vm.changed_vars_buf ++ [name], ?_⟩
    simp only [pop, hstack, dgmlrt_vm_set_env_value]

theorem eval_op_get_var (fo : FloatOps) (vm : Vm) (p : Nat) {name : dgmlrt_string}
    (hname : string vm.tree p = .ok name) :
    eval_op fo vm ⟨DGMLB_OP_GET_VAR, p⟩ = .ok (push vm (dgmlrt_vm_get_env_value vm name)) := by
  unfold eval_op
  simp only [DGMLB_OP_SET_VAR, DGMLB_OP_PUSH_BOOL, DGMLB_OP_PUSH_INT, DGMLB_OP_PUSH_FLOAT,
    DGMLB_OP_PUSH_STRING, DGMLB_OP_GET_VAR, hname]
  simp only [Nat.reduceEqDiff, if_false, if_true]

theorem push_room {vm : Vm} {v : dgmlrt_env_value} (h : vm.stack.length < vm.stack_capacity) :
    push vm v = { vm with stack := v :: vm.stack } := by
  unfold push
  rw [if_neg (by omega)]

/-- The round trip while the changed-vars buffer lists the name or has room
for it: on a machine with no recorded error, for a variable that exists with
the type of the pushed value, the program `PUSH_X x; SET_VAR v; GET_VAR v`
evaluates without error, its result is exactly the value `PUSH_X x` pushes
(bool, 64-bit integer, float bits, or string bytes when the string is shorter
than the variable's capacity), and `dgmlrt_vm_get_env_value` returns that value
afterwards. -/
theorem push_set_get_round_trip (fo : FloatOps) (vm : Vm) (op x p : Nat) (name : dgmlrt_string)
    (v : dgmlrt_env_value) (ev : EnvVar)
    (herr : vm.error.code = DGMLRT_ERROR_NONE)
    (hcap : 0 < vm.stack_capacity)
    (hpush : pushed_value vm.tree op x = some v)
    (hname : string vm.tree p = .ok name)
    (hvar : find_env_var name vm.env_vars = some ev)
    (htype : ev.value.type = v.type)
    (hlen : ∀ s, v = .string s → s.length < ev.string_buf_size)
    (hroom : vm.changed_vars_buf.any (fun cv => str_eq cv name) = true ∨
      vm.changed_vars_buf.length < vm.changed_vars_buf_size) :
    ∃ vm1, eval fo vm [⟨op, x⟩, ⟨DGMLB_OP_SET_VAR, p⟩, ⟨DGMLB_OP_GET_VAR, p⟩] =
        .ok (vm1, some v) ∧
      vm1.error.code = DGMLRT_ERROR_NONE ∧ vm1.stack = [v] ∧
      dgmlrt_vm_get_env_value vm1 name = v := by
  have hset := set_loop_true hvar htype hlen
  have hget := get_after_set_loop name v vm.env_vars hset
  have h1 : eval_op fo { vm with stack := [] } ⟨op, x⟩ =
      .ok { vm with stack := [v] } := by
    rw [eval_op_push fo { vm with stack := [] } hpush]
    rw [push_room (by simpa using hcap)]
  obtain ⟨cv, h2⟩ := eval_op_set_var fo { vm with stack := [v] } p v [] hname rfl hroom
  have h3 := eval_op_get_var fo
    { vm with changed_vars_buf := cv, stack := [],
              env_vars := (set_env_value_loop name v vm.env_vars).2 } p hname
  rw [push_room (by simpa using hcap)] at h3
  have hg : dgmlrt_vm_get_env_value
      { vm with changed_vars_buf := cv, stack := [],
                env_vars := (set_env_value_loop name v vm.env_vars).2 } name = v := hget
  rw [hg] at h3
  refine ⟨{ vm with changed_vars_buf := cv, stack := [v],
                    env_vars := (set_env_value_loop name v vm.env_vars).2 }, ?_, herr, rfl, hget⟩
  unfold eval
  simp only [eval_loop, h1, h2, h3, herr, ne_eq, not_true_eq_false, if_false, List.head?_cons]
  rfl

/-- The round trip on the sample machine, for `PUSH_STRING "hi"; SET_VAR "s";
GET_VAR "s"`: the result is the string "hi". -/
theorem push_set_get_round_trip_witness :
    ∃ vm1, eval sample_float_ops (sample_vm [])
        [⟨DGMLB_OP_PUSH_STRING, 82⟩, ⟨DGMLB_OP_SET_VAR, 58⟩, ⟨DGMLB_OP_GET_VAR, 58⟩] =
        .ok (vm1, some (.string [104, 105])) ∧
      vm1.error.code = DGMLRT_ERROR_NONE ∧ vm1.stack = [.string [104, 105]] ∧
      dgmlrt_vm_get_env_value vm1 [115] = .string [104, 105] :=
  push_set_get_round_trip sample_float_ops (sample_vm []) DGMLB_OP_PUSH_STRING 82 58 [115]
    (.string [104, 105]) ⟨[115], .string [], 128⟩
    (by decide) (by decide) (by decide) (by decide) (by decide) (by decide)
    (by intro s h; cases h; decide) (Or.inr (by decide))

/-! ## Division -/

theorem eval_loop_append {fo : FloatOps} :
    ∀ (pre post : List dgmlb_byte_code) (vm vm1 : Vm),
      eval_loop fo vm pre = .ok (vm1, true) →
      eval_loop fo vm (pre ++ post) = eval_loop fo vm1 post := by
  intro pre
  induction pre with
  | nil => intro post vm vm1 h; simp [eval_loop] at h; rw [h]; rfl
  | cons c pre ih =>
    intro post vm vm1 h
    rw [List.cons_append]
    simp only [eval_loop] at h ⊢
    cases hop : eval_op fo vm c with
    | error e => rw [hop] at h; cases h
    | ok vm2 =>
      rw [hop] at h
      simp only at h ⊢
      by_cases hc : vm2.error.code ≠ DGMLRT_ERROR_NONE
      · rw [if_pos hc] at h; cases h
      · rw [if_neg hc] at h ⊢
        exact ih post vm2 vm1 h

theorem eval_loop_completed {fo : FloatOps} :
    ∀ (code : List dgmlb_byte_code) (vm vm1 : Vm),
      eval_loop fo vm code = .ok (vm1, true) → code ≠ [] →
      vm1.error.code = DGMLRT_ERROR_NONE := by
  intro code
  induction code with
  | nil => intro vm vm1 _ h; exact absurd rfl h
  | cons c rest ih =>
    intro vm vm1 h _
    unfold eval_loop at h
    cases hop : eval_op fo vm c with
    | error e => rw [hop] at h; cases h
    | ok vm2 =>
      rw [hop] at h
      simp only at h
      by_cases hc : vm2.error.code ≠ DGMLRT_ERROR_NONE
      · rw [if_pos hc] at h; cases h
      · rw [if_neg hc] at h
        cases rest with
        | nil =>
          simp only [eval_loop] at h
          cases h
          exact not_not.mp hc
        | cons c2 rest2 => exact ih vm2 vm1 h (by simp)

theorem eval_op_div_int_zero (fo : FloatOps) (vm : Vm) (p : Nat) (a : Int)
    (rest : List dgmlrt_env_value) (hstack : vm.stack = .int 0 :: .int a :: rest) :
    eval_op fo vm ⟨DGMLB_OP_DIV, p⟩ =
      .ok { vm with error := ⟨DGMLRT_ERROR_EVAL_FAIL, "division by zero"⟩ } := by
  unfold eval_op
  simp only [DGMLB_OP_SET_VAR, DGMLB_OP_PUSH_BOOL, DGMLB_OP_PUSH_INT, DGMLB_OP_PUSH_FLOAT,
    DGMLB_OP_PUSH_STRING, DGMLB_OP_GET_VAR, DGMLB_OP_NOT, DGMLB_OP_ADD, DGMLB_OP_SUB,
    DGMLB_OP_MUL, DGMLB_OP_DIV]
  simp only [Nat.reduceEqDiff, if_false, if_true]
  simp [div_by_zero_guard, hstack]

theorem eval_op_div_float (fo : FloatOps) (vm : Vm) (p : Nat) (a b : Nat)
    (rest : List dgmlrt_env_value) (hstack : vm.stack = .float b :: .float a :: rest)
    (hcap : rest.length < vm.stack_capacity) :
    eval_op fo vm ⟨DGMLB_OP_DIV, p⟩ = .ok { vm with stack := .float (fo.div a b) :: rest } := by
  unfold eval_op
  simp only [DGMLB_OP_SET_VAR, DGMLB_OP_PUSH_BOOL, DGMLB_OP_PUSH_INT, DGMLB_OP_PUSH_FLOAT,
    DGMLB_OP_PUSH_STRING, DGMLB_OP_GET_VAR, DGMLB_OP_NOT, DGMLB_OP_ADD, DGMLB_OP_SUB,
    DGMLB_OP_MUL, DGMLB_OP_DIV]
  simp only [Nat.reduceEqDiff, if_false, if_true]
  have hg : div_by_zero_guard vm.stack = false := by simp [div_by_zero_guard, hstack]
  have hp1 : pop vm = (.float b, { vm with stack := .float a :: rest }) := by
    simp [pop, hstack]
  have hp2 : pop { vm with stack := .float a :: rest } = (.float a, { vm with stack := rest }) := by
    simp [pop]
  rw [hg]
  simp only [Bool.false_eq_true, if_false]
  unfold binop
  rw [hp1]
  simp only [hp2]
  simp only [dgmlrt_env_value.type, DGMLRT_ENV_VALUE_UNSET]
  simp only [Nat.reduceEqDiff, or_self, if_false]
  unfold binop_apply binop_push binop_push_string
  simp only [dgmlrt_env_value.type, is_num_type, DGMLRT_ENV_VALUE_INT, DGMLRT_ENV_VALUE_FLOAT,
    func_float]
  have hpush : push { vm with stack := rest } (.float (fo.div a b)) =
      { vm with stack := .float (fo.div a b) :: rest } := by
    rw [push_room (by simpa using hcap)]
  simp [hpush]

theorem eval_div_int_zero (fo : FloatOps) (vm vmp : Vm) (pre post : List dgmlb_byte_code)
    (p : Nat) (a : Int) (rest : List dgmlrt_env_value)
    (hpre : eval_loop fo { vm with stack := [] } pre = .ok (vmp, true))
    (hstack : vmp.stack = .int 0 :: .int a :: rest) :
    eval fo vm (pre ++ ⟨DGMLB_OP_DIV, p⟩ :: post) =
      .ok ({ vmp with error := ⟨DGMLRT_ERROR_EVAL_FAIL, "division by zero"⟩ }, none) := by
  unfold eval
  rw [eval_loop_append pre _ _ vmp hpre]
  simp only [eval_loop, eval_op_div_int_zero fo vmp p a rest hstack]
  simp

/-- Claim C10: (1) when DIV is executed with `Int(a)` below `Int(0)` on top of
the stack, for every `a`, the error `EvalFail` with message "division by zero"
is recorded; (2) when a Run node's code reaches such a DIV, the evaluation
returns the null pointer and `advance` returns an Error result with that error,
at that node, with the cursor still on the Run node; (3) when DIV is executed
with two floats, whatever the divisor (zero included), no error is recorded and
the float quotient is pushed. -/
theorem div_by_zero_int_fails_float_pushes (fo : FloatOps) (vm vmp : Vm) (sec : Section)
    (node : Node) (run : Run) (pre post : List dgmlb_byte_code) (p : Nat) (a : Int)
    (rest : List dgmlrt_env_value)
    (hsec : current_section vm = some sec)
    (hnode : sec.nodes[vm.current_node]? = some node)
    (hrun : node.data = .run run)
    (hcode : run.code = pre ++ ⟨DGMLB_OP_DIV, p⟩ :: post)
    (hroom : 0 < vm.trace_buf_size)
    (hpre : eval_loop fo { vm with interp_buffer_offset := 0, text_frags_offset := 0,
                                   stack := [] } pre = .ok (vmp, true))
    (hstack : vmp.stack = .int 0 :: .int a :: rest) :
    (∀ (vmi : Vm) (q : Nat) (ai : Int) (resti : List dgmlrt_env_value),
      vmi.stack = .int 0 :: .int ai :: resti →
      eval_op fo vmi ⟨DGMLB_OP_DIV, q⟩ =
        .ok { vmi with error := ⟨DGMLRT_ERROR_EVAL_FAIL, "division by zero"⟩ }) ∧
    eval fo { vm with interp_buffer_offset := 0, text_frags_offset := 0 } run.code =
      .ok ({ vmp with error := ⟨DGMLRT_ERROR_EVAL_FAIL, "division by zero"⟩ }, none) ∧
    (∃ r vm1, dgmlrt_vm_advance fo vm (-1) = .ok (r, vm1) ∧
      r.result = DGMLRT_RESULT_TYPE_ERROR ⟨DGMLRT_ERROR_EVAL_FAIL, "division by zero"⟩ ∧
      r.node_id = node.id ∧
      vm1.error = ⟨DGMLRT_ERROR_EVAL_FAIL, "division by zero"⟩ ∧
      vm1.current_node = vm.current_node) ∧
    (∀ (vmf : Vm) (q x y : Nat) (restf : List dgmlrt_env_value),
      vmf.stack = .float y :: .float x :: restf → restf.length < vmf.stack_capacity →
      eval_op fo vmf ⟨DGMLB_OP_DIV, q⟩ = .ok { vmf with stack := .float (fo.div x y) :: restf }) := by
  have hev := eval_div_int_zero fo
    { vm with interp_buffer_offset := 0, text_frags_offset := 0 } vmp pre post p a rest hpre hstack
  rw [← hcode] at hev
  have hcur : vmp.current_node = vm.current_node := by
    have h0 := eval_frame_current_node (eval_frame_eval_loop pre hpre)
    exact h0
  refine ⟨fun vmi q ai resti h => eval_op_div_int_zero fo vmi q ai resti h, hev, ?_,
    fun vmf q x y restf h1 h2 => eval_op_div_float fo vmf q x y restf h1 h2⟩
  unfold dgmlrt_vm_advance
  rw [hsec]
  simp only
  rw [if_neg (by decide)]
  unfold advance_loop
  simp only [hnode]
  have hlen : empty_result.visited_node_ids.length < vm.trace_buf_size := hroom
  simp only [hlen, if_true]
  unfold visit_node
  simp only [hrun, hev]
  simp only [ne_eq, reduceCtorEq, not_false_eq_true, if_true]
  exact ⟨_, _, rfl, rfl, rfl, rfl, hcur⟩

/-- Witness of C10 on `div_nodes` (scenario 4 of the specification, with the
divisor read from `d = 0`): the advance returns `EvalFail` "division by zero"
at the Run node and the cursor stays on node 0. -/
theorem div_by_zero_int_fails_float_pushes_witness :
    ∃ r vm1, dgmlrt_vm_advance sample_float_ops (sample_vm div_nodes) (-1) = .ok (r, vm1) ∧
      r.result = DGMLRT_RESULT_TYPE_ERROR ⟨DGMLRT_ERROR_EVAL_FAIL, "division by zero"⟩ ∧
      r.node_id = div_run_node.id ∧
      vm1.error = ⟨DGMLRT_ERROR_EVAL_FAIL, "division by zero"⟩ ∧
      vm1.current_node = (sample_vm div_nodes).current_node :=
  (div_by_zero_int_fails_float_pushes sample_float_ops (sample_vm div_nodes)
    { sample_vm div_nodes with interp_buffer_offset := 0, text_frags_offset := 0,
                               stack := [.int 0, .int 1] }
    ⟨[115], div_nodes, 0⟩ div_run_node
    ⟨[⟨DGMLB_OP_PUSH_INT, 1⟩, ⟨DGMLB_OP_GET_VAR, 76⟩, ⟨DGMLB_OP_DIV, 0⟩,
      ⟨DGMLB_OP_SET_VAR, 52⟩], 1⟩
    [⟨DGMLB_OP_PUSH_INT, 1⟩, ⟨DGMLB_OP_GET_VAR, 76⟩] [⟨DGMLB_OP_SET_VAR, 52⟩] 0 1 []
    rfl rfl rfl rfl (by decide) rfl rfl).2.2.1

/-! ## Node indices of a loaded tree -/

theorem load_array_get {α : Type} (f : Nat → Except LoadStop α) :
    ∀ (count i : Nat) (l : List α), load_array f count i = .ok l →
      l.length = count ∧ ∀ k x, l[k]? = some x → f (i + k) = .ok x := by
  intro count
  induction count with
  | zero =>
    intro i l h
    simp only [load_array] at h
    cases h
    exact ⟨rfl, by intro k x hk; simp at hk⟩
  | succ count ih =>
    intro i l h
    simp only [load_array] at h
    cases hf : f i with
    | error e => rw [hf] at h; cases h
    | ok a =>
      rw [hf] at h
      simp only at h
      cases hr : load_array f count (i + 1) with
      | error e => rw [hr] at h; cases h
      | ok rest =>
        rw [hr] at h
        cases h
        obtain ⟨hlen, hget⟩ := ih (i + 1) rest hr
        refine ⟨by simp [hlen], ?_⟩
        intro k x hk
        cases k with
        | zero => simp at hk; rw [← hk]; exact hf
        | succ k =>
          simp at hk
          have := hget k x hk
          rw [show i + (k + 1) = i + 1 + k by omega]
          exact this

theorem read_u32_lt (bytes : List Nat) (pos : Nat) : read_u32 bytes pos < 4294967296 := by
  unfold read_u32
  omega

theorem load_choice_dest {file : List Nat} {tree : Tree} {span : dgmlb_span} {choice : Choice}
    (h : load_choice file tree span = .ok choice) :
    ∀ o opt, choice.options[o]? = some opt →
      opt.dest = read_u32 file (span.offset + 24 * o + 20) := by
  unfold load_choice at h
  split at h
  · cases h
    intro o opt ho
    simp at ho
  · split at h
    · cases h
    · simp only at h
      split at h
      · cases h
      · rename_i options hl
        cases h
        intro o opt ho
        have hf := (load_array_get _ _ _ _ hl).2 o opt ho
        simp only [Nat.zero_add] at hf
        split at hf
        · cases hf
        · split at hf
          · split at hf
            · cases hf
            · cases hf; rfl
          · cases hf; rfl

theorem load_code_ok {file : List Nat} {span : dgmlb_span} {code : List dgmlb_byte_code}
    (h : load_code file span = .ok code) :
    code = (List.range span.count).map (fun i =>
      ⟨read_u32 file (span.offset + 8 * i), read_u32 file (span.offset + 8 * i + 4)⟩) := by
  unfold load_code at h
  split at h
  · cases h
  · cases h; rfl

theorem load_node_data_indices {file : List Nat} {tree : Tree} {off : Nat} {data : NodeData}
    {id : dgmlrt_string} {tags : List dgmlrt_string}
    (h : load_node_data file tree off = .ok data) :
    node_indices_verbatim file off ⟨id, tags, data⟩ := by
  unfold load_node_data at h
  unfold node_indices_verbatim
  by_cases h1 : read_u32 file (off + 64) = 1
  · rw [if_pos h1] at h
    split at h
    · cases h
    · rename_i choice hc
      cases h
      exact load_choice_dest hc
  rw [if_neg h1] at h
  by_cases h2 : read_u32 file (off + 64) = 2
  · rw [if_pos h2] at h
    cases h; exact rfl
  rw [if_neg h2] at h
  by_cases h3 : read_u32 file (off + 64) = 3
  · rw [if_pos h3] at h
    split at h
    · cases h
    · cases h; exact ⟨rfl, rfl⟩
  rw [if_neg h3] at h
  by_cases h4 : read_u32 file (off + 64) = 4
  · rw [if_pos h4] at h
    split at h
    · cases h
    · cases h; exact rfl
  rw [if_neg h4] at h
  by_cases h5 : read_u32 file (off + 64) = 5
  · rw [if_pos h5] at h
    split at h
    · cases h
    · cases h; exact rfl
  rw [if_neg h5] at h
  by_cases h6 : read_u32 file (off + 64) = 6
  · rw [if_pos h6] at h
    split at h
    · cases h
    · split at h
      · cases h
      · cases h; exact rfl
  rw [if_neg h6] at h
  cases h

theorem load_node_indices {file : List Nat} {tree : Tree} {off : Nat} {node : Node}
    (h : load_node file tree off = .ok node) : node_indices_verbatim file off node := by
  unfold load_node at h
  split at h
  · cases h
  split at h
  · cases h
  split at h
  · cases h
  split at h
  · cases h
  · rename_i hd
    cases h
    exact load_node_data_indices hd

theorem load_section_ok {file : List Nat} {tree : Tree} {off : Nat} {sec : Section}
    (h : load_section file tree off = .ok sec) :
    sec.entry_node = read_u32 file (off + 12) ∧
      sec.nodes.length = read_u32 file (off + 8) ∧
      ∀ n node, sec.nodes[n]? = some node →
        node_indices_verbatim file (read_u32 file (off + 4) + 68 * n) node := by
  unfold load_section at h
  split at h
  · cases h
  simp only at h
  split at h
  · cases h
  split at h
  · cases h
  · rename_i ns hl
    cases h
    obtain ⟨hlen, hget⟩ := load_array_get _ _ _ _ hl
    refine ⟨rfl, hlen, ?_⟩
    intro n node hn
    have hf := hget n node hn
    simp only [Nat.zero_add] at hf
    exact load_node_indices hf

theorem raw_u32_ok {file : List Nat} {off v : Nat} (h : raw_u32 file off = .ok v) :
    v = read_u32 file off := by
  unfold raw_u32 at h
  split at h
  · cases h; rfl
  · cases h

theorem raw_span_ok {file : List Nat} {off : Nat} {span : dgmlb_span}
    (h : raw_span file off = .ok span) :
    span = ⟨read_u32 file off, read_u32 file (off + 4)⟩ := by
  unfold raw_span at h
  split at h
  · cases h
  · rename_i h1
    split at h
    · cases h
    · rename_i h2
      cases h
      rw [raw_u32_ok h1, raw_u32_ok h2]

theorem load_dgmlb_sections {file : List Nat} {tree : Tree} (h : load_dgmlb file = .ok tree) :
    ∃ tree0 : Tree, load_array (fun s => load_section file tree0 (read_u32 file 20 + 16 * s))
      (read_u32 file 24) 0 = .ok tree.sections := by
  unfold load_dgmlb at h
  split at h
  · cases h
  split at h
  · cases h
  split at h
  · cases h
  split at h
  · cases h
  split at h
  · cases h
  split at h
  · cases h
  split at h
  · cases h
  split at h
  · cases h
  split at h
  · cases h
  rename_i sections hsp
  split at h
  · cases h
  split at h
  · cases h
  rename_i secs hl
  cases h
  rw [raw_span_ok hsp] at hl
  exact ⟨_, hl⟩

/-- Claim C8, as the code has it: on every buffer for which
`dgmlrt_load_dgmlb` returns a tree, each section's `entry_node` and every node
index stored in a node (Say/Goto/Run next, If true and false destination,
option destination, Rand target) is the 32-bit little-endian field of the
bundle it was read from, unchanged: the loader makes no range check, so an
index is below `2^32` and need not be the sentinel or below the node count. -/
theorem loaded_indices_verbatim (file : List Nat) (tree : Tree)
    (h : dgmlrt_load_dgmlb file = .ok (some tree)) :
    ∀ s sec, tree.sections[s]? = some sec →
      sec.entry_node = read_u32 file (read_u32 file 20 + 16 * s + 12) ∧
      sec.entry_node < 4294967296 ∧
      sec.nodes.length = read_u32 file (read_u32 file 20 + 16 * s + 8) ∧
      ∀ n node, sec.nodes[n]? = some node →
        node_indices_verbatim file (read_u32 file (read_u32 file 20 + 16 * s + 4) + 68 * n)
          node := by
  have hl : load_dgmlb file = .ok tree := by
    unfold dgmlrt_load_dgmlb at h
    split at h
    · cases h; assumption
    · cases h
    · cases h
  obtain ⟨tree0, hs⟩ := load_dgmlb_sections hl
  intro s sec hsec
  have hf := (load_array_get _ _ _ _ hs).2 s sec hsec
  simp only [Nat.zero_add] at hf
  obtain ⟨he, hn, hnodes⟩ := load_section_ok hf
  exact ⟨he, by rw [he]; exact read_u32_lt _ _, hn, hnodes⟩

set_option maxRecDepth 100000 in
/-- Witness of the amended C8 on `goto_bundle`: the loaded tree is
`goto_bundle_tree`, whose Goto node carries the `next_node` field 5 of the
bundle. -/
theorem loaded_indices_verbatim_witness :
    dgmlrt_load_dgmlb goto_bundle = .ok (some goto_bundle_tree) ∧
    ∀ s sec, goto_bundle_tree.sections[s]? = some sec →
      sec.entry_node = read_u32 goto_bundle (read_u32 goto_bundle 20 + 16 * s + 12) ∧
      sec.entry_node < 4294967296 ∧
      sec.nodes.length = read_u32 goto_bundle (read_u32 goto_bundle 20 + 16 * s + 8) ∧
      ∀ n node, sec.nodes[n]? = some node →
        node_indices_verbatim goto_bundle
          (read_u32 goto_bundle (read_u32 goto_bundle 20 + 16 * s + 4) + 68 * n) node :=
  ⟨by decide, loaded_indices_verbatim goto_bundle goto_bundle_tree (by decide)⟩

set_option maxRecDepth 100000 in
/-- Claim C8 fails as stated: `dgmlrt_load_dgmlb` returns a tree for
`goto_bundle`, and in its only section, which has one node, the Goto node's
`next_node` is 5: neither `0xFFFFFFFF` nor below the node count. -/
theorem loaded_index_out_of_range :
    (dgmlrt_load_dgmlb goto_bundle).map (fun t => t.map spec_tree_indices_ok) =
        .ok (some false) ∧
      dgmlrt_load_dgmlb goto_bundle =
        .ok (some ⟨[1, 0, 0, 0, 115, 0, 1, 0, 0, 0, 97, 0], 52, [],
                   [⟨[115], [⟨[97], [], .goto_ ⟨5⟩⟩], 0⟩]⟩) := by
  decide

/-! ## Internal nodes -/

/-- One iteration of the loop of `advance` on an internal node that the switch
leaves through `break`. -/
theorem advance_loop_cont {fo : FloatOps} {sec : Section} (fuel : Nat) {vm vm1 : Vm}
    {res : dgmlrt_advance_result} {node : Node}
    (hnode : sec.nodes[vm.current_node]? = some node)
    (hroom : res.visited_node_ids.length < vm.trace_buf_size)
    (hv : visit_node fo vm node (visited res node) = .ok (.cont vm1)) :
    advance_loop fo sec (fuel + 1) vm res =
      if (visited res node).visited_node_ids.length ≥ vm1.max_steps_per_advance then
        .ok (advance_error vm1 (visited res node) max_iterations_error)
      else advance_loop fo sec fuel vm1 (visited res node) := by
  conv => lhs; unfold advance_loop
  simp only [hnode, hroom, if_true]
  unfold visited at hv
  rw [hv]
  rfl

/-- One iteration of the loop of `advance` on a node at which the switch
returns. -/
theorem advance_loop_ret {fo : FloatOps} {sec : Section} (fuel : Nat) {vm vm1 : Vm}
    {res r : dgmlrt_advance_result} {node : Node}
    (hnode : sec.nodes[vm.current_node]? = some node)
    (hroom : res.visited_node_ids.length < vm.trace_buf_size)
    (hv : visit_node fo vm node (visited res node) = .ok (.ret r vm1)) :
    advance_loop fo sec (fuel + 1) vm res = .ok (r, vm1) := by
  unfold advance_loop
  simp only [hnode, hroom, if_true]
  unfold visited at hv
  rw [hv]

theorem eval_some_no_error {fo : FloatOps} {vm vm1 : Vm} {code : List dgmlb_byte_code}
    {v : dgmlrt_env_value} (h : eval fo vm code = .ok (vm1, some v)) :
    vm1.error.code = DGMLRT_ERROR_NONE := by
  unfold eval at h
  split at h
  · cases h
  · rename_i vm2 completed hl
    cases completed with
    | false => simp at h
    | true =>
      simp only [if_true] at h
      cases code with
      | nil =>
        simp only [eval_loop, Except.ok.injEq, Prod.mk.injEq] at hl
        rw [← hl.1] at h
        simp at h
      | cons c rest =>
        have hc := eval_loop_completed _ _ _ hl (by simp)
        simp only [Except.ok.injEq, Prod.mk.injEq] at h
        rw [← h.1]
        exact hc

theorem eval_error_code {fo : FloatOps} {vm vm1 : Vm} {code : List dgmlb_byte_code}
    {r : Option dgmlrt_env_value} (h : eval fo vm code = .ok (vm1, r))
    (hnoerr : vm.error.code = DGMLRT_ERROR_NONE) (he : vm1.error.code ≠ DGMLRT_ERROR_NONE) :
    vm1.error.code = DGMLRT_ERROR_EVAL_FAIL := by
  rcases (eval_frame_eval h).2 with h2 | h2
  · rw [h2] at he; exact absurd hnoerr he
  · exact h2

theorem visit_if_bool {fo : FloatOps} {vm vm1 : Vm} {node : Node} {i : If}
    (res : dgmlrt_advance_result) {b : Bool}
    (hif : node.data = .if_ i) (hev : eval fo vm i.cond = .ok (vm1, some (.bool b))) :
    visit_node fo vm node res =
      .ok (.cont { vm1 with current_node := if b then i.true_dest else i.false_dest }) := by
  have hne := eval_some_no_error hev
  unfold visit_node
  simp only [hif, hev, hne, ne_eq, not_true_eq_false, if_false]

theorem visit_if_not_bool {fo : FloatOps} {vm vm1 : Vm} {node : Node} {i : If}
    (res : dgmlrt_advance_result) {r : Option dgmlrt_env_value}
    (hif : node.data = .if_ i) (hev : eval fo vm i.cond = .ok (vm1, r))
    (hnoerr : vm.error.code = DGMLRT_ERROR_NONE) (hr : ∀ b, r ≠ some (.bool b)) :
    ∃ e, e.code = DGMLRT_ERROR_EVAL_FAIL ∧
      visit_node fo vm node res =
        .ok (.ret { res with result := DGMLRT_RESULT_TYPE_ERROR e } { vm1 with error := e }) := by
  unfold visit_node
  simp only [hif, hev]
  by_cases he : vm1.error.code ≠ DGMLRT_ERROR_NONE
  · rw [if_pos he]
    exact ⟨vm1.error, eval_error_code hev hnoerr he, rfl⟩
  · rw [if_neg he]
    refine ⟨⟨DGMLRT_ERROR_EVAL_FAIL, "Condition type must be bool"⟩, rfl, ?_⟩
    cases r with
    | none => rfl
    | some v =>
      cases v with
      | bool b => exact absurd rfl (hr b)
      | unset => rfl
      | int x => rfl
      | float x => rfl
      | string x => rfl
      | other x => rfl

/-- Claim C14: on a machine with no recorded error, when the loop of `advance`
visits an If node, (1) if the condition evaluates to `Bool(b)` the cursor
becomes `true_dest` for `b = true` and `false_dest` for `b = false` and the
loop goes on from there (or stops with `MaxIterations` when the budget is used
up); (2) if the evaluation yields anything else (a value that is not a Bool, an
empty stack as for an empty condition, or an evaluation error) the advance
returns an Error result with code `EvalFail` at that node and the cursor stays
on the If node. -/
theorem if_node_step (fo : FloatOps) (sec : Section) (fuel : Nat) (vm vm1 : Vm)
    (res : dgmlrt_advance_result) (node : Node) (i : If) (r : Option dgmlrt_env_value)
    (hnode : sec.nodes[vm.current_node]? = some node)
    (hif : node.data = .if_ i)
    (hroom : res.visited_node_ids.length < vm.trace_buf_size)
    (hnoerr : vm.error.code = DGMLRT_ERROR_NONE)
    (hev : eval fo vm i.cond = .ok (vm1, r)) :
    (∀ b, r = some (.bool b) →
      advance_loop fo sec (fuel + 1) vm res =
        if (visited res node).visited_node_ids.length ≥ vm.max_steps_per_advance then
          .ok (advance_error { vm1 with current_node := if b then i.true_dest else i.false_dest }
                (visited res node) max_iterations_error)
        else advance_loop fo sec fuel
          { vm1 with current_node := if b then i.true_dest else i.false_dest }
          (visited res node)) ∧
    ((∀ b, r ≠ some (.bool b)) →
      ∃ e, e.code = DGMLRT_ERROR_EVAL_FAIL ∧
        advance_loop fo sec (fuel + 1) vm res =
          .ok ({ visited res node with result := DGMLRT_RESULT_TYPE_ERROR e },
               { vm1 with error := e }) ∧
        vm1.current_node = vm.current_node) := by
  have hmax : vm1.max_steps_per_advance = vm.max_steps_per_advance :=
    step_frame_max_steps (step_frame_of_eval (eval_frame_eval hev))
  constructor
  · intro b hb
    subst hb
    rw [advance_loop_cont fuel hnode hroom (visit_if_bool (visited res node) hif hev)]
    simp only [hmax]
  · intro hr
    obtain ⟨e, he, hv⟩ := visit_if_not_bool (visited res node) hif hev hnoerr hr
    exact ⟨e, he, advance_loop_ret fuel hnode hroom hv,
      eval_frame_current_node (eval_frame_eval hev)⟩

/-- Witness of C14 on scenario 2: the condition `PUSH_BOOL 1` evaluates to
`Bool(true)`, the loop goes on at node 1 and the advance says "yes". -/
theorem if_node_step_witness :
    (dgmlrt_vm_advance sample_float_ops (sample_vm if_nodes) (-1)).map
        (fun p => (p.1.result, p.1.visited_node_ids)) =
      .ok (DGMLRT_RESULT_TYPE_SAY ⟨[65], [⟨[], [121, 101, 115]⟩]⟩, [[105], [121]]) ∧
    advance_loop sample_float_ops ⟨[115], if_nodes, 0⟩ (128 + 1) (sample_vm if_nodes)
        empty_result =
      if (visited empty_result ⟨[105], [], .if_ ⟨[⟨DGMLB_OP_PUSH_BOOL, 1⟩], 1, 2⟩⟩
            ).visited_node_ids.length ≥ (sample_vm if_nodes).max_steps_per_advance then
        .ok (advance_error
          { ({ sample_vm if_nodes with stack := [.bool true] } : Vm) with
            current_node := if true then 1 else 2 }
          (visited empty_result ⟨[105], [], .if_ ⟨[⟨DGMLB_OP_PUSH_BOOL, 1⟩], 1, 2⟩⟩)
          max_iterations_error)
      else advance_loop sample_float_ops ⟨[115], if_nodes, 0⟩ 128
        { ({ sample_vm if_nodes with stack := [.bool true] } : Vm) with
          current_node := if true then 1 else 2 }
        (visited empty_result ⟨[105], [], .if_ ⟨[⟨DGMLB_OP_PUSH_BOOL, 1⟩], 1, 2⟩⟩) :=
  ⟨by decide,
   (if_node_step sample_float_ops ⟨[115], if_nodes, 0⟩ 128 (sample_vm if_nodes)
     { sample_vm if_nodes with stack := [.bool true] } empty_result
     ⟨[105], [], .if_ ⟨[⟨DGMLB_OP_PUSH_BOOL, 1⟩], 1, 2⟩⟩ ⟨[⟨DGMLB_OP_PUSH_BOOL, 1⟩], 1, 2⟩
     (some (.bool true)) rfl rfl (by decide) (by decide) rfl).1 true rfl⟩

/-- Claim C19: when the loop of `advance` visits a Rand node with `n >= 1`
targets and the generator returns the 64-bit number `r`, then `r mod n < n`,
the cursor becomes `targets[r mod n]` and the loop goes on; with one target the
cursor becomes `targets[0]` whatever the generator returns. -/
theorem rand_node_step (fo : FloatOps) (vm : Vm) (node : Node) (rand : Rand)
    (res : dgmlrt_advance_result) (r : Nat)
    (hrand : node.data = .rand rand)
    (hn : 1 ≤ rand.nodes.length)
    (hr : (vm.rng_func vm.rng_func_ctx).1 % 18446744073709551616 = r) :
    r % rand.nodes.length < rand.nodes.length ∧
    (∃ t, rand.nodes[r % rand.nodes.length]? = some t ∧
      visit_node fo vm node res =
        .ok (.cont { vm with rng_func_ctx := (vm.rng_func vm.rng_func_ctx).2,
                             current_node := t })) ∧
    (rand.nodes.length = 1 →
      ∃ t, rand.nodes[0]? = some t ∧
        visit_node fo vm node res =
          .ok (.cont { vm with rng_func_ctx := (vm.rng_func vm.rng_func_ctx).2,
                               current_node := t })) := by
  have hlt : r % rand.nodes.length < rand.nodes.length := Nat.mod_lt _ (by omega)
  have hv : visit_node fo vm node res =
      .ok (.cont { vm with rng_func_ctx := (vm.rng_func vm.rng_func_ctx).2,
                           current_node := rand.nodes.getD (r % rand.nodes.length) 0 }) := by
    unfold visit_node
    simp only [hrand]
    rw [if_pos (by omega)]
    simp only [hr]
  have hget : rand.nodes[r % rand.nodes.length]? =
      some (rand.nodes.getD (r % rand.nodes.length) 0) := by
    rw [List.getD_eq_getElem?_getD, List.getElem?_eq_getElem hlt]
    rfl
  refine ⟨hlt, ⟨_, hget, hv⟩, ?_⟩
  intro h1
  have h0 : r % rand.nodes.length = 0 := by rw [h1]; exact Nat.mod_one r
  rw [h0] at hget hv
  exact ⟨_, hget, hv⟩

/-- Witness of C19 on `rand_nodes` with the default generator seeded with 1:
SplitMix64 returns 10451216379200822465, odd, so target 1 of the two targets is
taken and the advance says "no". -/
theorem rand_node_step_witness :
    (dgmlrt_vm_advance sample_float_ops (sample_vm rand_nodes) (-1)).map
        (fun p => p.1.result) =
      .ok (DGMLRT_RESULT_TYPE_SAY ⟨[65], [⟨[], [110, 111]⟩]⟩) ∧
    10451216379200822465 % ([1, 2] : List Nat).length < ([1, 2] : List Nat).length ∧
    ∃ t, ([1, 2] : List Nat)[10451216379200822465 % ([1, 2] : List Nat).length]? = some t ∧
      visit_node sample_float_ops (sample_vm rand_nodes) ⟨[114], [], .rand ⟨[1, 2]⟩⟩
          empty_result =
        .ok (.cont { sample_vm rand_nodes with
          rng_func_ctx :=
            ((sample_vm rand_nodes).rng_func (sample_vm rand_nodes).rng_func_ctx).2,
          current_node := t }) :=
  ⟨by decide,
   (rand_node_step sample_float_ops (sample_vm rand_nodes) ⟨[114], [], .rand ⟨[1, 2]⟩⟩
     ⟨[1, 2]⟩ empty_result 10451216379200822465 rfl (by decide) (by decide)).1,
   (rand_node_step sample_float_ops (sample_vm rand_nodes) ⟨[114], [], .rand ⟨[1, 2]⟩⟩
     ⟨[1, 2]⟩ empty_result 10451216379200822465 rfl (by decide) (by decide)).2.1⟩

/-! ## PUSH_BOOL -/

/-- Claim C20, what the code does instead: `PUSH_BOOL p` pushes
`Bool(p == 1)`.  For `p = 0` and `p = 1` this is `Bool(p != 0)`, but for
`p = 2` and `p = 0xFFFFFFFF` the program `PUSH_BOOL p` evaluates to
`Bool(false)`, where the claim has `Bool(true)`. -/
theorem push_bool_compares_with_one :
    (eval sample_float_ops (sample_vm []) [⟨DGMLB_OP_PUSH_BOOL, 0⟩]).map (fun p => p.2) =
      .ok (some (.bool false)) ∧
    (eval sample_float_ops (sample_vm []) [⟨DGMLB_OP_PUSH_BOOL, 1⟩]).map (fun p => p.2) =
      .ok (some (.bool true)) ∧
    (eval sample_float_ops (sample_vm []) [⟨DGMLB_OP_PUSH_BOOL, 2⟩]).map (fun p => p.2) =
      .ok (some (.bool false)) ∧
    (eval sample_float_ops (sample_vm []) [⟨DGMLB_OP_PUSH_BOOL, 0xFFFFFFFF⟩]).map
        (fun p => p.2) = .ok (some (.bool false)) ∧
    ∀ (fo : FloatOps) (vm : Vm) (p : Nat),
      eval_op fo vm ⟨DGMLB_OP_PUSH_BOOL, p⟩ = .ok (push vm (.bool (p == 1))) :=
  ⟨by decide, by decide, by decide, by decide, fun fo vm _ => eval_op_push fo vm rfl⟩

/-! ## Literal text -/

theorem interpolate_loop_literal (fo : FloatOps) (vm : Vm) :
    ∀ frags : List dgmlrt_text_fragment,
      interpolate_loop fo vm frags (List.replicate frags.length false) = .ok (vm, some frags) := by
  intro frags
  induction frags with
  | nil => rfl
  | cons frag frags ih =>
    simp only [List.length_cons, List.replicate_succ, interpolate_loop, Bool.false_eq_true,
      if_false, ih]

theorem interpolate_text_literal (fo : FloatOps) (vm : Vm) (text : Text)
    (hlit : literal_only text)
    (hroom : vm.text_frags_offset + text.frags.length ≤ vm.text_frags_buf_size) :
    interpolate_text fo vm text =
      .ok ({ vm with text_frags_offset := vm.text_frags_offset + text.frags.length },
           if vm.text_frags_buf_size = 0 then none else some text.frags) := by
  unfold interpolate_text
  rw [if_pos hroom, hlit, interpolate_loop_literal]

/-- The part of C11 that holds: when the fragments buffer is not empty and has
room, a Say node whose text has no variable fragment returns a Say result with
the fragments of the tree, texts and markup unchanged. -/
theorem say_literal_returns_fragments (fo : FloatOps) (sec : Section) (fuel : Nat) (vm : Vm)
    (res : dgmlrt_advance_result) (node : Node) (say : Say)
    (hnode : sec.nodes[vm.current_node]? = some node)
    (hsay : node.data = .say say)
    (htrace : res.visited_node_ids.length < vm.trace_buf_size)
    (hlit : literal_only say.text)
    (hroom : vm.text_frags_offset + say.text.frags.length ≤ vm.text_frags_buf_size)
    (hbuf : 0 < vm.text_frags_buf_size) :
    advance_loop fo sec (fuel + 1) vm res =
      .ok ({ visited res node with
             result := DGMLRT_RESULT_TYPE_SAY ⟨say.speaker_id, say.text.frags⟩ },
           { vm with current_node := say.next_node,
                     text_frags_offset := vm.text_frags_offset + say.text.frags.length }) := by
  apply advance_loop_ret fuel hnode htrace
  unfold visit_node
  simp only [hsay]
  have hi := interpolate_text_literal fo { vm with current_node := say.next_node } say.text
    hlit hroom
  rw [hi]
  have h0 : vm.text_frags_buf_size ≠ 0 := by omega
  simp only [h0, if_false]

/-- Claim C11, what the code does instead: the tree has a single Say node whose
text has zero fragments, so `dgmlrt_vm_create` allocates a fragments buffer of
zero entries, whose data pointer is null; `interpolate_text` returns that null
pointer with count 0 and `advance` takes it for a failure: the result is the
error `InterpFail`, not Say with zero fragments. -/
theorem say_without_fragments_interp_fail :
    literal_only (⟨[], []⟩ : Text) ∧
    (sample_vm empty_say_nodes).text_frags_buf_size = 0 ∧
    (dgmlrt_vm_advance sample_float_ops (sample_vm empty_say_nodes) (-1)).map
        (fun p => (p.1.result, p.1.visited_node_ids)) =
      .ok (DGMLRT_RESULT_TYPE_ERROR ⟨DGMLRT_ERROR_INTERP_FAIL, "Interpolation failed"⟩,
           [[115]]) :=
  ⟨rfl, by decide, by decide⟩

/-! ## Entering a section -/

theorem find_section_first (name : dgmlrt_string) :
    ∀ (l : List Section) (k s : Nat) (sec : Section),
      first_section_named name l s sec → find_section name l k = some (k + s) := by
  intro l
  induction l with
  | nil => intro k s sec h; simp [first_section_named] at h
  | cons hd tl ih =>
    intro k s sec h
    obtain ⟨hget, hname, hfirst⟩ := h
    unfold find_section
    cases s with
    | zero =>
      simp only [List.getElem?_cons_zero, Option.some.injEq] at hget
      rw [hget, hname]
      simp
    | succ s =>
      have h0 := hfirst 0 hd (Nat.succ_pos s) (by simp)
      rw [h0]
      simp only [Bool.false_eq_true, if_false]
      rw [ih (k + 1) s sec ⟨by simpa using hget, hname, ?_⟩]
      · congr 1; omega
      · intro j other hj hg
        exact hfirst (j + 1) other (by omega) (by simpa using hg)

theorem find_section_some (name : dgmlrt_string) :
    ∀ (l : List Section) (k s : Nat), find_section name l k = some s →
      ∃ i sec, s = k + i ∧ first_section_named name l i sec := by
  intro l
  induction l with
  | nil => intro k s h; simp [find_section] at h
  | cons hd tl ih =>
    intro k s h
    unfold find_section at h
    by_cases hn : str_eq name hd.name = true
    · rw [if_pos hn] at h
      cases h
      exact ⟨0, hd, rfl, by simp, hn, by intro j other hj; omega⟩
    · rw [if_neg hn] at h
      obtain ⟨i, sec, hs, hget, hname, hfirst⟩ := ih (k + 1) s h
      refine ⟨i + 1, sec, by omega, by simpa using hget, hname, ?_⟩
      intro j other hj hg
      cases j with
      | zero =>
        simp only [List.getElem?_cons_zero, Option.some.injEq] at hg
        rw [← hg]
        simpa using hn
      | succ j => exact hfirst j other (by omega) (by simpa using hg)

theorem find_section_none (name : dgmlrt_string) :
    ∀ (l : List Section) (k : Nat), find_section name l k = none →
      ∀ (i : Nat) (sec : Section), l[i]? = some sec → str_eq name sec.name = false := by
  intro l
  induction l with
  | nil => intro k _ i sec h; simp at h
  | cons hd tl ih =>
    intro k h i sec hg
    unfold find_section at h
    by_cases hn : str_eq name hd.name = true
    · rw [if_pos hn] at h; cases h
    · rw [if_neg hn] at h
      cases i with
      | zero =>
        simp only [List.getElem?_cons_zero, Option.some.injEq] at hg
        rw [← hg]
        simpa using hn
      | succ i => exact ih (k + 1) h i sec (by simpa using hg)

theorem find_node_first (id : dgmlrt_string) :
    ∀ (l : List Node) (k n : Nat),
      first_node_with_id id l n → find_node id l k = some (k + n) := by
  intro l
  induction l with
  | nil => intro k n h; simp [first_node_with_id] at h
  | cons hd tl ih =>
    intro k n h
    obtain ⟨⟨node, hget, hname⟩, hfirst⟩ := h
    unfold find_node
    cases n with
    | zero =>
      simp only [List.getElem?_cons_zero, Option.some.injEq] at hget
      rw [hget, hname]
      simp
    | succ n =>
      have h0 := hfirst 0 hd (Nat.succ_pos n) (by simp)
      rw [h0]
      simp only [Bool.false_eq_true, if_false]
      rw [ih (k + 1) n ⟨⟨node, by simpa using hget, hname⟩, ?_⟩]
      · congr 1; omega
      · intro j other hj hg
        exact hfirst (j + 1) other (by omega) (by simpa using hg)

theorem find_node_some (id : dgmlrt_string) :
    ∀ (l : List Node) (k n : Nat), find_node id l k = some n →
      ∃ i, n = k + i ∧ i < l.length ∧ first_node_with_id id l i := by
  intro l
  induction l with
  | nil => intro k n h; simp [find_node] at h
  | cons hd tl ih =>
    intro k n h
    unfold find_node at h
    by_cases hn : str_eq id hd.id = true
    · rw [if_pos hn] at h
      cases h
      exact ⟨0, rfl, by simp, ⟨hd, by simp, hn⟩, by intro j other hj; omega⟩
    · rw [if_neg hn] at h
      obtain ⟨i, hs, hlt, ⟨node, hget, hname⟩, hfirst⟩ := ih (k + 1) n h
      refine ⟨i + 1, by omega, by simp; omega, ⟨node, by simpa using hget, hname⟩, ?_⟩
      intro j other hj hg
      cases j with
      | zero =>
        simp only [List.getElem?_cons_zero, Option.some.injEq] at hg
        rw [← hg]
        simpa using hn
      | succ j => exact hfirst j other (by omega) (by simpa using hg)

theorem find_node_none (id : dgmlrt_string) :
    ∀ (l : List Node) (k : Nat), find_node id l k = none →
      ∀ (i : Nat) (node : Node), l[i]? = some node → str_eq id node.id = false := by
  intro l
  induction l with
  | nil => intro k _ i node h; simp at h
  | cons hd tl ih =>
    intro k h i node hg
    unfold find_node at h
    by_cases hn : str_eq id hd.id = true
    · rw [if_pos hn] at h; cases h
    · rw [if_neg hn] at h
      cases i with
      | zero =>
        simp only [List.getElem?_cons_zero, Option.some.injEq] at hg
        rw [← hg]
        simpa using hn
      | succ i => exact ih (k + 1) h i node (by simpa using hg)

theorem vm_enter_null_id (vm : Vm) (sect : Option (List Nat)) (s : Nat) (sec : Section)
    (hs : first_section_named (dgmlrt_zstr sect) vm.tree.sections s sec) :
    dgmlrt_vm_enter vm sect none =
      (true, { vm with current_section := some s, current_node := sec.entry_node }) := by
  unfold dgmlrt_vm_enter
  rw [find_section_first _ _ 0 s sec hs]
  simp only [Nat.zero_add, hs.1]

theorem vm_enter_with_id (vm : Vm) (sect : Option (List Nat)) (id : List Nat) (s n : Nat)
    (sec : Section)
    (hsize : sec.nodes.length ≤ UINT32_MAX)
    (hs : first_section_named (dgmlrt_zstr sect) vm.tree.sections s sec)
    (hn : first_node_with_id id sec.nodes n) :
    dgmlrt_vm_enter vm sect (some id) =
      (true, { vm with current_section := some s, current_node := n }) := by
  obtain ⟨node, hget, _⟩ := hn.1
  have hlt : n < sec.nodes.length := by
    by_contra hc
    rw [List.getElem?_eq_none (by omega)] at hget
    cases hget
  unfold UINT32_MAX at hsize
  have hmod : n % 4294967296 = n := Nat.mod_eq_of_lt (by omega)
  unfold dgmlrt_vm_enter
  rw [find_section_first _ _ 0 s sec hs]
  simp only [Nat.zero_add, hs.1, dgmlrt_zstr]
  rw [find_node_first id _ 0 n hn]
  simp only [Nat.zero_add, hmod, UINT32_MAX]
  rw [if_neg (by omega)]

theorem vm_enter_fail (vm : Vm) (sect node_id : Option (List Nat))
    (h : (dgmlrt_vm_enter vm sect node_id).1 = false) :
    (dgmlrt_vm_enter vm sect node_id).2 = vm := by
  unfold dgmlrt_vm_enter at h ⊢
  split
  · rfl
  · rename_i s hf
    rw [hf] at h
    simp only at h
    split
    · rfl
    · rename_i sec hg
      rw [hg] at h
      simp only at h
      split
      · rename_i id
        simp only at h
        split
        · rfl
        · rename_i n hfn
          rw [hfn] at h
          simp only at h
          split
          · rfl
          · rename_i hne
            rw [if_neg hne] at h
            cases h
      · simp at h

/-- Every section of a loaded tree has at most `0xFFFFFFFF` nodes. -/
theorem loaded_sections_small (file : List Nat) (tree : Tree)
    (h : dgmlrt_load_dgmlb file = .ok (some tree)) :
    ∀ (s : Nat) (sec : Section), tree.sections[s]? = some sec →
      sec.nodes.length ≤ UINT32_MAX := by
  have hl : load_dgmlb file = .ok tree := by
    unfold dgmlrt_load_dgmlb at h
    split at h
    · cases h; assumption
    · cases h
    · cases h
  obtain ⟨tree0, hs⟩ := load_dgmlb_sections hl
  intro s sec hsec
  have hf := (load_array_get _ _ _ _ hs).2 s sec hsec
  obtain ⟨_, hn, _⟩ := load_section_ok hf
  rw [hn]
  have := read_u32_lt file (0 + (read_u32 file 20 + 16 * s) + 8)
  unfold UINT32_MAX
  simp only [Nat.zero_add] at this ⊢
  omega

/-- Claim C15: `dgmlrt_vm_enter(vm, section, node_id)` returns true exactly
when some section is named `section` and either `node_id` is null or some node
of the first such section has the id `node_id`.  On success the cursor is the
first section of that name with its `entry_node` (null `node_id`) or with the
index of its first node of that id; on failure the machine is unchanged.
Sections hold at most `0xFFFFFFFF` nodes, their count being a 32-bit field. -/
theorem vm_enter_spec (vm : Vm) (sect node_id : Option (List Nat))
    (hsize : ∀ (s : Nat) (sec : Section), vm.tree.sections[s]? = some sec →
      sec.nodes.length ≤ UINT32_MAX) :
    ((dgmlrt_vm_enter vm sect node_id).1 = true ↔
      ∃ s sec, first_section_named (dgmlrt_zstr sect) vm.tree.sections s sec ∧
        (node_id = none ∨
          ∃ (id : List Nat) (n : Nat) (node : Node),
            node_id = some id ∧ sec.nodes[n]? = some node ∧ str_eq id node.id = true)) ∧
    (∀ s sec, first_section_named (dgmlrt_zstr sect) vm.tree.sections s sec →
      node_id = none →
      dgmlrt_vm_enter vm sect node_id =
        (true, { vm with current_section := some s, current_node := sec.entry_node })) ∧
    (∀ s sec id n, first_section_named (dgmlrt_zstr sect) vm.tree.sections s sec →
      node_id = some id → first_node_with_id id sec.nodes n →
      dgmlrt_vm_enter vm sect node_id =
        (true, { vm with current_section := some s, current_node := n })) ∧
    ((dgmlrt_vm_enter vm sect node_id).1 = false →
      (dgmlrt_vm_enter vm sect node_id).2 = vm) := by
  refine ⟨⟨?_, ?_⟩, ?_, ?_, vm_enter_fail vm sect node_id⟩
  · intro h
    cases hf : find_section (dgmlrt_zstr sect) vm.tree.sections 0 with
    | none => unfold dgmlrt_vm_enter at h; rw [hf] at h; cases h
    | some s0 =>
      obtain ⟨i, sec, hs0, hfirst⟩ := find_section_some _ _ _ _ hf
      refine ⟨i, sec, hfirst, ?_⟩
      cases node_id with
      | none => exact Or.inl rfl
      | some id =>
        refine Or.inr ?_
        cases hfn : find_node id sec.nodes 0 with
        | none =>
          unfold dgmlrt_vm_enter at h
          rw [hf] at h
          have hg : vm.tree.sections[s0]? = some sec := by
            rw [hs0, Nat.zero_add]; exact hfirst.1
          simp only [hg, dgmlrt_zstr, hfn] at h
          cases h
        | some n =>
          obtain ⟨j, _, _, ⟨node, hget, hname⟩, _⟩ := find_node_some _ _ _ _ hfn
          exact ⟨id, j, node, rfl, hget, hname⟩
  · rintro ⟨s, sec, hfirst, hid⟩
    rcases hid with hnone | ⟨id, n, node, hsome, hget, hname⟩
    · subst hnone
      rw [vm_enter_null_id vm sect s sec hfirst]
    · subst hsome
      cases hfn : find_node id sec.nodes 0 with
      | none =>
        have := find_node_none id _ 0 hfn n node hget
        rw [this] at hname
        cases hname
      | some m =>
        obtain ⟨j, _, _, hj⟩ := find_node_some _ _ _ _ hfn
        rw [vm_enter_with_id vm sect id s j sec (hsize s sec hfirst.1) hfirst hj]
  · intro s sec hfirst hnone
    subst hnone
    exact vm_enter_null_id vm sect s sec hfirst
  · intro s sec id n hfirst hsome hn
    subst hsome
    exact vm_enter_with_id vm sect id s n sec (hsize s sec hfirst.1) hfirst hn

theorem vm_enter_tree (vm : Vm) (sect node_id : Option (List Nat)) :
    (dgmlrt_vm_enter vm sect node_id).2.tree = vm.tree := by
  unfold dgmlrt_vm_enter
  split
  · rfl
  · split
    · rfl
    · split
      · split
        · rfl
        · split
          · rfl
          · rfl
      · rfl

theorem sample_sections_small (nodes : List Node) (h : nodes.length ≤ UINT32_MAX) :
    ∀ (s : Nat) (sec : Section), (sample_vm nodes).tree.sections[s]? = some sec →
      sec.nodes.length ≤ UINT32_MAX := by
  intro s sec hg
  have ht : (sample_vm nodes).tree.sections = [⟨[115], nodes, 0⟩] := by
    unfold sample_vm
    rw [vm_enter_tree]
    rfl
  rw [ht] at hg
  cases s with
  | zero =>
    simp only [List.getElem?_cons_zero, Option.some.injEq] at hg
    rw [← hg]; exact h
  | succ s => simp at hg

/-- Witness of C15 on scenario 3: entering section "s" at the node with id "y"
puts the cursor on node 1, and entering a missing section fails and leaves the
machine as it was. -/
theorem vm_enter_spec_witness :
    dgmlrt_vm_enter (sample_vm choice_nodes) (some [115]) (some [121]) =
      (true, { sample_vm choice_nodes with current_section := some 0, current_node := 1 }) ∧
    ((dgmlrt_vm_enter (sample_vm choice_nodes) (some [120]) none).1 = false →
      (dgmlrt_vm_enter (sample_vm choice_nodes) (some [120]) none).2 =
        sample_vm choice_nodes) :=
  ⟨(vm_enter_spec (sample_vm choice_nodes) (some [115]) (some [121])
      (sample_sections_small choice_nodes (by decide))).2.2.1 0 ⟨[115], choice_nodes, 0⟩ [121] 1
      ⟨rfl, by decide, by intro j other hj; omega⟩ rfl
      ⟨⟨_, rfl, by decide⟩, by
        intro j other hj hg
        have hj0 : j = 0 := by omega
        subst hj0
        simp only [choice_nodes, List.getElem?_cons_zero, Option.some.injEq] at hg
        rw [← hg]
        decide⟩,
   (vm_enter_spec (sample_vm choice_nodes) (some [120]) none
      (sample_sections_small choice_nodes (by decide))).2.2.2⟩

/-! ## The step budget -/

theorem visit_goto {fo : FloatOps} (vm : Vm) {node : Node} {g : Goto}
    (res : dgmlrt_advance_result) (hg : node.data = .goto_ g) :
    visit_node fo vm node res = .ok (.cont { vm with current_node := g.next_node }) := by
  unfold visit_node
  simp only [hg]

theorem goto_walk_loop {fo : FloatOps} {sec : Section} (c : Nat) :
    ∀ (k fuel : Nat) (vm : Vm) (res : dgmlrt_advance_result),
      k ≤ fuel → 1 ≤ k →
      res.visited_node_ids.length + k = vm.max_steps_per_advance →
      vm.trace_buf_size = vm.max_steps_per_advance →
      goto_walk sec k vm.current_node = some c →
      ∃ r, advance_loop fo sec fuel vm res =
          .ok (r, { vm with current_node := c, error := max_iterations_error }) ∧
        r.result = DGMLRT_RESULT_TYPE_ERROR max_iterations_error ∧
        r.visited_node_ids.length = vm.max_steps_per_advance := by
  intro k
  induction k with
  | zero => intro fuel vm res _ h1; omega
  | succ k ih =>
    intro fuel vm res hfuel _ hlen htrace hwalk
    cases fuel with
    | zero => omega
    | succ fuel =>
      unfold goto_walk at hwalk
      cases hn : sec.nodes[vm.current_node]? with
      | none => rw [hn] at hwalk; cases hwalk
      | some node =>
        rw [hn] at hwalk
        simp only at hwalk
        cases hd : node.data with
        | goto_ g =>
          rw [hd] at hwalk
          simp only at hwalk
          have hroom : res.visited_node_ids.length < vm.trace_buf_size := by omega
          rw [advance_loop_cont fuel hn hroom (visit_goto vm (visited res node) hd)]
          have hvl : (visited res node).visited_node_ids.length =
              res.visited_node_ids.length + 1 := by
            simp [visited]
          by_cases hk : k = 0
          · subst hk
            simp only [goto_walk, Option.some.injEq] at hwalk
            rw [if_pos (by rw [hvl]; show _ ≥ vm.max_steps_per_advance; omega)]
            refine ⟨{ visited res node with
              result := DGMLRT_RESULT_TYPE_ERROR max_iterations_error }, ?_, rfl, ?_⟩
            · rw [← hwalk]; rfl
            · show (visited res node).visited_node_ids.length = _
              rw [hvl]; omega
          · rw [if_neg (by rw [hvl]; show ¬ _ ≥ vm.max_steps_per_advance; omega)]
            obtain ⟨r, h1, h2, h3⟩ := ih fuel { vm with current_node := g.next_node }
              (visited res node) (by omega) (by omega) (by rw [hvl]; show _ = vm.max_steps_per_advance; omega)
              htrace hwalk
            exact ⟨r, h1, h2, h3⟩
        | invalid => rw [hd] at hwalk; cases hwalk
        | choice x => rw [hd] at hwalk; cases hwalk
        | if_ x => rw [hd] at hwalk; cases hwalk
        | rand x => rw [hd] at hwalk; cases hwalk
        | run x => rw [hd] at hwalk; cases hwalk
        | say x => rw [hd] at hwalk; cases hwalk

/-- Claim C16: for every `N >= 1`, on a machine with step budget
`max_steps_per_advance = N` (and a trace buffer of `N` entries), if the walk
from the cursor passes through `N` consecutive Goto nodes, then
`dgmlrt_vm_advance(vm, -1)` returns the error `MaxIterations` with
`num_visited_node_ids = N`, the cursor being where the last Goto leads. -/
theorem goto_chain_max_iterations (fo : FloatOps) (vm : Vm) (sec : Section) (N c : Nat)
    (hN : 1 ≤ N)
    (hmax : vm.max_steps_per_advance = N)
    (htrace : vm.trace_buf_size = N)
    (hsec : current_section vm = some sec)
    (hwalk : goto_walk sec N vm.current_node = some c) :
    ∃ r, dgmlrt_vm_advance fo vm (-1) =
        .ok (r, { vm with interp_buffer_offset := 0, text_frags_offset := 0,
                          current_node := c, error := max_iterations_error }) ∧
      r.result = DGMLRT_RESULT_TYPE_ERROR max_iterations_error ∧
      r.num_visited_node_ids = N := by
  unfold dgmlrt_vm_advance
  rw [hsec]
  simp only
  rw [if_neg (by decide)]
  obtain ⟨r, h1, h2, h3⟩ := @goto_walk_loop fo sec c N
    (vm.max_steps_per_advance + 1)
    { vm with interp_buffer_offset := 0, text_frags_offset := 0 } empty_result
    (by omega) hN (by show 0 + N = vm.max_steps_per_advance; omega)
    (by show vm.trace_buf_size = vm.max_steps_per_advance; omega) hwalk
  exact ⟨r, h1, h2, by rw [← hmax]; exact h3⟩

set_option maxRecDepth 100000 in
/-- Witness of C16 on scenario 5 (node 0 is `Goto { next: 0 }`): with the step
budget 1 the advance stops after one visit, with the default budget 128 after
128 visits, each time with `MaxIterations` and the cursor on node 0. -/
theorem goto_chain_max_iterations_witness :
    (goto_walk ⟨[115], goto_self_nodes, 0⟩ 1
        (sample_vm_steps goto_self_nodes 1).current_node = some 0 ∧
      ∃ r, dgmlrt_vm_advance sample_float_ops (sample_vm_steps goto_self_nodes 1) (-1) =
          .ok (r, { sample_vm_steps goto_self_nodes 1 with
                    interp_buffer_offset := 0, text_frags_offset := 0,
                    current_node := 0, error := max_iterations_error }) ∧
        r.result = DGMLRT_RESULT_TYPE_ERROR max_iterations_error ∧
        r.num_visited_node_ids = 1) ∧
    (goto_walk ⟨[115], goto_self_nodes, 0⟩ 128
        (sample_vm goto_self_nodes).current_node = some 0 ∧
      ∃ r, dgmlrt_vm_advance sample_float_ops (sample_vm goto_self_nodes) (-1) =
          .ok (r, { sample_vm goto_self_nodes with
                    interp_buffer_offset := 0, text_frags_offset := 0,
                    current_node := 0, error := max_iterations_error }) ∧
        r.result = DGMLRT_RESULT_TYPE_ERROR max_iterations_error ∧
        r.num_visited_node_ids = 128) :=
  ⟨⟨by decide,
    goto_chain_max_iterations sample_float_ops (sample_vm_steps goto_self_nodes 1)
      ⟨[115], goto_self_nodes, 0⟩ 1 0 (by decide) rfl rfl rfl (by decide)⟩,
   ⟨by decide,
    goto_chain_max_iterations sample_float_ops (sample_vm goto_self_nodes)
      ⟨[115], goto_self_nodes, 0⟩ 128 0 (by decide) rfl rfl rfl (by decide)⟩⟩

/-! ## Which errors an advance stores -/

theorem interp_frame_refl (vm : Vm) : interp_frame vm vm := rfl

theorem interp_frame_trans {a b c : Vm} (h1 : interp_frame a b) (h2 : interp_frame b c) :
    interp_frame a c := by
  unfold interp_frame at *
  rw [h2, h1]

theorem interp_frame_interp {vm vm1 : Vm} {chars : List Nat} {r : Option dgmlrt_string}
    (h : interp vm chars = .ok (vm1, r)) : interp_frame vm vm1 := by
  unfold interp at h
  split at h
  · cases h
  · split at h
    · split at h
      · cases h; rfl
      · cases h
    · cases h; rfl

theorem interp_frame_interpolate_loop {fo : FloatOps} :
    ∀ (frags : List dgmlrt_text_fragment) (is_vars : List Bool) {vm vm1 : Vm}
      {r : Option (List dgmlrt_text_fragment)},
      interpolate_loop fo vm frags is_vars = .ok (vm1, r) → interp_frame vm vm1 := by
  intro frags
  induction frags with
  | nil => intro is_vars vm vm1 r h; simp [interpolate_loop] at h; rw [← h.1]; rfl
  | cons frag frags ih =>
    intro is_vars vm vm1 r h
    cases is_vars with
    | nil => simp [interpolate_loop] at h
    | cons is_var is_vars =>
      unfold interpolate_loop at h
      simp only at h
      split at h
      · cases h
      · rename_i vm2 hw
        have hw2 : interp_frame vm vm2 := by
          split at hw
          · split at hw
            · cases hw
            · cases hw
            · exact interp_frame_interp hw
            · exact interp_frame_interp hw
            · cases hw
            · cases hw
          · cases hw
        cases h; exact hw2
      · rename_i vm2 text hw
        have hw2 : interp_frame vm vm2 := by
          split at hw
          · split at hw
            · cases hw; rfl
            · cases hw; rfl
            · exact interp_frame_interp hw
            · exact interp_frame_interp hw
            · cases hw; rfl
            · cases hw; rfl
          · cases hw; rfl
        split at h
        · cases h
        · rename_i hl
          cases h; exact interp_frame_trans hw2 (ih is_vars hl)
        · rename_i hl
          cases h; exact interp_frame_trans hw2 (ih is_vars hl)

theorem interp_frame_interpolate_text {fo : FloatOps} {vm vm1 : Vm} {text : Text}
    {r : Option (List dgmlrt_text_fragment)}
    (h : interpolate_text fo vm text = .ok (vm1, r)) : interp_frame vm vm1 := by
  unfold interpolate_text at h
  split at h
  · split at h
    · cases h
    · rename_i hl
      cases h; exact interp_frame_interpolate_loop _ _ hl
    · rename_i hl
      cases h
      exact interp_frame_trans (interp_frame_interpolate_loop _ _ hl) rfl
  · cases h

theorem interp_frame_error {vm vm1 : Vm} (h : interp_frame vm vm1) : vm1.error = vm.error := by
  unfold interp_frame at h; rw [h]

theorem interp_frame_current_node {vm vm1 : Vm} (h : interp_frame vm vm1) :
    vm1.current_node = vm.current_node := by
  unfold interp_frame at h; rw [h]

theorem kept_or_failed_refl (e : dgmlrt_advance_error) : kept_or_failed e e := Or.inl rfl

theorem kept_or_failed_trans {a b c : dgmlrt_advance_error} (h1 : kept_or_failed a b)
    (h2 : kept_or_failed b c) : kept_or_failed a c := by
  rcases h2 with h2 | h2
  · rw [h2]; exact h1
  · exact Or.inr h2

theorem kept_or_failed_eval {fo : FloatOps} {vm vm1 : Vm} {code : List dgmlb_byte_code}
    {r : Option dgmlrt_env_value} (h : eval fo vm code = .ok (vm1, r)) :
    kept_or_failed vm.error vm1.error := by
  rcases (eval_frame_eval h).2 with h2 | h2
  · exact Or.inl h2
  · exact Or.inr (Or.inl h2)

theorem kept_or_failed_choice_loop {fo : FloatOps} :
    ∀ (opts : List ChoiceOption) {vm vm1 : Vm}
      {x : dgmlrt_advance_error ⊕ List dgmlrt_option},
      choice_loop fo vm opts = .ok (vm1, x) →
        kept_or_failed vm.error vm1.error ∧
          ∀ err, x = .inl err → kept_or_failed vm.error err := by
  intro opts
  induction opts with
  | nil =>
    intro vm vm1 x h
    simp [choice_loop] at h
    rw [← h.1, ← h.2]
    exact ⟨Or.inl rfl, by intro err he; cases he⟩
  | cons opt opts ih =>
    intro vm vm1 x h
    unfold choice_loop at h
    split at h
    · cases h
    · rename_i vm2 cond he
      have f2 := kept_or_failed_eval he
      split at h
      · cases h
        exact ⟨f2, by intro err h2; cases h2; exact f2⟩
      · simp only at h
        split at h
        · cases h
          exact ⟨f2, by intro err h2; cases h2; exact Or.inr (Or.inl rfl)⟩
        · split at h
          · cases h
          · rename_i hi
            cases h
            have f3 := interp_frame_error (interp_frame_interpolate_text hi)
            exact ⟨by rw [f3]; exact f2,
              by intro err h2; cases h2; exact Or.inr (Or.inr rfl)⟩
          · rename_i vm3 frags hi
            have f3 := interp_frame_error (interp_frame_interpolate_text hi)
            split at h
            · cases h
            · rename_i hl
              cases h
              have f4 := ih hl
              rw [f3] at f4
              exact ⟨kept_or_failed_trans f2 f4.1,
                fun err h2 => kept_or_failed_trans f2 (f4.2 err h2)⟩
            · rename_i hl
              cases h
              have f4 := ih hl
              rw [f3] at f4
              exact ⟨kept_or_failed_trans f2 f4.1, by intro err h2; cases h2⟩

/-- A node at which the switch returns an error stores the error already
recorded or one of `EvalFail`, `InterpFail`. -/
theorem visit_node_ret_error {fo : FloatOps} {vm vm1 : Vm} {node : Node}
    {res r : dgmlrt_advance_result} (h : visit_node fo vm node res = .ok (.ret r vm1)) :
    kept_or_failed vm.error vm1.error ∧
      ∀ e, r.result = DGMLRT_RESULT_TYPE_ERROR e → kept_or_failed vm.error e := by
  unfold visit_node at h
  split at h
  · -- Say
    split at h
    · cases h
    · cases h
      exact ⟨Or.inr (Or.inr rfl), by
        intro e he; simp only [advance_error] at he; cases he; exact Or.inr (Or.inr rfl)⟩
    · rename_i vm2 frags hi
      have f1 := interp_frame_error (interp_frame_interpolate_text hi)
      cases h
      exact ⟨Or.inl f1, by intro e he; cases he⟩
  · -- Choice
    split at h
    · split at h
      · cases h
      · rename_i vm2 err hl
        cases h
        have f := (kept_or_failed_choice_loop _ hl).2 err rfl
        exact ⟨f, by intro e he; simp only [advance_error] at he; cases he; exact f⟩
      · rename_i hl
        cases h
        exact ⟨(kept_or_failed_choice_loop _ hl).1, by intro e he; cases he⟩
    · cases h
  · cases h
  · -- If
    split at h
    · cases h
    · rename_i vm2 r2 he
      have f2 := kept_or_failed_eval he
      split at h
      · cases h
        exact ⟨f2, by intro e h2; simp only [advance_error] at h2; cases h2; exact f2⟩
      · split at h
        · cases h
        · cases h
          exact ⟨Or.inr (Or.inl rfl), by
            intro e h2; simp only [advance_error] at h2; cases h2; exact Or.inr (Or.inl rfl)⟩
  · split at h
    · cases h
    · cases h
  · -- Run
    split at h
    · cases h
    · rename_i vm2 r2 he
      have f2 := kept_or_failed_eval he
      split at h
      · cases h
        exact ⟨f2, by intro e h2; simp only [advance_error] at h2; cases h2; exact f2⟩
      · cases h
  · cases h

/-- An internal node that lets the loop go on leaves the recorded error as it
was and moves the cursor to one of its destinations. -/
theorem visit_node_cont_error {fo : FloatOps} {vm vm1 : Vm} {node : Node}
    {res : dgmlrt_advance_result} (h : visit_node fo vm node res = .ok (.cont vm1)) :
    vm1.error = vm.error ∧ vm1.current_node ∈ node_dests node := by
  unfold visit_node at h
  unfold node_dests
  cases hd : node.data with
  | say x =>
    rw [hd] at h
    simp only at h
    split at h <;> cases h
  | choice x =>
    rw [hd] at h
    simp only at h
    split at h
    · split at h <;> cases h
    · cases h
  | goto_ g =>
    rw [hd] at h
    cases h
    exact ⟨rfl, by simp⟩
  | if_ i =>
    rw [hd] at h
    simp only at h
    split at h
    · cases h
    · rename_i vm2 r2 he
      have f2 := (eval_frame_eval he).2
      split at h
      · cases h
      · rename_i hc
        have hk : vm2.error = vm.error := by
          rcases f2 with f2 | f2
          · exact f2
          · exfalso; apply hc; rw [f2]; decide
        split at h
        · rename_i b
          cases h
          refine ⟨hk, ?_⟩
          cases b <;> simp
        · cases h
  | rand x =>
    rw [hd] at h
    simp only at h
    split at h
    · rename_i hpos
      cases h
      refine ⟨rfl, ?_⟩
      simp only
      rw [List.getD_eq_getElem _ _ (Nat.mod_lt _ hpos)]
      exact List.getElem_mem _
    · cases h
  | run x =>
    rw [hd] at h
    simp only at h
    split at h
    · cases h
    · rename_i vm2 r2 he
      have f2 := (eval_frame_eval he).2
      split at h
      · cases h
      · rename_i hc
        have hk : vm2.error = vm.error := by
          rcases f2 with f2 | f2
          · exact f2
          · exfalso; apply hc; rw [f2]; decide
        cases h
        exact ⟨hk, by simp⟩
  | invalid =>
    rw [hd] at h
    cases h

theorem advance_loop_stored_error {fo : FloatOps} {sec : Section} :
    ∀ (fuel : Nat) {vm vm1 : Vm} {res r : dgmlrt_advance_result},
      advance_loop fo sec fuel vm res = .ok (r, vm1) →
        kept_or_failed vm.error vm1.error ∨ vm1.error = max_iterations_error := by
  intro fuel
  induction fuel with
  | zero => intro vm vm1 res r h; simp [advance_loop] at h
  | succ fuel ih =>
    intro vm vm1 res r h
    unfold advance_loop at h
    split at h
    · cases h
      exact Or.inl (Or.inl rfl)
    · split at h
      · simp only at h
        split at h
        · cases h
        · rename_i r2 vm2 hv
          cases h
          exact Or.inl (visit_node_ret_error hv).1
        · rename_i vm2 hv
          have f := (visit_node_cont_error hv).1
          split at h
          · cases h
            exact Or.inr rfl
          · have h2 := ih h
            rw [f] at h2
            exact h2
      · cases h

/-- The two ways `dgmlrt_vm_advance` returns: the early `InvalidOption`, which
leaves the machine as it is, or the loop started at some cursor. -/
theorem advance_cases {fo : FloatOps} {vm vm1 : Vm} {k : Int} {r : dgmlrt_advance_result}
    {sec : Section} (hsec : current_section vm = some sec)
    (h : dgmlrt_vm_advance fo vm k = .ok (r, vm1)) :
    (r = invalid_option_result ∧ vm1 = vm) ∨
    ∃ c, advance_loop fo sec (vm.max_steps_per_advance + 1)
        { vm with current_node := c, interp_buffer_offset := 0, text_frags_offset := 0 }
        empty_result = .ok (r, vm1) := by
  unfold dgmlrt_vm_advance at h
  rw [hsec] at h
  simp only at h
  split at h
  · split at h
    · cases h
    · split at h
      · split at h
        · cases h
          exact Or.inl ⟨rfl, rfl⟩
        · rename_i opt _
          exact Or.inr ⟨opt.dest, h⟩
      · cases h
        exact Or.inl ⟨rfl, rfl⟩
  · exact Or.inr ⟨vm.current_node, h⟩

/-- No advance stores `InvalidOption` in the machine. -/
theorem advance_keeps_no_invalid_option {fo : FloatOps} {vm vm1 : Vm} {k : Int}
    {r : dgmlrt_advance_result} (h : dgmlrt_vm_advance fo vm k = .ok (r, vm1))
    (hinv : vm.error.code ≠ DGMLRT_ERROR_INVALID_OPTION) :
    vm1.error.code ≠ DGMLRT_ERROR_INVALID_OPTION := by
  cases hsec : current_section vm with
  | none =>
    unfold dgmlrt_vm_advance at h
    rw [hsec] at h
    cases h
  | some sec =>
    rcases advance_cases hsec h with ⟨_, h2⟩ | ⟨c, h2⟩
    · rw [h2]; exact hinv
    · rcases advance_loop_stored_error _ h2 with (h3 | h3 | h3) | h3
      · rw [h3]; exact hinv
      · rw [h3]; decide
      · rw [h3]; decide
      · rw [h3]; decide

theorem vm_create_no_error (tree : Tree) (params : dgmlrt_vm_create_params) (now : Nat) :
    (dgmlrt_vm_create tree params now).error.code = DGMLRT_ERROR_NONE := rfl

theorem vm_enter_error (vm : Vm) (sect node_id : Option (List Nat)) :
    (dgmlrt_vm_enter vm sect node_id).2.error = vm.error := by
  unfold dgmlrt_vm_enter
  split
  · rfl
  · split
    · rfl
    · split
      · split
        · rfl
        · split
          · rfl
          · rfl
      · rfl

theorem set_env_value_error (vm : Vm) (name : dgmlrt_string) (v : dgmlrt_env_value) :
    (dgmlrt_vm_set_env_value vm name v).2.error = vm.error := rfl

/-! ## InvalidOption -/

/-- Claim C18: when `dgmlrt_vm_advance(vm, k)` returns an Error result with code
`InvalidOption`, the machine afterwards is the machine before (cursor,
variables, scratch offsets, sticky error and all other fields), so every
following advance returns what it would have returned without the rejected
call.  The machine is one in which no `InvalidOption` is stored, which holds
after `dgmlrt_vm_create` and is kept by every advance. -/
theorem invalid_option_leaves_vm (fo : FloatOps) (vm vm1 : Vm) (k : Int)
    (r : dgmlrt_advance_result) (e : dgmlrt_advance_error)
    (hinv : vm.error.code ≠ DGMLRT_ERROR_INVALID_OPTION)
    (h : dgmlrt_vm_advance fo vm k = .ok (r, vm1))
    (hr : r.result = DGMLRT_RESULT_TYPE_ERROR e)
    (hc : e.code = DGMLRT_ERROR_INVALID_OPTION) :
    vm1 = vm ∧ r = invalid_option_result ∧
      ∀ j, dgmlrt_vm_advance fo vm1 j = dgmlrt_vm_advance fo vm j := by
  have hvm : r = invalid_option_result ∧ vm1 = vm := by
    cases hsec : current_section vm with
    | none =>
      unfold dgmlrt_vm_advance at h
      rw [hsec] at h
      cases h
    | some sec =>
      rcases advance_cases hsec h with h2 | ⟨c, h2⟩
      · exact h2
      · exfalso
        have h3 := ((advance_loop_ok _ h2).2.2.1 e hr).1
        apply advance_keeps_no_invalid_option h hinv
        rw [h3]
        exact hc
  refine ⟨hvm.2, hvm.1, ?_⟩
  intro j
  rw [hvm.2]

/-- Witness of C18 on scenario 3: at the Choice node with two options,
`advance(5)` is rejected with `InvalidOption`; the machine is unchanged and the
following `advance(1)` says "no", as it does without the rejected call. -/
theorem invalid_option_leaves_vm_witness :
    (advance_vm sample_float_ops (advance_vm sample_float_ops (sample_vm choice_nodes) (-1)) 5 =
        advance_vm sample_float_ops (sample_vm choice_nodes) (-1) ∧
      advance_res sample_float_ops (advance_vm sample_float_ops (sample_vm choice_nodes) (-1)) 5 =
        invalid_option_result ∧
      ∀ j, dgmlrt_vm_advance sample_float_ops
          (advance_vm sample_float_ops
            (advance_vm sample_float_ops (sample_vm choice_nodes) (-1)) 5) j =
        dgmlrt_vm_advance sample_float_ops
          (advance_vm sample_float_ops (sample_vm choice_nodes) (-1)) j) ∧
    (run_advances sample_float_ops (sample_vm choice_nodes) [-1, 5, 1]).map
        (fun p => p.1.map (fun r => r.result)) =
      .ok [DGMLRT_RESULT_TYPE_CHOICE ⟨[⟨[⟨[], [97]⟩], false⟩, ⟨[⟨[], [98]⟩], true⟩]⟩,
           DGMLRT_RESULT_TYPE_ERROR ⟨DGMLRT_ERROR_INVALID_OPTION, "Invalid option"⟩,
           DGMLRT_RESULT_TYPE_SAY ⟨[65], [⟨[], [110, 111]⟩]⟩] :=
  ⟨invalid_option_leaves_vm sample_float_ops
      (advance_vm sample_float_ops (sample_vm choice_nodes) (-1))
      (advance_vm sample_float_ops (advance_vm sample_float_ops (sample_vm choice_nodes) (-1)) 5)
      5
      (advance_res sample_float_ops (advance_vm sample_float_ops (sample_vm choice_nodes) (-1)) 5)
      ⟨DGMLRT_ERROR_INVALID_OPTION, "Invalid option"⟩
      (by decide) (advance_eq_res_vm (by decide)) (by decide) rfl,
   by decide⟩

/-! ## Resuming after MaxIterations -/

theorem eval_nil (fo : FloatOps) (vm : Vm) :
    eval fo vm [] = .ok ({ vm with stack := [] }, none) := by
  unfold eval
  simp [eval_loop]

/-- One option that passes: the loop writes its entry and goes on. -/
theorem choice_loop_step {fo : FloatOps} {vm vm_e vm_i : Vm} {opt : ChoiceOption}
    {cond : Option dgmlrt_env_value} {frags : List dgmlrt_text_fragment} {en : Bool}
    (opts : List ChoiceOption)
    (hclean : vm.error.code = DGMLRT_ERROR_NONE)
    (hev : eval fo vm opt.cond = .ok (vm_e, cond))
    (hint : interpolate_text fo vm_e opt.text = .ok (vm_i, some frags))
    (hen : (opt.cond = [] ∧ en = true) ∨ cond = some (.bool en)) :
    vm_i.error.code = DGMLRT_ERROR_NONE ∧
    choice_loop fo vm (opt :: opts) =
      match choice_loop fo vm_i opts with
      | .error e => .error e
      | .ok (vm3, .inl err) => .ok (vm3, .inl err)
      | .ok (vm3, .inr o) => .ok (vm3, .inr (⟨frags, en⟩ :: o)) := by
  have hie : vm_i.error = vm_e.error := interp_frame_error (interp_frame_interpolate_text hint)
  rcases hen with ⟨hnil, hen⟩ | hb
  · subst hen
    have hev2 := hev
    rw [hnil, eval_nil] at hev2
    simp only [Except.ok.injEq, Prod.mk.injEq] at hev2
    have hee : vm_e.error.code = DGMLRT_ERROR_NONE := by rw [← hev2.1]; exact hclean
    have hcond := hev2.2
    subst hcond
    refine ⟨by rw [hie]; exact hee, ?_⟩
    conv => lhs; unfold choice_loop
    simp only [hev, hee, ne_eq, not_true_eq_false, if_false, hint]
    simp only [hnil, List.length_nil, gt_iff_lt, Nat.lt_irrefl, false_and, beq_self_eq_true,
      Bool.true_or, if_false]
  · subst hb
    have hee : vm_e.error.code = DGMLRT_ERROR_NONE := eval_some_no_error hev
    have hne : opt.cond ≠ [] := by
      intro hnil
      rw [hnil, eval_nil] at hev
      simp at hev
    have hlen : (opt.cond.length == 0) = false := by
      cases hcond : opt.cond with
      | nil => exact absurd hcond hne
      | cons a l => rfl
    refine ⟨by rw [hie]; exact hee, ?_⟩
    conv => lhs; unfold choice_loop
    simp only [hev, hee, ne_eq, not_true_eq_false, if_false, hint, hlen, Bool.false_or,
      Bool.true_eq_false, and_false]

/-- The loop over the options goes through a prefix of options that pass and
continues with the remaining ones. -/
theorem choice_loop_pass {fo : FloatOps} :
    ∀ (pre : List ChoiceOption) {vm vm1 : Vm} {out : List dgmlrt_option},
      options_pass fo vm pre out vm1 → vm.error.code = DGMLRT_ERROR_NONE →
        vm1.error.code = DGMLRT_ERROR_NONE ∧ vm1.current_node = vm.current_node ∧
        out.length = pre.length ∧
        ∀ rest, choice_loop fo vm (pre ++ rest) =
          match choice_loop fo vm1 rest with
          | .error e => .error e
          | .ok (vm3, .inl err) => .ok (vm3, .inl err)
          | .ok (vm3, .inr o) => .ok (vm3, .inr (out ++ o)) := by
  intro pre
  induction pre with
  | nil =>
    intro vm vm1 out h hclean
    obtain ⟨h1, h2⟩ := h
    subst h1 h2
    refine ⟨hclean, rfl, rfl, ?_⟩
    intro rest
    simp only [List.nil_append]
    cases hc : choice_loop fo vm1 rest with
    | error e => rfl
    | ok p =>
      obtain ⟨vm3, x⟩ := p
      cases x <;> rfl
  | cons opt opts ih =>
    intro vm vm1 out h hclean
    obtain ⟨vm_e, cond, vm_i, frags, tl, hev, hint, hen, hrest⟩ := h
    have hstep : ∃ en, out = ⟨frags, en⟩ :: tl ∧
        ((opt.cond = [] ∧ en = true) ∨ cond = some (.bool en)) := by
      rcases hen with ⟨hnil, ho⟩ | ⟨b, hb, ho⟩
      · exact ⟨true, ho, Or.inl ⟨hnil, rfl⟩⟩
      · exact ⟨b, ho, Or.inr hb⟩
    obtain ⟨en, hout, hen2⟩ := hstep
    have hcur : vm_i.current_node = vm.current_node := by
      rw [interp_frame_current_node (interp_frame_interpolate_text hint),
        eval_frame_current_node (eval_frame_eval hev)]
    have hs := fun l => choice_loop_step l hclean hev hint hen2
    obtain ⟨h1, h2, h3, h4⟩ := ih hrest (hs []).1
    refine ⟨h1, by rw [h2, hcur], by rw [hout]; simp only [List.length_cons, h3], ?_⟩
    intro rest
    rw [List.cons_append, (hs (opts ++ rest)).2, h4 rest, hout]
    cases hc : choice_loop fo vm1 rest with
    | error e => rfl
    | ok p =>
      obtain ⟨vm3, x⟩ := p
      cases x <;> rfl

theorem visit_choice {fo : FloatOps} {vm vm1 : Vm} {node : Node} {choice : Choice}
    (res : dgmlrt_advance_result) {x : dgmlrt_advance_error ⊕ List dgmlrt_option}
    (hdata : node.data = .choice choice)
    (hbuf : choice.options.length ≤ vm.options_buf_size)
    (hloop : choice_loop fo vm choice.options = .ok (vm1, x)) :
    visit_node fo vm node res =
      match x with
      | .inl err => .ok (.ret { res with result := DGMLRT_RESULT_TYPE_ERROR err }
                              { vm1 with error := err })
      | .inr options => .ok (.ret { res with result := DGMLRT_RESULT_TYPE_CHOICE ⟨options⟩ } vm1) := by
  unfold visit_node
  simp only [hdata, hbuf, if_true, hloop]
  cases x <;> rfl

/-- An option whose non-empty condition does not yield a Bool ends the loop
over the options with an `EvalFail` error. -/
theorem choice_loop_not_bool {fo : FloatOps} {vm vm_e : Vm} {opt : ChoiceOption}
    {cond : Option dgmlrt_env_value} (opts : List ChoiceOption)
    (hclean : vm.error.code = DGMLRT_ERROR_NONE)
    (hev : eval fo vm opt.cond = .ok (vm_e, cond))
    (hne : opt.cond ≠ [])
    (hcond : ∀ b, cond ≠ some (.bool b)) :
    ∃ e, e.code = DGMLRT_ERROR_EVAL_FAIL ∧
      choice_loop fo vm (opt :: opts) = .ok (vm_e, .inl e) := by
  conv => enter [1, e, 2, 1]; unfold choice_loop
  simp only [hev]
  by_cases hc : vm_e.error.code = DGMLRT_ERROR_NONE
  · refine ⟨⟨DGMLRT_ERROR_EVAL_FAIL, "Condition type must be bool"⟩, rfl, ?_⟩
    have hlen : opt.cond.length > 0 := by
      cases h : opt.cond with
      | nil => exact absurd h hne
      | cons a l => simp
    have hok : (match cond with
        | some (.bool _) => true
        | _ => false) = false := by
      cases cond with
      | none => rfl
      | some v =>
        cases v with
        | bool b => exact absurd rfl (hcond b)
        | _ => rfl
    simp only [hc, ne_eq, not_true_eq_false, if_false, hlen, hok, and_self, if_true]
  · refine ⟨vm_e.error, eval_error_code hev hclean hc, ?_⟩
    simp only [hc, ne_eq, not_false_eq_true, if_true]

/-- An option that passes its condition and whose text does not interpolate
ends the loop over the options with an `InterpFail` error. -/
theorem choice_loop_interp_fail {fo : FloatOps} {vm vm_e vm_i : Vm} {opt : ChoiceOption}
    {cond : Option dgmlrt_env_value} (opts : List ChoiceOption)
    (hclean : vm.error.code = DGMLRT_ERROR_NONE)
    (hev : eval fo vm opt.cond = .ok (vm_e, cond))
    (hcond : opt.cond = [] ∨ ∃ b, cond = some (.bool b))
    (hint : interpolate_text fo vm_e opt.text = .ok (vm_i, none)) :
    choice_loop fo vm (opt :: opts) =
      .ok (vm_i, .inl ⟨DGMLRT_ERROR_INTERP_FAIL, "Interpolation failed"⟩) := by
  conv => lhs; unfold choice_loop
  rcases hcond with hnil | ⟨b, hb⟩
  · have hev2 := hev
    rw [hnil, eval_nil] at hev2
    simp only [Except.ok.injEq, Prod.mk.injEq] at hev2
    have hee : vm_e.error.code = DGMLRT_ERROR_NONE := by rw [← hev2.1]; exact hclean
    simp only [hev, hee, ne_eq, not_true_eq_false, if_false, hint]
    simp only [hnil, List.length_nil, gt_iff_lt, Nat.lt_irrefl, false_and, if_false]
  · subst hb
    have hee : vm_e.error.code = DGMLRT_ERROR_NONE := eval_some_no_error hev
    simp only [hev, hee, ne_eq, not_true_eq_false, if_false, hint, Bool.true_eq_false,
      and_false]

/-- On a machine whose fragments buffer has at least one entry,
`interpolate_text` returns no fragments only through the `return {}` of its
loop. -/
theorem interpolate_text_none_loop {fo : FloatOps} {vm vm1 : Vm} {text : Text}
    (hbuf : vm.text_frags_buf_size ≠ 0)
    (h : interpolate_text fo vm text = .ok (vm1, none)) :
    interpolate_loop fo vm text.frags text.frag_is_var = .ok (vm1, none) := by
  unfold interpolate_text at h
  split at h
  · split at h
    · cases h
    · rename_i vm2 hl
      cases h
      exact hl
    · rename_i vm2 out hl
      exfalso
      have hf := interp_frame_interpolate_loop _ _ hl
      have hs : vm2.text_frags_buf_size = vm.text_frags_buf_size := by
        rw [hf]
      rw [if_neg (by rw [hs]; exact hbuf)] at h
      cases h
  · cases h

/-- Claim C13, amended: on a machine with no recorded error, when the loop of
`advance` visits a Choice node (whose options fit the options buffer),
(1) if every option passes, that is its condition is empty or evaluates to a
Bool and its text interpolates, the advance returns Choice with one entry for
each option, `enabled` being `true` for an empty condition and `b` for a
condition that evaluates to `Bool(b)`, and the cursor stays on the Choice
node; (2) with zero options it returns Choice with zero options; (3) if the
options before some option pass and the non-empty condition of that option
yields no Bool, the advance returns an `EvalFail` error; (4) if the options
before some option pass, its condition passes and, the fragments buffer having
at least one entry, its text does not interpolate, then the loop of
`interpolate_text` has stopped at a number that does not fit the interpolation
buffer (its `return {}`) and the advance returns an `InterpFail` error. -/
theorem choice_node_result (fo : FloatOps) (sec : Section) (fuel : Nat) (vm : Vm)
    (res : dgmlrt_advance_result) (node : Node) (choice : Choice)
    (hnode : sec.nodes[vm.current_node]? = some node)
    (hdata : node.data = .choice choice)
    (hroom : res.visited_node_ids.length < vm.trace_buf_size)
    (hbuf : choice.options.length ≤ vm.options_buf_size)
    (hclean : vm.error.code = DGMLRT_ERROR_NONE) :
    (∀ out vm1, options_pass fo vm choice.options out vm1 →
      advance_loop fo sec (fuel + 1) vm res =
          .ok ({ visited res node with result := DGMLRT_RESULT_TYPE_CHOICE ⟨out⟩ }, vm1) ∧
        out.length = choice.options.length ∧ vm1.current_node = vm.current_node) ∧
    (choice.options = [] →
      advance_loop fo sec (fuel + 1) vm res =
        .ok ({ visited res node with result := DGMLRT_RESULT_TYPE_CHOICE ⟨[]⟩ }, vm)) ∧
    (∀ pre opt post out vm_i vm_e cond,
      choice.options = pre ++ opt :: post → options_pass fo vm pre out vm_i →
      eval fo vm_i opt.cond = .ok (vm_e, cond) → opt.cond ≠ [] →
      (∀ b, cond ≠ some (.bool b)) →
      ∃ e, e.code = DGMLRT_ERROR_EVAL_FAIL ∧
        advance_loop fo sec (fuel + 1) vm res =
          .ok ({ visited res node with result := DGMLRT_RESULT_TYPE_ERROR e },
               { vm_e with error := e })) ∧
    (∀ pre opt post out vm_i vm_e cond vm_t,
      choice.options = pre ++ opt :: post → options_pass fo vm pre out vm_i →
      eval fo vm_i opt.cond = .ok (vm_e, cond) →
      (opt.cond = [] ∨ ∃ b, cond = some (.bool b)) →
      vm_e.text_frags_buf_size ≠ 0 →
      interpolate_text fo vm_e opt.text = .ok (vm_t, none) →
      interpolate_loop fo vm_e opt.text.frags opt.text.frag_is_var = .ok (vm_t, none) ∧
      advance_loop fo sec (fuel + 1) vm res =
        .ok ({ visited res node with
               result := DGMLRT_RESULT_TYPE_ERROR
                 ⟨DGMLRT_ERROR_INTERP_FAIL, "Interpolation failed"⟩ },
             { vm_t with error := ⟨DGMLRT_ERROR_INTERP_FAIL, "Interpolation failed"⟩ })) := by
  refine ⟨?_, ?_, ?_, ?_⟩
  · intro out vm1 hpass
    obtain ⟨_, hcur, hlen, hloop⟩ := choice_loop_pass _ hpass hclean
    have h0 := hloop []
    simp only [List.append_nil, choice_loop] at h0
    exact ⟨advance_loop_ret fuel hnode hroom (visit_choice (visited res node) hdata hbuf h0),
      hlen, hcur⟩
  · intro hnil
    have h0 : choice_loop fo vm choice.options = .ok (vm, .inr []) := by
      rw [hnil]; rfl
    exact advance_loop_ret fuel hnode hroom (visit_choice (visited res node) hdata hbuf h0)
  · intro pre opt post out vm_i vm_e cond hopts hpass hev hne hcond
    obtain ⟨hci, _, _, hloop⟩ := choice_loop_pass _ hpass hclean
    obtain ⟨e, he, hl⟩ := choice_loop_not_bool post hci hev hne hcond
    have h0 := hloop (opt :: post)
    rw [hl, ← hopts] at h0
    exact ⟨e, he,
      advance_loop_ret fuel hnode hroom (visit_choice (visited res node) hdata hbuf h0)⟩
  · intro pre opt post out vm_i vm_e cond vm_t hopts hpass hev hcond hfrags hint
    obtain ⟨hci, _, _, hloop⟩ := choice_loop_pass _ hpass hclean
    have hl := choice_loop_interp_fail post hci hev hcond hint
    have h0 := hloop (opt :: post)
    rw [hl, ← hopts] at h0
    exact ⟨interpolate_text_none_loop hfrags hint,
      advance_loop_ret fuel hnode hroom (visit_choice (visited res node) hdata hbuf h0)⟩

/-- Witness of the amended C13 on scenario 3: option "a" has the condition
`PUSH_BOOL 0` and is disabled, option "b" has no condition and is enabled; the
advance returns Choice with both entries. -/
theorem choice_node_result_witness :
    advance_loop sample_float_ops ⟨[115], choice_nodes, 0⟩ (128 + 1) (sample_vm choice_nodes)
        empty_result =
      .ok ({ visited empty_result
               ⟨[99], [], .choice ⟨[⟨literal_text [97], [⟨DGMLB_OP_PUSH_BOOL, 0⟩], 1⟩,
                                    ⟨literal_text [98], [], 2⟩]⟩⟩ with
             result := DGMLRT_RESULT_TYPE_CHOICE
               ⟨[⟨[⟨[], [97]⟩], false⟩, ⟨[⟨[], [98]⟩], true⟩]⟩ },
           { sample_vm choice_nodes with stack := [], text_frags_offset := 2 }) :=
  ((choice_node_result sample_float_ops ⟨[115], choice_nodes, 0⟩ 128 (sample_vm choice_nodes)
    empty_result
    ⟨[99], [], .choice ⟨[⟨literal_text [97], [⟨DGMLB_OP_PUSH_BOOL, 0⟩], 1⟩,
                         ⟨literal_text [98], [], 2⟩]⟩⟩
    ⟨[⟨literal_text [97], [⟨DGMLB_OP_PUSH_BOOL, 0⟩], 1⟩, ⟨literal_text [98], [], 2⟩]⟩
    rfl rfl (by decide) (by decide) rfl).1
    [⟨[⟨[], [97]⟩], false⟩, ⟨[⟨[], [98]⟩], true⟩]
    { sample_vm choice_nodes with stack := [], text_frags_offset := 2 }
    ⟨{ sample_vm choice_nodes with stack := [.bool false] }, some (.bool false),
     { sample_vm choice_nodes with stack := [.bool false], text_frags_offset := 1 },
     [⟨[], [97]⟩], [⟨[⟨[], [98]⟩], true⟩], rfl, rfl, Or.inr ⟨false, rfl, rfl⟩,
     { sample_vm choice_nodes with stack := [], text_frags_offset := 1 }, none,
     { sample_vm choice_nodes with stack := [], text_frags_offset := 2 },
     [⟨[], [98]⟩], [], rfl, rfl, Or.inl ⟨rfl, rfl⟩, rfl, rfl⟩).1

/-- Claim C13 fails as stated.  The machine has an interpolation buffer of one
byte and no recorded error; the Choice node has one option without condition
whose text is the Int variable `n`.  The advance returns the error
`InterpFail`, not Choice with one option, and records it.  With a second
option whose condition `PUSH_INT 1` yields an Int, the result is `InterpFail`
as well, not `EvalFail`: the text of the first option fails before the second
condition is evaluated. -/
theorem choice_option_interp_fail :
    (sample_vm_interp (var_choice_nodes []) 1).error.code = DGMLRT_ERROR_NONE ∧
    (dgmlrt_vm_advance sample_float_ops (sample_vm_interp (var_choice_nodes []) 1) (-1)).map
        (fun p => (p.1.result, p.1.visited_node_ids, p.2.current_node, p.2.error.code)) =
      .ok (DGMLRT_RESULT_TYPE_ERROR ⟨DGMLRT_ERROR_INTERP_FAIL, "Interpolation failed"⟩,
           [[99]], 0, DGMLRT_ERROR_INTERP_FAIL) ∧
    (eval sample_float_ops
        (sample_vm_interp (var_choice_nodes [⟨literal_text [98], [⟨DGMLB_OP_PUSH_INT, 1⟩], 1⟩]) 1)
        [⟨DGMLB_OP_PUSH_INT, 1⟩]).map (fun p => p.2) = .ok (some (.int 1)) ∧
    (dgmlrt_vm_advance sample_float_ops
        (sample_vm_interp (var_choice_nodes [⟨literal_text [98], [⟨DGMLB_OP_PUSH_INT, 1⟩], 1⟩]) 1)
        (-1)).map (fun p => p.1.result) =
      .ok (DGMLRT_RESULT_TYPE_ERROR ⟨DGMLRT_ERROR_INTERP_FAIL, "Interpolation failed"⟩) := by
  decide

/-! ## Scenario 1: Run, then Say with a variable -/

theorem digitChar_toNat (m : Nat) (h : m < 10) :
    (Nat.digitChar m).toNat - 48 = m ∧ 48 ≤ (Nat.digitChar m).toNat ∧
      (Nat.digitChar m).toNat ≤ 57 := by
  interval_cases m <;> decide

theorem toDigitsCore_value :
    ∀ (f n : Nat) (ds : List Char), n < f →
      ((Nat.toDigitsCore 10 f n ds).map Char.toNat).foldl (fun acc c => acc * 10 + (c - 48)) 0 =
        (ds.map Char.toNat).foldl (fun acc c => acc * 10 + (c - 48)) n := by
  intro f
  induction f with
  | zero => intro n ds h; omega
  | succ f ih =>
    intro n ds h
    unfold Nat.toDigitsCore
    simp only
    have hd := (digitChar_toNat (n % 10) (Nat.mod_lt _ (by decide))).1
    by_cases h0 : n / 10 = 0
    · rw [if_pos h0]
      simp only [List.map_cons, List.foldl_cons, Nat.zero_mul, Nat.zero_add, hd]
      have : n % 10 = n := by omega
      rw [this]
    · rw [if_neg h0]
      rw [ih (n / 10) _ (by omega)]
      simp only [List.map_cons, List.foldl_cons, hd]
      have : n / 10 * 10 + n % 10 = n := by omega
      rw [this]

theorem toDigitsCore_digits :
    ∀ (f n : Nat) (ds : List Char),
      (∀ c ∈ ds, 48 ≤ c.toNat ∧ c.toNat ≤ 57) →
      ∀ c ∈ Nat.toDigitsCore 10 f n ds, 48 ≤ c.toNat ∧ c.toNat ≤ 57 := by
  intro f
  induction f with
  | zero => intro n ds h; simpa [Nat.toDigitsCore] using h
  | succ f ih =>
    intro n ds h
    unfold Nat.toDigitsCore
    simp only
    have hd := (digitChar_toNat (n % 10) (Nat.mod_lt _ (by decide))).2
    have hcons : ∀ c ∈ Nat.digitChar (n % 10) :: ds, 48 ≤ c.toNat ∧ c.toNat ≤ 57 := by
      intro c hc
      rcases List.mem_cons.mp hc with h1 | h1
      · rw [h1]; exact hd
      · exact h c h1
    by_cases h0 : n / 10 = 0
    · rw [if_pos h0]; exact hcons
    · rw [if_neg h0]; exact ih _ _ hcons

theorem toDigits_length_pos (n : Nat) : 0 < (Nat.toDigits 10 n).length := by
  unfold Nat.toDigits Nat.toDigitsCore
  simp only
  by_cases h0 : n / 10 = 0
  · rw [if_pos h0]; simp
  · rw [if_neg h0, Nat.toDigitsCore_lens_eq]; omega

/-- The characters of `std::to_chars` for an integer are its decimal digits,
after a minus sign when it is negative. -/
theorem int_to_chars_decimal (i : Int) :
    ∃ ds, int_to_chars i = (if i < 0 then [45] else []) ++ ds ∧ ds ≠ [] ∧
      (∀ c ∈ ds, 48 ≤ c ∧ c ≤ 57) ∧ digits_value ds = i.natAbs := by
  have key : ∀ n : Nat, (Nat.toDigits 10 n).map Char.toNat ≠ [] ∧
      (∀ c ∈ (Nat.toDigits 10 n).map Char.toNat, 48 ≤ c ∧ c ≤ 57) ∧
      digits_value ((Nat.toDigits 10 n).map Char.toNat) = n := by
    intro n
    refine ⟨?_, ?_, ?_⟩
    · intro h
      have := toDigits_length_pos n
      rw [← List.length_map (Nat.toDigits 10 n) Char.toNat, h] at this
      simp at this
    · intro c hc
      obtain ⟨ch, hch, hcc⟩ := List.mem_map.mp hc
      rw [← hcc]
      exact toDigitsCore_digits _ _ [] (by intro c hc; cases hc) ch hch
    · unfold digits_value Nat.toDigits
      rw [toDigitsCore_value _ _ _ (Nat.lt_succ_self n)]
      rfl
  unfold int_to_chars
  by_cases hneg : i < 0
  · rw [if_pos hneg, if_pos hneg]
    exact ⟨_, rfl, (key _).1, (key _).2.1, (key _).2.2⟩
  · rw [if_neg hneg, if_neg hneg]
    refine ⟨_, rfl, (key _).1, (key _).2.1, ?_⟩
    rw [(key _).2.2]
    omega

theorem int_to_chars_length (k : Nat) (hk : k < 4294967296) :
    0 < (int_to_chars (bit_cast_int32 k)).length ∧
      (int_to_chars (bit_cast_int32 k)).length ≤ 11 := by
  have hlen : ∀ n : Nat, n < 10 ^ 10 → 0 < (Nat.toDigits 10 n).length ∧
      (Nat.toDigits 10 n).length ≤ 10 := by
    intro n hn
    exact ⟨toDigits_length_pos n,
      Nat.toDigitsCore_length 10 (by decide) (n + 1) n 10 hn (by decide)⟩
  unfold int_to_chars bit_cast_int32
  by_cases h1 : k < 2147483648
  · rw [if_pos h1, if_neg (by omega)]
    have := hlen ((k : Int).toNat) (by simp; omega)
    simp only [List.length_map]
    omega
  · rw [if_neg h1, if_pos (by omega)]
    have := hlen (((k : Int) - 4294967296).natAbs) (by omega)
    simp only [List.length_cons, List.length_map]
    omega

theorem interp_ok {vm : Vm} {chars : List Nat}
    (hpos : 0 < chars.length)
    (hfit : vm.interp_buffer_offset + chars.length < vm.interp_buffer_size - 1) :
    interp vm chars =
      .ok ({ vm with interp_buffer_offset := vm.interp_buffer_offset + (chars.length + 1) },
           some chars) := by
  unfold interp
  rw [if_neg (by omega), if_pos (by omega), if_pos ⟨hpos, hfit⟩]

/-- The code `PUSH_INT k; SET_VAR p` on a machine in which `p` names an Int
variable: afterwards the variable holds `k` read as a signed 32-bit number. -/
theorem eval_push_int_set_var (fo : FloatOps) (vm : Vm) (k p : Nat) (name : dgmlrt_string)
    (ev : EnvVar)
    (herr : vm.error.code = DGMLRT_ERROR_NONE)
    (hcap : 0 < vm.stack_capacity)
    (hname : string vm.tree p = .ok name)
    (hvar : find_env_var name vm.env_vars = some ev)
    (htype : ev.value.type = DGMLRT_ENV_VALUE_INT)
    (hroom : vm.changed_vars_buf.any (fun cv => str_eq cv name) = true ∨
      vm.changed_vars_buf.length < vm.changed_vars_buf_size) :
    ∃ cv envs, eval fo vm [⟨DGMLB_OP_PUSH_INT, k⟩, ⟨DGMLB_OP_SET_VAR, p⟩] =
        .ok ({ vm with changed_vars_buf := cv, stack := [], env_vars := envs }, none) ∧
      get_env_value_loop name envs = .int (bit_cast_int32 k) := by
  have hset : (set_env_value_loop name (.int (bit_cast_int32 k)) vm.env_vars).1 = true :=
    set_loop_true hvar htype (by intro s hs; cases hs)
  have hget := get_after_set_loop name (.int (bit_cast_int32 k)) vm.env_vars hset
  have h1 : eval_op fo { vm with stack := [] } ⟨DGMLB_OP_PUSH_INT, k⟩ =
      .ok { vm with stack := [.int (bit_cast_int32 k)] } := by
    have hp : pushed_value vm.tree DGMLB_OP_PUSH_INT k = some (.int (bit_cast_int32 k)) := rfl
    rw [eval_op_push fo { vm with stack := [] } hp]
    rw [push_room (by simpa using hcap)]
  obtain ⟨cv, h2⟩ := eval_op_set_var fo { vm with stack := [.int (bit_cast_int32 k)] } p
    (.int (bit_cast_int32 k)) [] hname rfl hroom
  refine ⟨cv, _, ?_, hget⟩
  unfold eval
  simp only [eval_loop, h1, h2, herr, ne_eq, not_true_eq_false, if_false, List.head?_nil]
  rfl

/-- An advance that starts on a Run node `PUSH_INT k; SET_VAR p` followed by a
Say node whose text is a literal and then the variable: the result is Say with
the literal and the decimal characters of `k` read as a signed 32-bit number. -/
theorem advance_run_then_say (fo : FloatOps) (vm : Vm) (sec : Section) (k p n1 nx : Nat)
    (name id0 id1 speaker lit : dgmlrt_string) (tags0 tags1 : List dgmlrt_string)
    (m0 m1 : List dgmlrt_markup) (ev : EnvVar)
    (hk : k < 4294967296)
    (hsec : current_section vm = some sec)
    (hrun : sec.nodes[vm.current_node]? =
      some ⟨id0, tags0, .run ⟨[⟨DGMLB_OP_PUSH_INT, k⟩, ⟨DGMLB_OP_SET_VAR, p⟩], n1⟩⟩)
    (hsay : sec.nodes[n1]? =
      some ⟨id1, tags1, .say ⟨speaker, ⟨[⟨m0, lit⟩, ⟨m1, name⟩], [false, true]⟩, nx⟩⟩)
    (herr : vm.error.code = DGMLRT_ERROR_NONE)
    (hcap : 0 < vm.stack_capacity)
    (hname : string vm.tree p = .ok name)
    (hvar : find_env_var name vm.env_vars = some ev)
    (htype : ev.value.type = DGMLRT_ENV_VALUE_INT)
    (hroom : vm.changed_vars_buf.any (fun cv => str_eq cv name) = true ∨
      vm.changed_vars_buf.length < vm.changed_vars_buf_size)
    (hfrags : 2 ≤ vm.text_frags_buf_size)
    (hinterp : 13 ≤ vm.interp_buffer_size)
    (htrace : 2 ≤ vm.trace_buf_size)
    (hsteps : 2 ≤ vm.max_steps_per_advance) :
    ∃ r vm1, dgmlrt_vm_advance fo vm (-1) = .ok (r, vm1) ∧
      r.result = DGMLRT_RESULT_TYPE_SAY
        ⟨speaker, [⟨m0, lit⟩, ⟨m1, int_to_chars (bit_cast_int32 k)⟩]⟩ ∧
      r.visited_node_ids = [id0, id1] ∧
      vm1.current_node = nx ∧
      dgmlrt_vm_get_env_value vm1 name = .int (bit_cast_int32 k) := by
  obtain ⟨hpos, hle⟩ := int_to_chars_length k hk
  obtain ⟨cv, envs, hev, hget⟩ := eval_push_int_set_var fo
    { vm with interp_buffer_offset := 0, text_frags_offset := 0 } k p name ev herr hcap hname
    hvar htype hroom
  have hv0 : visit_node fo { vm with interp_buffer_offset := 0, text_frags_offset := 0 }
      ⟨id0, tags0, .run ⟨[⟨DGMLB_OP_PUSH_INT, k⟩, ⟨DGMLB_OP_SET_VAR, p⟩], n1⟩⟩
      (visited empty_result
        ⟨id0, tags0, .run ⟨[⟨DGMLB_OP_PUSH_INT, k⟩, ⟨DGMLB_OP_SET_VAR, p⟩], n1⟩⟩) =
      .ok (.cont { vm with interp_buffer_offset := 0, text_frags_offset := 0,
                           changed_vars_buf := cv, stack := [], env_vars := envs,
                           current_node := n1 }) := by
    unfold visit_node
    simp only [hev, herr, ne_eq, not_true_eq_false, if_false]
  have hint : interpolate_text fo
      { vm with interp_buffer_offset := 0, text_frags_offset := 0,
                changed_vars_buf := cv, stack := [], env_vars := envs, current_node := nx }
      ⟨[⟨m0, lit⟩, ⟨m1, name⟩], [false, true]⟩ =
      .ok ({ vm with interp_buffer_offset := (int_to_chars (bit_cast_int32 k)).length + 1,
                     text_frags_offset := 2,
                     changed_vars_buf := cv, stack := [], env_vars := envs,
                     current_node := nx },
           some [⟨m0, lit⟩, ⟨m1, int_to_chars (bit_cast_int32 k)⟩]) := by
    unfold interpolate_text
    have hg : dgmlrt_vm_get_env_value
        { vm with interp_buffer_offset := 0, text_frags_offset := 0,
                  changed_vars_buf := cv, stack := [], env_vars := envs, current_node := nx }
        name = .int (bit_cast_int32 k) := hget
    have hi := @interp_ok
      { vm with interp_buffer_offset := 0, text_frags_offset := 0,
                changed_vars_buf := cv, stack := [], env_vars := envs,
                current_node := nx }
      _ hpos (by show 0 + _ < vm.interp_buffer_size - 1; omega)
    have h0 : vm.text_frags_buf_size ≠ 0 := by omega
    simp only [List.length_cons, List.length_nil, interpolate_loop, Bool.false_eq_true,
      if_false, if_true, hg, hi, h0, Nat.zero_add]
    rw [if_pos (by omega)]
  have hv1 : visit_node fo
      { vm with interp_buffer_offset := 0, text_frags_offset := 0,
                changed_vars_buf := cv, stack := [], env_vars := envs, current_node := n1 }
      ⟨id1, tags1, .say ⟨speaker, ⟨[⟨m0, lit⟩, ⟨m1, name⟩], [false, true]⟩, nx⟩⟩
      (visited (visited empty_result
        ⟨id0, tags0, .run ⟨[⟨DGMLB_OP_PUSH_INT, k⟩, ⟨DGMLB_OP_SET_VAR, p⟩], n1⟩⟩)
        ⟨id1, tags1, .say ⟨speaker, ⟨[⟨m0, lit⟩, ⟨m1, name⟩], [false, true]⟩, nx⟩⟩) =
      .ok (.ret { node_id := id1, tags := tags1, changed_vars := [],
                  visited_node_ids := [id0, id1],
                  result := DGMLRT_RESULT_TYPE_SAY
                    ⟨speaker, [⟨m0, lit⟩, ⟨m1, int_to_chars (bit_cast_int32 k)⟩]⟩ }
            { vm with interp_buffer_offset := (int_to_chars (bit_cast_int32 k)).length + 1,
                      text_frags_offset := 2,
                      changed_vars_buf := cv, stack := [], env_vars := envs,
                      current_node := nx }) := by
    unfold visit_node
    simp only [hint]
    rfl
  have hadv : dgmlrt_vm_advance fo vm (-1) =
      .ok ({ node_id := id1, tags := tags1, changed_vars := [],
             visited_node_ids := [id0, id1],
             result := DGMLRT_RESULT_TYPE_SAY
               ⟨speaker, [⟨m0, lit⟩, ⟨m1, int_to_chars (bit_cast_int32 k)⟩]⟩ },
           { vm with interp_buffer_offset := (int_to_chars (bit_cast_int32 k)).length + 1,
                     text_frags_offset := 2,
                     changed_vars_buf := cv, stack := [], env_vars := envs,
                     current_node := nx }) := by
    unfold dgmlrt_vm_advance
    rw [hsec]
    simp only
    rw [if_neg (by decide)]
    have hstep := @advance_loop_cont fo sec vm.max_steps_per_advance
      { vm with interp_buffer_offset := 0, text_frags_offset := 0 } _ empty_result _ hrun
      (by show 0 < vm.trace_buf_size; omega) hv0
    rw [hstep]
    rw [if_neg (by show ¬ (0 + 1 ≥ vm.max_steps_per_advance); omega)]
    have hret : ∀ fuel, 0 < fuel →
        advance_loop fo sec fuel
          { vm with interp_buffer_offset := 0, text_frags_offset := 0,
                    changed_vars_buf := cv, stack := [], env_vars := envs, current_node := n1 }
          (visited empty_result
            ⟨id0, tags0, .run ⟨[⟨DGMLB_OP_PUSH_INT, k⟩, ⟨DGMLB_OP_SET_VAR, p⟩], n1⟩⟩) =
          .ok ({ node_id := id1, tags := tags1, changed_vars := [],
                 visited_node_ids := [id0, id1],
                 result := DGMLRT_RESULT_TYPE_SAY
                   ⟨speaker, [⟨m0, lit⟩, ⟨m1, int_to_chars (bit_cast_int32 k)⟩]⟩ },
               { vm with interp_buffer_offset := (int_to_chars (bit_cast_int32 k)).length + 1,
                         text_frags_offset := 2,
                         changed_vars_buf := cv, stack := [], env_vars := envs,
                         current_node := nx }) := by
      intro fuel hf
      cases fuel with
      | zero => omega
      | succ m =>
        exact @advance_loop_ret fo sec m
          { vm with interp_buffer_offset := 0, text_frags_offset := 0,
                    changed_vars_buf := cv, stack := [], env_vars := envs, current_node := n1 }
          _ _ _ _ hsay (by show 0 + 1 < vm.trace_buf_size; omega) hv1
    exact hret _ (by show 0 < vm.max_steps_per_advance; omega)
  exact ⟨_, _, hadv, rfl, rfl, rfl, hget⟩

theorem advance_at_end {fo : FloatOps} {vm : Vm} {sec : Section}
    (hsec : current_section vm = some sec) (hnone : sec.nodes[vm.current_node]? = none) :
    dgmlrt_vm_advance fo vm (-1) =
      .ok ({ empty_result with result := DGMLRT_RESULT_TYPE_END },
           { vm with interp_buffer_offset := 0, text_frags_offset := 0 }) := by
  unfold dgmlrt_vm_advance
  rw [hsec]
  simp only
  rw [if_neg (by decide)]
  unfold advance_loop
  simp only [hnone]

theorem run_advances_nil (fo : FloatOps) (vm : Vm) : run_advances fo vm [] = .ok ([], vm) := rfl

theorem run_advances_cons {fo : FloatOps} {vm vm1 vm2 : Vm} {k : Int} {ks : List Int}
    {r : dgmlrt_advance_result} {rs : List dgmlrt_advance_result}
    (h1 : dgmlrt_vm_advance fo vm k = .ok (r, vm1))
    (h2 : run_advances fo vm1 ks = .ok (rs, vm2)) :
    run_advances fo vm (k :: ks) = .ok (r :: rs, vm2) := by
  conv => lhs; unfold run_advances
  simp only [h1, h2]

theorem scenario1_string (k : Nat) : string (scenario1_tree k) 52 = .ok [110] := by
  unfold string
  simp [scenario1_tree, read_u32]

/-- Claim C12: for the tree of scenario 1 (one section "s", one variable
`n : int = 0`, node 0 = Run `PUSH_INT k; SET_VAR n` with next node 1, node 1 =
Say of speaker "A" with the text "n=" followed by the variable `n` and next
node 0xFFFFFFFF) and every 32-bit `k`: on a fresh machine entered at "s", the
first `advance(-1)` returns Say with speaker "A" and exactly the two fragments
"n=" and the characters of `k` read as a signed 32-bit integer, and the next
`advance(-1)` returns End.  Those characters are the decimal digits of the
absolute value, after a minus sign when the number is negative; for `k = 1`
they are "1" and for `k = 0xFFFFFFFF` they are "-1". -/
theorem scenario1_say_then_end (fo : FloatOps) (k now : Nat) (hk : k < 4294967296) :
    (run_advances fo (scenario1_vm k now) [-1, -1]).map
        (fun p => p.1.map (fun r => r.result)) =
      .ok [DGMLRT_RESULT_TYPE_SAY
             ⟨[65], [⟨[], [110, 61]⟩, ⟨[], int_to_chars (bit_cast_int32 k)⟩]⟩,
           DGMLRT_RESULT_TYPE_END] ∧
    (∃ ds, int_to_chars (bit_cast_int32 k) =
        (if bit_cast_int32 k < 0 then [45] else []) ++ ds ∧ ds ≠ [] ∧
      (∀ c ∈ ds, 48 ≤ c ∧ c ≤ 57) ∧ digits_value ds = (bit_cast_int32 k).natAbs) ∧
    int_to_chars (bit_cast_int32 1) = [49] ∧
    int_to_chars (bit_cast_int32 4294967295) = [45, 49] := by
  refine ⟨?_, int_to_chars_decimal _, by decide, by decide⟩
  have hsec : current_section (scenario1_vm k now) = some ⟨[115], scenario1_nodes k, 0⟩ := rfl
  have hname : string (scenario1_vm k now).tree 52 = .ok [110] := scenario1_string k
  obtain ⟨r, vm1, h1, hr, _, hcur, _⟩ := advance_run_then_say fo (scenario1_vm k now)
    ⟨[115], scenario1_nodes k, 0⟩ k 52 1 UINT32_MAX [110] [114] [115] [65] [110, 61] [] []
    [] [] ⟨[110], .int 0, 128⟩ hk hsec rfl rfl rfl (by show 0 < 64; decide) hname rfl rfl
    (Or.inr (by show 0 < 1; decide)) (by show 2 ≤ 2; decide) (by show 13 ≤ 1024; decide)
    (by show 2 ≤ 128; decide) (by show 2 ≤ 128; decide)
  have hsec1 : current_section vm1 = some ⟨[115], scenario1_nodes k, 0⟩ := by
    rw [step_frame_current_section (advance_ok h1).1]; exact hsec
  have hnone : (⟨[115], scenario1_nodes k, 0⟩ : Section).nodes[vm1.current_node]? = none := by
    rw [hcur]
    exact List.getElem?_eq_none (by show 2 ≤ UINT32_MAX; decide)
  have h2 := @advance_at_end fo vm1 _ hsec1 hnone
  generalize scenario1_vm k now = vm0 at h1 ⊢
  have e1 := run_advances_cons h1 (run_advances_cons h2 (run_advances_nil fo _))
  rw [e1]
  show Except.ok [r.result, DGMLRT_RESULT_TYPE_END] = _
  rw [hr]

/-- Witness of C12 for `k = 1` and `k = 0xFFFFFFFF`: the Say result carries the
fragments "n=" and "1", respectively "n=" and "-1", and the next advance
returns End. -/
theorem scenario1_say_then_end_witness :
    (run_advances sample_float_ops (scenario1_vm 1 0) [-1, -1]).map
        (fun p => p.1.map (fun r => r.result)) =
      .ok [DGMLRT_RESULT_TYPE_SAY ⟨[65], [⟨[], [110, 61]⟩, ⟨[], [49]⟩]⟩,
           DGMLRT_RESULT_TYPE_END] ∧
    (run_advances sample_float_ops (scenario1_vm 4294967295 0) [-1, -1]).map
        (fun p => p.1.map (fun r => r.result)) =
      .ok [DGMLRT_RESULT_TYPE_SAY ⟨[65], [⟨[], [110, 61]⟩, ⟨[], [45, 49]⟩]⟩,
           DGMLRT_RESULT_TYPE_END] :=
  ⟨(scenario1_say_then_end sample_float_ops 1 0 (by decide)).1,
   (scenario1_say_then_end sample_float_ops 4294967295 0 (by decide)).1⟩

/-! ## Properties kept by an evaluation -/

theorem keeps_binop_push {P : Vm → Prop} (hP : eval_closed P) {fo : FloatOps} {f : BinFunc}
    {vm vm1 : Vm} {lhs rhs : dgmlrt_env_value} (h : binop_push fo f vm lhs rhs = .ok vm1)
    (hvm : P vm) : P vm1 := by
  unfold binop_push at h
  split at h
  · split at h
    · cases h
    · cases h; exact hP.1 _ _ hvm
  · cases h; exact hP.1 _ _ hvm
  · cases h; exact hP.1 _ _ hvm
  · cases h; exact hP.1 _ _ hvm
  · split at h
    · cases h
    · cases h; exact hP.1 _ _ hvm
  · cases h; exact hvm

theorem keeps_binop_push_string {P : Vm → Prop} (hP : eval_closed P) (allow_string : Bool)
    (f : BinFunc) (vm : Vm) (lhs rhs : dgmlrt_env_value) (hvm : P vm) :
    P (binop_push_string allow_string f vm lhs rhs) := by
  unfold binop_push_string
  split
  · split
    · exact hP.1 _ _ hvm
    · exact hvm
  · exact hvm

theorem keeps_binop_apply {P : Vm → Prop} (hP : eval_closed P) {fo : FloatOps}
    {allow_string : Bool} {f : BinFunc} {vm vm1 : Vm} {lhs rhs : dgmlrt_env_value}
    (h : binop_apply fo allow_string f vm lhs rhs = .ok vm1) (hvm : P vm) : P vm1 := by
  unfold binop_apply at h
  split at h
  · cases h; exact hP.2.2.1 _ _ hvm
  · split at h
    · cases h
    · rename_i vm3 hp
      have p3 := keeps_binop_push_string hP allow_string f vm3 lhs rhs (keeps_binop_push hP hp hvm)
      split at h
      · cases h; exact hP.2.2.1 _ _ p3
      · cases h; exact p3

theorem keeps_binop {P : Vm → Prop} (hP : eval_closed P) {fo : FloatOps} {allow_string : Bool}
    {f : BinFunc} {vm vm1 : Vm} (h : binop fo allow_string f vm = .ok vm1) (hvm : P vm) :
    P vm1 := by
  have p2 : P (pop (pop vm).2).2 := hP.2.1 _ (hP.2.1 _ hvm)
  unfold binop at h
  split at h
  · cases h; exact hP.2.2.1 _ _ p2
  · exact keeps_binop_apply hP h p2

theorem keeps_record {P : Vm → Prop} (hP : eval_closed P) {vm vm1 : Vm} {name : dgmlrt_string}
    (h : record_changed_var vm name = .ok vm1) (hvm : P vm) : P vm1 := by
  unfold record_changed_var at h
  split at h
  · cases h; exact hvm
  · split at h
    · cases h; exact hP.2.2.2.2 _ _ hvm
    · cases h

theorem keeps_eval_op {P : Vm → Prop} (hP : eval_closed P) {fo : FloatOps} {vm vm1 : Vm}
    {c : dgmlb_byte_code} (h : eval_op fo vm c = .ok vm1) (hvm : P vm) : P vm1 := by
  unfold eval_op at h
  by_cases h0 : c.op = DGMLB_OP_PUSH_BOOL
  · rw [if_pos h0] at h
    cases h; exact hP.1 _ _ hvm
  rw [if_neg h0] at h
  by_cases h1 : c.op = DGMLB_OP_PUSH_INT
  · rw [if_pos h1] at h
    cases h; exact hP.1 _ _ hvm
  rw [if_neg h1] at h
  by_cases h2 : c.op = DGMLB_OP_PUSH_FLOAT
  · rw [if_pos h2] at h
    cases h; exact hP.1 _ _ hvm
  rw [if_neg h2] at h
  by_cases h3 : c.op = DGMLB_OP_PUSH_STRING
  · rw [if_pos h3] at h
    split at h
    · cases h
    · cases h; exact hP.1 _ _ hvm
  rw [if_neg h3] at h
  by_cases h4 : c.op = DGMLB_OP_GET_VAR
  · rw [if_pos h4] at h
    split at h
    · cases h
    · cases h; exact hP.1 _ _ hvm
  rw [if_neg h4] at h
  by_cases h5 : c.op = DGMLB_OP_SET_VAR
  · rw [if_pos h5] at h
    split at h
    · cases h
    · split at h
      · cases h
      · rename_i hr
        cases h
        exact hP.2.2.2.1 _ _ (hP.2.1 _ (keeps_record hP hr hvm))
  rw [if_neg h5] at h
  by_cases h6 : c.op = DGMLB_OP_NOT
  · rw [if_pos h6] at h
    split at h
    · cases h; exact hP.1 _ _ (hP.2.1 _ hvm)
    · cases h; exact hP.2.2.1 _ _ (hP.2.1 _ hvm)
  rw [if_neg h6] at h
  by_cases h7 : c.op = DGMLB_OP_ADD
  · rw [if_pos h7] at h
    exact keeps_binop hP h hvm
  rw [if_neg h7] at h
  by_cases h8 : c.op = DGMLB_OP_SUB
  · rw [if_pos h8] at h
    exact keeps_binop hP h hvm
  rw [if_neg h8] at h
  by_cases h9 : c.op = DGMLB_OP_MUL
  · rw [if_pos h9] at h
    exact keeps_binop hP h hvm
  rw [if_neg h9] at h
  by_cases h10 : c.op = DGMLB_OP_DIV
  · rw [if_pos h10] at h
    split at h
    · cases h; exact hP.2.2.1 _ _ hvm
    · exact keeps_binop hP h hvm
  rw [if_neg h10] at h
  by_cases h11 : c.op = DGMLB_OP_OR
  · rw [if_pos h11] at h
    exact keeps_binop hP h hvm
  rw [if_neg h11] at h
  by_cases h12 : c.op = DGMLB_OP_AND
  · rw [if_pos h12] at h
    exact keeps_binop hP h hvm
  rw [if_neg h12] at h
  by_cases h13 : c.op = DGMLB_OP_LT
  · rw [if_pos h13] at h
    exact keeps_binop hP h hvm
  rw [if_neg h13] at h
  by_cases h14 : c.op = DGMLB_OP_LE
  · rw [if_pos h14] at h
    exact keeps_binop hP h hvm
  rw [if_neg h14] at h
  by_cases h15 : c.op = DGMLB_OP_GT
  · rw [if_pos h15] at h
    exact keeps_binop hP h hvm
  rw [if_neg h15] at h
  by_cases h16 : c.op = DGMLB_OP_GE
  · rw [if_pos h16] at h
    exact keeps_binop hP h hvm
  rw [if_neg h16] at h
  by_cases h17 : c.op = DGMLB_OP_EQ
  · rw [if_pos h17] at h
    exact keeps_binop hP h hvm
  rw [if_neg h17] at h
  by_cases h18 : c.op = DGMLB_OP_NE
  · rw [if_pos h18] at h
    exact keeps_binop hP h hvm
  rw [if_neg h18] at h
  cases h; exact hP.2.2.1 _ _ hvm

theorem keeps_eval_loop {P : Vm → Prop} (hP : eval_closed P) {fo : FloatOps} :
    ∀ (code : List dgmlb_byte_code) {vm vm1 : Vm} {completed : Bool},
      eval_loop fo vm code = .ok (vm1, completed) → P vm → P vm1 := by
  intro code
  induction code with
  | nil => intro vm vm1 completed h hvm; simp [eval_loop] at h; rw [← h.1]; exact hvm
  | cons c rest ih =>
    intro vm vm1 completed h hvm
    unfold eval_loop at h
    split at h
    · cases h
    · rename_i vm2 hop
      split at h
      · cases h; exact keeps_eval_op hP hop hvm
      · exact ih h (keeps_eval_op hP hop hvm)

theorem stack_bounded_closed : eval_closed stack_bounded := by
  refine ⟨?_, ?_, ?_, ?_, ?_⟩
  · intro vm v h
    unfold stack_bounded push at *
    split
    · exact h
    · simp only [List.length_cons]; omega
  · intro vm h
    unfold stack_bounded pop at *
    split
    · exact h
    · rename_i v rest hs
      rw [hs] at h
      simp only [List.length_cons] at h ⊢
      omega
  · intro vm e h; exact h
  · intro vm envs h; exact h
  · intro vm cv h; exact h

/-! ## The bytecode stack -/

theorem eval_loop_push_ints {fo : FloatOps} :
    ∀ (ks : List Nat) (vm : Vm), vm.error.code = DGMLRT_ERROR_NONE →
      vm.stack.length + ks.length ≤ vm.stack_capacity →
      eval_loop fo vm (push_int_code ks) =
        .ok ({ vm with stack := ks.reverse.map (fun k => .int (bit_cast_int32 k)) ++ vm.stack },
             true) := by
  intro ks
  induction ks with
  | nil => intro vm _ _; rfl
  | cons k ks ih =>
    intro vm herr hlen
    simp only [List.length_cons] at hlen
    have hp : pushed_value vm.tree DGMLB_OP_PUSH_INT k = some (.int (bit_cast_int32 k)) := rfl
    have h1 : eval_op fo vm ⟨DGMLB_OP_PUSH_INT, k⟩ =
        .ok { vm with stack := .int (bit_cast_int32 k) :: vm.stack } := by
      rw [eval_op_push fo vm hp, push_room (by omega)]
    unfold push_int_code
    simp only [List.map_cons, eval_loop, h1, herr, ne_eq, not_true_eq_false, if_false]
    have h2 := ih { vm with stack := .int (bit_cast_int32 k) :: vm.stack } herr
      (by simp only [List.length_cons]; omega)
    unfold push_int_code at h2
    rw [h2]
    simp only [List.reverse_cons, List.map_append, List.map_cons, List.map_nil,
      List.append_assoc, List.singleton_append]

theorem push_full {vm : Vm} (v : dgmlrt_env_value) (h : vm.stack_capacity ≤ vm.stack.length) :
    push vm v = { vm with error := stack_overflow_error } := by
  unfold push
  rw [if_pos (by omega)]
  rfl

/-- An instruction that leaves an error behind ends the evaluation with
`return nullptr`. -/
theorem eval_stops_at {fo : FloatOps} {vm vm1 vm2 : Vm} {pre post : List dgmlb_byte_code}
    {c : dgmlb_byte_code}
    (hpre : eval_loop fo { vm with stack := [] } pre = .ok (vm1, true))
    (hop : eval_op fo vm1 c = .ok vm2)
    (herr : vm2.error.code ≠ DGMLRT_ERROR_NONE) :
    eval fo vm (pre ++ c :: post) = .ok (vm2, none) := by
  unfold eval
  rw [eval_loop_append pre (c :: post) _ _ hpre]
  simp only [eval_loop, hop, herr, ne_eq, not_false_eq_true, if_true]
  rfl

/-- Claim C24, amended: with a bytecode stack of capacity `S = stack.size`,
(1) after any part of any evaluation the stack holds at most `S` values;
(2) on a machine with no recorded error, a program of `S` consecutive
`PUSH_INT` instructions evaluates without error and leaves `S` values on the
stack, its result being the last one pushed; (3) in every program, an
instruction that executes a push while `S` values are on the stack records the
error `EvalFail` "Stack overflow", leaves the stack as it is, and the
evaluation returns `nullptr`. -/
theorem stack_never_exceeds_capacity (fo : FloatOps) (vm : Vm) :
    (∀ code vm1 completed, eval_loop fo { vm with stack := [] } code = .ok (vm1, completed) →
      vm1.stack.length ≤ vm.stack_capacity) ∧
    (vm.error.code = DGMLRT_ERROR_NONE → ∀ ks, ks.length = vm.stack_capacity →
      eval fo vm (push_int_code ks) =
        .ok ({ vm with stack := ks.reverse.map (fun k => .int (bit_cast_int32 k)) },
             (ks.reverse.map (fun k => dgmlrt_env_value.int (bit_cast_int32 k))).head?)) ∧
    (∀ pre c post vm1 v, eval_loop fo { vm with stack := [] } pre = .ok (vm1, true) →
      vm1.stack.length = vm.stack_capacity → eval_op fo vm1 c = .ok (push vm1 v) →
      eval fo vm (pre ++ c :: post) = .ok ({ vm1 with error := stack_overflow_error }, none)) := by
  refine ⟨?_, ?_, ?_⟩
  · intro code vm1 completed h
    have hb : stack_bounded vm1 :=
      keeps_eval_loop stack_bounded_closed code h (Nat.zero_le _)
    have hc : vm1.stack_capacity = vm.stack_capacity := by
      have hf := (eval_frame_eval_loop code h).1
      rw [hf]
    unfold stack_bounded at hb
    omega
  · intro herr ks hlen
    unfold eval
    rw [eval_loop_push_ints ks { vm with stack := [] } herr
      (by show 0 + ks.length ≤ vm.stack_capacity; omega)]
    simp only [List.append_nil, if_true]
  · intro pre c post vm1 v hpre hfull hop
    have hc : vm1.stack_capacity = vm.stack_capacity := by
      have hf := (eval_frame_eval_loop pre hpre).1
      rw [hf]
    have hp := push_full v (show vm1.stack_capacity ≤ vm1.stack.length by omega)
    rw [hp] at hop
    exact eval_stops_at hpre hop (by show DGMLRT_ERROR_EVAL_FAIL ≠ DGMLRT_ERROR_NONE; decide)

set_option maxRecDepth 100000 in
/-- Witness of the amended C24 on the sample machine, whose stack has the
default capacity 64: 64 instructions `PUSH_INT 7` evaluate to `Int(7)` with 64
values on the stack, and a 65th one fails with "Stack overflow". -/
theorem stack_never_exceeds_capacity_witness :
    (sample_vm []).stack_capacity = 64 ∧
    eval sample_float_ops (sample_vm []) (push_int_code (List.replicate 64 7)) =
      .ok ({ sample_vm [] with
             stack := (List.replicate 64 7).reverse.map (fun k => .int (bit_cast_int32 k)) },
           ((List.replicate 64 7).reverse.map
             (fun k => dgmlrt_env_value.int (bit_cast_int32 k))).head?) ∧
    (eval sample_float_ops (sample_vm []) (push_int_code (List.replicate 65 7))).map
        (fun p => (p.1.error, p.1.stack.length, p.2)) =
      .ok (stack_overflow_error, 64, none) :=
  ⟨rfl,
   (stack_never_exceeds_capacity sample_float_ops (sample_vm [])).2.1 rfl
     (List.replicate 64 7) (by decide),
   by decide⟩

/-! ## Binary operators -/

theorem eval_op_add (fo : FloatOps) (vm : Vm) (p : Nat) :
    eval_op fo vm ⟨DGMLB_OP_ADD, p⟩ = binop fo false .add vm := by
  unfold eval_op
  simp only [DGMLB_OP_PUSH_BOOL, DGMLB_OP_PUSH_INT, DGMLB_OP_PUSH_FLOAT,
    DGMLB_OP_PUSH_STRING, DGMLB_OP_GET_VAR, DGMLB_OP_SET_VAR, DGMLB_OP_NOT, DGMLB_OP_ADD,
    DGMLB_OP_SUB, DGMLB_OP_MUL, DGMLB_OP_DIV, DGMLB_OP_OR, DGMLB_OP_AND, DGMLB_OP_LT,
    DGMLB_OP_LE, DGMLB_OP_GT, DGMLB_OP_GE, DGMLB_OP_EQ, DGMLB_OP_NE]
  simp only [Nat.reduceEqDiff, if_false, if_true]

theorem eval_op_sub (fo : FloatOps) (vm : Vm) (p : Nat) :
    eval_op fo vm ⟨DGMLB_OP_SUB, p⟩ = binop fo false .sub vm := by
  unfold eval_op
  simp only [DGMLB_OP_PUSH_BOOL, DGMLB_OP_PUSH_INT, DGMLB_OP_PUSH_FLOAT,
    DGMLB_OP_PUSH_STRING, DGMLB_OP_GET_VAR, DGMLB_OP_SET_VAR, DGMLB_OP_NOT, DGMLB_OP_ADD,
    DGMLB_OP_SUB, DGMLB_OP_MUL, DGMLB_OP_DIV, DGMLB_OP_OR, DGMLB_OP_AND, DGMLB_OP_LT,
    DGMLB_OP_LE, DGMLB_OP_GT, DGMLB_OP_GE, DGMLB_OP_EQ, DGMLB_OP_NE]
  simp only [Nat.reduceEqDiff, if_false, if_true]

theorem eval_op_mul (fo : FloatOps) (vm : Vm) (p : Nat) :
    eval_op fo vm ⟨DGMLB_OP_MUL, p⟩ = binop fo false .mul vm := by
  unfold eval_op
  simp only [DGMLB_OP_PUSH_BOOL, DGMLB_OP_PUSH_INT, DGMLB_OP_PUSH_FLOAT,
    DGMLB_OP_PUSH_STRING, DGMLB_OP_GET_VAR, DGMLB_OP_SET_VAR, DGMLB_OP_NOT, DGMLB_OP_ADD,
    DGMLB_OP_SUB, DGMLB_OP_MUL, DGMLB_OP_DIV, DGMLB_OP_OR, DGMLB_OP_AND, DGMLB_OP_LT,
    DGMLB_OP_LE, DGMLB_OP_GT, DGMLB_OP_GE, DGMLB_OP_EQ, DGMLB_OP_NE]
  simp only [Nat.reduceEqDiff, if_false, if_true]

theorem eval_op_or (fo : FloatOps) (vm : Vm) (p : Nat) :
    eval_op fo vm ⟨DGMLB_OP_OR, p⟩ = binop fo false .or vm := by
  unfold eval_op
  simp only [DGMLB_OP_PUSH_BOOL, DGMLB_OP_PUSH_INT, DGMLB_OP_PUSH_FLOAT,
    DGMLB_OP_PUSH_STRING, DGMLB_OP_GET_VAR, DGMLB_OP_SET_VAR, DGMLB_OP_NOT, DGMLB_OP_ADD,
    DGMLB_OP_SUB, DGMLB_OP_MUL, DGMLB_OP_DIV, DGMLB_OP_OR, DGMLB_OP_AND, DGMLB_OP_LT,
    DGMLB_OP_LE, DGMLB_OP_GT, DGMLB_OP_GE, DGMLB_OP_EQ, DGMLB_OP_NE]
  simp only [Nat.reduceEqDiff, if_false, if_true]

theorem eval_op_and (fo : FloatOps) (vm : Vm) (p : Nat) :
    eval_op fo vm ⟨DGMLB_OP_AND, p⟩ = binop fo false .and vm := by
  unfold eval_op
  simp only [DGMLB_OP_PUSH_BOOL, DGMLB_OP_PUSH_INT, DGMLB_OP_PUSH_FLOAT,
    DGMLB_OP_PUSH_STRING, DGMLB_OP_GET_VAR, DGMLB_OP_SET_VAR, DGMLB_OP_NOT, DGMLB_OP_ADD,
    DGMLB_OP_SUB, DGMLB_OP_MUL, DGMLB_OP_DIV, DGMLB_OP_OR, DGMLB_OP_AND, DGMLB_OP_LT,
    DGMLB_OP_LE, DGMLB_OP_GT, DGMLB_OP_GE, DGMLB_OP_EQ, DGMLB_OP_NE]
  simp only [Nat.reduceEqDiff, if_false, if_true]

theorem eval_op_lt (fo : FloatOps) (vm : Vm) (p : Nat) :
    eval_op fo vm ⟨DGMLB_OP_LT, p⟩ = binop fo false .lt vm := by
  unfold eval_op
  simp only [DGMLB_OP_PUSH_BOOL, DGMLB_OP_PUSH_INT, DGMLB_OP_PUSH_FLOAT,
    DGMLB_OP_PUSH_STRING, DGMLB_OP_GET_VAR, DGMLB_OP_SET_VAR, DGMLB_OP_NOT, DGMLB_OP_ADD,
    DGMLB_OP_SUB, DGMLB_OP_MUL, DGMLB_OP_DIV, DGMLB_OP_OR, DGMLB_OP_AND, DGMLB_OP_LT,
    DGMLB_OP_LE, DGMLB_OP_GT, DGMLB_OP_GE, DGMLB_OP_EQ, DGMLB_OP_NE]
  simp only [Nat.reduceEqDiff, if_false, if_true]

theorem eval_op_le (fo : FloatOps) (vm : Vm) (p : Nat) :
    eval_op fo vm ⟨DGMLB_OP_LE, p⟩ = binop fo false .le vm := by
  unfold eval_op
  simp only [DGMLB_OP_PUSH_BOOL, DGMLB_OP_PUSH_INT, DGMLB_OP_PUSH_FLOAT,
    DGMLB_OP_PUSH_STRING, DGMLB_OP_GET_VAR, DGMLB_OP_SET_VAR, DGMLB_OP_NOT, DGMLB_OP_ADD,
    DGMLB_OP_SUB, DGMLB_OP_MUL, DGMLB_OP_DIV, DGMLB_OP_OR, DGMLB_OP_AND, DGMLB_OP_LT,
    DGMLB_OP_LE, DGMLB_OP_GT, DGMLB_OP_GE, DGMLB_OP_EQ, DGMLB_OP_NE]
  simp only [Nat.reduceEqDiff, if_false, if_true]

theorem eval_op_gt (fo : FloatOps) (vm : Vm) (p : Nat) :
    eval_op fo vm ⟨DGMLB_OP_GT, p⟩ = binop fo false .gt vm := by
  unfold eval_op
  simp only [DGMLB_OP_PUSH_BOOL, DGMLB_OP_PUSH_INT, DGMLB_OP_PUSH_FLOAT,
    DGMLB_OP_PUSH_STRING, DGMLB_OP_GET_VAR, DGMLB_OP_SET_VAR, DGMLB_OP_NOT, DGMLB_OP_ADD,
    DGMLB_OP_SUB, DGMLB_OP_MUL, DGMLB_OP_DIV, DGMLB_OP_OR, DGMLB_OP_AND, DGMLB_OP_LT,
    DGMLB_OP_LE, DGMLB_OP_GT, DGMLB_OP_GE, DGMLB_OP_EQ, DGMLB_OP_NE]
  simp only [Nat.reduceEqDiff, if_false, if_true]

theorem eval_op_ge (fo : FloatOps) (vm : Vm) (p : Nat) :
    eval_op fo vm ⟨DGMLB_OP_GE, p⟩ = binop fo false .ge vm := by
  unfold eval_op
  simp only [DGMLB_OP_PUSH_BOOL, DGMLB_OP_PUSH_INT, DGMLB_OP_PUSH_FLOAT,
    DGMLB_OP_PUSH_STRING, DGMLB_OP_GET_VAR, DGMLB_OP_SET_VAR, DGMLB_OP_NOT, DGMLB_OP_ADD,
    DGMLB_OP_SUB, DGMLB_OP_MUL, DGMLB_OP_DIV, DGMLB_OP_OR, DGMLB_OP_AND, DGMLB_OP_LT,
    DGMLB_OP_LE, DGMLB_OP_GT, DGMLB_OP_GE, DGMLB_OP_EQ, DGMLB_OP_NE]
  simp only [Nat.reduceEqDiff, if_false, if_true]

theorem eval_op_eq (fo : FloatOps) (vm : Vm) (p : Nat) :
    eval_op fo vm ⟨DGMLB_OP_EQ, p⟩ = binop fo true .eq vm := by
  unfold eval_op
  simp only [DGMLB_OP_PUSH_BOOL, DGMLB_OP_PUSH_INT, DGMLB_OP_PUSH_FLOAT,
    DGMLB_OP_PUSH_STRING, DGMLB_OP_GET_VAR, DGMLB_OP_SET_VAR, DGMLB_OP_NOT, DGMLB_OP_ADD,
    DGMLB_OP_SUB, DGMLB_OP_MUL, DGMLB_OP_DIV, DGMLB_OP_OR, DGMLB_OP_AND, DGMLB_OP_LT,
    DGMLB_OP_LE, DGMLB_OP_GT, DGMLB_OP_GE, DGMLB_OP_EQ, DGMLB_OP_NE]
  simp only [Nat.reduceEqDiff, if_false, if_true]

theorem eval_op_ne (fo : FloatOps) (vm : Vm) (p : Nat) :
    eval_op fo vm ⟨DGMLB_OP_NE, p⟩ = binop fo true .ne vm := by
  unfold eval_op
  simp only [DGMLB_OP_PUSH_BOOL, DGMLB_OP_PUSH_INT, DGMLB_OP_PUSH_FLOAT,
    DGMLB_OP_PUSH_STRING, DGMLB_OP_GET_VAR, DGMLB_OP_SET_VAR, DGMLB_OP_NOT, DGMLB_OP_ADD,
    DGMLB_OP_SUB, DGMLB_OP_MUL, DGMLB_OP_DIV, DGMLB_OP_OR, DGMLB_OP_AND, DGMLB_OP_LT,
    DGMLB_OP_LE, DGMLB_OP_GT, DGMLB_OP_GE, DGMLB_OP_EQ, DGMLB_OP_NE]
  simp only [Nat.reduceEqDiff, if_false, if_true]

theorem eval_op_div (fo : FloatOps) (vm : Vm) (p : Nat) :
    eval_op fo vm ⟨DGMLB_OP_DIV, p⟩ =
      if div_by_zero_guard vm.stack = true then
        .ok { vm with error := ⟨DGMLRT_ERROR_EVAL_FAIL, "division by zero"⟩ }
      else binop fo false .div vm := by
  unfold eval_op
  simp only [DGMLB_OP_PUSH_BOOL, DGMLB_OP_PUSH_INT, DGMLB_OP_PUSH_FLOAT,
    DGMLB_OP_PUSH_STRING, DGMLB_OP_GET_VAR, DGMLB_OP_SET_VAR, DGMLB_OP_NOT, DGMLB_OP_ADD,
    DGMLB_OP_SUB, DGMLB_OP_MUL, DGMLB_OP_DIV, DGMLB_OP_OR, DGMLB_OP_AND, DGMLB_OP_LT,
    DGMLB_OP_LE, DGMLB_OP_GT, DGMLB_OP_GE, DGMLB_OP_EQ, DGMLB_OP_NE]
  simp only [Nat.reduceEqDiff, if_false, if_true]

theorem eval_op_binop (fo : FloatOps) (vm : Vm) {op : Nat} (p : Nat) {allow : Bool}
    {f : BinFunc} (h : binop_of_op op = some (allow, f)) :
    eval_op fo vm ⟨op, p⟩ =
      if op = DGMLB_OP_DIV ∧ div_by_zero_guard vm.stack = true then
        .ok { vm with error := ⟨DGMLRT_ERROR_EVAL_FAIL, "division by zero"⟩ }
      else binop fo allow f vm := by
  unfold binop_of_op at h
  by_cases h0 : op = DGMLB_OP_ADD
  · subst h0
    rw [if_pos rfl] at h
    cases h
    rw [eval_op_add, if_neg (fun hh => absurd hh.1 (by decide))]
  rw [if_neg h0] at h
  by_cases h1 : op = DGMLB_OP_SUB
  · subst h1
    rw [if_pos rfl] at h
    cases h
    rw [eval_op_sub, if_neg (fun hh => absurd hh.1 (by decide))]
  rw [if_neg h1] at h
  by_cases h2 : op = DGMLB_OP_MUL
  · subst h2
    rw [if_pos rfl] at h
    cases h
    rw [eval_op_mul, if_neg (fun hh => absurd hh.1 (by decide))]
  rw [if_neg h2] at h
  by_cases h3 : op = DGMLB_OP_DIV
  · subst h3
    rw [if_pos rfl] at h
    cases h
    rw [eval_op_div]
    simp only [true_and]
  rw [if_neg h3] at h
  by_cases h4 : op = DGMLB_OP_OR
  · subst h4
    rw [if_pos rfl] at h
    cases h
    rw [eval_op_or, if_neg (fun hh => absurd hh.1 (by decide))]
  rw [if_neg h4] at h
  by_cases h5 : op = DGMLB_OP_AND
  · subst h5
    rw [if_pos rfl] at h
    cases h
    rw [eval_op_and, if_neg (fun hh => absurd hh.1 (by decide))]
  rw [if_neg h5] at h
  by_cases h6 : op = DGMLB_OP_LT
  · subst h6
    rw [if_pos rfl] at h
    cases h
    rw [eval_op_lt, if_neg (fun hh => absurd hh.1 (by decide))]
  rw [if_neg h6] at h
  by_cases h7 : op = DGMLB_OP_LE
  · subst h7
    rw [if_pos rfl] at h
    cases h
    rw [eval_op_le, if_neg (fun hh => absurd hh.1 (by decide))]
  rw [if_neg h7] at h
  by_cases h8 : op = DGMLB_OP_GT
  · subst h8
    rw [if_pos rfl] at h
    cases h
    rw [eval_op_gt, if_neg (fun hh => absurd hh.1 (by decide))]
  rw [if_neg h8] at h
  by_cases h9 : op = DGMLB_OP_GE
  · subst h9
    rw [if_pos rfl] at h
    cases h
    rw [eval_op_ge, if_neg (fun hh => absurd hh.1 (by decide))]
  rw [if_neg h9] at h
  by_cases h10 : op = DGMLB_OP_EQ
  · subst h10
    rw [if_pos rfl] at h
    cases h
    rw [eval_op_eq, if_neg (fun hh => absurd hh.1 (by decide))]
  rw [if_neg h10] at h
  by_cases h11 : op = DGMLB_OP_NE
  · subst h11
    rw [if_pos rfl] at h
    cases h
    rw [eval_op_ne, if_neg (fun hh => absurd hh.1 (by decide))]
  rw [if_neg h11] at h
  cases h

theorem binop_two (fo : FloatOps) (allow : Bool) (f : BinFunc) {vm : Vm}
    {lhs rhs : dgmlrt_env_value} {rest : List dgmlrt_env_value}
    (hstack : vm.stack = rhs :: lhs :: rest) :
    binop fo allow f vm =
      if lhs.type = DGMLRT_ENV_VALUE_UNSET ∨ rhs.type = DGMLRT_ENV_VALUE_UNSET then
        .ok { vm with stack := rest, error := missing_operands_error }
      else binop_apply fo allow f { vm with stack := rest } lhs rhs := by
  have hp1 : pop vm = (rhs, { vm with stack := lhs :: rest }) := by
    simp [pop, hstack]
  have hp2 : pop { vm with stack := lhs :: rest } = (lhs, { vm with stack := rest }) := by
    simp [pop]
  unfold binop
  rw [hp1]
  simp only [hp2]
  rfl

theorem binop_short (fo : FloatOps) (allow : Bool) (f : BinFunc) {vm : Vm}
    (hstack : vm.stack.length < 2) :
    binop fo allow f vm = .ok { vm with stack := [], error := missing_operands_error } := by
  unfold binop
  cases hs : vm.stack with
  | nil =>
    have hp1 : pop vm = (.unset, vm) := by simp [pop, hs]
    rw [hp1]
    simp only [hp1, dgmlrt_env_value.type, DGMLRT_ENV_VALUE_UNSET, or_self, if_true]
    rw [← hs]
    rfl
  | cons v tl =>
    cases tl with
    | nil =>
      have hp1 : pop vm = (v, { vm with stack := [] }) := by simp [pop, hs]
      have hp2 : pop { vm with stack := [] } = (.unset, { vm with stack := [] }) := by
        simp [pop]
      rw [hp1]
      simp only [hp2, dgmlrt_env_value.type, DGMLRT_ENV_VALUE_UNSET, true_or, if_true]
      rfl
    | cons w tl2 =>
      rw [hs] at hstack
      simp only [List.length_cons] at hstack
      omega

/-- The tail of `binop` for two operands for which the if-chain pushes the
value `v`: the value ends on the stack and no error is recorded. -/
theorem binop_apply_pushed (fo : FloatOps) (allow : Bool) (f : BinFunc) {vm : Vm}
    {lhs rhs v : dgmlrt_env_value}
    (hroom : vm.stack.length < vm.stack_capacity)
    (htype : lhs.type = rhs.type ∨ (is_num_type lhs.type && is_num_type rhs.type) = true)
    (hpush : binop_push fo f vm lhs rhs = .ok (push vm v))
    (hstr : binop_push_string allow f (push vm v) lhs rhs = push vm v) :
    binop_apply fo allow f vm lhs rhs = .ok { vm with stack := v :: vm.stack } := by
  unfold binop_apply
  have hc : ¬ (lhs.type ≠ rhs.type ∧ (is_num_type lhs.type && is_num_type rhs.type) = false) := by
    rintro ⟨h1, h2⟩
    rcases htype with h | h
    · exact h1 h
    · rw [h] at h2; cases h2
  rw [if_neg hc, hpush]
  simp only [hstr]
  rw [push_room hroom]
  rw [if_neg (by simp)]

theorem binop_apply_int_int (fo : FloatOps) (allow : Bool) (f : BinFunc) {vm : Vm} {a b : Int}
    {v : dgmlrt_env_value} (hroom : vm.stack.length < vm.stack_capacity)
    (hf : func_int f a b = .ok v) :
    binop_apply fo allow f vm (.int a) (.int b) = .ok { vm with stack := v :: vm.stack } := by
  refine binop_apply_pushed fo allow f hroom ?_ ?_ ?_
  · exact Or.inl rfl
  · simp only [binop_push, hf]
  · cases allow <;> rfl

theorem binop_apply_int_float (fo : FloatOps) (allow : Bool) (f : BinFunc) {vm : Vm} (a : Int)
    (b : Nat) (hroom : vm.stack.length < vm.stack_capacity) :
    binop_apply fo allow f vm (.int a) (.float b) =
      .ok { vm with stack := func_float fo f (fo.of_int a) b :: vm.stack } := by
  refine binop_apply_pushed fo allow f hroom ?_ ?_ ?_
  · exact Or.inr rfl
  · rfl
  · cases allow <;> rfl

theorem binop_apply_float_int (fo : FloatOps) (allow : Bool) (f : BinFunc) {vm : Vm} (a : Nat)
    (b : Int) (hroom : vm.stack.length < vm.stack_capacity) :
    binop_apply fo allow f vm (.float a) (.int b) =
      .ok { vm with stack := func_float fo f a (fo.of_int b) :: vm.stack } := by
  refine binop_apply_pushed fo allow f hroom ?_ ?_ ?_
  · exact Or.inr rfl
  · rfl
  · cases allow <;> rfl

theorem binop_apply_float_float (fo : FloatOps) (allow : Bool) (f : BinFunc) {vm : Vm}
    (a b : Nat) (hroom : vm.stack.length < vm.stack_capacity) :
    binop_apply fo allow f vm (.float a) (.float b) =
      .ok { vm with stack := func_float fo f a b :: vm.stack } := by
  refine binop_apply_pushed fo allow f hroom ?_ ?_ ?_
  · exact Or.inl rfl
  · rfl
  · cases allow <;> rfl

theorem binop_apply_bool_bool (fo : FloatOps) (allow : Bool) (f : BinFunc) {vm : Vm}
    {a b : Bool} {v : dgmlrt_env_value} (hroom : vm.stack.length < vm.stack_capacity)
    (hf : func_bool f a b = .ok v) :
    binop_apply fo allow f vm (.bool a) (.bool b) = .ok { vm with stack := v :: vm.stack } := by
  refine binop_apply_pushed fo allow f hroom ?_ ?_ ?_
  · exact Or.inl rfl
  · simp only [binop_push, hf]
  · cases allow <;> rfl

theorem binop_apply_string_string (fo : FloatOps) (f : BinFunc) {vm : Vm}
    (a b : dgmlrt_string) (hroom : vm.stack.length < vm.stack_capacity) :
    binop_apply fo true f vm (.string a) (.string b) =
      .ok { vm with stack := func_string f a b :: vm.stack } := by
  unfold binop_apply
  rw [if_neg (by simp [dgmlrt_env_value.type])]
  simp only [binop_push, binop_push_string, if_true]
  rw [push_room hroom]
  rw [if_neg (by simp)]

/-- The tail of `binop<false>` fails when an operand is a Bool or a String,
unless both are Bool: nothing is pushed. -/
theorem binop_apply_rejects (fo : FloatOps) (f : BinFunc) (vm : Vm) {lhs rhs : dgmlrt_env_value}
    (hbs : (lhs.type = DGMLRT_ENV_VALUE_BOOL ∨ lhs.type = DGMLRT_ENV_VALUE_STRING) ∨
      (rhs.type = DGMLRT_ENV_VALUE_BOOL ∨ rhs.type = DGMLRT_ENV_VALUE_STRING))
    (hnot : ¬ (lhs.type = DGMLRT_ENV_VALUE_BOOL ∧ rhs.type = DGMLRT_ENV_VALUE_BOOL)) :
    binop_apply fo false f vm lhs rhs = .ok { vm with error := operand_types_error } := by
  unfold binop_apply
  cases lhs <;> cases rhs <;>
    simp [dgmlrt_env_value.type, DGMLRT_ENV_VALUE_BOOL, DGMLRT_ENV_VALUE_STRING,
      DGMLRT_ENV_VALUE_INT, DGMLRT_ENV_VALUE_FLOAT, is_num_type, binop_push,
      binop_push_string, operand_types_error] at hbs hnot ⊢

theorem binop_of_op_arith {op : Nat}
    (h : op ∈ [DGMLB_OP_ADD, DGMLB_OP_SUB, DGMLB_OP_MUL, DGMLB_OP_DIV]) :
    ∃ f, binop_of_op op = some (false, f) ∧
      (f = .add ∨ f = .sub ∨ f = .mul ∨ f = .div) ∧ (f = .div → op = DGMLB_OP_DIV) := by
  simp only [List.mem_cons, List.mem_singleton, List.not_mem_nil, or_false] at h
  rcases h with rfl | rfl | rfl | rfl
  · exact ⟨.add, rfl, by simp, by intro h; cases h⟩
  · exact ⟨.sub, rfl, by simp, by intro h; cases h⟩
  · exact ⟨.mul, rfl, by simp, by intro h; cases h⟩
  · exact ⟨.div, rfl, by simp, fun _ => rfl⟩

theorem binop_of_op_order {op : Nat}
    (h : op ∈ [DGMLB_OP_LT, DGMLB_OP_LE, DGMLB_OP_GT, DGMLB_OP_GE]) :
    ∃ f, binop_of_op op = some (false, f) ∧
      (f = .lt ∨ f = .le ∨ f = .gt ∨ f = .ge) ∧ op ≠ DGMLB_OP_DIV := by
  simp only [List.mem_cons, List.mem_singleton, List.not_mem_nil, or_false] at h
  rcases h with rfl | rfl | rfl | rfl
  · exact ⟨.lt, rfl, by simp, by decide⟩
  · exact ⟨.le, rfl, by simp, by decide⟩
  · exact ⟨.gt, rfl, by simp, by decide⟩
  · exact ⟨.ge, rfl, by simp, by decide⟩

theorem binop_of_op_equal {op : Nat} (h : op ∈ [DGMLB_OP_EQ, DGMLB_OP_NE]) :
    ∃ f, binop_of_op op = some (true, f) ∧ (f = .eq ∨ f = .ne) ∧ op ≠ DGMLB_OP_DIV := by
  simp only [List.mem_cons, List.mem_singleton, List.not_mem_nil, or_false] at h
  rcases h with rfl | rfl
  · exact ⟨.eq, rfl, by simp, by decide⟩
  · exact ⟨.ne, rfl, by simp, by decide⟩

/-- An instruction of `binop` on two present operands whose guard of DIV does
not fire: the operands are popped and the tail of `binop` runs. -/
theorem eval_op_two (fo : FloatOps) {vm : Vm} {op : Nat} (p : Nat) {allow : Bool} {f : BinFunc}
    {lhs rhs : dgmlrt_env_value} {rest : List dgmlrt_env_value}
    (h : binop_of_op op = some (allow, f))
    (hstack : vm.stack = rhs :: lhs :: rest)
    (hguard : ¬ (op = DGMLB_OP_DIV ∧ div_by_zero_guard vm.stack = true))
    (hl : lhs.type ≠ DGMLRT_ENV_VALUE_UNSET) (hr : rhs.type ≠ DGMLRT_ENV_VALUE_UNSET) :
    eval_op fo vm ⟨op, p⟩ = binop_apply fo allow f { vm with stack := rest } lhs rhs := by
  rw [eval_op_binop fo vm p h, if_neg hguard, binop_two fo allow f hstack,
    if_neg (by rintro (h1 | h1); exact hl h1; exact hr h1)]

/-- The lambdas of ADD, SUB, MUL and DIV on two integers give an Int when the
exact result is in the range of `int64_t`. -/
theorem func_int_arith {f : BinFunc} (a b : Int)
    (hf : f = .add ∨ f = .sub ∨ f = .mul ∨ f = .div) (hb : f = .div → b ≠ 0)
    (hfit : (f = .add → in_int64 (a + b) = true) ∧ (f = .sub → in_int64 (a - b) = true) ∧
      (f = .mul → in_int64 (a * b) = true) ∧ (f = .div → in_int64 (Int.tdiv a b) = true)) :
    ∃ i, func_int f a b = .ok (.int i) := by
  rcases hf with rfl | rfl | rfl | rfl
  · exact ⟨a + b, by simp only [func_int, hfit.1 rfl, if_true]⟩
  · exact ⟨a - b, by simp only [func_int, hfit.2.1 rfl, if_true]⟩
  · exact ⟨a * b, by simp only [func_int, hfit.2.2.1 rfl, if_true]⟩
  · exact ⟨Int.tdiv a b, by simp only [func_int, hb rfl, if_false, hfit.2.2.2 rfl, if_true]⟩

/-- The lambdas of ADD, SUB, MUL and DIV on two integers overflow when the
exact result is outside the range of `int64_t`. -/
theorem func_int_overflow {f : BinFunc} (a b : Int) (hb : f = .div → b ≠ 0)
    (hfit : (f = .add ∧ in_int64 (a + b) = false) ∨ (f = .sub ∧ in_int64 (a - b) = false) ∨
      (f = .mul ∧ in_int64 (a * b) = false) ∨ (f = .div ∧ in_int64 (Int.tdiv a b) = false)) :
    func_int f a b = .error .int_overflow := by
  rcases hfit with ⟨rfl, h⟩ | ⟨rfl, h⟩ | ⟨rfl, h⟩ | ⟨rfl, h⟩
  · simp only [func_int, h, Bool.false_eq_true, if_false]
  · simp only [func_int, h, Bool.false_eq_true, if_false]
  · simp only [func_int, h, Bool.false_eq_true, if_false]
  · simp only [func_int, hb rfl, if_false, h, Bool.false_eq_true]

theorem binop_apply_int_int_fault (fo : FloatOps) (allow : Bool) (f : BinFunc) (vm : Vm)
    {a b : Int} {e : Fault} (hf : func_int f a b = .error e) :
    binop_apply fo allow f vm (.int a) (.int b) = .error e := by
  unfold binop_apply
  rw [if_neg (by simp [dgmlrt_env_value.type])]
  simp only [binop_push, hf]

theorem func_float_arith (fo : FloatOps) {f : BinFunc} (a b : Nat)
    (hf : f = .add ∨ f = .sub ∨ f = .mul ∨ f = .div) :
    ∃ x, func_float fo f a b = .float x := by
  rcases hf with rfl | rfl | rfl | rfl <;> exact ⟨_, rfl⟩

theorem func_int_compare {f : BinFunc} (a b : Int)
    (hf : f = .lt ∨ f = .le ∨ f = .gt ∨ f = .ge ∨ f = .eq ∨ f = .ne) :
    ∃ c, func_int f a b = .ok (.bool c) := by
  rcases hf with rfl | rfl | rfl | rfl | rfl | rfl <;> exact ⟨_, rfl⟩

theorem func_float_compare (fo : FloatOps) {f : BinFunc} (a b : Nat)
    (hf : f = .lt ∨ f = .le ∨ f = .gt ∨ f = .ge ∨ f = .eq ∨ f = .ne) :
    ∃ c, func_float fo f a b = .bool c := by
  rcases hf with rfl | rfl | rfl | rfl | rfl | rfl <;> exact ⟨_, rfl⟩

/-- The values of a numeric type. -/
theorem numeric_cases {v : dgmlrt_env_value}
    (h : v.type = DGMLRT_ENV_VALUE_INT ∨ v.type = DGMLRT_ENV_VALUE_FLOAT) :
    (∃ i, v = .int i) ∨ (∃ x, v = .float x) := by
  cases v with
  | int i => exact Or.inl ⟨i, rfl⟩
  | float x => exact Or.inr ⟨x, rfl⟩
  | unset => simp [dgmlrt_env_value.type, DGMLRT_ENV_VALUE_INT, DGMLRT_ENV_VALUE_FLOAT] at h
  | bool b => simp [dgmlrt_env_value.type, DGMLRT_ENV_VALUE_INT, DGMLRT_ENV_VALUE_FLOAT] at h
  | string s => simp [dgmlrt_env_value.type, DGMLRT_ENV_VALUE_INT, DGMLRT_ENV_VALUE_FLOAT] at h
  | other t =>
    simp only [dgmlrt_env_value.type, DGMLRT_ENV_VALUE_INT, DGMLRT_ENV_VALUE_FLOAT] at h
    omega

/-- Two numeric operands under an arithmetic lambda: an Int for two Ints, a
Float as soon as one operand is a Float. -/
theorem binop_apply_arith (fo : FloatOps) (allow : Bool) {f : BinFunc} {vm : Vm}
    {lhs rhs : dgmlrt_env_value}
    (hroom : vm.stack.length < vm.stack_capacity)
    (hf : f = .add ∨ f = .sub ∨ f = .mul ∨ f = .div)
    (hl : lhs.type = DGMLRT_ENV_VALUE_INT ∨ lhs.type = DGMLRT_ENV_VALUE_FLOAT)
    (hr : rhs.type = DGMLRT_ENV_VALUE_INT ∨ rhs.type = DGMLRT_ENV_VALUE_FLOAT)
    (hfit : ∀ a b, lhs = .int a → rhs = .int b → ∃ i, func_int f a b = .ok (.int i)) :
    ∃ v, binop_apply fo allow f vm lhs rhs = .ok { vm with stack := v :: vm.stack } ∧
      (v.type = DGMLRT_ENV_VALUE_INT ↔
        lhs.type = DGMLRT_ENV_VALUE_INT ∧ rhs.type = DGMLRT_ENV_VALUE_INT) ∧
      (v.type = DGMLRT_ENV_VALUE_FLOAT ↔
        lhs.type = DGMLRT_ENV_VALUE_FLOAT ∨ rhs.type = DGMLRT_ENV_VALUE_FLOAT) := by
  rcases numeric_cases hl with ⟨a, rfl⟩ | ⟨a, rfl⟩ <;>
    rcases numeric_cases hr with ⟨b, rfl⟩ | ⟨b, rfl⟩
  · obtain ⟨i, hi⟩ := hfit a b rfl rfl
    exact ⟨_, binop_apply_int_int fo allow f hroom hi, by
      simp [dgmlrt_env_value.type, DGMLRT_ENV_VALUE_INT, DGMLRT_ENV_VALUE_FLOAT], by
      simp [dgmlrt_env_value.type, DGMLRT_ENV_VALUE_INT, DGMLRT_ENV_VALUE_FLOAT]⟩
  · obtain ⟨x, hx⟩ := func_float_arith fo (fo.of_int a) b hf
    refine ⟨_, binop_apply_int_float fo allow f a b hroom, ?_, ?_⟩ <;> rw [hx] <;>
      simp [dgmlrt_env_value.type, DGMLRT_ENV_VALUE_INT, DGMLRT_ENV_VALUE_FLOAT]
  · obtain ⟨x, hx⟩ := func_float_arith fo a (fo.of_int b) hf
    refine ⟨_, binop_apply_float_int fo allow f a b hroom, ?_, ?_⟩ <;> rw [hx] <;>
      simp [dgmlrt_env_value.type, DGMLRT_ENV_VALUE_INT, DGMLRT_ENV_VALUE_FLOAT]
  · obtain ⟨x, hx⟩ := func_float_arith fo a b hf
    refine ⟨_, binop_apply_float_float fo allow f a b hroom, ?_, ?_⟩ <;> rw [hx] <;>
      simp [dgmlrt_env_value.type, DGMLRT_ENV_VALUE_INT, DGMLRT_ENV_VALUE_FLOAT]

/-- Two numeric operands under a comparison lambda: a Bool. -/
theorem binop_apply_compare (fo : FloatOps) (allow : Bool) {f : BinFunc} {vm : Vm}
    {lhs rhs : dgmlrt_env_value}
    (hroom : vm.stack.length < vm.stack_capacity)
    (hf : f = .lt ∨ f = .le ∨ f = .gt ∨ f = .ge ∨ f = .eq ∨ f = .ne)
    (hl : lhs.type = DGMLRT_ENV_VALUE_INT ∨ lhs.type = DGMLRT_ENV_VALUE_FLOAT)
    (hr : rhs.type = DGMLRT_ENV_VALUE_INT ∨ rhs.type = DGMLRT_ENV_VALUE_FLOAT) :
    ∃ c, binop_apply fo allow f vm lhs rhs = .ok { vm with stack := .bool c :: vm.stack } := by
  rcases numeric_cases hl with ⟨a, rfl⟩ | ⟨a, rfl⟩ <;>
    rcases numeric_cases hr with ⟨b, rfl⟩ | ⟨b, rfl⟩
  · obtain ⟨c, hc⟩ := func_int_compare a b hf
    exact ⟨c, binop_apply_int_int fo allow f hroom hc⟩
  · obtain ⟨c, hc⟩ := func_float_compare fo (fo.of_int a) b hf
    exact ⟨c, by rw [← hc]; exact binop_apply_int_float fo allow f a b hroom⟩
  · obtain ⟨c, hc⟩ := func_float_compare fo a (fo.of_int b) hf
    exact ⟨c, by rw [← hc]; exact binop_apply_float_int fo allow f a b hroom⟩
  · obtain ⟨c, hc⟩ := func_float_compare fo a b hf
    exact ⟨c, by rw [← hc]; exact binop_apply_float_float fo allow f a b hroom⟩

theorem div_guard_fires {lhs rhs : dgmlrt_env_value} {rest : List dgmlrt_env_value}
    (h : div_by_zero_guard (rhs :: lhs :: rest) = true) :
    lhs.type = DGMLRT_ENV_VALUE_INT ∧ rhs = .int 0 := by
  unfold div_by_zero_guard at h
  split at h
  · rename_i b a tl heq
    simp only [List.cons.injEq] at heq
    obtain ⟨h1, h2, _⟩ := heq
    rw [h1, h2]
    simp only [beq_iff_eq] at h
    rw [h]
    exact ⟨rfl, rfl⟩
  · cases h

/-- An arithmetic instruction on two numeric operands whose Int instance, if it
is the one taken, yields an Int: the type of the value pushed. -/
theorem eval_op_arith (fo : FloatOps) {vm : Vm} {op : Nat} (p : Nat) {f : BinFunc}
    {lhs rhs : dgmlrt_env_value} {rest : List dgmlrt_env_value}
    (hf : binop_of_op op = some (false, f))
    (harith : f = .add ∨ f = .sub ∨ f = .mul ∨ f = .div)
    (hstack : vm.stack = rhs :: lhs :: rest)
    (hbound : vm.stack.length ≤ vm.stack_capacity)
    (hl : lhs.type = DGMLRT_ENV_VALUE_INT ∨ lhs.type = DGMLRT_ENV_VALUE_FLOAT)
    (hr : rhs.type = DGMLRT_ENV_VALUE_INT ∨ rhs.type = DGMLRT_ENV_VALUE_FLOAT)
    (hdiv : op = DGMLB_OP_DIV → lhs.type = DGMLRT_ENV_VALUE_INT → rhs ≠ .int 0)
    (hfit : ∀ a b, lhs = .int a → rhs = .int b → ∃ i, func_int f a b = .ok (.int i)) :
    ∃ v, eval_op fo vm ⟨op, p⟩ = .ok { vm with stack := v :: rest } ∧
      (v.type = DGMLRT_ENV_VALUE_INT ↔
        lhs.type = DGMLRT_ENV_VALUE_INT ∧ rhs.type = DGMLRT_ENV_VALUE_INT) ∧
      (v.type = DGMLRT_ENV_VALUE_FLOAT ↔
        lhs.type = DGMLRT_ENV_VALUE_FLOAT ∨ rhs.type = DGMLRT_ENV_VALUE_FLOAT) := by
  have hroom : ({ vm with stack := rest } : Vm).stack.length < vm.stack_capacity := by
    rw [hstack] at hbound
    simp only [List.length_cons] at hbound
    show rest.length < vm.stack_capacity
    omega
  have hl0 : lhs.type ≠ DGMLRT_ENV_VALUE_UNSET := by
    rcases hl with h | h <;> rw [h] <;> decide
  have hr0 : rhs.type ≠ DGMLRT_ENV_VALUE_UNSET := by
    rcases hr with h | h <;> rw [h] <;> decide
  have hguard : ¬ (op = DGMLB_OP_DIV ∧ div_by_zero_guard vm.stack = true) := by
    rintro ⟨h1, h2⟩
    rw [hstack] at h2
    obtain ⟨h3, h4⟩ := div_guard_fires h2
    exact hdiv h1 h3 h4
  rw [eval_op_two fo p hf hstack hguard hl0 hr0]
  exact binop_apply_arith fo false hroom harith hl hr hfit

/-- An arithmetic instruction on two Ints whose exact result is outside the
range of `int64_t`: the signed overflow, and no value pushed. -/
theorem eval_op_overflow (fo : FloatOps) {vm : Vm} {op : Nat} (p : Nat) {f : BinFunc}
    {a b : Int} {rest : List dgmlrt_env_value}
    (hf : binop_of_op op = some (false, f))
    (hstack : vm.stack = .int b :: .int a :: rest)
    (hdiv : op = DGMLB_OP_DIV → b ≠ 0)
    (hover : func_int f a b = .error .int_overflow) :
    eval_op fo vm ⟨op, p⟩ = .error .int_overflow := by
  have hguard : ¬ (op = DGMLB_OP_DIV ∧ div_by_zero_guard vm.stack = true) := by
    rintro ⟨h1, h2⟩
    rw [hstack] at h2
    obtain ⟨_, h4⟩ := div_guard_fires h2
    cases h4
    exact hdiv h1 rfl
  rw [eval_op_two fo p hf hstack hguard (by show (2 : Nat) ≠ 0; decide)
    (by show (2 : Nat) ≠ 0; decide)]
  exact binop_apply_int_int_fault fo false f _ hover

/-- Claim C25, amended: when ADD, SUB, MUL or DIV is executed on two numeric
operands (for two Ints: the divisor is not zero and the exact sum, difference,
product or truncated quotient is in the range of `int64_t`), the operands are
replaced by one value whose type is Int exactly when both operands are Int and
Float exactly when at least one is a Float; when LT, LE, GT, GE, EQ or NE is
executed on two numeric operands of any Int/Float combination, they are
replaced by a Bool.  No error is recorded in either case. -/
theorem numeric_binop_result (fo : FloatOps) (vm : Vm) (op p : Nat)
    (lhs rhs : dgmlrt_env_value) (rest : List dgmlrt_env_value)
    (hstack : vm.stack = rhs :: lhs :: rest)
    (hbound : vm.stack.length ≤ vm.stack_capacity)
    (hl : lhs.type = DGMLRT_ENV_VALUE_INT ∨ lhs.type = DGMLRT_ENV_VALUE_FLOAT)
    (hr : rhs.type = DGMLRT_ENV_VALUE_INT ∨ rhs.type = DGMLRT_ENV_VALUE_FLOAT) :
    (op ∈ [DGMLB_OP_ADD, DGMLB_OP_SUB, DGMLB_OP_MUL, DGMLB_OP_DIV] →
      (op = DGMLB_OP_DIV → lhs.type = DGMLRT_ENV_VALUE_INT → rhs ≠ .int 0) →
      (∀ a b, lhs = .int a → rhs = .int b →
        (op = DGMLB_OP_ADD → in_int64 (a + b) = true) ∧
        (op = DGMLB_OP_SUB → in_int64 (a - b) = true) ∧
        (op = DGMLB_OP_MUL → in_int64 (a * b) = true) ∧
        (op = DGMLB_OP_DIV → in_int64 (Int.tdiv a b) = true)) →
      ∃ v, eval_op fo vm ⟨op, p⟩ = .ok { vm with stack := v :: rest } ∧
        (v.type = DGMLRT_ENV_VALUE_INT ↔
          lhs.type = DGMLRT_ENV_VALUE_INT ∧ rhs.type = DGMLRT_ENV_VALUE_INT) ∧
        (v.type = DGMLRT_ENV_VALUE_FLOAT ↔
          lhs.type = DGMLRT_ENV_VALUE_FLOAT ∨ rhs.type = DGMLRT_ENV_VALUE_FLOAT)) ∧
    (op ∈ [DGMLB_OP_LT, DGMLB_OP_LE, DGMLB_OP_GT, DGMLB_OP_GE, DGMLB_OP_EQ, DGMLB_OP_NE] →
      ∃ c, eval_op fo vm ⟨op, p⟩ = .ok { vm with stack := .bool c :: rest }) := by
  have hroom : ({ vm with stack := rest } : Vm).stack.length < vm.stack_capacity := by
    rw [hstack] at hbound
    simp only [List.length_cons] at hbound
    show rest.length < vm.stack_capacity
    omega
  have hl0 : lhs.type ≠ DGMLRT_ENV_VALUE_UNSET := by
    rcases hl with h | h <;> rw [h] <;> decide
  have hr0 : rhs.type ≠ DGMLRT_ENV_VALUE_UNSET := by
    rcases hr with h | h <;> rw [h] <;> decide
  refine ⟨?_, ?_⟩
  · intro hop hdiv hfit
    have hb : ∀ a b, lhs = .int a → rhs = .int b → op = DGMLB_OP_DIV → b ≠ 0 := by
      intro a b ha hb hd h0
      rw [ha] at hdiv
      exact hdiv hd rfl (by rw [hb, h0])
    simp only [List.mem_cons, List.mem_singleton, List.not_mem_nil, or_false] at hop
    rcases hop with rfl | rfl | rfl | rfl
    · exact eval_op_arith fo p (show binop_of_op DGMLB_OP_ADD = some (false, .add) by decide)
        (Or.inl rfl) hstack hbound hl hr hdiv
        (fun a b ha hb2 => func_int_arith a b (Or.inl rfl) (fun h => by cases h)
          ⟨fun _ => (hfit a b ha hb2).1 rfl, (fun h => by cases h), (fun h => by cases h),
            (fun h => by cases h)⟩)
    · exact eval_op_arith fo p (show binop_of_op DGMLB_OP_SUB = some (false, .sub) by decide)
        (Or.inr (Or.inl rfl)) hstack hbound hl hr hdiv
        (fun a b ha hb2 => func_int_arith a b (Or.inr (Or.inl rfl)) (fun h => by cases h)
          ⟨(fun h => by cases h), fun _ => (hfit a b ha hb2).2.1 rfl, (fun h => by cases h),
            (fun h => by cases h)⟩)
    · exact eval_op_arith fo p (show binop_of_op DGMLB_OP_MUL = some (false, .mul) by decide)
        (Or.inr (Or.inr (Or.inl rfl))) hstack hbound hl hr hdiv
        (fun a b ha hb2 => func_int_arith a b (Or.inr (Or.inr (Or.inl rfl)))
          (fun h => by cases h)
          ⟨(fun h => by cases h), (fun h => by cases h), fun _ => (hfit a b ha hb2).2.2.1 rfl,
            (fun h => by cases h)⟩)
    · exact eval_op_arith fo p (show binop_of_op DGMLB_OP_DIV = some (false, .div) by decide)
        (Or.inr (Or.inr (Or.inr rfl))) hstack hbound hl hr hdiv
        (fun a b ha hb2 => func_int_arith a b (Or.inr (Or.inr (Or.inr rfl)))
          (fun _ => hb a b ha hb2 rfl)
          ⟨(fun h => by cases h), (fun h => by cases h), (fun h => by cases h),
            fun _ => (hfit a b ha hb2).2.2.2 rfl⟩)
  · intro hop
    have hsplit : op ∈ [DGMLB_OP_LT, DGMLB_OP_LE, DGMLB_OP_GT, DGMLB_OP_GE] ∨
        op ∈ [DGMLB_OP_EQ, DGMLB_OP_NE] := by
      simp only [List.mem_cons, List.mem_singleton, List.not_mem_nil, or_false] at hop ⊢
      tauto
    rcases hsplit with h | h
    · obtain ⟨f, hf, hord, hnd⟩ := binop_of_op_order h
      rw [eval_op_two fo p hf hstack (fun hh => hnd hh.1) hl0 hr0]
      exact binop_apply_compare fo false hroom (by tauto) hl hr
    · obtain ⟨f, hf, heq, hnd⟩ := binop_of_op_equal h
      rw [eval_op_two fo p hf hstack (fun hh => hnd hh.1) hl0 hr0]
      exact binop_apply_compare fo true hroom (by tauto) hl hr

/-- Witness of the amended C25 on the sample machine with `Int(3)` below
`Float` bits 5 on the stack: ADD replaces them by a Float, LT by a Bool; with
`Int(-7)` below `Int(2)`, DIV replaces them by an Int. -/
theorem numeric_binop_result_witness :
    (∃ v, eval_op sample_float_ops { sample_vm [] with stack := [.float 5, .int 3] }
          ⟨DGMLB_OP_ADD, 0⟩ =
        .ok { sample_vm [] with stack := [v] } ∧
      (v.type = DGMLRT_ENV_VALUE_INT ↔
        (dgmlrt_env_value.int 3).type = DGMLRT_ENV_VALUE_INT ∧
          (dgmlrt_env_value.float 5).type = DGMLRT_ENV_VALUE_INT) ∧
      (v.type = DGMLRT_ENV_VALUE_FLOAT ↔
        (dgmlrt_env_value.int 3).type = DGMLRT_ENV_VALUE_FLOAT ∨
          (dgmlrt_env_value.float 5).type = DGMLRT_ENV_VALUE_FLOAT)) ∧
    (∃ c, eval_op sample_float_ops { sample_vm [] with stack := [.float 5, .int 3] }
          ⟨DGMLB_OP_LT, 0⟩ =
        .ok { sample_vm [] with stack := [.bool c] }) ∧
    (∃ v, eval_op sample_float_ops { sample_vm [] with stack := [.int 2, .int (-7)] }
          ⟨DGMLB_OP_DIV, 0⟩ =
        .ok { sample_vm [] with stack := [v] } ∧
      (v.type = DGMLRT_ENV_VALUE_INT ↔
        (dgmlrt_env_value.int (-7)).type = DGMLRT_ENV_VALUE_INT ∧
          (dgmlrt_env_value.int 2).type = DGMLRT_ENV_VALUE_INT)) :=
  ⟨(numeric_binop_result sample_float_ops { sample_vm [] with stack := [.float 5, .int 3] }
      DGMLB_OP_ADD 0 (.int 3) (.float 5) [] rfl (by decide) (Or.inl rfl) (Or.inr rfl)).1
      (by decide) (fun h => absurd h (by decide)) (fun a b _ hb => by cases hb),
   (numeric_binop_result sample_float_ops { sample_vm [] with stack := [.float 5, .int 3] }
      DGMLB_OP_LT 0 (.int 3) (.float 5) [] rfl (by decide) (Or.inl rfl) (Or.inr rfl)).2
      (by decide),
   ((numeric_binop_result sample_float_ops { sample_vm [] with stack := [.int 2, .int (-7)] }
      DGMLB_OP_DIV 0 (.int (-7)) (.int 2) [] rfl (by decide) (Or.inl rfl) (Or.inl rfl)).1
      (by decide) (fun _ _ h => by cases h)
      (fun a b ha hb => by
        cases ha
        cases hb
        exact ⟨fun h => absurd h (by decide), fun h => absurd h (by decide),
          fun h => absurd h (by decide), fun _ => by decide⟩)).imp
      (fun _ h => ⟨h.1, h.2.1⟩)⟩

set_option maxRecDepth 100000 in
/-- Claim C25 fails as stated for two Int operands whose exact result is not a
64-bit integer.  The program `PUSH_INT -2^31; PUSH_INT -2^31; MUL; PUSH_INT -2;
MUL` evaluates to `Int(-2^63)`, the smallest `int64_t`; followed by
`PUSH_INT -1; DIV`, whose divisor is not zero, the quotient `2^63` is not
representable: the division in `int64_t` is undefined and traps, and no Int is
pushed.  The same holds when the host stores the largest `int64_t` in the Int
variable `n` and the program is `GET_VAR n; PUSH_INT 1; ADD`. -/
theorem int_overflow_pushes_nothing :
    (eval sample_float_ops (sample_vm [])
        [⟨DGMLB_OP_PUSH_INT, 2147483648⟩, ⟨DGMLB_OP_PUSH_INT, 2147483648⟩, ⟨DGMLB_OP_MUL, 0⟩,
          ⟨DGMLB_OP_PUSH_INT, 4294967294⟩, ⟨DGMLB_OP_MUL, 0⟩]).map (fun p => p.2) =
      .ok (some (.int (-9223372036854775808))) ∧
    (eval sample_float_ops (sample_vm [])
        [⟨DGMLB_OP_PUSH_INT, 2147483648⟩, ⟨DGMLB_OP_PUSH_INT, 2147483648⟩, ⟨DGMLB_OP_MUL, 0⟩,
          ⟨DGMLB_OP_PUSH_INT, 4294967294⟩, ⟨DGMLB_OP_MUL, 0⟩, ⟨DGMLB_OP_PUSH_INT, 4294967295⟩,
          ⟨DGMLB_OP_DIV, 0⟩]).map (fun p => p.2) = .error .int_overflow ∧
    Int.tdiv (-9223372036854775808) (-1) = 9223372036854775808 ∧
    in_int64 9223372036854775808 = false ∧
    (dgmlrt_vm_set_env_value (sample_vm []) [110] (.int 9223372036854775807)).1 = true ∧
    (eval sample_float_ops
        (dgmlrt_vm_set_env_value (sample_vm []) [110] (.int 9223372036854775807)).2
        [⟨DGMLB_OP_GET_VAR, 52⟩, ⟨DGMLB_OP_PUSH_INT, 1⟩, ⟨DGMLB_OP_ADD, 0⟩]).map
        (fun p => p.2) = .error .int_overflow := by
  decide

/-! ## Bool and String operands of arithmetic and ordering -/

/-- Claim C21, amended: for ADD, SUB, MUL, DIV, LT, LE, GT and GE executed on
two operands, (1) if an operand is a Bool or a String and the operands are not
both Bool, both are popped, nothing is pushed, an error with code `EvalFail`
is recorded and the evaluation returns `nullptr`; (2) if both operands are
Bool (for DIV the divisor is `true`), no error is recorded: the operands are
promoted to integers and the result is converted back to a Bool, which is
pushed. -/
theorem bool_string_operands (fo : FloatOps) (vm : Vm) (op p : Nat)
    (lhs rhs : dgmlrt_env_value) (rest : List dgmlrt_env_value)
    (hop : op ∈ [DGMLB_OP_ADD, DGMLB_OP_SUB, DGMLB_OP_MUL, DGMLB_OP_DIV, DGMLB_OP_LT,
      DGMLB_OP_LE, DGMLB_OP_GT, DGMLB_OP_GE])
    (hstack : vm.stack = rhs :: lhs :: rest) :
    ((lhs.type = DGMLRT_ENV_VALUE_BOOL ∨ lhs.type = DGMLRT_ENV_VALUE_STRING) ∨
        (rhs.type = DGMLRT_ENV_VALUE_BOOL ∨ rhs.type = DGMLRT_ENV_VALUE_STRING) →
      ¬ (lhs.type = DGMLRT_ENV_VALUE_BOOL ∧ rhs.type = DGMLRT_ENV_VALUE_BOOL) →
      ∃ e, e.code = DGMLRT_ERROR_EVAL_FAIL ∧
        eval_op fo vm ⟨op, p⟩ = .ok { vm with stack := rest, error := e } ∧
        ∀ vm0 pre post, eval_loop fo { vm0 with stack := [] } pre = .ok (vm, true) →
          eval fo vm0 (pre ++ ⟨op, p⟩ :: post) =
            .ok ({ vm with stack := rest, error := e }, none)) ∧
    (∀ a b, lhs = .bool a → rhs = .bool b → vm.stack.length ≤ vm.stack_capacity →
      (op = DGMLB_OP_DIV → b = true) →
      ∃ c, eval_op fo vm ⟨op, p⟩ = .ok { vm with stack := .bool c :: rest } ∧
        (op = DGMLB_OP_ADD → c = (a || b)) ∧ (op = DGMLB_OP_SUB → c = (a != b)) ∧
        (op = DGMLB_OP_MUL → c = (a && b)) ∧ (op = DGMLB_OP_DIV → c = a) ∧
        (op = DGMLB_OP_LT → c = (!a && b)) ∧ (op = DGMLB_OP_LE → c = (!a || b)) ∧
        (op = DGMLB_OP_GT → c = (a && !b)) ∧ (op = DGMLB_OP_GE → c = (a || !b))) := by
  have hsplit : op ∈ [DGMLB_OP_ADD, DGMLB_OP_SUB, DGMLB_OP_MUL, DGMLB_OP_DIV] ∨
      op ∈ [DGMLB_OP_LT, DGMLB_OP_LE, DGMLB_OP_GT, DGMLB_OP_GE] := by
    simp only [List.mem_cons, List.mem_singleton, List.not_mem_nil, or_false] at hop ⊢
    tauto
  have hf : ∃ f, binop_of_op op = some (false, f) := by
    rcases hsplit with h | h
    · obtain ⟨f, h1, _⟩ := binop_of_op_arith h
      exact ⟨f, h1⟩
    · obtain ⟨f, h1, _⟩ := binop_of_op_order h
      exact ⟨f, h1⟩
  obtain ⟨f, hf⟩ := hf
  constructor
  · intro hbs hnot
    have hguard : ¬ (op = DGMLB_OP_DIV ∧ div_by_zero_guard vm.stack = true) := by
      rintro ⟨_, h2⟩
      rw [hstack] at h2
      obtain ⟨h3, h4⟩ := div_guard_fires h2
      rw [h4] at hbs
      rw [h3] at hbs
      revert hbs
      decide
    have hop1 : ∃ e, e.code = DGMLRT_ERROR_EVAL_FAIL ∧
        eval_op fo vm ⟨op, p⟩ = .ok { vm with stack := rest, error := e } := by
      rw [eval_op_binop fo vm p hf, if_neg hguard, binop_two fo false f hstack]
      by_cases hu : lhs.type = DGMLRT_ENV_VALUE_UNSET ∨ rhs.type = DGMLRT_ENV_VALUE_UNSET
      · rw [if_pos hu]
        exact ⟨missing_operands_error, rfl, rfl⟩
      · rw [if_neg hu, binop_apply_rejects fo f _ hbs hnot]
        exact ⟨operand_types_error, rfl, rfl⟩
    obtain ⟨e, he, hev⟩ := hop1
    refine ⟨e, he, hev, ?_⟩
    intro vm0 pre post hpre
    exact eval_stops_at hpre hev (by show e.code ≠ DGMLRT_ERROR_NONE; rw [he]; decide)
  · intro a b hla hrb hbound hdiv
    subst hla hrb
    have hroom : ({ vm with stack := rest } : Vm).stack.length < vm.stack_capacity := by
      rw [hstack] at hbound
      simp only [List.length_cons] at hbound
      show rest.length < vm.stack_capacity
      omega
    have hguard : ¬ (op = DGMLB_OP_DIV ∧ div_by_zero_guard vm.stack = true) := by
      rintro ⟨_, h2⟩
      rw [hstack] at h2
      cases (div_guard_fires h2).2
    rw [eval_op_two fo p hf hstack hguard (by show (1 : Nat) ≠ 0; decide)
      (by show (1 : Nat) ≠ 0; decide)]
    simp only [List.mem_cons, List.mem_singleton, List.not_mem_nil, or_false] at hop
    rcases hop with rfl | rfl | rfl | rfl | rfl | rfl | rfl | rfl
    all_goals
      cases hf
    · exact ⟨_, binop_apply_bool_bool fo false .add hroom rfl,
        fun _ => rfl, fun h => absurd h (by decide), fun h => absurd h (by decide),
        fun h => absurd h (by decide), fun h => absurd h (by decide),
        fun h => absurd h (by decide), fun h => absurd h (by decide),
        fun h => absurd h (by decide)⟩
    · exact ⟨_, binop_apply_bool_bool fo false .sub hroom rfl,
        fun h => absurd h (by decide), fun _ => rfl, fun h => absurd h (by decide),
        fun h => absurd h (by decide), fun h => absurd h (by decide),
        fun h => absurd h (by decide), fun h => absurd h (by decide),
        fun h => absurd h (by decide)⟩
    · exact ⟨_, binop_apply_bool_bool fo false .mul hroom rfl,
        fun h => absurd h (by decide), fun h => absurd h (by decide), fun _ => rfl,
        fun h => absurd h (by decide), fun h => absurd h (by decide),
        fun h => absurd h (by decide), fun h => absurd h (by decide),
        fun h => absurd h (by decide)⟩
    · have hb := hdiv rfl
      subst hb
      exact ⟨_, binop_apply_bool_bool fo false .div hroom rfl,
        fun h => absurd h (by decide), fun h => absurd h (by decide),
        fun h => absurd h (by decide), fun _ => rfl, fun h => absurd h (by decide),
        fun h => absurd h (by decide), fun h => absurd h (by decide),
        fun h => absurd h (by decide)⟩
    · exact ⟨_, binop_apply_bool_bool fo false .lt hroom rfl,
        fun h => absurd h (by decide), fun h => absurd h (by decide),
        fun h => absurd h (by decide), fun h => absurd h (by decide), fun _ => rfl,
        fun h => absurd h (by decide), fun h => absurd h (by decide),
        fun h => absurd h (by decide)⟩
    · exact ⟨_, binop_apply_bool_bool fo false .le hroom rfl,
        fun h => absurd h (by decide), fun h => absurd h (by decide),
        fun h => absurd h (by decide), fun h => absurd h (by decide),
        fun h => absurd h (by decide), fun _ => rfl, fun h => absurd h (by decide),
        fun h => absurd h (by decide)⟩
    · exact ⟨_, binop_apply_bool_bool fo false .gt hroom rfl,
        fun h => absurd h (by decide), fun h => absurd h (by decide),
        fun h => absurd h (by decide), fun h => absurd h (by decide),
        fun h => absurd h (by decide), fun h => absurd h (by decide), fun _ => rfl,
        fun h => absurd h (by decide)⟩
    · exact ⟨_, binop_apply_bool_bool fo false .ge hroom rfl,
        fun h => absurd h (by decide), fun h => absurd h (by decide),
        fun h => absurd h (by decide), fun h => absurd h (by decide),
        fun h => absurd h (by decide), fun h => absurd h (by decide),
        fun h => absurd h (by decide), fun _ => rfl⟩

/-- Witness of the amended C21 on the sample machine: ADD on `Bool(true)` and
`Int(1)` pops both, pushes nothing and records an `EvalFail` error; LT on
`Bool(false)` and `Bool(true)` pushes `Bool(true)`. -/
theorem bool_string_operands_witness :
    (∃ e, e.code = DGMLRT_ERROR_EVAL_FAIL ∧
      eval_op sample_float_ops { sample_vm [] with stack := [.int 1, .bool true] }
          ⟨DGMLB_OP_ADD, 0⟩ =
        .ok { sample_vm [] with stack := [], error := e }) ∧
    (∃ c, eval_op sample_float_ops { sample_vm [] with stack := [.bool true, .bool false] }
          ⟨DGMLB_OP_LT, 0⟩ =
        .ok { sample_vm [] with stack := [.bool c] } ∧ c = (!false && true)) :=
  ⟨((bool_string_operands sample_float_ops
        { sample_vm [] with stack := [.int 1, .bool true] } DGMLB_OP_ADD 0 (.bool true) (.int 1)
        [] (by decide) rfl).1 (Or.inl (Or.inl rfl)) (by decide)).imp
      (fun _ h => ⟨h.1, h.2.1⟩),
   ((bool_string_operands sample_float_ops
        { sample_vm [] with stack := [.bool true, .bool false] } DGMLB_OP_LT 0 (.bool false)
        (.bool true) [] (by decide) rfl).2 false true rfl rfl (by decide)
        (fun h => absurd h (by decide))).imp
      (fun _ h => ⟨h.1, h.2.2.2.2.2.1 rfl⟩)⟩

/-- Claim C21 fails as stated for two Bool operands: the programs
`PUSH_BOOL 1; PUSH_BOOL 1; ADD` and `PUSH_BOOL 0; PUSH_BOOL 1; LT` evaluate
without error to `Bool(true)`, and `PUSH_BOOL 1; PUSH_BOOL 1; SUB` to
`Bool(false)`. -/
theorem arithmetic_on_bools_pushes_bool :
    (eval sample_float_ops (sample_vm [])
        [⟨DGMLB_OP_PUSH_BOOL, 1⟩, ⟨DGMLB_OP_PUSH_BOOL, 1⟩, ⟨DGMLB_OP_ADD, 0⟩]).map
        (fun p => (p.1.error.code, p.1.stack, p.2)) =
      .ok (DGMLRT_ERROR_NONE, [.bool true], some (.bool true)) ∧
    (eval sample_float_ops (sample_vm [])
        [⟨DGMLB_OP_PUSH_BOOL, 0⟩, ⟨DGMLB_OP_PUSH_BOOL, 1⟩, ⟨DGMLB_OP_LT, 0⟩]).map
        (fun p => (p.1.error.code, p.1.stack, p.2)) =
      .ok (DGMLRT_ERROR_NONE, [.bool true], some (.bool true)) ∧
    (eval sample_float_ops (sample_vm [])
        [⟨DGMLB_OP_PUSH_BOOL, 1⟩, ⟨DGMLB_OP_PUSH_BOOL, 1⟩, ⟨DGMLB_OP_SUB, 0⟩]).map
        (fun p => (p.1.error.code, p.1.stack, p.2)) =
      .ok (DGMLRT_ERROR_NONE, [.bool false], some (.bool false)) := by
  decide

/-! ## Missing operands and SET_VAR -/

theorem set_loop_false_unchanged (name : dgmlrt_string) (v : dgmlrt_env_value) :
    ∀ l : List EnvVar, (set_env_value_loop name v l).1 = false →
      (set_env_value_loop name v l).2 = l := by
  intro l
  induction l with
  | nil => intro _; rfl
  | cons ev rest ih =>
    intro h
    unfold set_env_value_loop at h ⊢
    by_cases hn : str_eq ev.name name = true
    · simp only [hn, if_true] at h ⊢
      by_cases ht : ev.value.type = v.type
      · simp only [ht, if_true] at h ⊢
        cases hs : set_env_value ev v with
        | none => rfl
        | some ev1 => rw [hs] at h; cases h
      · simp only [ht, if_false]
    · simp only [hn, Bool.false_eq_true, if_false] at h ⊢
      rw [ih h]

theorem set_loop_unset_unchanged (name : dgmlrt_string) :
    ∀ l : List EnvVar, (set_env_value_loop name .unset l).2 = l := by
  intro l
  induction l with
  | nil => rfl
  | cons ev rest ih =>
    unfold set_env_value_loop
    by_cases hn : str_eq ev.name name = true
    · simp only [hn, if_true]
      by_cases ht : ev.value.type = dgmlrt_env_value.unset.type
      · simp only [ht, if_true, set_env_value]
        have hv : ev.value = .unset := by
          cases hev : ev.value with
          | unset => rfl
          | other t =>
            rw [hev] at ht
            simp only [dgmlrt_env_value.type] at ht
            omega
          | _ => rw [hev] at ht; cases ht
        show { ev with value := dgmlrt_env_value.unset } :: rest = ev :: rest
        rw [← hv]
      · simp only [ht, if_false]
    · simp only [hn, Bool.false_eq_true, if_false]
      rw [ih]

/-- A SET_VAR whose popped value has another type than the variable: the
store is skipped and nothing else happens, no error is recorded. -/
theorem eval_op_set_var_mismatch (fo : FloatOps) (vm : Vm) (p : Nat) {name : dgmlrt_string}
    (v : dgmlrt_env_value) (rest : List dgmlrt_env_value) {ev : EnvVar}
    (hname : string vm.tree p = .ok name) (hstack : vm.stack = v :: rest)
    (hroom : vm.changed_vars_buf.any (fun cv => str_eq cv name) = true ∨
      vm.changed_vars_buf.length < vm.changed_vars_buf_size)
    (hvar : find_env_var name vm.env_vars = some ev)
    (htype : ev.value.type ≠ v.type) :
    ∃ cv, eval_op fo vm ⟨DGMLB_OP_SET_VAR, p⟩ =
      .ok { vm with changed_vars_buf := cv, stack := rest } := by
  obtain ⟨cv, h⟩ := eval_op_set_var fo vm p v rest hname hstack hroom
  refine ⟨cv, ?_⟩
  rw [h]
  have hfalse : (set_env_value_loop name v vm.env_vars).1 = false := by
    rw [set_loop_fails_iff, hvar]
    have hne : (ev.value.type != v.type) = true := by simp [htype]
    simp only [hne, Bool.true_or]
  rw [set_loop_false_unchanged name v vm.env_vars hfalse]

/-- A SET_VAR on an empty stack: `pop` hands out an Unset value, so the store
leaves the variables as they are, and no error is recorded; the name is listed
as changed all the same. -/
theorem eval_op_set_var_empty (fo : FloatOps) (vm : Vm) (p : Nat) {name : dgmlrt_string}
    (hname : string vm.tree p = .ok name) (hstack : vm.stack = [])
    (hroom : vm.changed_vars_buf.any (fun cv => str_eq cv name) = true ∨
      vm.changed_vars_buf.length < vm.changed_vars_buf_size) :
    ∃ cv, eval_op fo vm ⟨DGMLB_OP_SET_VAR, p⟩ = .ok { vm with changed_vars_buf := cv } := by
  unfold eval_op
  simp only [DGMLB_OP_SET_VAR, DGMLB_OP_PUSH_BOOL, DGMLB_OP_PUSH_INT, DGMLB_OP_PUSH_FLOAT,
    DGMLB_OP_PUSH_STRING, DGMLB_OP_GET_VAR, hname]
  simp only [Nat.reduceEqDiff, if_false, if_true]
  unfold record_changed_var
  by_cases hany : vm.changed_vars_buf.any (fun cv => str_eq cv name) = true
  · rw [if_pos hany]
    refine ⟨vm.changed_vars_buf, ?_⟩
    simp only [pop, hstack, dgmlrt_vm_set_env_value, set_loop_unset_unchanged]
  · rw [if_neg hany]
    have hlt : vm.changed_vars_buf.length < vm.changed_vars_buf_size := by
      rcases hroom with h | h
      · exact absurd h hany
      · exact h
    rw [if_pos hlt]
    refine ⟨vm.changed_vars_buf ++ [name], ?_⟩
    simp only [pop, hstack, dgmlrt_vm_set_env_value, set_loop_unset_unchanged]

theorem eval_op_not_short (fo : FloatOps) (vm : Vm) (p : Nat) (hstack : vm.stack = []) :
    eval_op fo vm ⟨DGMLB_OP_NOT, p⟩ = .ok { vm with error := not_operand_error } := by
  unfold eval_op
  simp only [DGMLB_OP_SET_VAR, DGMLB_OP_PUSH_BOOL, DGMLB_OP_PUSH_INT, DGMLB_OP_PUSH_FLOAT,
    DGMLB_OP_PUSH_STRING, DGMLB_OP_GET_VAR, DGMLB_OP_NOT]
  simp only [Nat.reduceEqDiff, if_false, if_true]
  have hp : pop vm = (.unset, vm) := by simp [pop, hstack]
  rw [hp]
  rfl

/-- A binary operator on a stack of fewer than two values records the error
`EvalFail` "Missing operands for binary operator" and empties the stack. -/
theorem eval_op_binop_short (fo : FloatOps) (vm : Vm) {op : Nat} (p : Nat) {allow : Bool}
    {f : BinFunc} (h : binop_of_op op = some (allow, f)) (hstack : vm.stack.length < 2) :
    eval_op fo vm ⟨op, p⟩ = .ok { vm with stack := [], error := missing_operands_error } := by
  have hguard : ¬ (op = DGMLB_OP_DIV ∧ div_by_zero_guard vm.stack = true) := by
    rintro ⟨_, h2⟩
    unfold div_by_zero_guard at h2
    split at h2
    · rename_i heq
      rw [heq] at hstack
      simp only [List.length_cons] at hstack
      omega
    · cases h2
  rw [eval_op_binop fo vm p h, if_neg hguard, binop_short fo allow f hstack]

/-- Claim C22, what the code does instead: `NOT` on an empty stack and `ADD`
on a stack of one value record an `EvalFail` error, but `SET_VAR "n"` on an
empty stack does not: the evaluation ends without error, the variable `n`
keeps its value, its name is listed as changed, and the advance goes on from
the Run node to the Say node, which says "n=0". -/
theorem set_var_on_empty_stack_no_error :
    (eval sample_float_ops (sample_vm []) [⟨DGMLB_OP_NOT, 0⟩]).map
        (fun p => (p.1.error, p.2)) = .ok (not_operand_error, none) ∧
    (eval sample_float_ops (sample_vm []) [⟨DGMLB_OP_PUSH_INT, 1⟩, ⟨DGMLB_OP_ADD, 0⟩]).map
        (fun p => (p.1.error, p.2)) = .ok (missing_operands_error, none) ∧
    (eval sample_float_ops (sample_vm []) [⟨DGMLB_OP_SET_VAR, 52⟩]).map
        (fun p => (p.1.error.code, p.1.stack, dgmlrt_vm_get_env_value p.1 [110],
          p.1.changed_vars_buf)) =
      .ok (DGMLRT_ERROR_NONE, [], .int 0, [[110]]) ∧
    (dgmlrt_vm_advance sample_float_ops (sample_vm set_empty_nodes) (-1)).map
        (fun p => (p.1.result, p.1.visited_node_ids, p.2.error.code)) =
      .ok (DGMLRT_RESULT_TYPE_SAY ⟨[65], [⟨[], [110, 61]⟩, ⟨[], [48]⟩]⟩, [[114], [115]],
           DGMLRT_ERROR_NONE) := by
  decide

/-- Claim C23, what the code does instead: `PUSH_BOOL 1; SET_VAR "n"` with the
Int variable `n` evaluates without error; the store is rejected (the host call
with the same arguments returns false) and the variable keeps `Int(0)`, but
the rejection is dropped: the advance goes on from the Run node to the Say
node, which says "n=0". -/
theorem set_var_type_mismatch_no_error :
    (dgmlrt_vm_set_env_value (sample_vm []) [110] (.bool true)).1 = false ∧
    (eval sample_float_ops (sample_vm [])
        [⟨DGMLB_OP_PUSH_BOOL, 1⟩, ⟨DGMLB_OP_SET_VAR, 52⟩]).map
        (fun p => (p.1.error.code, p.1.stack, dgmlrt_vm_get_env_value p.1 [110])) =
      .ok (DGMLRT_ERROR_NONE, [], .int 0) ∧
    (dgmlrt_vm_advance sample_float_ops (sample_vm set_mismatch_nodes) (-1)).map
        (fun p => (p.1.result, p.1.visited_node_ids, p.2.error.code)) =
      .ok (DGMLRT_RESULT_TYPE_SAY ⟨[65], [⟨[], [110, 61]⟩, ⟨[], [48]⟩]⟩, [[114], [115]],
           DGMLRT_ERROR_NONE) := by
  decide

/-! ## The interpolation buffer -/

theorem int_to_chars_pos (i : Int) : 0 < (int_to_chars i).length := by
  unfold int_to_chars
  by_cases h : i < 0
  · rw [if_pos h]; simp
  · rw [if_neg h, List.length_map]; exact toDigits_length_pos _

/-- Characters that end exactly at `end` pass `std::to_chars` and fail the
assertion `res.ptr < end`. -/
theorem interp_exact {vm : Vm} {chars : List Nat}
    (hpos : 0 < chars.length)
    (hfit : vm.interp_buffer_offset + chars.length = vm.interp_buffer_size - 1) :
    interp vm chars = .error .interp_assert := by
  unfold interp
  rw [if_neg (by omega), if_pos (by omega), if_neg (by omega)]

/-- Characters that do not fit before `end` give the null string and leave the
machine as it is. -/
theorem interp_full {vm : Vm} {chars : List Nat}
    (hsize : 0 < vm.interp_buffer_size)
    (hoff : vm.interp_buffer_offset ≤ vm.interp_buffer_size - 1)
    (hfit : vm.interp_buffer_size - 1 < vm.interp_buffer_offset + chars.length) :
    interp vm chars = .ok (vm, none) := by
  unfold interp
  rw [if_neg (by omega), if_neg (by omega)]

/-- A variable fragment whose variable is not a number is written without a
call of `interp`: the machine, with its buffer offset, stays as it is. -/
theorem interpolate_var_not_number (fo : FloatOps) (vm : Vm) (frag : dgmlrt_text_fragment)
    (hint : (dgmlrt_vm_get_env_value vm frag.text).type ≠ DGMLRT_ENV_VALUE_INT)
    (hfloat : (dgmlrt_vm_get_env_value vm frag.text).type ≠ DGMLRT_ENV_VALUE_FLOAT) :
    ∃ text, interpolate_loop fo vm [frag] [true] = .ok (vm, some [⟨frag.markup, text⟩]) := by
  unfold interpolate_loop
  cases hv : dgmlrt_vm_get_env_value vm frag.text with
  | unset => exact ⟨[], by simp [interpolate_loop]⟩
  | bool b =>
    exact ⟨if b then [116, 114, 117, 101] else [102, 97, 108, 115, 101],
      by simp [interpolate_loop]⟩
  | int i => rw [hv] at hint; exact absurd rfl hint
  | float f => rw [hv] at hfloat; exact absurd rfl hfloat
  | string s => exact ⟨s, by simp [interpolate_loop]⟩
  | other t => exact ⟨[], by simp [interpolate_loop]⟩

/-- Claim C26, what the code does: for an Int whose text has length `L`, at
offset `o` of a buffer of capacity `C`, `interp` succeeds and consumes `L + 1`
bytes when `o + L < C - 1`, and gives the null string (InterpFail) when
`o + L > C - 1`; but when `o + L = C - 1`, where the text and its NUL fit
exactly, the assertion `res.ptr < end` fails instead of the call succeeding.
A Say node with the text `$n` (`n` is `Int(0)`) says "0" with capacity 3,
fails with InterpFail with capacity 1 and stops at the assertion with
capacity 2.  Variable fragments that are not numbers leave the machine, and so
the buffer offset, unchanged. -/
theorem interp_exact_fit_asserts (fo : FloatOps) (vm : Vm) (i : Int)
    (hsize : 0 < vm.interp_buffer_size)
    (hoff : vm.interp_buffer_offset ≤ vm.interp_buffer_size - 1) :
    (vm.interp_buffer_offset + (int_to_chars i).length < vm.interp_buffer_size - 1 →
      interp vm (int_to_chars i) =
        .ok ({ vm with interp_buffer_offset :=
                 vm.interp_buffer_offset + ((int_to_chars i).length + 1) },
             some (int_to_chars i))) ∧
    (vm.interp_buffer_offset + (int_to_chars i).length = vm.interp_buffer_size - 1 →
      interp vm (int_to_chars i) = .error .interp_assert) ∧
    (vm.interp_buffer_size - 1 < vm.interp_buffer_offset + (int_to_chars i).length →
      interp vm (int_to_chars i) = .ok (vm, none)) ∧
    (∀ frag : dgmlrt_text_fragment,
      (dgmlrt_vm_get_env_value vm frag.text).type ≠ DGMLRT_ENV_VALUE_INT →
      (dgmlrt_vm_get_env_value vm frag.text).type ≠ DGMLRT_ENV_VALUE_FLOAT →
      ∃ text, interpolate_loop fo vm [frag] [true] = .ok (vm, some [⟨frag.markup, text⟩])) ∧
    (dgmlrt_vm_advance sample_float_ops (sample_vm_interp (say_var_nodes [110]) 3) (-1)).map
        (fun p => (p.1.result, p.2.interp_buffer_offset)) =
      .ok (DGMLRT_RESULT_TYPE_SAY ⟨[65], [⟨[], [48]⟩]⟩, 2) ∧
    (dgmlrt_vm_advance sample_float_ops (sample_vm_interp (say_var_nodes [110]) 1) (-1)).map
        (fun p => p.1.result) =
      .ok (DGMLRT_RESULT_TYPE_ERROR ⟨DGMLRT_ERROR_INTERP_FAIL, "Interpolation failed"⟩) ∧
    (dgmlrt_vm_advance sample_float_ops (sample_vm_interp (say_var_nodes [110]) 2) (-1)).map
        (fun p => p.1.result) = .error .interp_assert ∧
    (dgmlrt_vm_advance sample_float_ops (sample_vm_interp (say_var_nodes [98]) 2) (-1)).map
        (fun p => (p.1.result, p.2.interp_buffer_offset)) =
      .ok (DGMLRT_RESULT_TYPE_SAY ⟨[65], [⟨[], [102, 97, 108, 115, 101]⟩]⟩, 0) := by
  refine ⟨fun h => interp_ok (int_to_chars_pos i) h,
    fun h => interp_exact (int_to_chars_pos i) h,
    fun h => interp_full hsize hoff h,
    fun frag h1 h2 => interpolate_var_not_number fo vm frag h1 h2,
    by decide, by decide, by decide, by decide⟩

/-- The hypotheses of `interp_exact_fit_asserts` hold for the machine with a
buffer of capacity 2 and the Int 0, whose text "0" fits exactly. -/
theorem interp_exact_fit_asserts_witness :
    (0 < (sample_vm_interp (say_var_nodes [110]) 2).interp_buffer_size ∧
      (sample_vm_interp (say_var_nodes [110]) 2).interp_buffer_offset ≤
        (sample_vm_interp (say_var_nodes [110]) 2).interp_buffer_size - 1 ∧
      (sample_vm_interp (say_var_nodes [110]) 2).interp_buffer_offset +
          (int_to_chars 0).length =
        (sample_vm_interp (say_var_nodes [110]) 2).interp_buffer_size - 1) ∧
    interp (sample_vm_interp (say_var_nodes [110]) 2) (int_to_chars 0) =
      .error .interp_assert :=
  ⟨by decide,
   (interp_exact_fit_asserts sample_float_ops (sample_vm_interp (say_var_nodes [110]) 2) 0
      (by decide) (by decide)).2.1 (by decide)⟩

/-! ## Comparison of strings -/

/-- With equal lengths, `strncmp` finds no difference exactly when the bytes
before the first NUL are the same in both. -/
theorem strncmp_eq_iff : ∀ a b : List Nat, a.length = b.length →
    (strncmp_eq a b = true ↔
      a.takeWhile (fun c => c != 0) = b.takeWhile (fun c => c != 0)) := by
  intro a
  induction a with
  | nil =>
    intro b hb
    cases b with
    | nil => simp [strncmp_eq]
    | cons y ys => simp at hb
  | cons x xs ih =>
    intro b hb
    cases b with
    | nil => simp at hb
    | cons y ys =>
      have hlen : xs.length = ys.length := by simpa using hb
      unfold strncmp_eq
      rw [List.takeWhile_cons, List.takeWhile_cons]
      by_cases hxy : x = y
      · subst hxy
        by_cases h0 : x = 0
        · subst h0
          simp
        · have hx : (x != 0) = true := by simpa using h0
          rw [if_neg (by simp), if_neg h0, ih ys hlen, hx]
          simp
      · rw [if_pos hxy]
        by_cases hx0 : x = 0
        · subst hx0
          have hy : (y != 0) = true := by simpa using fun h => hxy (Eq.symm h)
          rw [hy]
          simp
        · have hx : (x != 0) = true := by simpa using hx0
          rw [hx]
          by_cases hy0 : y = 0
          · subst hy0
            simp
          · have hy : (y != 0) = true := by simpa using hy0
            rw [hy]
            simp [hxy]

theorem str_eq_iff (a b : dgmlrt_string) :
    str_eq a b = true ↔
      a.length = b.length ∧
        a.takeWhile (fun c => c != 0) = b.takeWhile (fun c => c != 0) := by
  unfold str_eq
  rw [Bool.and_eq_true, beq_iff_eq]
  constructor
  · rintro ⟨h1, h2⟩
    exact ⟨h1, (strncmp_eq_iff a b h1).1 h2⟩
  · rintro ⟨h1, h2⟩
    exact ⟨h1, (strncmp_eq_iff a b h1).2 h2⟩

/-- A string without NUL bytes is equal, for `operator==`, only to itself. -/
theorem str_eq_no_nul : ∀ a b : dgmlrt_string, (∀ c ∈ a, c ≠ 0) →
    (str_eq a b = true ↔ a = b) := by
  intro a b hnul
  rw [str_eq_iff]
  have ha : a.takeWhile (fun c => c != 0) = a := by
    rw [List.takeWhile_eq_self_iff]
    intro c hc
    simpa using hnul c hc
  rw [ha]
  constructor
  · rintro ⟨hlen, htake⟩
    have hpre : List.takeWhile (fun c => c != 0) b <+: b := List.takeWhile_prefix _
    rw [← htake] at hpre
    exact hpre.eq_of_length hlen
  · intro h
    subst h
    exact ⟨rfl, ha.symm⟩

/-- The lookup of `dgmlrt_vm_get_env_value` returns the value of the first
variable whose name is equal, for `operator==`, to the name asked for. -/
theorem get_loop_find (name : dgmlrt_string) : ∀ l : List EnvVar,
    get_env_value_loop name l =
      (match find_env_var name l with
       | some ev => ev.value
       | none => .unset) := by
  intro l
  induction l with
  | nil => rfl
  | cons ev rest ih =>
    unfold get_env_value_loop find_env_var
    by_cases hn : str_eq ev.name name = true
    · simp only [hn, if_true]
    · simp only [hn]
      exact ih

/-- The lookup of `dgmlrt_vm_set_env_value` stores into the first variable
whose name is equal, for `operator==`, to the name given: a successful store
makes that variable differ at most in its value. -/
theorem set_loop_find (name : dgmlrt_string) (v : dgmlrt_env_value) : ∀ l : List EnvVar,
    (set_env_value_loop name v l).1 = true →
      ∃ pre ev post, l = pre ++ ev :: post ∧ find_env_var name l = some ev ∧
        (set_env_value_loop name v l).2 = pre ++ { ev with value := v } :: post := by
  intro l
  induction l with
  | nil => intro h; simp [set_env_value_loop] at h
  | cons ev rest ih =>
    intro h
    unfold set_env_value_loop at h ⊢
    unfold find_env_var
    by_cases hn : str_eq ev.name name = true
    · simp only [hn, if_true] at h ⊢
      by_cases ht : ev.value.type = v.type
      · simp only [ht, if_true] at h ⊢
        cases hs : set_env_value ev v with
        | none => rw [hs] at h; simp at h
        | some ev1 =>
          refine ⟨[], ev, rest, rfl, rfl, ?_⟩
          have hev1 : ev1 = { ev with value := v } := by
            unfold set_env_value at hs
            cases v with
            | string s =>
              simp only at hs
              by_cases hc : s.length ≥ ev.string_buf_size
              · rw [if_pos hc] at hs; cases hs
              · rw [if_neg hc] at hs; cases hs; rfl
            | unset => cases hs; rfl
            | bool b => cases hs; rfl
            | int i => cases hs; rfl
            | float f => cases hs; rfl
            | other t => cases hs; rfl
          simp [hev1]
      · simp [ht] at h
    · simp only [hn] at h ⊢
      obtain ⟨pre, ev2, post, h1, h2, h3⟩ := ih h
      refine ⟨ev :: pre, ev2, post, by rw [h1]; rfl, h2, ?_⟩
      simp only [Bool.false_eq_true, if_false]
      rw [h3]; rfl

/-- Claim C27, as the code has it: EQ on the String operands `a` (pushed
first) and `b` pushes `Bool(a == b)` and NE its negation, where `a == b` holds
exactly when the two strings have the same length and the same bytes before
their first NUL byte (`strncmp` stops there); for a string `a` without NUL
bytes this is equality at every position.  The same comparison picks the
variable in get and set: get returns the value of the first variable whose
name compares equal, and a successful set stores into that variable. -/
theorem string_eq_up_to_nul (fo : FloatOps) (vm : Vm) (p : Nat) (a b : dgmlrt_string)
    (rest : List dgmlrt_env_value)
    (hstack : vm.stack = .string b :: .string a :: rest)
    (hroom : vm.stack.length ≤ vm.stack_capacity) :
    eval_op fo vm ⟨DGMLB_OP_EQ, p⟩ = .ok { vm with stack := .bool (str_eq a b) :: rest } ∧
    eval_op fo vm ⟨DGMLB_OP_NE, p⟩ = .ok { vm with stack := .bool (!str_eq a b) :: rest } ∧
    (str_eq a b = true ↔
      a.length = b.length ∧
        a.takeWhile (fun c => c != 0) = b.takeWhile (fun c => c != 0)) ∧
    ((∀ c ∈ a, c ≠ 0) → (str_eq a b = true ↔ a = b)) ∧
    (∀ name, dgmlrt_vm_get_env_value vm name =
      (match find_env_var name vm.env_vars with
       | some ev => ev.value
       | none => .unset)) ∧
    (∀ name v, (dgmlrt_vm_set_env_value vm name v).1 = true →
      ∃ pre ev post, vm.env_vars = pre ++ ev :: post ∧
        find_env_var name vm.env_vars = some ev ∧
        (dgmlrt_vm_set_env_value vm name v).2.env_vars =
          pre ++ { ev with value := v } :: post) := by
  have hlen : rest.length < vm.stack_capacity := by
    rw [hstack] at hroom
    simp only [List.length_cons] at hroom
    omega
  have hs : ∀ v : dgmlrt_string, (dgmlrt_env_value.string v).type ≠ DGMLRT_ENV_VALUE_UNSET := by
    intro v
    show (4 : Nat) ≠ 0
    decide
  refine ⟨?_, ?_, str_eq_iff a b, str_eq_no_nul a b, fun name => get_loop_find name vm.env_vars,
    fun name v h => set_loop_find name v vm.env_vars h⟩
  · rw [eval_op_two fo p (show binop_of_op DGMLB_OP_EQ = some (true, .eq) by decide) hstack
      (fun h => absurd h.1 (by decide)) (hs a) (hs b)]
    exact binop_apply_string_string fo .eq a b hlen
  · rw [eval_op_two fo p (show binop_of_op DGMLB_OP_NE = some (true, .ne) by decide) hstack
      (fun h => absurd h.1 (by decide)) (hs a) (hs b)]
    exact binop_apply_string_string fo .ne a b hlen

/-- Witness of the amended C27 on the sample machine: EQ on the strings "hi"
and "zz" pushes `Bool(false)`. -/
theorem string_eq_up_to_nul_witness :
    ({ sample_vm [] with stack := [.string [122, 122], .string [104, 105]] } : Vm).stack.length ≤
        ({ sample_vm [] with stack := [.string [122, 122], .string [104, 105]] } : Vm).stack_capacity ∧
    eval_op sample_float_ops
        { sample_vm [] with stack := [.string [122, 122], .string [104, 105]] }
        ⟨DGMLB_OP_EQ, 0⟩ =
      .ok { sample_vm [] with stack := [.bool (str_eq [104, 105] [122, 122])] } :=
  ⟨by decide,
   (string_eq_up_to_nul sample_float_ops
      { sample_vm [] with stack := [.string [122, 122], .string [104, 105]] } 0
      [104, 105] [122, 122] [] rfl (by decide)).1⟩

/-- Claim C27 fails as stated for strings that contain NUL bytes: the strings
"a\0b" and "a\0c" of the blob differ in their last byte, yet
`PUSH_STRING; PUSH_STRING; EQ` on them evaluates to `Bool(true)` and NE to
`Bool(false)`, and asking for the variable "a\0c" returns the value of the
variable declared as "a\0b". -/
theorem string_eq_ignores_bytes_after_nul :
    string nul_strings_tree 52 = .ok [97, 0, 98] ∧
    string nul_strings_tree 60 = .ok [97, 0, 99] ∧
    ([97, 0, 98] : List Nat) ≠ [97, 0, 99] ∧
    (eval sample_float_ops (dgmlrt_vm_create nul_strings_tree default_params 1)
        [⟨DGMLB_OP_PUSH_STRING, 52⟩, ⟨DGMLB_OP_PUSH_STRING, 60⟩, ⟨DGMLB_OP_EQ, 0⟩]).map
        (fun p => (p.1.error.code, p.2)) = .ok (DGMLRT_ERROR_NONE, some (.bool true)) ∧
    (eval sample_float_ops (dgmlrt_vm_create nul_strings_tree default_params 1)
        [⟨DGMLB_OP_PUSH_STRING, 52⟩, ⟨DGMLB_OP_PUSH_STRING, 60⟩, ⟨DGMLB_OP_NE, 0⟩]).map
        (fun p => (p.1.error.code, p.2)) = .ok (DGMLRT_ERROR_NONE, some (.bool false)) ∧
    dgmlrt_vm_get_env_value (dgmlrt_vm_create nul_strings_tree default_params 1) [97, 0, 99] =
      .int 7 := by
  decide

/-! ## Results of the loader -/

theorem load_node_data_type {file : List Nat} {tree : Tree} {off : Nat} {data : NodeData}
    (h : load_node_data file tree off = .ok data) :
    1 ≤ read_u32 file (off + 64) ∧ read_u32 file (off + 64) ≤ 6 := by
  by_cases h1 : read_u32 file (off + 64) = 1
  · omega
  by_cases h2 : read_u32 file (off + 64) = 2
  · omega
  by_cases h3 : read_u32 file (off + 64) = 3
  · omega
  by_cases h4 : read_u32 file (off + 64) = 4
  · omega
  by_cases h5 : read_u32 file (off + 64) = 5
  · omega
  by_cases h6 : read_u32 file (off + 64) = 6
  · omega
  unfold load_node_data at h
  rw [if_neg h1, if_neg h2, if_neg h3, if_neg h4, if_neg h5, if_neg h6] at h
  cases h

theorem load_node_type {file : List Nat} {tree : Tree} {off : Nat} {node : Node}
    (h : load_node file tree off = .ok node) :
    1 ≤ read_u32 file (off + 64) ∧ read_u32 file (off + 64) ≤ 6 := by
  unfold load_node at h
  split at h
  · cases h
  split at h
  · cases h
  split at h
  · cases h
  split at h
  · cases h
  · rename_i data hd
    exact load_node_data_type hd

theorem load_array_total {α : Type} (f : Nat → Except LoadStop α) (count i : Nat) (l : List α)
    (h : load_array f count i = .ok l) (k : Nat) (hk : k < count) :
    ∃ x, f (i + k) = .ok x := by
  obtain ⟨hlen, hget⟩ := load_array_get f count i l h
  have hk2 : k < l.length := by omega
  exact ⟨l[k], hget k l[k] (by simp [hk2])⟩

theorem load_section_types {file : List Nat} {tree : Tree} {off : Nat} {sec : Section}
    (h : load_section file tree off = .ok sec) (n : Nat) (hn : n < read_u32 file (off + 8)) :
    1 ≤ read_u32 file (read_u32 file (off + 4) + 68 * n + 64) ∧
      read_u32 file (read_u32 file (off + 4) + 68 * n + 64) ≤ 6 := by
  unfold load_section at h
  split at h
  · cases h
  simp only at h
  split at h
  · cases h
  split at h
  · cases h
  · rename_i ns hl
    obtain ⟨node, hnode⟩ := load_array_total _ _ _ _ hl n hn
    simp only [Nat.zero_add] at hnode
    exact load_node_type hnode

/-- A tree is returned only when every node of every section has one of the
six known types. -/
theorem load_dgmlb_types {file : List Nat} {tree : Tree} (h : load_dgmlb file = .ok tree)
    (s n : Nat) (hs : s < bundle_num_sections file) (hn : n < bundle_num_nodes file s) :
    1 ≤ bundle_node_type file s n ∧ bundle_node_type file s n ≤ 6 := by
  obtain ⟨tree0, hl⟩ := load_dgmlb_sections h
  obtain ⟨sec, hsec⟩ := load_array_total _ _ _ _ hl s hs
  simp only [Nat.zero_add] at hsec
  exact load_section_types hsec n hn

theorem load_dgmlb_truncated {file : List Nat} (hsize : 12 ≤ file.length)
    (h : read_u32 file 8 > file.length) : load_dgmlb file = .error .null_tree := by
  unfold load_dgmlb raw_u32
  rw [if_pos (by omega)]
  simp only
  rw [if_pos h]

theorem load_dgmlb_magic {file : List Nat} (hsize : 12 ≤ file.length)
    (h : (file.take 8).map (fun b => b % 256) ≠ dgmlb_magic) :
    load_dgmlb file = .error .null_tree := by
  unfold load_dgmlb raw_u32
  rw [if_pos (by omega)]
  simp only
  by_cases hf : read_u32 file 8 > file.length
  · rw [if_pos hf]
  · rw [if_neg hf, if_pos h]

theorem load_null {file : List Nat} (h : load_dgmlb file = .error .null_tree) :
    dgmlrt_load_dgmlb file = .ok none := by
  unfold dgmlrt_load_dgmlb
  rw [h]

/-- Claim C28, as the code has it: for every buffer of at least the 52 bytes
of the header, `dgmlrt_load_dgmlb` returns the null tree when the first 8 bytes
are not the magic and when the header's `file_size` is greater than the buffer
size; and when a node of a section has a type outside 1..6 it returns no
tree: the result is the null tree, unless the load stops before at a failed
bounds assertion or an unchecked read, which end the process. -/
theorem load_null_tree (file : List Nat) (hsize : 52 ≤ file.length) :
    ((file.take 8).map (fun b => b % 256) ≠ dgmlb_magic → dgmlrt_load_dgmlb file = .ok none) ∧
    (read_u32 file 8 > file.length → dgmlrt_load_dgmlb file = .ok none) ∧
    (∀ s n, s < bundle_num_sections file → n < bundle_num_nodes file s →
      ¬ (1 ≤ bundle_node_type file s n ∧ bundle_node_type file s n ≤ 6) →
      dgmlrt_load_dgmlb file = .ok none ∨ ∃ f, dgmlrt_load_dgmlb file = .error f) := by
  refine ⟨fun h => load_null (load_dgmlb_magic (by omega) h),
    fun h => load_null (load_dgmlb_truncated (by omega) h), ?_⟩
  intro s n hs hn htype
  unfold dgmlrt_load_dgmlb
  cases hl : load_dgmlb file with
  | ok tree => exact absurd (load_dgmlb_types hl s n hs hn) htype
  | error e =>
    cases e with
    | null_tree => exact Or.inl rfl
    | fault f => exact Or.inr ⟨f, rfl⟩

set_option maxRecDepth 100000 in
/-- Witness of the amended C28: `unknown_type_bundle` has 148 bytes and one
section whose only node has type 9, and its load returns the null tree. -/
theorem load_null_tree_witness :
    52 ≤ unknown_type_bundle.length ∧
    0 < bundle_num_sections unknown_type_bundle ∧
    0 < bundle_num_nodes unknown_type_bundle 0 ∧
    bundle_node_type unknown_type_bundle 0 0 = 9 ∧
    dgmlrt_load_dgmlb unknown_type_bundle = .ok none ∧
    (dgmlrt_load_dgmlb unknown_type_bundle = .ok none ∨
      ∃ f, dgmlrt_load_dgmlb unknown_type_bundle = .error f) :=
  ⟨by decide, by decide, by decide, by decide, by decide,
   (load_null_tree unknown_type_bundle (by decide)).2.2 0 0 (by decide) (by decide)
     (by decide)⟩

set_option maxRecDepth 100000 in
/-- Claim C28 fails as stated: `unknown_type_tags_bundle` has 148 bytes, the
magic, `file_size` 148 and one node, of type 9, whose tags span lies outside
the buffer; its load does not return the null tree but stops at the bounds
assertion of `File::ptr` before the type of the node is looked at. -/
theorem unknown_type_after_assertion :
    unknown_type_tags_bundle.length = 148 ∧
    (unknown_type_tags_bundle.take 8).map (fun b => b % 256) = dgmlb_magic ∧
    read_u32 unknown_type_tags_bundle 8 = 148 ∧
    bundle_num_sections unknown_type_tags_bundle = 1 ∧
    bundle_num_nodes unknown_type_tags_bundle 0 = 1 ∧
    bundle_node_type unknown_type_tags_bundle 0 0 = 9 ∧
    dgmlrt_load_dgmlb unknown_type_tags_bundle = .error .file_assert := by
  decide

/-! ## Bounds of the reads of the loader -/

/-- The reads through `File::span` are checked: after the assertions the whole
span lies in the buffer. -/
theorem file_span_bounds {file : List Nat} {size_of_T : Nat} {s : dgmlb_span}
    (h : file_span file size_of_T s = .ok ()) :
    s.offset + size_of_T * s.count ≤ file.length := by
  unfold file_span at h
  split at h
  · rename_i hc; exact hc.2
  · cases h

/-- The copies that start at `File::ptr` are checked for their first element
only: a copy whose first element lies in the buffer and whose extent does not
reads past the buffer. -/
theorem file_memcpy_oob {file : List Nat} {size_of_T off count : Nat}
    (hfirst : off + size_of_T ≤ file.length)
    (hextent : file.length < off + size_of_T * count) :
    file_memcpy file size_of_T off count = .error (.fault .file_oob) := by
  unfold file_memcpy file_ptr
  rw [if_pos hfirst]
  simp only
  rw [if_neg (by omega)]

set_option maxRecDepth 100000 in
/-- Claim C29, what the code does instead: the header is read without a check
of the size, so on a buffer of the 8 bytes of the magic the read of
`file_size` is outside the buffer; and the copies of the string region, of a
bytecode array and of the Rand targets check the first element only: the
52-byte bundle whose strings span is 8 bytes at offset 48, and the 148-byte
bundles whose Run code is 2 instructions at offset 140 and whose Rand targets
are 2 indices at offset 144, pass the assertion of `File::ptr` and are then
read past their end. -/
theorem copies_read_past_buffer :
    dgmlrt_load_dgmlb dgmlb_magic = .error .file_oob ∧
    (long_strings_bundle.length = 52 ∧ read_u32 long_strings_bundle 8 = 52 ∧
      read_span long_strings_bundle 12 = ⟨48, 8⟩ ∧
      file_ptr long_strings_bundle 1 48 = .ok () ∧
      dgmlrt_load_dgmlb long_strings_bundle = .error .file_oob) ∧
    (long_code_bundle.length = 148 ∧ read_u32 long_code_bundle 8 = 148 ∧
      bundle_node_type long_code_bundle 0 0 = 5 ∧
      read_span long_code_bundle (80 + 16) = ⟨140, 2⟩ ∧
      file_ptr long_code_bundle 8 140 = .ok () ∧
      dgmlrt_load_dgmlb long_code_bundle = .error .file_oob) ∧
    (long_rand_bundle.length = 148 ∧ read_u32 long_rand_bundle 8 = 148 ∧
      bundle_node_type long_rand_bundle 0 0 = 4 ∧
      read_span long_rand_bundle (80 + 32) = ⟨144, 2⟩ ∧
      file_ptr long_rand_bundle 4 144 = .ok () ∧
      dgmlrt_load_dgmlb long_rand_bundle = .error .file_oob) := by
  decide

/-! ## String handles -/

theorem load_dgmlb_strings {file : List Nat} {tree : Tree} (h : load_dgmlb file = .ok tree) :
    tree.strings_base_offset = read_u32 file 12 ∧
      tree.strings =
        ((file.drop (read_u32 file 12)).take (read_u32 file 16)).map (fun b => b % 256) ∧
      read_u32 file 12 + read_u32 file 16 ≤ file.length := by
  unfold load_dgmlb at h
  split at h
  · cases h
  split at h
  · cases h
  split at h
  · cases h
  split at h
  · cases h
  rename_i strings hstr
  split at h
  · cases h
  rename_i hcpy
  split at h
  · cases h
  split at h
  · cases h
  split at h
  · cases h
  split at h
  · cases h
  split at h
  · cases h
  split at h
  · cases h
  cases h
  have hsp := raw_span_ok hstr
  have hext : strings.offset + strings.count ≤ file.length := by
    unfold file_memcpy at hcpy
    split at hcpy
    · cases hcpy
    · split at hcpy
      · rename_i hc; omega
      · cases hcpy
  rw [hsp] at hext
  simp only at hext
  rw [hsp]
  exact ⟨rfl, rfl, hext⟩

theorem string_zero (tree : Tree) : string tree 0 = .ok [] := by
  unfold string
  rw [if_pos rfl]

theorem string_in_blob (tree : Tree) (h : Nat) (h0 : h ≠ 0) (h32 : h < 4294967296)
    (hbase32 : tree.strings_base_offset < 4294967296)
    (hbase : tree.strings_base_offset ≤ h)
    (hin : h - tree.strings_base_offset + 4 +
      read_u32 tree.strings (h - tree.strings_base_offset) ≤ tree.strings.length) :
    string tree h =
      .ok ((tree.strings.drop (h - tree.strings_base_offset + 4)).take
        (read_u32 tree.strings (h - tree.strings_base_offset))) := by
  have hpos : (h + 4294967296 - tree.strings_base_offset % 4294967296) % 4294967296 =
      h - tree.strings_base_offset := by
    rw [Nat.mod_eq_of_lt hbase32]
    omega
  unfold string
  rw [if_neg h0]
  simp only [hpos]
  rw [if_pos (by omega), if_pos hin]

/-- Claim C30: in a tree that `dgmlrt_load_dgmlb` returns for a bundle, the
string blob is the copy of the bundle bytes of the span `header.strings` and
the base offset is `header.strings.offset`; the handle 0 resolves to the empty
string (the view `{}` of length 0), and a handle `h` that is not 0, whose
string lies in the blob, resolves to the string whose length is the 32-bit
little-endian number at the position `h - base_offset` of the blob and whose
bytes are the `length` bytes that start 4 bytes after that position. -/
theorem string_handle_resolution (file : List Nat) (tree : Tree) (h : Nat)
    (hload : dgmlrt_load_dgmlb file = .ok (some tree)) :
    string tree 0 = .ok [] ∧
    tree.strings_base_offset = read_u32 file 12 ∧
    tree.strings =
      ((file.drop (read_u32 file 12)).take (read_u32 file 16)).map (fun b => b % 256) ∧
    tree.strings.length = read_u32 file 16 ∧
    (h ≠ 0 → h < 4294967296 → tree.strings_base_offset ≤ h →
      h - tree.strings_base_offset + 4 +
          read_u32 tree.strings (h - tree.strings_base_offset) ≤ tree.strings.length →
      string tree h =
        .ok ((tree.strings.drop (h - tree.strings_base_offset + 4)).take
          (read_u32 tree.strings (h - tree.strings_base_offset))) ∧
      (string tree h).map List.length =
        .ok (read_u32 tree.strings (h - tree.strings_base_offset))) := by
  have hl : load_dgmlb file = .ok tree := by
    unfold dgmlrt_load_dgmlb at hload
    split at hload
    · cases hload; assumption
    · cases hload
    · cases hload
  obtain ⟨hbase, hstr, hext⟩ := load_dgmlb_strings hl
  refine ⟨string_zero tree, hbase, hstr, ?_, ?_⟩
  · rw [hstr, List.length_map, List.length_take, List.length_drop]
    omega
  · intro h0 h32 hle hin
    have hres := string_in_blob tree h h0 h32 (by rw [hbase]; exact read_u32_lt _ _) hle hin
    refine ⟨hres, ?_⟩
    rw [hres]
    show Except.ok _ = Except.ok _
    congr 1
    rw [List.length_take, List.length_drop]
    omega

set_option maxRecDepth 100000 in
/-- Witness of C30 on `goto_bundle`, whose blob of 12 bytes starts at offset
52: the handle 58 resolves to the string "a" of length 1. -/
theorem string_handle_resolution_witness :
    dgmlrt_load_dgmlb goto_bundle = .ok (some goto_bundle_tree) ∧
    string goto_bundle_tree 58 =
      .ok ((goto_bundle_tree.strings.drop (58 - goto_bundle_tree.strings_base_offset + 4)).take
        (read_u32 goto_bundle_tree.strings (58 - goto_bundle_tree.strings_base_offset))) ∧
    (goto_bundle_tree.strings.drop (58 - goto_bundle_tree.strings_base_offset + 4)).take
        (read_u32 goto_bundle_tree.strings (58 - goto_bundle_tree.strings_base_offset)) = [97] :=
  ⟨by decide,
   ((string_handle_resolution goto_bundle goto_bundle_tree 58 (by decide)).2.2.2.2
      (by decide) (by decide) (by decide) (by decide)).1,
   by decide⟩

/-! ## Integer arithmetic on pushed parameters -/

theorem in_int64_of_range {x : Int} (h1 : -9223372036854775808 ≤ x)
    (h2 : x < 9223372036854775808) : in_int64 x = true := by
  unfold in_int64
  exact decide_eq_true ⟨h1, h2⟩

theorem bit_cast_int32_range {p : Nat} (hp : p < 4294967296) :
    -2147483648 ≤ bit_cast_int32 p ∧ bit_cast_int32 p < 2147483648 := by
  unfold bit_cast_int32
  split <;> omega

theorem int32_mul_range {a b : Int} (ha1 : -2147483648 ≤ a) (ha2 : a < 2147483648)
    (hb1 : -2147483648 ≤ b) (hb2 : b < 2147483648) :
    -9223372036854775808 ≤ a * b ∧ a * b < 9223372036854775808 := by
  constructor <;> nlinarith

theorem int32_tdiv_range {a b : Int} (ha1 : -2147483648 ≤ a) (ha2 : a < 2147483648) :
    -9223372036854775808 ≤ Int.tdiv a b ∧ Int.tdiv a b < 9223372036854775808 := by
  have h : (Int.tdiv a b).natAbs ≤ a.natAbs := by
    rw [Int.natAbs_tdiv]
    exact Nat.div_le_self _ _
  omega

/-- The code `PUSH_INT a; PUSH_INT b; op` for an instruction of `binop` that
yields `v` on the two integers: the result of the evaluation is `v`. -/
theorem eval_push_push_op (fo : FloatOps) (vm : Vm) (a b op p : Nat) (f : BinFunc)
    (v : dgmlrt_env_value)
    (herr : vm.error.code = DGMLRT_ERROR_NONE)
    (hcap : 2 ≤ vm.stack_capacity)
    (hop : binop_of_op op = some (false, f))
    (hguard : ¬ (op = DGMLB_OP_DIV ∧ bit_cast_int32 b = 0))
    (hf : func_int f (bit_cast_int32 a) (bit_cast_int32 b) = .ok v) :
    eval fo vm [⟨DGMLB_OP_PUSH_INT, a⟩, ⟨DGMLB_OP_PUSH_INT, b⟩, ⟨op, p⟩] =
      .ok ({ vm with stack := [v] }, some v) := by
  have hpush := @eval_loop_push_ints fo [a, b] { vm with stack := [] } herr
    (by simp only [List.length_nil, List.length_cons]; omega)
  have happ := @eval_loop_append fo (push_int_code [a, b]) [⟨op, p⟩] _ _ hpush
  have hcode : push_int_code [a, b] ++ [⟨op, p⟩] =
      [⟨DGMLB_OP_PUSH_INT, a⟩, ⟨DGMLB_OP_PUSH_INT, b⟩, ⟨op, p⟩] := rfl
  rw [hcode] at happ
  have hstack : ({ ({ vm with stack := [] } : Vm) with
      stack := [a, b].reverse.map (fun k => dgmlrt_env_value.int (bit_cast_int32 k)) ++
        ({ vm with stack := [] } : Vm).stack } : Vm).stack =
      .int (bit_cast_int32 b) :: .int (bit_cast_int32 a) :: [] := rfl
  have hg : ¬ (op = DGMLB_OP_DIV ∧ div_by_zero_guard ({ ({ vm with stack := [] } : Vm) with
      stack := [a, b].reverse.map (fun k => dgmlrt_env_value.int (bit_cast_int32 k)) ++
        ({ vm with stack := [] } : Vm).stack } : Vm).stack = true) := by
    rintro ⟨h1, h2⟩
    rw [hstack] at h2
    simp only [div_by_zero_guard, beq_iff_eq] at h2
    exact hguard ⟨h1, h2⟩
  have hop2 := eval_op_two fo p hop hstack hg (by show (2 : Nat) ≠ 0; decide)
    (by show (2 : Nat) ≠ 0; decide)
  rw [binop_apply_int_int fo false f (by show (0 : Nat) < vm.stack_capacity; omega) hf] at hop2
  unfold eval
  rw [happ]
  unfold eval_loop
  rw [hop2]
  simp only
  rw [if_neg (by simp only [ne_eq, not_not]; exact herr)]
  unfold eval_loop
  rfl

/-- Claim C33, amended: for 32-bit parameters `a` and `b`, read as signed 32-bit
integers `A` and `B`, on a machine with no recorded error and a stack of at
least two entries, `PUSH_INT a; PUSH_INT b; OP` evaluates to exactly
`Int(A + B)` for ADD, `Int(A - B)` for SUB and `Int(A * B)` for MUL (the 64-bit
result does not overflow), and for `B ≠ 0` to the quotient truncated toward
zero for DIV; `PUSH_INT 0xFFFFFFFF` pushes `Int(-1)`. -/
theorem int_arithmetic_exact (fo : FloatOps) (vm : Vm) (a b p : Nat)
    (herr : vm.error.code = DGMLRT_ERROR_NONE)
    (hcap : 2 ≤ vm.stack_capacity)
    (ha : a < 4294967296) (hb : b < 4294967296) :
    eval fo vm [⟨DGMLB_OP_PUSH_INT, a⟩, ⟨DGMLB_OP_PUSH_INT, b⟩, ⟨DGMLB_OP_ADD, p⟩] =
      .ok ({ vm with stack := [.int (bit_cast_int32 a + bit_cast_int32 b)] },
           some (.int (bit_cast_int32 a + bit_cast_int32 b))) ∧
    eval fo vm [⟨DGMLB_OP_PUSH_INT, a⟩, ⟨DGMLB_OP_PUSH_INT, b⟩, ⟨DGMLB_OP_SUB, p⟩] =
      .ok ({ vm with stack := [.int (bit_cast_int32 a - bit_cast_int32 b)] },
           some (.int (bit_cast_int32 a - bit_cast_int32 b))) ∧
    eval fo vm [⟨DGMLB_OP_PUSH_INT, a⟩, ⟨DGMLB_OP_PUSH_INT, b⟩, ⟨DGMLB_OP_MUL, p⟩] =
      .ok ({ vm with stack := [.int (bit_cast_int32 a * bit_cast_int32 b)] },
           some (.int (bit_cast_int32 a * bit_cast_int32 b))) ∧
    (bit_cast_int32 b ≠ 0 →
      eval fo vm [⟨DGMLB_OP_PUSH_INT, a⟩, ⟨DGMLB_OP_PUSH_INT, b⟩, ⟨DGMLB_OP_DIV, p⟩] =
        .ok ({ vm with stack := [.int (Int.tdiv (bit_cast_int32 a) (bit_cast_int32 b))] },
             some (.int (Int.tdiv (bit_cast_int32 a) (bit_cast_int32 b))))) ∧
    eval fo vm [⟨DGMLB_OP_PUSH_INT, 4294967295⟩] =
      .ok ({ vm with stack := [.int (-1)] }, some (.int (-1))) ∧
    (bit_cast_int32 a = (a : Int) ∨ bit_cast_int32 a = (a : Int) - 4294967296) ∧
    -2147483648 ≤ bit_cast_int32 a ∧ bit_cast_int32 a < 2147483648 := by
  obtain ⟨ha1, ha2⟩ := bit_cast_int32_range ha
  obtain ⟨hb1, hb2⟩ := bit_cast_int32_range hb
  refine ⟨?_, ?_, ?_, ?_, ?_, ?_, ha1, ha2⟩
  · exact eval_push_push_op fo vm a b DGMLB_OP_ADD p .add _ herr hcap (by decide)
      (fun h => absurd h.1 (by decide))
      (by simp only [func_int]; rw [if_pos (in_int64_of_range (by omega) (by omega))])
  · exact eval_push_push_op fo vm a b DGMLB_OP_SUB p .sub _ herr hcap (by decide)
      (fun h => absurd h.1 (by decide))
      (by simp only [func_int]; rw [if_pos (in_int64_of_range (by omega) (by omega))])
  · obtain ⟨h1, h2⟩ := int32_mul_range ha1 ha2 hb1 hb2
    exact eval_push_push_op fo vm a b DGMLB_OP_MUL p .mul _ herr hcap (by decide)
      (fun h => absurd h.1 (by decide))
      (by simp only [func_int]; rw [if_pos (in_int64_of_range h1 h2)])
  · intro hb0
    obtain ⟨h1, h2⟩ := @int32_tdiv_range (bit_cast_int32 a) (bit_cast_int32 b) ha1 ha2
    exact eval_push_push_op fo vm a b DGMLB_OP_DIV p .div _ herr hcap (by decide)
      (fun h => hb0 h.2)
      (by simp only [func_int, hb0, if_false]; rw [if_pos (in_int64_of_range h1 h2)])
  · have hpush := @eval_loop_push_ints fo [4294967295] { vm with stack := [] } herr
      (by simp only [List.length_nil, List.length_cons]; omega)
    unfold eval
    have hcode : push_int_code [4294967295] = [⟨DGMLB_OP_PUSH_INT, 4294967295⟩] := rfl
    rw [hcode] at hpush
    rw [hpush]
    rfl
  · unfold bit_cast_int32
    split
    · exact Or.inl rfl
    · exact Or.inr rfl

/-- Witness of the amended C33 on the sample machine: `PUSH_INT 0xFFFFFFFD; PUSH_INT 2; MUL`
evaluates to `Int(-6)` and `PUSH_INT 0xFFFFFFF9; PUSH_INT 2; DIV` to
`Int(-3)`. -/
theorem int_arithmetic_exact_witness :
    (sample_vm []).error.code = DGMLRT_ERROR_NONE ∧ 2 ≤ (sample_vm []).stack_capacity ∧
    eval sample_float_ops (sample_vm [])
        [⟨DGMLB_OP_PUSH_INT, 4294967293⟩, ⟨DGMLB_OP_PUSH_INT, 2⟩, ⟨DGMLB_OP_MUL, 0⟩] =
      .ok ({ sample_vm [] with
             stack := [.int (bit_cast_int32 4294967293 * bit_cast_int32 2)] },
           some (.int (bit_cast_int32 4294967293 * bit_cast_int32 2))) ∧
    bit_cast_int32 4294967293 * bit_cast_int32 2 = -6 ∧
    (eval sample_float_ops (sample_vm [])
        [⟨DGMLB_OP_PUSH_INT, 4294967289⟩, ⟨DGMLB_OP_PUSH_INT, 2⟩, ⟨DGMLB_OP_DIV, 0⟩]).map
        (fun p => p.2) = .ok (some (.int (-3))) :=
  ⟨by decide, by decide,
   (int_arithmetic_exact sample_float_ops (sample_vm []) 4294967293 2 0 (by decide) (by decide)
      (by decide) (by decide)).2.2.1,
   by decide, by decide⟩

/-! ## The end of a section -/

theorem run_advances_at_end {fo : FloatOps} {vm : Vm} {sec : Section}
    (hsec : current_section vm = some sec) (hnone : sec.nodes[vm.current_node]? = none) :
    ∀ k : Nat, run_advances fo vm (List.replicate (k + 1) (-1)) =
      .ok (List.replicate (k + 1) { empty_result with result := DGMLRT_RESULT_TYPE_END },
           { vm with interp_buffer_offset := 0, text_frags_offset := 0 }) := by
  intro k
  induction k generalizing vm with
  | zero =>
    exact run_advances_cons (advance_at_end hsec hnone) (run_advances_nil fo _)
  | succ k ih =>
    have h2 := @ih { vm with interp_buffer_offset := 0, text_frags_offset := 0 } hsec hnone
    rw [List.replicate_succ, List.replicate_succ _ (k + 1)]
    exact run_advances_cons (advance_at_end hsec hnone) h2

/-- Claim C35: in a section of at most `0xFFFFFFFF` nodes (every loaded section
is one), when the cursor is the terminate sentinel or an index that is not
below the node count, `dgmlrt_vm_advance(vm, -1)` returns End without a
visited node and changes the machine in nothing but the two scratch offsets,
which it resets: the cursor, the variables and the recorded error stay.  So
any number of further calls return End again. -/
theorem end_is_absorbing (fo : FloatOps) (vm : Vm) (sec : Section)
    (hsec : current_section vm = some sec)
    (hsmall : sec.nodes.length ≤ UINT32_MAX)
    (hcur : vm.current_node = UINT32_MAX ∨ sec.nodes.length ≤ vm.current_node) :
    dgmlrt_vm_advance fo vm (-1) =
      .ok ({ empty_result with result := DGMLRT_RESULT_TYPE_END },
           { vm with interp_buffer_offset := 0, text_frags_offset := 0 }) ∧
    ({ empty_result with result := DGMLRT_RESULT_TYPE_END } :
      dgmlrt_advance_result).num_visited_node_ids = 0 ∧
    (∀ r vm1, dgmlrt_vm_advance fo vm (-1) = .ok (r, vm1) →
      r.result = DGMLRT_RESULT_TYPE_END ∧ r.num_visited_node_ids = 0 ∧
      vm1.current_node = vm.current_node ∧ vm1.current_section = vm.current_section ∧
      vm1.env_vars = vm.env_vars ∧ vm1.error = vm.error) ∧
    (∀ k : Nat, ∃ vm1, run_advances fo vm (List.replicate (k + 1) (-1)) =
      .ok (List.replicate (k + 1) { empty_result with result := DGMLRT_RESULT_TYPE_END }, vm1) ∧
      vm1.current_node = vm.current_node ∧ vm1.env_vars = vm.env_vars) := by
  have hnone : sec.nodes[vm.current_node]? = none := by
    rw [List.getElem?_eq_none_iff]
    rcases hcur with h | h
    · rw [h]; exact hsmall
    · exact h
  have hadv := @advance_at_end fo vm sec hsec hnone
  refine ⟨hadv, rfl, ?_, ?_⟩
  · intro r vm1 h
    rw [hadv] at h
    cases h
    exact ⟨rfl, rfl, rfl, rfl, rfl, rfl⟩
  · intro k
    exact ⟨_, run_advances_at_end hsec hnone k, rfl, rfl⟩

/-- Witness of C35 on the sample machine with one Goto node, entered and with
the cursor moved to the terminate sentinel: three calls in a row return End. -/
theorem end_is_absorbing_witness :
    current_section { sample_vm goto_self_nodes with current_node := UINT32_MAX } =
      some ⟨[115], goto_self_nodes, 0⟩ ∧
    (run_advances sample_float_ops { sample_vm goto_self_nodes with current_node := UINT32_MAX }
        [-1, -1, -1]).map (fun p => p.1.map (fun r => (r.result, r.visited_node_ids))) =
      .ok [(DGMLRT_RESULT_TYPE_END, []), (DGMLRT_RESULT_TYPE_END, []), (DGMLRT_RESULT_TYPE_END, [])] ∧
    dgmlrt_vm_advance sample_float_ops
        { sample_vm goto_self_nodes with current_node := UINT32_MAX } (-1) =
      .ok ({ empty_result with result := DGMLRT_RESULT_TYPE_END },
           { { sample_vm goto_self_nodes with current_node := UINT32_MAX } with
             interp_buffer_offset := 0, text_frags_offset := 0 }) :=
  ⟨by decide, by decide,
   (end_is_absorbing sample_float_ops
      { sample_vm goto_self_nodes with current_node := UINT32_MAX } ⟨[115], goto_self_nodes, 0⟩
      (by decide) (by decide) (Or.inl rfl)).1⟩

/-! ## Overflows of the interpolation and changed-vars buffers -/

/-- Claim C38, what the code does instead: with a buffer of capacity 2 and the
Int value 5 at offset 0, `std::to_chars` succeeds (the text "5" has one
character and `end - begin` is 1), and the assertion `res.ptr < end` then
fails, because the text ends exactly at `end`; the advance on a Say node with
the text `$n` stops there.  With capacity 3 the same call passes the assertion
and the node says "5". -/
theorem interp_assertion_fails_at_end :
    int_to_chars 5 = [53] ∧
    (sample_vm_interp (say_var_nodes [110]) 2).interp_buffer_size = 2 ∧
    (sample_vm_interp (say_var_nodes [110]) 2).interp_buffer_offset = 0 ∧
    (interp (sample_vm_interp (say_var_nodes [110]) 2) (int_to_chars 5)).map (fun p => p.2) =
      .error .interp_assert ∧
    (dgmlrt_vm_advance sample_float_ops
        (dgmlrt_vm_set_env_value (sample_vm_interp (say_var_nodes [110]) 2) [110] (.int 5)).2
        (-1)).map (fun p => p.1.result) = .error .interp_assert ∧
    (dgmlrt_vm_advance sample_float_ops
        (dgmlrt_vm_set_env_value (sample_vm_interp (say_var_nodes [110]) 3) [110] (.int 5)).2
        (-1)).map (fun p => p.1.result) =
      .ok (DGMLRT_RESULT_TYPE_SAY ⟨[65], [⟨[], [53]⟩]⟩) := by
  decide

/-- Claim C37, what the code does instead: on a tree without variables the
changed-vars buffer has no entry, and the first `SET_VAR` (on the undeclared
name "n") writes past it; on the sample tree, with five variables, `SET_VAR`
on two undeclared and three declared names fills the five entries and the
sixth name is written past the buffer.  Names that are set again are not
recorded again: five declared names set twice leave five pairwise distinct
entries. -/
theorem changed_vars_overflow_on_undeclared :
    (dgmlrt_vm_create no_vars_tree default_params 1).changed_vars_buf_size = 0 ∧
    dgmlrt_vm_get_env_value (dgmlrt_vm_create no_vars_tree default_params 1) [110] = .unset ∧
    (dgmlrt_vm_advance sample_float_ops
        (dgmlrt_vm_enter (dgmlrt_vm_create no_vars_tree default_params 1) (some [115]) none).2
        (-1)).map (fun p => p.1.result) = .error .changed_vars_oob ∧
    (sample_vm set_undeclared_nodes).changed_vars_buf_size = 5 ∧
    (eval sample_float_ops (sample_vm set_undeclared_nodes)
        [⟨DGMLB_OP_SET_VAR, 82⟩, ⟨DGMLB_OP_SET_VAR, 89⟩, ⟨DGMLB_OP_SET_VAR, 52⟩,
          ⟨DGMLB_OP_SET_VAR, 58⟩, ⟨DGMLB_OP_SET_VAR, 64⟩]).map
        (fun p => (p.1.error.code, p.1.changed_vars_buf)) =
      .ok (DGMLRT_ERROR_NONE, [[104, 105], [122, 122], [110], [115], [98]]) ∧
    (dgmlrt_vm_advance sample_float_ops (sample_vm set_undeclared_nodes) (-1)).map
        (fun p => p.1.result) = .error .changed_vars_oob ∧
    (eval sample_float_ops (sample_vm [])
        [⟨DGMLB_OP_SET_VAR, 52⟩, ⟨DGMLB_OP_SET_VAR, 58⟩, ⟨DGMLB_OP_SET_VAR, 64⟩,
          ⟨DGMLB_OP_SET_VAR, 70⟩, ⟨DGMLB_OP_SET_VAR, 76⟩, ⟨DGMLB_OP_SET_VAR, 52⟩,
          ⟨DGMLB_OP_SET_VAR, 58⟩, ⟨DGMLB_OP_SET_VAR, 64⟩, ⟨DGMLB_OP_SET_VAR, 70⟩,
          ⟨DGMLB_OP_SET_VAR, 76⟩]).map
        (fun p => (p.1.error.code, p.1.changed_vars_buf)) =
      .ok (DGMLRT_ERROR_NONE, [[110], [115], [98], [102], [100]]) := by
  decide

/-! ## What a store changes -/

/-- A successful store changes the value of the first variable whose name
compares equal, whose type is that of the new value, and nothing else. -/
theorem set_loop_true_first (name : dgmlrt_string) (v : dgmlrt_env_value) :
    ∀ l : List EnvVar, (set_env_value_loop name v l).1 = true →
      ∃ pre ev post, l = pre ++ ev :: post ∧
        (∀ e ∈ pre, str_eq e.name name = false) ∧ str_eq ev.name name = true ∧
        ev.value.type = v.type ∧
        (set_env_value_loop name v l).2 = pre ++ { ev with value := v } :: post := by
  intro l
  induction l with
  | nil => intro h; simp [set_env_value_loop] at h
  | cons ev rest ih =>
    intro h
    unfold set_env_value_loop at h ⊢
    by_cases hn : str_eq ev.name name = true
    · simp only [hn, if_true] at h ⊢
      by_cases ht : ev.value.type = v.type
      · simp only [ht, if_true] at h ⊢
        cases hs : set_env_value ev v with
        | none => rw [hs] at h; simp at h
        | some ev1 =>
          refine ⟨[], ev, rest, rfl, (by intro e he; cases he), hn, ht, ?_⟩
          have hev1 : ev1 = { ev with value := v } := by
            unfold set_env_value at hs
            cases v with
            | string s =>
              simp only at hs
              by_cases hc : s.length ≥ ev.string_buf_size
              · rw [if_pos hc] at hs; cases hs
              · rw [if_neg hc] at hs; cases hs; rfl
            | unset => cases hs; rfl
            | bool b => cases hs; rfl
            | int i => cases hs; rfl
            | float f => cases hs; rfl
            | other t => cases hs; rfl
          simp [hev1]
      · simp [ht] at h
    · simp only [hn] at h ⊢
      have hnf : str_eq ev.name name = false := by
        cases hb : str_eq ev.name name with
        | true => exact absurd hb hn
        | false => rfl
      obtain ⟨pre, ev2, post, h1, h2, h3, h4, h5⟩ := ih h
      refine ⟨ev :: pre, ev2, post, by rw [h1]; rfl, ?_, h3, h4, ?_⟩
      · intro e he
        rcases List.mem_cons.1 he with rfl | he
        · exact hnf
        · exact h2 e he
      · simp only [Bool.false_eq_true, if_false]
        rw [h5]; rfl

/-- Claim C39: `dgmlrt_vm_set_env_value(vm, name, v)` changes nothing in the
machine but the variables, so the cursor stays.  When it returns true, the
variables are those before with the value of one variable replaced by `v`:
that variable is the first whose name compares equal to `name`, its stored
type is the type of `v`, and its name and capacity stay; every other variable
stays as it is.  When it returns false the machine is unchanged. -/
theorem set_env_value_frame (vm : Vm) (name : dgmlrt_string) (v : dgmlrt_env_value) :
    (dgmlrt_vm_set_env_value vm name v).2 =
      { vm with env_vars := (dgmlrt_vm_set_env_value vm name v).2.env_vars } ∧
    (dgmlrt_vm_set_env_value vm name v).2.current_node = vm.current_node ∧
    (dgmlrt_vm_set_env_value vm name v).2.current_section = vm.current_section ∧
    ((dgmlrt_vm_set_env_value vm name v).1 = true →
      ∃ pre ev post, vm.env_vars = pre ++ ev :: post ∧
        (∀ e ∈ pre, str_eq e.name name = false) ∧ str_eq ev.name name = true ∧
        ev.value.type = v.type ∧
        (dgmlrt_vm_set_env_value vm name v).2.env_vars =
          pre ++ { ev with value := v } :: post ∧
        ({ ev with value := v } : EnvVar).name = ev.name ∧
        ({ ev with value := v } : EnvVar).value.type = ev.value.type) ∧
    ((dgmlrt_vm_set_env_value vm name v).1 = false →
      (dgmlrt_vm_set_env_value vm name v).2 = vm) := by
  refine ⟨rfl, rfl, rfl, ?_, ?_⟩
  · intro h
    obtain ⟨pre, ev, post, h1, h2, h3, h4, h5⟩ := set_loop_true_first name v vm.env_vars h
    exact ⟨pre, ev, post, h1, h2, h3, h4, h5, rfl, h4.symm⟩
  · intro h
    have hl := set_loop_false_unchanged name v vm.env_vars h
    show ({ vm with env_vars := (set_env_value_loop name v vm.env_vars).2 } : Vm) = vm
    rw [hl]

/-- Witness of C39 on the sample machine: storing `Int(7)` into "d" succeeds
and leaves the four variables before it, and the cursor, as they are; storing
a Bool into "d" fails and leaves the machine unchanged. -/
theorem set_env_value_frame_witness :
    (dgmlrt_vm_set_env_value (sample_vm []) [100] (.int 7)).1 = true ∧
    (dgmlrt_vm_set_env_value (sample_vm []) [100] (.int 7)).2.env_vars =
      [⟨[110], .int 0, 128⟩, ⟨[115], .string [], 128⟩, ⟨[98], .bool false, 128⟩,
       ⟨[102], .float 0, 128⟩, ⟨[100], .int 7, 128⟩] ∧
    (dgmlrt_vm_set_env_value (sample_vm []) [100] (.bool true)).1 = false ∧
    (dgmlrt_vm_set_env_value (sample_vm []) [100] (.bool true)).2 = sample_vm [] :=
  ⟨by decide, by decide, by decide,
   (set_env_value_frame (sample_vm []) [100] (.bool true)).2.2.2.2 (by decide)⟩

/-! ## Default values of the variables of a bundle -/

theorem string_congr {tree tree0 : Tree} (hs : tree0.strings = tree.strings)
    (hb : tree0.strings_base_offset = tree.strings_base_offset) (h : Nat) :
    string tree0 h = string tree h := by
  unfold string
  rw [hs, hb]

theorem load_dgmlb_env_vars {file : List Nat} {tree : Tree} (h : load_dgmlb file = .ok tree) :
    ∃ tree0 : Tree, tree0.strings = tree.strings ∧
      tree0.strings_base_offset = tree.strings_base_offset ∧
      load_array (fun i => load_env_var file tree0 (read_u32 file 36 + 12 * i))
        (read_u32 file 40) 0 = .ok tree.env_vars := by
  unfold load_dgmlb at h
  split at h
  · cases h
  split at h
  · cases h
  split at h
  · cases h
  split at h
  · cases h
  split at h
  · cases h
  split at h
  · cases h
  rename_i env_variables henv
  split at h
  · cases h
  split at h
  · cases h
  rename_i env_vars hl
  split at h
  · cases h
  split at h
  · cases h
  split at h
  · cases h
  cases h
  rw [raw_span_ok henv] at hl
  exact ⟨_, rfl, rfl, hl⟩

theorem load_string_ok {tree : Tree} {off : Nat} {s : dgmlrt_string}
    (h : load_string tree off = .ok s) : string tree off = .ok s := by
  unfold load_string at h
  split at h
  · rename_i s1 hs
    cases h
    exact hs
  · cases h

/-- The variable record at `off` as the loader decodes it. -/
theorem load_env_var_ok {file : List Nat} {tree : Tree} {off : Nat} {ev : EnvVar}
    (h : load_env_var file tree off = .ok ev) :
    string tree (read_u32 file off) = .ok ev.name ∧
    (read_u32 file (off + 4) = 1 → ev.value = .bool (read_u32 file (off + 8) != 0)) ∧
    (read_u32 file (off + 4) = 2 → ev.value = .int (bit_cast_int32 (read_u32 file (off + 8)))) ∧
    (read_u32 file (off + 4) = 3 → ev.value = .float (read_u32 file (off + 8))) ∧
    (read_u32 file (off + 4) = 4 →
      ∃ s, string tree (read_u32 file (off + 8)) = .ok s ∧ ev.value = .string s) := by
  unfold load_env_var at h
  split at h
  · cases h
  rename_i name hname
  have hn := load_string_ok hname
  simp only at h
  by_cases h1 : read_u32 file (off + 4) = 1
  · rw [if_pos h1] at h
    cases h
    exact ⟨hn, fun _ => rfl, fun h2 => by omega, fun h2 => by omega, fun h2 => by omega⟩
  rw [if_neg h1] at h
  by_cases h2 : read_u32 file (off + 4) = 2
  · rw [if_pos h2] at h
    cases h
    exact ⟨hn, fun h2 => by omega, fun _ => rfl, fun h2 => by omega, fun h2 => by omega⟩
  rw [if_neg h2] at h
  by_cases h3 : read_u32 file (off + 4) = 3
  · rw [if_pos h3] at h
    cases h
    exact ⟨hn, fun h2 => by omega, fun h2 => by omega, fun _ => rfl, fun h2 => by omega⟩
  rw [if_neg h3] at h
  by_cases h4 : read_u32 file (off + 4) = 4
  · rw [if_pos h4] at h
    split at h
    · cases h
    rename_i s hs
    cases h
    exact ⟨hn, fun h2 => by omega, fun h2 => by omega, fun h2 => by omega,
      fun _ => ⟨s, load_string_ok hs, rfl⟩⟩
  rw [if_neg h4] at h
  by_cases h0 : read_u32 file (off + 4) = 0
  · rw [if_pos h0] at h
    cases h
    exact ⟨hn, fun h2 => by omega, fun h2 => by omega, fun h2 => by omega, fun h2 => by omega⟩
  · rw [if_neg h0] at h
    cases h
    exact ⟨hn, fun h2 => by omega, fun h2 => by omega, fun h2 => by omega, fun h2 => by omega⟩

/-- The capacity of the string buffers plays no part in a lookup. -/
theorem get_loop_capacity (name : dgmlrt_string) (cap : Nat) : ∀ l : List EnvVar,
    get_env_value_loop name (l.map (fun ev => { ev with string_buf_size := cap })) =
      get_env_value_loop name l := by
  intro l
  induction l with
  | nil => rfl
  | cons ev rest ih =>
    simp only [List.map_cons, get_env_value_loop]
    rw [ih]

theorem get_env_value_create (tree : Tree) (params : dgmlrt_vm_create_params) (now : Nat)
    (name : dgmlrt_string) :
    dgmlrt_vm_get_env_value (dgmlrt_vm_create tree params now) name =
      get_env_value_loop name tree.env_vars := by
  unfold dgmlrt_vm_get_env_value dgmlrt_vm_create
  exact get_loop_capacity name _ tree.env_vars

theorem str_eq_refl (a : dgmlrt_string) : str_eq a a = true := by
  rw [str_eq_iff]
  exact ⟨rfl, rfl⟩

/-- The lookup returns the value of a variable that no variable before it
shares its name with. -/
theorem get_loop_first (name : dgmlrt_string) : ∀ (l : List EnvVar) (i : Nat) (ev : EnvVar),
    l[i]? = some ev → str_eq ev.name name = true →
    (∀ j ev2, j < i → l[j]? = some ev2 → str_eq ev2.name name = false) →
    get_env_value_loop name l = ev.value := by
  intro l
  induction l with
  | nil => intro i ev h; simp at h
  | cons e rest ih =>
    intro i ev h hname hfirst
    unfold get_env_value_loop
    cases i with
    | zero =>
      simp only [List.getElem?_cons_zero, Option.some.injEq] at h
      subst h
      rw [if_pos hname]
    | succ i =>
      have he := hfirst 0 e (by omega) (by simp)
      rw [if_neg (by rw [he]; simp)]
      simp only [List.getElem?_cons_succ] at h
      exact ih i ev h hname (fun j ev2 hj h2 => hfirst (j + 1) ev2 (by omega) (by simpa using h2))

theorem get_loop_none (name : dgmlrt_string) : ∀ l : List EnvVar,
    (∀ ev ∈ l, str_eq ev.name name = false) → get_env_value_loop name l = .unset := by
  intro l
  induction l with
  | nil => intro _; rfl
  | cons e rest ih =>
    intro h
    unfold get_env_value_loop
    rw [if_neg (by rw [h e (List.mem_cons_self _ _)]; simp)]
    exact ih (fun ev hev => h ev (List.mem_cons_of_mem _ hev))

/-- Claim C31: for a tree that `dgmlrt_load_dgmlb` returns and a machine just
created on it, the variables are the records of the span
`header.env_variables` in order; the record `i`, with the fields `name`,
`type` and `default_value = d`, gives a variable whose name is the string of
handle `name` and whose value is `Bool(d != 0)` for type 1, `Int` of `d` read
as a signed 32-bit number for type 2, the `Float` with the bits `d` for type 3
and the string of handle `d` for type 4; `dgmlrt_vm_get_env_value` with that
name returns this value when no record before it has an equal name, and it
returns Unset for a name that no variable has. -/
theorem loaded_env_var_defaults (file : List Nat) (tree : Tree)
    (params : dgmlrt_vm_create_params) (now : Nat)
    (hload : dgmlrt_load_dgmlb file = .ok (some tree)) :
    tree.env_vars.length = read_u32 file 40 ∧
    (∀ i ev, tree.env_vars[i]? = some ev →
      string tree (read_u32 file (read_u32 file 36 + 12 * i)) = .ok ev.name ∧
      (read_u32 file (read_u32 file 36 + 12 * i + 4) = 1 →
        ev.value = .bool (read_u32 file (read_u32 file 36 + 12 * i + 8) != 0)) ∧
      (read_u32 file (read_u32 file 36 + 12 * i + 4) = 2 →
        ev.value = .int (bit_cast_int32 (read_u32 file (read_u32 file 36 + 12 * i + 8)))) ∧
      (read_u32 file (read_u32 file 36 + 12 * i + 4) = 3 →
        ev.value = .float (read_u32 file (read_u32 file 36 + 12 * i + 8))) ∧
      (read_u32 file (read_u32 file 36 + 12 * i + 4) = 4 →
        ∃ s, string tree (read_u32 file (read_u32 file 36 + 12 * i + 8)) = .ok s ∧
          ev.value = .string s) ∧
      ((∀ j ev2, j < i → tree.env_vars[j]? = some ev2 → str_eq ev2.name ev.name = false) →
        dgmlrt_vm_get_env_value (dgmlrt_vm_create tree params now) ev.name = ev.value)) ∧
    (∀ name, (∀ ev ∈ tree.env_vars, str_eq ev.name name = false) →
      dgmlrt_vm_get_env_value (dgmlrt_vm_create tree params now) name = .unset) := by
  have hl : load_dgmlb file = .ok tree := by
    unfold dgmlrt_load_dgmlb at hload
    split at hload
    · cases hload; assumption
    · cases hload
    · cases hload
  obtain ⟨tree0, hs, hb, harr⟩ := load_dgmlb_env_vars hl
  obtain ⟨hlen, hget⟩ := load_array_get _ _ _ _ harr
  refine ⟨hlen, ?_, ?_⟩
  · intro i ev hi
    have hf := hget i ev hi
    simp only [Nat.zero_add] at hf
    obtain ⟨h0, h1, h2, h3, h4⟩ := load_env_var_ok hf
    rw [string_congr hs hb] at h0
    refine ⟨h0, h1, h2, h3, ?_, ?_⟩
    · intro ht
      obtain ⟨s, hs1, hs2⟩ := h4 ht
      rw [string_congr hs hb] at hs1
      exact ⟨s, hs1, hs2⟩
    · intro hfirst
      rw [get_env_value_create]
      exact get_loop_first ev.name tree.env_vars i ev hi (str_eq_refl _) hfirst
  · intro name hnone
    rw [get_env_value_create]
    exact get_loop_none name tree.env_vars hnone

set_option maxRecDepth 100000 in
/-- Witness of C31 on `vars_bundle`: the load returns `vars_bundle_tree`; the
first record is `n`, of type 2 with the default `0xFFFFFFFE`, and a machine
created on the tree returns `Int(-2)` for "n", the string "hi" for "hi" and
Unset for "zz". -/
theorem loaded_env_var_defaults_witness :
    dgmlrt_load_dgmlb vars_bundle = .ok (some vars_bundle_tree) ∧
    read_u32 vars_bundle (read_u32 vars_bundle 36 + 12 * 0 + 4) = 2 ∧
    bit_cast_int32 (read_u32 vars_bundle (read_u32 vars_bundle 36 + 12 * 0 + 8)) = -2 ∧
    dgmlrt_vm_get_env_value (dgmlrt_vm_create vars_bundle_tree default_params 1)
        (⟨[110], .int (-2), 0⟩ : EnvVar).name =
      (⟨[110], .int (-2), 0⟩ : EnvVar).value ∧
    dgmlrt_vm_get_env_value (dgmlrt_vm_create vars_bundle_tree default_params 1) [104, 105] =
      .string [104, 105] ∧
    dgmlrt_vm_get_env_value (dgmlrt_vm_create vars_bundle_tree default_params 1) [122, 122] =
      .unset :=
  ⟨by decide, by decide, by decide,
   ((loaded_env_var_defaults vars_bundle vars_bundle_tree default_params 1 (by decide)).2.1 0
      ⟨[110], .int (-2), 0⟩ (by decide)).2.2.2.2.2
      (fun j _ hj _ => absurd hj (Nat.not_lt_zero j)),
   by decide, by decide⟩

/-! ## Saving and restoring the variables -/

theorem str_eq_symm {a b : dgmlrt_string} (h : str_eq a b = false) : str_eq b a = false := by
  cases hb : str_eq b a with
  | false => rfl
  | true =>
    rw [str_eq_iff] at hb
    have : str_eq a b = true := (str_eq_iff a b).2 ⟨hb.1.symm, hb.2.symm⟩
    rw [h] at this
    cases this

theorem str_eq_trans_left {a n m : dgmlrt_string} (h1 : str_eq a n = true)
    (h2 : str_eq a m = true) : str_eq n m = true := by
  rw [str_eq_iff] at h1 h2 ⊢
  exact ⟨h1.1.symm.trans h2.1, h1.2.symm.trans h2.2⟩

/-- A store under the name `n` is not seen by a lookup of a name `m` that
compares different. -/
theorem get_after_set_other {n m : dgmlrt_string} (v : dgmlrt_env_value)
    (hnm : str_eq n m = false) : ∀ l : List EnvVar,
    get_env_value_loop m (set_env_value_loop n v l).2 = get_env_value_loop m l := by
  intro l
  induction l with
  | nil => rfl
  | cons ev rest ih =>
    unfold set_env_value_loop
    by_cases hn : str_eq ev.name n = true
    · have hm : ¬ str_eq ev.name m = true := by
        intro hm
        have := str_eq_trans_left hn hm
        rw [hnm] at this
        cases this
      simp only [hn, if_true]
      by_cases ht : ev.value.type = v.type
      · simp only [ht, if_true]
        cases hs : set_env_value ev v with
        | none => rfl
        | some ev1 =>
          have hname := (set_env_value_some hs).1
          simp only [get_env_value_loop, hname, hm, Bool.false_eq_true, if_false]
      · simp only [ht, if_false]
    · simp only [hn, Bool.false_eq_true, if_false]
      unfold get_env_value_loop
      rw [ih]

/-- A store keeps the name and the type of every variable. -/
theorem set_loop_decl (n : dgmlrt_string) (v : dgmlrt_env_value) : ∀ l : List EnvVar,
    (set_env_value_loop n v l).2.map env_var_decl = l.map env_var_decl := by
  intro l
  by_cases h : (set_env_value_loop n v l).1 = true
  · obtain ⟨pre, ev, post, h1, _, _, h4, h5⟩ := set_loop_true_first n v l h
    rw [h5]
    conv => rhs; rw [h1]
    simp only [List.map_append, List.map_cons, env_var_decl, h4]
  · have hf : (set_env_value_loop n v l).1 = false := by
      cases hb : (set_env_value_loop n v l).1 with
      | true => exact absurd hb h
      | false => rfl
    rw [set_loop_false_unchanged n v l hf]

/-- The type of the variable a name refers to depends on the names and types
of the variables only. -/
theorem find_type_decl (name : dgmlrt_string) : ∀ l1 l2 : List EnvVar,
    l1.map env_var_decl = l2.map env_var_decl →
    (find_env_var name l1).map (fun ev => ev.value.type) =
      (find_env_var name l2).map (fun ev => ev.value.type) := by
  intro l1
  induction l1 with
  | nil =>
    intro l2 h
    cases l2 with
    | nil => rfl
    | cons e2 r2 => simp at h
  | cons e1 r1 ih =>
    intro l2 h
    cases l2 with
    | nil => simp at h
    | cons e2 r2 =>
      simp only [List.map_cons, List.cons.injEq, env_var_decl, Prod.mk.injEq] at h
      obtain ⟨⟨hname, htype⟩, hrest⟩ := h
      unfold find_env_var
      rw [hname]
      by_cases hn : str_eq e2.name name = true
      · simp only [hn, if_true, Option.map_some', htype]
      · simp only [hn, Bool.false_eq_true, if_false]
        exact ih r2 hrest

/-- Among variables with pairwise different names, a name refers to the
variable that carries it. -/
theorem find_pairwise : ∀ (l : List EnvVar) (ev : EnvVar),
    l.Pairwise (fun a b => str_eq a.name b.name = false) → ev ∈ l →
    find_env_var ev.name l = some ev := by
  intro l
  induction l with
  | nil => intro ev _ h; cases h
  | cons e rest ih =>
    intro ev hp hmem
    rw [List.pairwise_cons] at hp
    unfold find_env_var
    rcases List.mem_cons.1 hmem with rfl | hmem
    · rw [if_pos (str_eq_refl _)]
    · rw [if_neg (by rw [hp.1 ev hmem]; simp)]
      exact ih ev hp.2 hmem

/-- A store of a Bool, Int or Float under a name that refers to a variable of
that type succeeds. -/
theorem set_loop_number_ok (name : dgmlrt_string) (v : dgmlrt_env_value) (l : List EnvVar)
    {ev : EnvVar} (hfind : find_env_var name l = some ev) (htype : ev.value.type = v.type)
    (hnum : v.type = DGMLRT_ENV_VALUE_BOOL ∨ v.type = DGMLRT_ENV_VALUE_INT ∨
      v.type = DGMLRT_ENV_VALUE_FLOAT) :
    (set_env_value_loop name v l).1 = true := by
  cases hb : (set_env_value_loop name v l).1 with
  | true => rfl
  | false =>
    have h := (set_loop_fails_iff name v l).1 hb
    rw [hfind] at h
    simp only [htype, bne_self_eq_false, Bool.false_or] at h
    cases v with
    | string s =>
      rcases hnum with h1 | h1 | h1 <;>
        simp [dgmlrt_env_value.type, DGMLRT_ENV_VALUE_BOOL, DGMLRT_ENV_VALUE_INT,
          DGMLRT_ENV_VALUE_FLOAT] at h1
    | unset => simp at h
    | bool b => simp at h
    | int i => simp at h
    | float f => simp at h
    | other t => simp at h

theorem restore_cons (vm : Vm) (var : dgmlrt_env_var) (rest : List dgmlrt_env_var) :
    restore_env_vars vm (var :: rest) =
      ((dgmlrt_vm_set_env_value vm var.name var.value).1 ::
          (restore_env_vars (dgmlrt_vm_set_env_value vm var.name var.value).2 rest).1,
        (restore_env_vars (dgmlrt_vm_set_env_value vm var.name var.value).2 rest).2) := rfl

/-- Entries whose names compare different from `name` leave the value that
`name` refers to as it is. -/
theorem get_after_restore_other (name : dgmlrt_string) : ∀ (vars : List dgmlrt_env_var) (vm : Vm),
    (∀ var ∈ vars, str_eq var.name name = false) →
    dgmlrt_vm_get_env_value (restore_env_vars vm vars).2 name =
      dgmlrt_vm_get_env_value vm name := by
  intro vars
  induction vars with
  | nil => intro vm _; rfl
  | cons var rest ih =>
    intro vm h
    rw [restore_cons]
    simp only
    rw [ih _ (fun v hv => h v (List.mem_cons_of_mem _ hv))]
    unfold dgmlrt_vm_get_env_value dgmlrt_vm_set_env_value
    exact get_after_set_other var.value (h var (List.mem_cons_self _ _)) vm.env_vars

/-- Feeding back entries with pairwise different names, each of which refers
to a variable of the type of its value: every Bool, Int and Float entry is
accepted, and afterwards its name refers to its value. -/
theorem restore_entries : ∀ (vars : List dgmlrt_env_var) (vm : Vm),
    vars.Pairwise (fun a b => str_eq a.name b.name = false) →
    (∀ var ∈ vars, ∃ ev, find_env_var var.name vm.env_vars = some ev ∧
      ev.value.type = var.value.type) →
    ∀ (i : Nat) (var : dgmlrt_env_var), vars[i]? = some var →
      (var.value.type = DGMLRT_ENV_VALUE_BOOL ∨ var.value.type = DGMLRT_ENV_VALUE_INT ∨
        var.value.type = DGMLRT_ENV_VALUE_FLOAT) →
      (restore_env_vars vm vars).1[i]? = some true ∧
      dgmlrt_vm_get_env_value (restore_env_vars vm vars).2 var.name = var.value := by
  intro vars
  induction vars with
  | nil => intro vm _ _ i var h; simp at h
  | cons var0 rest ih =>
    intro vm hp hfind i var hi hnum
    rw [List.pairwise_cons] at hp
    rw [restore_cons]
    cases i with
    | zero =>
      simp only [List.getElem?_cons_zero, Option.some.injEq] at hi
      subst hi
      obtain ⟨ev, hev, htype⟩ := hfind var0 (List.mem_cons_self _ _)
      have hok := set_loop_number_ok var0.name var0.value vm.env_vars hev htype hnum
      refine ⟨?_, ?_⟩
      · simp only [List.getElem?_cons_zero, Option.some.injEq]
        exact hok
      · simp only
        rw [get_after_restore_other var0.name rest _
          (fun v hv => str_eq_symm (hp.1 v hv))]
        unfold dgmlrt_vm_get_env_value dgmlrt_vm_set_env_value
        exact get_after_set_loop var0.name var0.value vm.env_vars hok
    | succ i =>
      simp only [List.getElem?_cons_succ] at hi ⊢
      refine ih _ hp.2 ?_ i var hi hnum
      intro v hv
      obtain ⟨ev, hev, htype⟩ := hfind v (List.mem_cons_of_mem _ hv)
      have hdecl := find_type_decl v.name _ _
        (set_loop_decl var0.name var0.value vm.env_vars)
      rw [hev] at hdecl
      simp only [Option.map_some'] at hdecl
      cases hf : find_env_var v.name (set_env_value_loop var0.name var0.value vm.env_vars).2 with
      | none => rw [hf] at hdecl; simp at hdecl
      | some ev2 =>
        rw [hf] at hdecl
        simp only [Option.map_some', Option.some.injEq] at hdecl
        exact ⟨ev2, hf, by rw [hdecl]; exact htype⟩

/-- A machine just created has the names and types of the variables of its
tree. -/
theorem create_decl (tree : Tree) (params : dgmlrt_vm_create_params) (now : Nat) :
    (dgmlrt_vm_create tree params now).env_vars.map env_var_decl =
      tree.env_vars.map env_var_decl := by
  unfold dgmlrt_vm_create
  simp only [List.map_map]
  rfl

/-- A store keeps the names and types of the variables of the machine. -/
theorem set_env_value_decl (vm : Vm) (name : dgmlrt_string) (v : dgmlrt_env_value) :
    (dgmlrt_vm_set_env_value vm name v).2.env_vars.map env_var_decl =
      vm.env_vars.map env_var_decl :=
  set_loop_decl name v vm.env_vars

theorem restore_decl : ∀ (vars : List dgmlrt_env_var) (vm : Vm),
    (restore_env_vars vm vars).2.env_vars.map env_var_decl = vm.env_vars.map env_var_decl := by
  intro vars
  induction vars with
  | nil => intro vm; rfl
  | cons var rest ih =>
    intro vm
    rw [restore_cons]
    simp only
    rw [ih]
    exact set_loop_decl var.name var.value vm.env_vars

theorem pairwise_decl {l1 l2 : List EnvVar} (h : l1.map env_var_decl = l2.map env_var_decl)
    (hp : l2.Pairwise (fun a b => str_eq a.name b.name = false)) :
    l1.Pairwise (fun a b => str_eq a.name b.name = false) := by
  have h2 : (l2.map env_var_decl).Pairwise (fun a b => str_eq a.1 b.1 = false) := by
    rw [List.pairwise_map]
    exact hp
  rw [← h, List.pairwise_map] at h2
  exact h2

theorem decl_getElem {l1 l2 : List EnvVar} (h : l1.map env_var_decl = l2.map env_var_decl)
    {i : Nat} {ev : EnvVar} (hi : l2[i]? = some ev) :
    ∃ ev1, l1[i]? = some ev1 ∧ ev1.name = ev.name ∧ ev1.value.type = ev.value.type := by
  have h2 : (l1.map env_var_decl)[i]? = (l2.map env_var_decl)[i]? := by rw [h]
  rw [List.getElem?_map, List.getElem?_map, hi] at h2
  cases h1 : l1[i]? with
  | none => rw [h1] at h2; simp at h2
  | some ev1 =>
    rw [h1] at h2
    simp only [Option.map_some', Option.some.injEq, env_var_decl, Prod.mk.injEq] at h2
    exact ⟨ev1, rfl, h2.1, h2.2⟩

/-- Claim C32, as the code has it: `dgmlrt_get_env_vars(vm, out, max)` returns
the smaller of `max` and the number of variables and writes, for every `i`
below that count, the name and the current value of the `i`-th variable.  When
the names of the variables are pairwise different, feeding all entries back,
in order, through `dgmlrt_vm_set_env_value` on a machine `fresh` with the same
variable names and types (a machine created on the same tree) succeeds for
every Bool, Int and Float variable, after which each of them has the saved
value, for a lookup by name and in the entries `dgmlrt_get_env_vars` writes. -/
theorem get_env_vars_round_trip (vm fresh : Vm) (max_num_vars : Nat)
    (hdecl : fresh.env_vars.map env_var_decl = vm.env_vars.map env_var_decl)
    (hnames : vm.env_vars.Pairwise (fun a b => str_eq a.name b.name = false)) :
    (dgmlrt_get_env_vars vm max_num_vars).1 = min max_num_vars vm.env_vars.length ∧
    (dgmlrt_get_env_vars vm max_num_vars).2.length = (dgmlrt_get_env_vars vm max_num_vars).1 ∧
    (∀ (i : Nat) (ev : EnvVar), i < (dgmlrt_get_env_vars vm max_num_vars).1 →
      vm.env_vars[i]? = some ev →
      (dgmlrt_get_env_vars vm max_num_vars).2[i]? = some ⟨ev.name, ev.value⟩) ∧
    (∀ (i : Nat) (ev : EnvVar), vm.env_vars[i]? = some ev →
      (ev.value.type = DGMLRT_ENV_VALUE_BOOL ∨ ev.value.type = DGMLRT_ENV_VALUE_INT ∨
        ev.value.type = DGMLRT_ENV_VALUE_FLOAT) →
      (restore_env_vars fresh (dgmlrt_get_env_vars vm vm.env_vars.length).2).1[i]? = some true ∧
      dgmlrt_vm_get_env_value
          (restore_env_vars fresh (dgmlrt_get_env_vars vm vm.env_vars.length).2).2 ev.name =
        ev.value ∧
      (dgmlrt_get_env_vars
          (restore_env_vars fresh (dgmlrt_get_env_vars vm vm.env_vars.length).2).2
          vm.env_vars.length).2[i]? = some ⟨ev.name, ev.value⟩) := by
  have hcount : ∀ m, (dgmlrt_get_env_vars vm m).1 = min m vm.env_vars.length := by
    intro m
    unfold dgmlrt_get_env_vars
    simp only
    split <;> omega
  have hall : (dgmlrt_get_env_vars vm vm.env_vars.length).2 =
      vm.env_vars.map (fun ev => (⟨ev.name, ev.value⟩ : dgmlrt_env_var)) := by
    unfold dgmlrt_get_env_vars
    simp only [Nat.lt_irrefl, if_false, List.take_length]
  refine ⟨hcount _, ?_, ?_, ?_⟩
  · unfold dgmlrt_get_env_vars
    simp only [List.length_map, List.length_take]
    split <;> omega
  · intro i ev hi hev
    have hi2 : i < if max_num_vars < vm.env_vars.length then max_num_vars
        else vm.env_vars.length := hi
    unfold dgmlrt_get_env_vars
    simp only [List.getElem?_map, List.getElem?_take, hi2, if_true, hev, Option.map_some']
  · intro i ev hev hnum
    rw [hall]
    have hpair : (vm.env_vars.map (fun ev => (⟨ev.name, ev.value⟩ : dgmlrt_env_var))).Pairwise
        (fun a b => str_eq a.name b.name = false) := by
      rw [List.pairwise_map]
      exact hnames
    have hfind : ∀ var ∈ vm.env_vars.map (fun ev => (⟨ev.name, ev.value⟩ : dgmlrt_env_var)),
        ∃ ev0, find_env_var var.name fresh.env_vars = some ev0 ∧
          ev0.value.type = var.value.type := by
      intro var hvar
      obtain ⟨e, he, rfl⟩ := List.mem_map.1 hvar
      have h1 := find_type_decl e.name _ _ hdecl
      rw [find_pairwise vm.env_vars e hnames he] at h1
      cases hf : find_env_var e.name fresh.env_vars with
      | none => rw [hf] at h1; simp at h1
      | some ev0 =>
        rw [hf] at h1
        simp only [Option.map_some', Option.some.injEq] at h1
        exact ⟨ev0, rfl, h1⟩
    have hget : (vm.env_vars.map (fun ev => (⟨ev.name, ev.value⟩ : dgmlrt_env_var)))[i]? =
        some ⟨ev.name, ev.value⟩ := by
      rw [List.getElem?_map, hev]
      rfl
    obtain ⟨hflag, hval⟩ := restore_entries _ fresh hpair hfind i ⟨ev.name, ev.value⟩ hget hnum
    refine ⟨hflag, hval, ?_⟩
    have hd := (restore_decl (vm.env_vars.map
      (fun ev => (⟨ev.name, ev.value⟩ : dgmlrt_env_var))) fresh).trans hdecl
    obtain ⟨ev1, h1, hname1, _⟩ := decl_getElem hd hev
    have hp1 := pairwise_decl hd hnames
    have hmem1 : ev1 ∈ (restore_env_vars fresh (vm.env_vars.map
        (fun ev => (⟨ev.name, ev.value⟩ : dgmlrt_env_var)))).2.env_vars := by
      rcases List.getElem?_eq_some_iff.1 h1 with ⟨hlt, heq⟩
      rw [← heq]
      exact List.getElem_mem _
    have hfind1 := find_pairwise _ ev1 hp1 hmem1
    have hval1 : dgmlrt_vm_get_env_value (restore_env_vars fresh (vm.env_vars.map
        (fun ev => (⟨ev.name, ev.value⟩ : dgmlrt_env_var)))).2 ev1.name = ev1.value := by
      unfold dgmlrt_vm_get_env_value
      rw [get_loop_find, hfind1]
    rw [hname1] at hval1
    have hvalue : ev1.value = ev.value := hval1.symm.trans hval
    have hlen : (restore_env_vars fresh (vm.env_vars.map
        (fun ev => (⟨ev.name, ev.value⟩ : dgmlrt_env_var)))).2.env_vars.length =
        vm.env_vars.length := by
      have := congrArg List.length hd
      simpa using this
    have hi : i < vm.env_vars.length := by
      rcases List.getElem?_eq_some_iff.1 hev with ⟨h, _⟩
      exact h
    unfold dgmlrt_get_env_vars
    simp only [hlen, Nat.lt_irrefl, if_false, List.getElem?_map, List.getElem?_take, hi, if_true,
      h1, Option.map_some', hname1, hvalue]

/-- Witness of the amended C32 on the sample machine after the stores
`n := 7` and `b := true`: three entries are asked for and returned, and
feeding all five entries back to a fresh machine of the tree restores `n`. -/
theorem get_env_vars_round_trip_witness :
    (sample_vm []).env_vars.map env_var_decl =
      (dgmlrt_vm_set_env_value (dgmlrt_vm_set_env_value (sample_vm []) [110] (.int 7)).2 [98]
        (.bool true)).2.env_vars.map env_var_decl ∧
    (dgmlrt_get_env_vars
      (dgmlrt_vm_set_env_value (dgmlrt_vm_set_env_value (sample_vm []) [110] (.int 7)).2 [98]
        (.bool true)).2 3).1 =
      min 3 (dgmlrt_vm_set_env_value (dgmlrt_vm_set_env_value (sample_vm []) [110] (.int 7)).2
        [98] (.bool true)).2.env_vars.length ∧
    dgmlrt_get_env_vars
      (dgmlrt_vm_set_env_value (dgmlrt_vm_set_env_value (sample_vm []) [110] (.int 7)).2 [98]
        (.bool true)).2 3 =
      (3, [⟨[110], .int 7⟩, ⟨[115], .string []⟩, ⟨[98], .bool true⟩]) ∧
    (restore_env_vars (sample_vm [])
      (dgmlrt_get_env_vars
        (dgmlrt_vm_set_env_value (dgmlrt_vm_set_env_value (sample_vm []) [110] (.int 7)).2 [98]
          (.bool true)).2 5).2).1 = [true, true, true, true, true] ∧
    dgmlrt_vm_get_env_value (restore_env_vars (sample_vm [])
      (dgmlrt_get_env_vars
        (dgmlrt_vm_set_env_value (dgmlrt_vm_set_env_value (sample_vm []) [110] (.int 7)).2 [98]
          (.bool true)).2 5).2).2 [110] = .int 7 :=
  ⟨by decide,
   (get_env_vars_round_trip
      (dgmlrt_vm_set_env_value (dgmlrt_vm_set_env_value (sample_vm []) [110] (.int 7)).2 [98]
        (.bool true)).2 (sample_vm []) 3 (by decide) (by decide)).1,
   by decide, by decide, by decide⟩

/-- Claim C32 fails as stated on a tree with two variables of the same name:
`dup_vars_tree` declares two Int variables "n" with the values 0 and 1, and
`dgmlrt_get_env_vars` returns both entries; fed back to a fresh machine of the
tree, both stores succeed, but both go to the first variable, which ends with
the value 1 where the saved machine has 0. -/
theorem restore_with_equal_names :
    dgmlrt_get_env_vars (dgmlrt_vm_create dup_vars_tree default_params 1) 2 =
      (2, [⟨[110], .int 0⟩, ⟨[110], .int 1⟩]) ∧
    (restore_env_vars (dgmlrt_vm_create dup_vars_tree default_params 1)
      (dgmlrt_get_env_vars (dgmlrt_vm_create dup_vars_tree default_params 1) 2).2).1 =
      [true, true] ∧
    dgmlrt_get_env_vars
      (restore_env_vars (dgmlrt_vm_create dup_vars_tree default_params 1)
        (dgmlrt_get_env_vars (dgmlrt_vm_create dup_vars_tree default_params 1) 2).2).2 2 =
      (2, [⟨[110], .int 1⟩, ⟨[110], .int 1⟩]) := by
  decide

/-! ## Sizes of the scratch buffers -/

theorem string_not_scratch {tree : Tree} {off : Nat} {e : Fault}
    (h : string tree off = .error e) : scratch_fault e = false := by
  unfold string at h
  split at h
  · cases h
  · simp only at h
    split at h
    · split at h
      · cases h
      · cases h; rfl
    · cases h; rfl

theorem record_changed_var_not_scratch {vm : Vm} {name : dgmlrt_string} {e : Fault}
    (h : record_changed_var vm name = .error e) : scratch_fault e = false := by
  unfold record_changed_var at h
  split at h
  · cases h
  · split at h
    · cases h
    · cases h; rfl

theorem func_int_not_scratch {f : BinFunc} {a b : Int} {e : Fault}
    (h : func_int f a b = .error e) : scratch_fault e = false := by
  unfold func_int at h
  cases f <;> simp only at h
  · split at h
    · cases h
    · cases h; rfl
  · split at h
    · cases h
    · cases h; rfl
  · split at h
    · cases h
    · cases h; rfl
  · split at h
    · cases h; rfl
    · split at h
      · cases h
      · cases h; rfl
  all_goals cases h

theorem func_bool_not_scratch {f : BinFunc} {a b : Bool} {e : Fault}
    (h : func_bool f a b = .error e) : scratch_fault e = false := by
  unfold func_bool at h
  split at h <;> try cases h
  split at h
  · cases h
  · cases h; rfl

theorem binop_push_not_scratch {fo : FloatOps} {f : BinFunc} {vm : Vm}
    {lhs rhs : dgmlrt_env_value} {e : Fault}
    (h : binop_push fo f vm lhs rhs = .error e) : scratch_fault e = false := by
  unfold binop_push at h
  split at h
  · split at h
    · rename_i hf; cases h; exact func_int_not_scratch hf
    · cases h
  · cases h
  · cases h
  · cases h
  · split at h
    · rename_i hf; cases h; exact func_bool_not_scratch hf
    · cases h
  · cases h

theorem binop_not_scratch {fo : FloatOps} {allow_string : Bool} {f : BinFunc} {vm : Vm} {e : Fault}
    (h : binop fo allow_string f vm = .error e) : scratch_fault e = false := by
  unfold binop at h
  split at h
  · cases h
  · unfold binop_apply at h
    split at h
    · cases h
    · split at h
      · rename_i hp; cases h; exact binop_push_not_scratch hp
      · split at h <;> cases h

theorem eval_op_not_scratch {fo : FloatOps} {vm : Vm} {c : dgmlb_byte_code} {e : Fault}
    (h : eval_op fo vm c = .error e) : scratch_fault e = false := by
  unfold eval_op at h
  by_cases h0 : c.op = DGMLB_OP_PUSH_BOOL
  · rw [if_pos h0] at h
    cases h
  rw [if_neg h0] at h
  by_cases h1 : c.op = DGMLB_OP_PUSH_INT
  · rw [if_pos h1] at h
    cases h
  rw [if_neg h1] at h
  by_cases h2 : c.op = DGMLB_OP_PUSH_FLOAT
  · rw [if_pos h2] at h
    cases h
  rw [if_neg h2] at h
  by_cases h3 : c.op = DGMLB_OP_PUSH_STRING
  · rw [if_pos h3] at h
    split at h
    · rename_i hs; cases h; exact string_not_scratch hs
    · cases h
  rw [if_neg h3] at h
  by_cases h4 : c.op = DGMLB_OP_GET_VAR
  · rw [if_pos h4] at h
    split at h
    · rename_i hs; cases h; exact string_not_scratch hs
    · cases h
  rw [if_neg h4] at h
  by_cases h5 : c.op = DGMLB_OP_SET_VAR
  · rw [if_pos h5] at h
    split at h
    · rename_i hs; cases h; exact string_not_scratch hs
    · split at h
      · rename_i hr; cases h; exact record_changed_var_not_scratch hr
      · cases h
  rw [if_neg h5] at h
  by_cases h6 : c.op = DGMLB_OP_NOT
  · rw [if_pos h6] at h
    split at h <;> cases h
  rw [if_neg h6] at h
  by_cases h7 : c.op = DGMLB_OP_ADD
  · rw [if_pos h7] at h
    exact binop_not_scratch h
  rw [if_neg h7] at h
  by_cases h8 : c.op = DGMLB_OP_SUB
  · rw [if_pos h8] at h
    exact binop_not_scratch h
  rw [if_neg h8] at h
  by_cases h9 : c.op = DGMLB_OP_MUL
  · rw [if_pos h9] at h
    exact binop_not_scratch h
  rw [if_neg h9] at h
  by_cases h10 : c.op = DGMLB_OP_DIV
  · rw [if_pos h10] at h
    split at h
    · cases h
    · exact binop_not_scratch h
  rw [if_neg h10] at h
  by_cases h11 : c.op = DGMLB_OP_OR
  · rw [if_pos h11] at h
    exact binop_not_scratch h
  rw [if_neg h11] at h
  by_cases h12 : c.op = DGMLB_OP_AND
  · rw [if_pos h12] at h
    exact binop_not_scratch h
  rw [if_neg h12] at h
  by_cases h13 : c.op = DGMLB_OP_LT
  · rw [if_pos h13] at h
    exact binop_not_scratch h
  rw [if_neg h13] at h
  by_cases h14 : c.op = DGMLB_OP_LE
  · rw [if_pos h14] at h
    exact binop_not_scratch h
  rw [if_neg h14] at h
  by_cases h15 : c.op = DGMLB_OP_GT
  · rw [if_pos h15] at h
    exact binop_not_scratch h
  rw [if_neg h15] at h
  by_cases h16 : c.op = DGMLB_OP_GE
  · rw [if_pos h16] at h
    exact binop_not_scratch h
  rw [if_neg h16] at h
  by_cases h17 : c.op = DGMLB_OP_EQ
  · rw [if_pos h17] at h
    exact binop_not_scratch h
  rw [if_neg h17] at h
  by_cases h18 : c.op = DGMLB_OP_NE
  · rw [if_pos h18] at h
    exact binop_not_scratch h
  rw [if_neg h18] at h
  cases h

theorem eval_loop_not_scratch {fo : FloatOps} :
    ∀ (code : List dgmlb_byte_code) {vm : Vm} {e : Fault},
      eval_loop fo vm code = .error e → scratch_fault e = false := by
  intro code
  induction code with
  | nil => intro vm e h; simp [eval_loop] at h
  | cons c rest ih =>
    intro vm e h
    unfold eval_loop at h
    split at h
    · rename_i ho; cases h; exact eval_op_not_scratch ho
    · split at h
      · cases h
      · exact ih h

theorem eval_not_scratch {fo : FloatOps} {vm : Vm} {code : List dgmlb_byte_code} {e : Fault}
    (h : eval fo vm code = .error e) : scratch_fault e = false := by
  unfold eval at h
  split at h
  · rename_i hl; cases h; exact eval_loop_not_scratch _ hl
  · cases h

theorem interp_not_scratch {vm : Vm} {chars : List Nat} {e : Fault}
    (h : interp vm chars = .error e) : scratch_fault e = false := by
  unfold interp at h
  split at h
  · cases h; rfl
  · split at h
    · split at h
      · cases h
      · cases h; rfl
    · cases h

theorem interpolate_loop_not_scratch {fo : FloatOps} :
    ∀ (frags : List dgmlrt_text_fragment) (is_vars : List Bool) {vm : Vm} {e : Fault},
      interpolate_loop fo vm frags is_vars = .error e → scratch_fault e = false := by
  intro frags
  induction frags with
  | nil => intro is_vars vm e h; simp [interpolate_loop] at h
  | cons frag frags ih =>
    intro is_vars vm e h
    cases is_vars with
    | nil => simp [interpolate_loop] at h; rw [← h]; rfl
    | cons is_var is_vars =>
      unfold interpolate_loop at h
      simp only at h
      split at h
      · rename_i hw
        cases h
        split at hw
        · split at hw
          · cases hw
          · cases hw
          · exact interp_not_scratch hw
          · exact interp_not_scratch hw
          · cases hw
          · cases hw
        · cases hw
      · cases h
      · split at h
        · rename_i hl; cases h; exact ih _ hl
        · cases h
        · cases h

theorem mem_of_getElem {α : Type} {l : List α} {i : Nat} {x : α} (h : l[i]? = some x) :
    x ∈ l := by
  rcases List.getElem?_eq_some_iff.1 h with ⟨hlt, heq⟩
  rw [← heq]
  exact List.getElem_mem _

theorem interp_keeps_frags {vm vm1 : Vm} {chars : List Nat} {r : Option dgmlrt_string}
    (h : interp vm chars = .ok (vm1, r)) :
    vm1.text_frags_offset = vm.text_frags_offset ∧
      vm1.text_frags_buf_size = vm.text_frags_buf_size := by
  unfold interp at h
  split at h
  · cases h
  · split at h
    · split at h
      · cases h; exact ⟨rfl, rfl⟩
      · cases h
    · cases h; exact ⟨rfl, rfl⟩

theorem interpolate_loop_keeps_frags {fo : FloatOps} :
    ∀ (frags : List dgmlrt_text_fragment) (is_vars : List Bool) {vm vm1 : Vm}
      {r : Option (List dgmlrt_text_fragment)},
      interpolate_loop fo vm frags is_vars = .ok (vm1, r) →
        vm1.text_frags_offset = vm.text_frags_offset ∧
          vm1.text_frags_buf_size = vm.text_frags_buf_size := by
  intro frags
  induction frags with
  | nil =>
    intro is_vars vm vm1 r h
    simp only [interpolate_loop, Except.ok.injEq, Prod.mk.injEq] at h
    rw [← h.1]
    exact ⟨rfl, rfl⟩
  | cons frag frags ih =>
    intro is_vars vm vm1 r h
    cases is_vars with
    | nil => simp [interpolate_loop] at h
    | cons is_var is_vars =>
      unfold interpolate_loop at h
      simp only at h
      split at h
      · cases h
      · rename_i vm2 hw
        cases h
        split at hw
        · split at hw
          · cases hw
          · cases hw
          · exact interp_keeps_frags hw
          · exact interp_keeps_frags hw
          · cases hw
          · cases hw
        · cases hw
      · rename_i vm2 text hw
        have h2 : vm2.text_frags_offset = vm.text_frags_offset ∧
            vm2.text_frags_buf_size = vm.text_frags_buf_size := by
          split at hw
          · split at hw
            · cases hw; exact ⟨rfl, rfl⟩
            · cases hw; exact ⟨rfl, rfl⟩
            · exact interp_keeps_frags hw
            · exact interp_keeps_frags hw
            · cases hw; exact ⟨rfl, rfl⟩
            · cases hw; exact ⟨rfl, rfl⟩
          · cases hw; exact ⟨rfl, rfl⟩
        split at h
        · cases h
        · rename_i vm3 hl
          cases h
          have h3 := ih _ hl
          exact ⟨h3.1.trans h2.1, h3.2.trans h2.2⟩
        · rename_i vm3 out hl
          cases h
          have h3 := ih _ hl
          exact ⟨h3.1.trans h2.1, h3.2.trans h2.2⟩

/-- A call of `interpolate_text` moves `text_frags_offset` on by at most the
number of fragments of the text. -/
theorem interpolate_text_offset {fo : FloatOps} {vm vm1 : Vm} {text : Text}
    {r : Option (List dgmlrt_text_fragment)}
    (h : interpolate_text fo vm text = .ok (vm1, r)) :
    vm1.text_frags_offset ≤ vm.text_frags_offset + text.frags.length ∧
      vm1.text_frags_buf_size = vm.text_frags_buf_size := by
  unfold interpolate_text at h
  split at h
  · split at h
    · cases h
    · rename_i vm2 hl
      cases h
      have h2 := interpolate_loop_keeps_frags _ _ hl
      exact ⟨by omega, h2.2⟩
    · rename_i vm2 out hl
      cases h
      have h2 := interpolate_loop_keeps_frags _ _ hl
      exact ⟨by show vm2.text_frags_offset + text.frags.length ≤ _; omega, h2.2⟩
  · cases h

theorem interpolate_text_not_scratch {fo : FloatOps} {vm : Vm} {text : Text} {e : Fault}
    (hfit : vm.text_frags_offset + text.frags.length ≤ vm.text_frags_buf_size)
    (h : interpolate_text fo vm text = .error e) : scratch_fault e = false := by
  unfold interpolate_text at h
  rw [if_pos hfit] at h
  split at h
  · rename_i hl; cases h; exact interpolate_loop_not_scratch _ _ hl
  · cases h
  · cases h

theorem eval_keeps_frags {fo : FloatOps} {vm vm1 : Vm} {code : List dgmlb_byte_code}
    {r : Option dgmlrt_env_value} (h : eval fo vm code = .ok (vm1, r)) :
    vm1.text_frags_offset = vm.text_frags_offset ∧
      vm1.text_frags_buf_size = vm.text_frags_buf_size := by
  have hf := (eval_frame_eval h).1
  rw [hf]
  exact ⟨rfl, rfl⟩

theorem choice_loop_not_scratch {fo : FloatOps} :
    ∀ (opts : List ChoiceOption) {vm : Vm} {e : Fault},
      vm.text_frags_offset + (opts.map (fun o => o.text.frags.length)).sum ≤
        vm.text_frags_buf_size →
      choice_loop fo vm opts = .error e → scratch_fault e = false := by
  intro opts
  induction opts with
  | nil => intro vm e _ h; simp [choice_loop] at h
  | cons opt opts ih =>
    intro vm e hfit h
    simp only [List.map_cons, List.sum_cons] at hfit
    unfold choice_loop at h
    split at h
    · rename_i he; cases h; exact eval_not_scratch he
    · rename_i vm1 cond he
      have h1 := eval_keeps_frags he
      split at h
      · cases h
      · simp only at h
        split at h
        · cases h
        · split at h
          · rename_i hi
            cases h
            exact interpolate_text_not_scratch (by rw [h1.1, h1.2]; omega) hi
          · cases h
          · rename_i vm2 frags hi
            have h2 := interpolate_text_offset hi
            split at h
            · rename_i hl
              cases h
              exact ih (by rw [h2.2, h1.2]; rw [h1.1] at h2; omega) hl
            · cases h
            · cases h

theorem visit_node_not_scratch {fo : FloatOps} {vm : Vm} {node : Node}
    {res : dgmlrt_advance_result} {e : Fault}
    (hfit : node_fits vm.options_buf_size vm.text_frags_buf_size node)
    (hoff : vm.text_frags_offset = 0)
    (h : visit_node fo vm node res = .error e) : scratch_fault e = false := by
  unfold node_fits at hfit
  unfold visit_node at h
  split at h
  · rename_i say hd
    rw [hd] at hfit
    simp only at hfit
    split at h
    · rename_i hi
      cases h
      exact interpolate_text_not_scratch
        (by show vm.text_frags_offset + _ ≤ vm.text_frags_buf_size; omega) hi
    · cases h
    · cases h
  · rename_i choice hd
    rw [hd] at hfit
    simp only at hfit
    rw [if_pos hfit.1] at h
    split at h
    · rename_i hl
      cases h
      exact choice_loop_not_scratch _ (by unfold choice_num_frags at hfit; omega) hl
    · cases h
    · cases h
  · cases h
  · split at h
    · rename_i he; cases h; exact eval_not_scratch he
    · split at h
      · cases h
      · split at h <;> cases h
  · split at h
    · cases h
    · cases h; rfl
  · split at h
    · rename_i he; cases h; exact eval_not_scratch he
    · split at h <;> cases h
  · cases h; rfl

/-- An internal node leaves `text_frags_offset` as it is. -/
theorem visit_node_cont_frags {fo : FloatOps} {vm vm1 : Vm} {node : Node}
    {res : dgmlrt_advance_result} (h : visit_node fo vm node res = .ok (.cont vm1)) :
    vm1.text_frags_offset = vm.text_frags_offset := by
  unfold visit_node at h
  split at h
  · split at h <;> cases h
  · split at h
    · split at h <;> cases h
    · cases h
  · cases h; rfl
  · split at h
    · cases h
    · rename_i vm2 r he
      split at h
      · cases h
      · split at h
        · cases h; exact (eval_keeps_frags he).1
        · cases h
  · split at h
    · cases h; rfl
    · cases h
  · split at h
    · cases h
    · rename_i vm2 r he
      split at h
      · cases h
      · cases h; exact (eval_keeps_frags he).1
  · cases h

theorem advance_loop_not_scratch {fo : FloatOps} {sec : Section} :
    ∀ (fuel : Nat) {vm : Vm} {res : dgmlrt_advance_result} {e : Fault},
      (∀ node ∈ sec.nodes, node_fits vm.options_buf_size vm.text_frags_buf_size node) →
      vm.text_frags_offset = 0 →
      advance_loop fo sec fuel vm res = .error e → scratch_fault e = false := by
  intro fuel
  induction fuel with
  | zero => intro vm res e _ _ h; simp only [advance_loop] at h; cases h; rfl
  | succ fuel ih =>
    intro vm res e hfit hoff h
    unfold advance_loop at h
    split at h
    · cases h
    · rename_i node hnode
      split at h
      · simp only at h
        split at h
        · rename_i hv
          cases h
          exact visit_node_not_scratch (hfit node (mem_of_getElem hnode)) hoff hv
        · cases h
        · rename_i vm1 hv
          split at h
          · cases h
          · have hf := visit_node_cont hv
            refine ih ?_ ((visit_node_cont_frags hv).trans hoff) h
            rw [hf]
            exact hfit
      · cases h; rfl

theorem node_fits_mono {a b a1 b1 : Nat} {node : Node} (h : node_fits a b node)
    (ha : a ≤ a1) (hb : b ≤ b1) : node_fits a1 b1 node := by
  unfold node_fits at h ⊢
  split
  · rename_i say hd
    rw [hd] at h
    simp only at h
    omega
  · rename_i choice hd
    rw [hd] at h
    simp only at h
    exact ⟨by omega, by omega⟩
  · trivial

/-- The running maxima of `dgmlrt_vm_create` only grow, and after the nodes of
a section every one of them fits. -/
theorem scratch_sizes_nodes_fit : ∀ (nodes : List Node) (acc : Nat × Nat),
    acc.1 ≤ (scratch_sizes_nodes nodes acc).1 ∧ acc.2 ≤ (scratch_sizes_nodes nodes acc).2 ∧
      ∀ node ∈ nodes,
        node_fits (scratch_sizes_nodes nodes acc).1 (scratch_sizes_nodes nodes acc).2 node := by
  intro nodes
  induction nodes with
  | nil => intro acc; exact ⟨Nat.le_refl _, Nat.le_refl _, by intro node h; cases h⟩
  | cons n rest ih =>
    intro acc
    unfold scratch_sizes_nodes
    cases hd : n.data with
    | say say =>
      simp only
      obtain ⟨h1, h2, h3⟩ := ih (acc.1, max acc.2 say.text.frags.length)
      simp only at h1 h2
      refine ⟨h1, by omega, ?_⟩
      intro node hnode
      rcases List.mem_cons.1 hnode with rfl | hnode
      · unfold node_fits
        rw [hd]
        simp only
        omega
      · exact h3 node hnode
    | choice choice =>
      simp only
      obtain ⟨h1, h2, h3⟩ :=
        ih (max acc.1 choice.options.length, max acc.2 (choice_num_frags choice))
      simp only at h1 h2
      refine ⟨by omega, by omega, ?_⟩
      intro node hnode
      rcases List.mem_cons.1 hnode with rfl | hnode
      · unfold node_fits
        rw [hd]
        simp only
        exact ⟨by omega, by omega⟩
      · exact h3 node hnode
    | goto_ g =>
      simp only
      obtain ⟨h1, h2, h3⟩ := ih acc
      refine ⟨h1, h2, ?_⟩
      intro node hnode
      rcases List.mem_cons.1 hnode with rfl | hnode
      · unfold node_fits
        rw [hd]
        trivial
      · exact h3 node hnode
    | if_ g =>
      simp only
      obtain ⟨h1, h2, h3⟩ := ih acc
      refine ⟨h1, h2, ?_⟩
      intro node hnode
      rcases List.mem_cons.1 hnode with rfl | hnode
      · unfold node_fits
        rw [hd]
        trivial
      · exact h3 node hnode
    | rand g =>
      simp only
      obtain ⟨h1, h2, h3⟩ := ih acc
      refine ⟨h1, h2, ?_⟩
      intro node hnode
      rcases List.mem_cons.1 hnode with rfl | hnode
      · unfold node_fits
        rw [hd]
        trivial
      · exact h3 node hnode
    | run g =>
      simp only
      obtain ⟨h1, h2, h3⟩ := ih acc
      refine ⟨h1, h2, ?_⟩
      intro node hnode
      rcases List.mem_cons.1 hnode with rfl | hnode
      · unfold node_fits
        rw [hd]
        trivial
      · exact h3 node hnode
    | invalid =>
      simp only
      obtain ⟨h1, h2, h3⟩ := ih acc
      refine ⟨h1, h2, ?_⟩
      intro node hnode
      rcases List.mem_cons.1 hnode with rfl | hnode
      · unfold node_fits
        rw [hd]
        trivial
      · exact h3 node hnode

theorem scratch_sizes_fit : ∀ (secs : List Section) (acc : Nat × Nat),
    acc.1 ≤ (scratch_sizes secs acc).1 ∧ acc.2 ≤ (scratch_sizes secs acc).2 ∧
      ∀ sec ∈ secs, ∀ node ∈ sec.nodes,
        node_fits (scratch_sizes secs acc).1 (scratch_sizes secs acc).2 node := by
  intro secs
  induction secs with
  | nil => intro acc; exact ⟨Nat.le_refl _, Nat.le_refl _, by intro sec h; cases h⟩
  | cons s rest ih =>
    intro acc
    unfold scratch_sizes
    obtain ⟨h1, h2, h3⟩ := scratch_sizes_nodes_fit s.nodes acc
    obtain ⟨g1, g2, g3⟩ := ih (scratch_sizes_nodes s.nodes acc)
    refine ⟨by omega, by omega, ?_⟩
    intro sec hsec node hnode
    rcases List.mem_cons.1 hsec with rfl | hsec
    · exact node_fits_mono (h3 node hnode) g1 g2
    · exact g3 sec hsec node hnode

theorem scratch_sized_create (tree : Tree) (params : dgmlrt_vm_create_params) (now : Nat) :
    scratch_sized (dgmlrt_vm_create tree params now) :=
  (scratch_sizes_fit tree.sections (0, 0)).2.2

theorem scratch_sized_step {vm vm1 : Vm} (f : step_frame vm vm1) (h : scratch_sized vm) :
    scratch_sized vm1 := by
  unfold step_frame at f
  rw [f]
  exact h

theorem scratch_sized_enter (vm : Vm) (sect node_id : Option (List Nat))
    (h : scratch_sized vm) : scratch_sized (dgmlrt_vm_enter vm sect node_id).2 := by
  unfold dgmlrt_vm_enter
  split
  · exact h
  · split
    · exact h
    · split
      · split
        · exact h
        · split
          · exact h
          · exact h
      · exact h

/-- On a machine whose scratch buffers fit the nodes of its tree, no advance
stops at the assertion of `interpolate_text` or of the Choice case. -/
theorem advance_not_scratch {fo : FloatOps} {vm : Vm} {k : Int} {e : Fault}
    (hs : scratch_sized vm) (h : dgmlrt_vm_advance fo vm k = .error e) :
    scratch_fault e = false := by
  unfold dgmlrt_vm_advance at h
  cases hsec : current_section vm with
  | none => rw [hsec] at h; cases h; rfl
  | some sec =>
    rw [hsec] at h
    simp only at h
    have hmem : sec ∈ vm.tree.sections := by
      unfold current_section at hsec
      split at hsec
      · cases hsec
      · exact mem_of_getElem hsec
    have hfit := hs sec hmem
    split at h
    · split at h
      · cases h; rfl
      · split at h
        · split at h
          · cases h
          · refine advance_loop_not_scratch _ ?_ ?_ h
            · exact hfit
            · rfl
        · cases h
    · refine advance_loop_not_scratch _ ?_ ?_ h
      · exact hfit
      · rfl

/-- Claim C36: `dgmlrt_vm_create` sizes `options_buf` to the largest number of
options of a Choice node and `text_frags_buf` to the largest number of
fragments of a Say node or of all options of a Choice node, over all nodes of
the tree, so every node fits; entering, storing a variable and advancing keep
that; and on such a machine no advance fails the assertion
`text_frags_offset + text.frags.size <= text_frags_buf.size` of
`interpolate_text` or the assertion `options.size <= options_buf.size` of the
Choice case. -/
theorem scratch_buffers_suffice (fo : FloatOps) (tree : Tree)
    (params : dgmlrt_vm_create_params) (now : Nat) :
    scratch_sized (dgmlrt_vm_create tree params now) ∧
    (∀ vm : Vm, scratch_sized vm →
      (∀ sect node_id, scratch_sized (dgmlrt_vm_enter vm sect node_id).2) ∧
      (∀ name v, scratch_sized (dgmlrt_vm_set_env_value vm name v).2) ∧
      (∀ k : Int,
        dgmlrt_vm_advance fo vm k ≠ .error .text_frags_assert ∧
        dgmlrt_vm_advance fo vm k ≠ .error .options_assert ∧
        ∀ r vm1, dgmlrt_vm_advance fo vm k = .ok (r, vm1) → scratch_sized vm1)) := by
  refine ⟨scratch_sized_create tree params now, ?_⟩
  intro vm hs
  refine ⟨fun sect node_id => scratch_sized_enter vm sect node_id hs, fun name v => hs, ?_⟩
  intro k
  refine ⟨?_, ?_, ?_⟩
  · intro h
    have := advance_not_scratch hs h
    cases this
  · intro h
    have := advance_not_scratch hs h
    cases this
  · intro r vm1 h
    exact scratch_sized_step (advance_ok h).1 hs

/-- Witness of C36 on a machine of the sample tree with a Choice node of two
options and a Say node of three fragments: the buffers hold 2 options and 3
fragments, the first advance returns the Choice and the advance with option 0
the Say, and the machine afterwards still fits. -/
theorem scratch_buffers_suffice_witness :
    (sample_vm scratch_nodes).options_buf_size = 2 ∧
    (sample_vm scratch_nodes).text_frags_buf_size = 3 ∧
    (run_advances sample_float_ops (sample_vm scratch_nodes) [-1, 0]).map
        (fun p => p.1.map (fun r => r.node_id)) = .ok [[99], [115]] ∧
    dgmlrt_vm_advance sample_float_ops (sample_vm scratch_nodes) (-1) ≠
      .error .text_frags_assert ∧
    scratch_sized (sample_vm scratch_nodes) :=
  ⟨by decide, by decide, by decide,
   ((scratch_buffers_suffice sample_float_ops (sample_tree scratch_nodes) default_params 1).2
      (sample_vm scratch_nodes)
      (((scratch_buffers_suffice sample_float_ops (sample_tree scratch_nodes) default_params
        1).2 _ (scratch_buffers_suffice sample_float_ops (sample_tree scratch_nodes)
        default_params 1).1).1 (some [115]) none)).2.2 (-1) |>.1,
   ((scratch_buffers_suffice sample_float_ops (sample_tree scratch_nodes) default_params 1).2 _
      (scratch_buffers_suffice sample_float_ops (sample_tree scratch_nodes) default_params 1).1).1
      (some [115]) none⟩

/-! ## The trace of an advance is a walk -/

theorem advance_start {fo : FloatOps} {vm : Vm} {sec : Section} {k : Int} {c : Nat}
    (hsec : current_section vm = some sec) (hstart : start_cursor vm sec k = some c) :
    dgmlrt_vm_advance fo vm k =
      advance_loop fo sec (vm.max_steps_per_advance + 1)
        { vm with current_node := c, interp_buffer_offset := 0, text_frags_offset := 0 }
        empty_result := by
  unfold dgmlrt_vm_advance
  rw [hsec]
  simp only
  unfold start_cursor at hstart
  by_cases hk : k ≥ 0
  · rw [if_pos hk] at hstart ⊢
    cases hn : sec.nodes[vm.current_node]? with
    | none => rw [hn] at hstart; cases hstart
    | some node =>
      rw [hn] at hstart
      simp only at hstart ⊢
      cases hd : node.data with
      | choice choice =>
        rw [hd] at hstart
        simp only at hstart ⊢
        cases ho : choice.options[k.toNat]? with
        | none => rw [ho] at hstart; cases hstart
        | some opt =>
          rw [ho] at hstart
          simp only [Option.map_some', Option.some.injEq] at hstart
          subst hstart
          rfl
      | say x => rw [hd] at hstart; cases hstart
      | goto_ x => rw [hd] at hstart; cases hstart
      | if_ x => rw [hd] at hstart; cases hstart
      | rand x => rw [hd] at hstart; cases hstart
      | run x => rw [hd] at hstart; cases hstart
      | invalid => rw [hd] at hstart; cases hstart
  · rw [if_neg hk] at hstart ⊢
    cases hstart
    rfl

/-- A Say result is returned at a Say node only and a Choice result at a
Choice node only. -/
theorem visit_node_ret_kind {fo : FloatOps} {vm vm1 : Vm} {node : Node}
    {res r : dgmlrt_advance_result} (h : visit_node fo vm node res = .ok (.ret r vm1)) :
    (∀ s, r.result = DGMLRT_RESULT_TYPE_SAY s → ∃ say, node.data = .say say) ∧
    (∀ c, r.result = DGMLRT_RESULT_TYPE_CHOICE c → ∃ choice, node.data = .choice choice) := by
  unfold visit_node at h
  cases hd : node.data with
  | say say =>
    refine ⟨fun _ _ => ⟨say, rfl⟩, ?_⟩
    rw [hd] at h
    simp only at h
    intro c hc
    split at h
    · cases h
    · cases h; simp only [advance_error] at hc; cases hc
    · cases h; cases hc
  | choice choice =>
    refine ⟨?_, fun _ _ => ⟨choice, rfl⟩⟩
    rw [hd] at h
    simp only at h
    intro s hs
    split at h
    · split at h
      · cases h
      · cases h; simp only [advance_error] at hs; cases hs
      · cases h; cases hs
    · cases h
  | goto_ x => rw [hd] at h; cases h
  | if_ x =>
    rw [hd] at h
    simp only at h
    split at h
    · cases h
    · split at h
      · cases h
        exact ⟨(by intro s hs; simp only [advance_error] at hs; cases hs),
          (by intro s hs; simp only [advance_error] at hs; cases hs)⟩
      · split at h
        · cases h
        · cases h
          exact ⟨(by intro s hs; simp only [advance_error] at hs; cases hs),
            (by intro s hs; simp only [advance_error] at hs; cases hs)⟩
  | rand x =>
    rw [hd] at h
    simp only at h
    split at h <;> cases h
  | run x =>
    rw [hd] at h
    simp only at h
    split at h
    · cases h
    · split at h
      · cases h
        exact ⟨(by intro s hs; simp only [advance_error] at hs; cases hs),
          (by intro s hs; simp only [advance_error] at hs; cases hs)⟩
      · cases h
  | invalid => rw [hd] at h; cases h

theorem dests_internal {node : Node} {j : Nat} (h : j ∈ node_dests node) :
    is_internal node = true := by
  unfold node_dests at h
  unfold is_internal
  cases hd : node.data with
  | say x => rw [hd] at h; cases h
  | choice x => rw [hd] at h; cases h
  | invalid => rw [hd] at h; cases h
  | goto_ x => rfl
  | if_ x => rfl
  | rand x => rfl
  | run x => rfl

theorem is_walk_cons {sec : Section} {i j : Nat} {rest : List Nat} {node : Node}
    (hnode : sec.nodes[i]? = some node) (hj : j ∈ node_dests node)
    (h : is_walk sec (j :: rest) = true) : is_walk sec (i :: j :: rest) = true := by
  unfold is_walk
  rw [hnode]
  simp only [Bool.and_eq_true, decide_eq_true_eq]
  exact ⟨hj, h⟩

/-- In a walk every index is that of a node, and every node but the last is
an internal node. -/
theorem walk_nodes {sec : Section} : ∀ path : List Nat, is_walk sec path = true →
    (∀ i ∈ path, ∃ node, sec.nodes[i]? = some node) ∧
    (∀ i ∈ path.dropLast, ∃ node, sec.nodes[i]? = some node ∧ is_internal node = true) ∧
    (walk_ids sec path).length = path.length := by
  intro path
  induction path with
  | nil => intro _; exact ⟨(by intro i h; cases h), (by intro i h; cases h), rfl⟩
  | cons i rest ih =>
    intro h
    cases rest with
    | nil =>
      simp only [is_walk, Option.isSome_iff_exists] at h
      obtain ⟨node, hnode⟩ := h
      refine ⟨?_, (by intro j hj; simp at hj), ?_⟩
      · intro j hj
        simp only [List.mem_singleton] at hj
        subst hj
        exact ⟨node, hnode⟩
      · simp only [walk_ids, hnode, List.append_nil, List.length_singleton]
    | cons j rest =>
      unfold is_walk at h
      cases hnode : sec.nodes[i]? with
      | none => rw [hnode] at h; simp at h
      | some node =>
        rw [hnode] at h
        simp only [Bool.and_eq_true, decide_eq_true_eq] at h
        obtain ⟨h1, h2, h3⟩ := ih h.2
        refine ⟨?_, ?_, ?_⟩
        · intro x hx
          rcases List.mem_cons.1 hx with rfl | hx
          · exact ⟨node, hnode⟩
          · exact h1 x hx
        · intro x hx
          rw [List.dropLast_cons₂] at hx
          rcases List.mem_cons.1 hx with rfl | hx
          · exact ⟨node, hnode, dests_internal h.1⟩
          · exact h2 x hx
        · conv => lhs; unfold walk_ids
          rw [hnode]
          simp only [List.singleton_append, List.length_cons]
          rw [h3]
          rfl

/-- The ids the loop of `dgmlrt_vm_advance` appends to the trace are those of
a walk that starts at the cursor; the result carries the id and the tags of
the last node of the walk, and a Say or Choice result is returned at a node of
that type. -/
theorem advance_loop_walk {fo : FloatOps} {sec : Section} :
    ∀ (fuel : Nat) {vm vm1 : Vm} {res r : dgmlrt_advance_result},
      advance_loop fo sec fuel vm res = .ok (r, vm1) →
      ∃ path : List Nat,
        r.visited_node_ids = res.visited_node_ids ++ walk_ids sec path ∧
        is_walk sec path = true ∧
        (path = [] → sec.nodes[vm.current_node]? = none ∧
          r = { res with result := DGMLRT_RESULT_TYPE_END }) ∧
        (∀ first, path.head? = some first → first = vm.current_node) ∧
        (∀ last node, path.getLast? = some last → sec.nodes[last]? = some node →
          r.node_id = node.id ∧ r.tags = node.tags ∧
          (∀ s, r.result = DGMLRT_RESULT_TYPE_SAY s → ∃ say, node.data = .say say) ∧
          (∀ c, r.result = DGMLRT_RESULT_TYPE_CHOICE c →
            ∃ choice, node.data = .choice choice)) := by
  intro fuel
  induction fuel with
  | zero => intro vm vm1 res r h; simp only [advance_loop] at h; cases h
  | succ fuel ih =>
    intro vm vm1 res r h
    cases hnode : sec.nodes[vm.current_node]? with
    | none =>
      unfold advance_loop at h
      rw [hnode] at h
      simp only [Except.ok.injEq, Prod.mk.injEq] at h
      refine ⟨[], ?_, rfl, fun _ => ⟨rfl, h.1.symm⟩, ?_, ?_⟩
      · rw [← h.1]
        simp [walk_ids]
      · intro first hf; cases hf
      · intro last node hl; cases hl
    | some node =>
      have hids : walk_ids sec [vm.current_node] = [node.id] := by
        simp only [walk_ids, hnode, List.append_nil]
      have hwalk1 : is_walk sec [vm.current_node] = true := by
        simp only [is_walk, hnode, Option.isSome_some]
      have hhead : ∀ first, [vm.current_node].head? = some first → first = vm.current_node := by
        intro first hf
        simp only [List.head?_cons, Option.some.injEq] at hf
        exact hf.symm
      by_cases hroom : res.visited_node_ids.length < vm.trace_buf_size
      · cases hv : visit_node fo vm node (visited res node) with
        | error e =>
          unfold advance_loop at h
          rw [hnode] at h
          simp only [hroom, if_true] at h
          unfold visited at hv
          rw [hv] at h
          cases h
        | ok step =>
          cases step with
          | ret r2 vm2 =>
            rw [advance_loop_ret fuel hnode hroom hv] at h
            cases h
            obtain ⟨_, hret⟩ := visit_node_ret hv
            have hr := hret.1
            obtain ⟨hsay, hchoice⟩ := visit_node_ret_kind hv
            refine ⟨[vm.current_node], ?_, hwalk1, (fun hnil => by cases hnil), hhead, ?_⟩
            · rw [hr, hids]
              rfl
            · intro last node2 hl hn2
              simp only [List.getLast?_singleton, Option.some.injEq] at hl
              subst hl
              rw [hnode] at hn2
              cases hn2
              refine ⟨by rw [hr]; rfl, by rw [hr]; rfl, hsay, hchoice⟩
          | cont vm2 =>
            rw [advance_loop_cont fuel hnode hroom hv] at h
            by_cases hmax : (visited res node).visited_node_ids.length ≥ vm2.max_steps_per_advance
            · rw [if_pos hmax] at h
              cases h
              refine ⟨[vm.current_node], ?_, hwalk1, (fun hnil => by cases hnil), hhead, ?_⟩
              · rw [hids]
                rfl
              · intro last node2 hl hn2
                simp only [List.getLast?_singleton, Option.some.injEq] at hl
                subst hl
                rw [hnode] at hn2
                cases hn2
                exact ⟨rfl, rfl, (by intro s hs; simp only [advance_error] at hs; cases hs),
                  (by intro s hs; simp only [advance_error] at hs; cases hs)⟩
            · rw [if_neg hmax] at h
              obtain ⟨path, h1, h2, h3, h4, h5⟩ := ih h
              have hdest := (visit_node_cont_error hv).2
              cases path with
              | nil =>
                obtain ⟨_, hr⟩ := h3 rfl
                refine ⟨[vm.current_node], ?_, hwalk1, (fun hnil => by cases hnil), hhead, ?_⟩
                · rw [hr, hids]
                  rfl
                · intro last node2 hl hn2
                  simp only [List.getLast?_singleton, Option.some.injEq] at hl
                  subst hl
                  rw [hnode] at hn2
                  cases hn2
                  rw [hr]
                  exact ⟨rfl, rfl, (by intro s hs; cases hs), (by intro s hs; cases hs)⟩
              | cons j rest =>
                have hj : j = vm2.current_node := h4 j rfl
                refine ⟨vm.current_node :: j :: rest, ?_, ?_, (fun hnil => by cases hnil), ?_, ?_⟩
                · rw [h1]
                  conv => rhs; unfold walk_ids
                  rw [hnode]
                  show (res.visited_node_ids ++ [node.id]) ++ walk_ids sec (j :: rest) = _
                  rw [List.append_assoc]
                · exact is_walk_cons hnode (by rw [hj]; exact hdest) h2
                · intro first hf
                  simp only [List.head?_cons, Option.some.injEq] at hf
                  exact hf.symm
                · intro last node2 hl hn2
                  rw [List.getLast?_cons_cons] at hl
                  exact h5 last node2 hl hn2
      · unfold advance_loop at h
        rw [hnode] at h
        simp only [hroom, if_false] at h
        cases h

/-- A call with `option_index >= 0` for which `start_cursor` gives nothing is
rejected with InvalidOption, when there is a node at the cursor. -/
theorem advance_rejected {fo : FloatOps} {vm : Vm} {sec : Section} {k : Int} {node : Node}
    (hsec : current_section vm = some sec)
    (hnode : sec.nodes[vm.current_node]? = some node)
    (hstart : start_cursor vm sec k = none) :
    dgmlrt_vm_advance fo vm k = .ok (invalid_option_result, vm) := by
  unfold start_cursor at hstart
  by_cases hk : k ≥ 0
  · rw [if_pos hk, hnode] at hstart
    simp only at hstart
    unfold dgmlrt_vm_advance
    rw [hsec]
    simp only
    rw [if_pos hk, hnode]
    simp only
    cases hd : node.data with
    | choice choice =>
      rw [hd] at hstart
      simp only [Option.map_eq_none'] at hstart
      simp only [hstart]
      rfl
    | say x => rfl
    | goto_ x => rfl
    | if_ x => rfl
    | rand x => rfl
    | run x => rfl
    | invalid => rfl
  · rw [if_neg hk] at hstart
    cases hstart

/-- Claim C34: for an advance that is not rejected with InvalidOption, that
is, one whose loop starts at a cursor `c` (the cursor of the machine, or the
destination of the chosen option), the returned `visited_node_ids` are the ids
of the nodes along a walk in the current section: the walk starts at `c`, each
further node is a destination of the node before it (the next node of a Goto
or Run, a destination of an If, a target of a Rand), and so every node but the
last is an internal node; with no node at `c` nothing is visited and the
result is End; a Say result is returned at a Say node and a Choice result at a
Choice node; and `node_id` and `tags` of the result are those of the last node
of the walk. -/
theorem visited_ids_form_walk (fo : FloatOps) (vm vm1 : Vm) (sec : Section) (k : Int) (c : Nat)
    (r : dgmlrt_advance_result)
    (hsec : current_section vm = some sec)
    (hstart : start_cursor vm sec k = some c)
    (h : dgmlrt_vm_advance fo vm k = .ok (r, vm1)) :
    ∃ path : List Nat,
      r.visited_node_ids = walk_ids sec path ∧
      r.visited_node_ids.length = path.length ∧
      is_walk sec path = true ∧
      (∀ first, path.head? = some first → first = c) ∧
      (path = [] → sec.nodes[c]? = none ∧ r.result = DGMLRT_RESULT_TYPE_END) ∧
      (∀ i ∈ path, ∃ node, sec.nodes[i]? = some node) ∧
      (∀ i ∈ path.dropLast, ∃ node, sec.nodes[i]? = some node ∧ is_internal node = true) ∧
      (∀ last node, path.getLast? = some last → sec.nodes[last]? = some node →
        r.node_id = node.id ∧ r.tags = node.tags ∧
        (∀ s, r.result = DGMLRT_RESULT_TYPE_SAY s → ∃ say, node.data = .say say) ∧
        (∀ ch, r.result = DGMLRT_RESULT_TYPE_CHOICE ch →
          ∃ choice, node.data = .choice choice)) := by
  rw [advance_start hsec hstart] at h
  obtain ⟨path, h1, h2, h3, h4, h5⟩ := advance_loop_walk _ h
  obtain ⟨g1, g2, g3⟩ := walk_nodes path h2
  have hids : r.visited_node_ids = walk_ids sec path := by
    rw [h1]
    rfl
  refine ⟨path, hids, by rw [hids, g3], h2, h4, ?_, g1, g2, h5⟩
  intro hnil
  obtain ⟨hn, hr⟩ := h3 hnil
  exact ⟨hn, by rw [hr]⟩

/-- Witness of C34 on the sample machine with the nodes Goto, Run and Say: the
advance visits the three nodes, which are the walk 0, 1, 2. -/
theorem visited_ids_form_walk_witness :
    current_section (sample_vm resume_nodes) = some ⟨[115], resume_nodes, 0⟩ ∧
    start_cursor (sample_vm resume_nodes) ⟨[115], resume_nodes, 0⟩ (-1) = some 0 ∧
    (advance_res sample_float_ops (sample_vm resume_nodes) (-1)).visited_node_ids =
      [[103], [114], [115]] ∧
    walk_ids ⟨[115], resume_nodes, 0⟩ [0, 1, 2] = [[103], [114], [115]] ∧
    is_walk ⟨[115], resume_nodes, 0⟩ [0, 1, 2] = true ∧
    (∃ path : List Nat,
      (advance_res sample_float_ops (sample_vm resume_nodes) (-1)).visited_node_ids =
        walk_ids ⟨[115], resume_nodes, 0⟩ path ∧
      is_walk ⟨[115], resume_nodes, 0⟩ path = true) :=
  ⟨by decide, by decide, by decide, by decide, by decide,
   (visited_ids_form_walk sample_float_ops (sample_vm resume_nodes)
      (advance_vm sample_float_ops (sample_vm resume_nodes) (-1)) ⟨[115], resume_nodes, 0⟩ (-1) 0
      (advance_res sample_float_ops (sample_vm resume_nodes) (-1)) (by decide) (by decide)
      (advance_eq_res_vm (by decide))).imp (fun _ hp => ⟨hp.1, hp.2.2.1⟩)⟩

set_option maxRecDepth 100000 in
/-- Claim C9, what the code does instead: `SET_VAR` appends a name that the
changed-vars list does not hold without testing for room.  On the sample tree,
whose changed-vars buffer has five entries, the Run node 0 executes `SET_VAR`
on two undeclared and three declared names; the advance stops at the Say node
1 with no error recorded and the buffer full.  The machine then meets the
conditions of the claim for the declared Int variable `d`, yet
`PUSH_INT 1; SET_VAR d; GET_VAR d` writes the name past the end of the buffer,
in a direct evaluation and in the advance that visits the Run node 2.  On the
machine before that advance the same program evaluates to `Int(1)`. -/
theorem round_trip_overflows_changed_vars :
    (sample_vm fill_changed_nodes).changed_vars_buf_size = 5 ∧
    (advance_res sample_float_ops (sample_vm fill_changed_nodes) (-1)).result =
      DGMLRT_RESULT_TYPE_SAY ⟨[65], [⟨[], [104, 105]⟩]⟩ ∧
    (advance_vm sample_float_ops (sample_vm fill_changed_nodes) (-1)).error.code =
      DGMLRT_ERROR_NONE ∧
    (advance_vm sample_float_ops (sample_vm fill_changed_nodes) (-1)).changed_vars_buf =
      [[104, 105], [122, 122], [110], [115], [98]] ∧
    dgmlrt_vm_get_env_value
      (advance_vm sample_float_ops (sample_vm fill_changed_nodes) (-1)) [100] = .int 0 ∧
    pushed_value (sample_tree fill_changed_nodes) DGMLB_OP_PUSH_INT 1 = some (.int 1) ∧
    (eval sample_float_ops (advance_vm sample_float_ops (sample_vm fill_changed_nodes) (-1))
        [⟨DGMLB_OP_PUSH_INT, 1⟩, ⟨DGMLB_OP_SET_VAR, 76⟩, ⟨DGMLB_OP_GET_VAR, 76⟩]).map
        (fun p => p.2) = .error .changed_vars_oob ∧
    (dgmlrt_vm_advance sample_float_ops
        (advance_vm sample_float_ops (sample_vm fill_changed_nodes) (-1)) (-1)).map
        (fun p => p.1.result) = .error .changed_vars_oob ∧
    (eval sample_float_ops (sample_vm fill_changed_nodes)
        [⟨DGMLB_OP_PUSH_INT, 1⟩, ⟨DGMLB_OP_SET_VAR, 76⟩, ⟨DGMLB_OP_GET_VAR, 76⟩]).map
        (fun p => p.2) = .ok (some (.int 1)) := by
  decide

set_option maxRecDepth 100000 in
/-- Claim C24 fails as stated on a machine with a recorded error.  After the
advance on `div_nodes` has failed with `EvalFail` (division by zero), the
machine has a stack of 64 entries, and the program of 64 instructions
`PUSH_INT 7` does not evaluate successfully: the test of `vm->error.code`
after the first instruction leaves the evaluation with `nullptr`, one value on
the stack. -/
theorem push_ints_stop_on_recorded_error :
    (advance_vm sample_float_ops (sample_vm div_nodes) (-1)).error.code =
      DGMLRT_ERROR_EVAL_FAIL ∧
    (advance_vm sample_float_ops (sample_vm div_nodes) (-1)).stack_capacity = 64 ∧
    (eval sample_float_ops (advance_vm sample_float_ops (sample_vm div_nodes) (-1))
        (push_int_code (List.replicate 64 7))).map
        (fun p => (p.1.error.code, p.1.stack.length, p.2)) =
      .ok (DGMLRT_ERROR_EVAL_FAIL, 1, none) := by
  decide

/-- Claim C33 fails as stated on a machine whose bytecode stack has one entry
(`bytecode_stack_size = 1`) and no recorded error: the second `PUSH_INT` of
`PUSH_INT 1; PUSH_INT 2; ADD` finds the stack full, records `EvalFail`
"Stack overflow", and the evaluation returns `nullptr`, not `Int(3)`.  A
single `PUSH_INT 0xFFFFFFFF` still evaluates to `Int(-1)`. -/
theorem int_arithmetic_stack_of_one :
    (sample_vm_stack [] 1).stack_capacity = 1 ∧
    (sample_vm_stack [] 1).error.code = DGMLRT_ERROR_NONE ∧
    (eval sample_float_ops (sample_vm_stack [] 1)
        [⟨DGMLB_OP_PUSH_INT, 1⟩, ⟨DGMLB_OP_PUSH_INT, 2⟩, ⟨DGMLB_OP_ADD, 0⟩]).map
        (fun p => (p.1.error, p.1.stack, p.2)) =
      .ok (stack_overflow_error, [.int 1], none) ∧
    (eval sample_float_ops (sample_vm_stack [] 1) [⟨DGMLB_OP_PUSH_INT, 4294967295⟩]).map
        (fun p => p.2) = .ok (some (.int (-1))) := by
  decide

end Dgml
